import Mathlib

/-!
# CodeView type decoder of Glue (`Tools/glue/codeview.c`)

A shallow embedding of the type-tree decoder of `codeview.c`.

* Pointers into the `$$TYPES` buffer (`typeSeg`) are byte offsets (`Nat`);
  a read outside the buffer yields `0`, a write outside it is dropped.
* `byte`, `word` and `unsigned long` are `Nat` with explicit reduction
  modulo `2^8`, `2^16`, `2^32` where the C code can overflow.
* The headers `cv.h`, `objfmt.h`, `msobj.h`, `obj.h` are not part of the
  sources under study.  Their constants, macros and the helpers whose
  results the decoder only passes along are fields of `Defs`; the block
  arena and the descriptor allocator are small explicit models.
* Recursion of the decoder is bounded by a fuel argument; `CVError.fuel`
  is returned when it runs out, `CVError.assertion` when a C `assert`
  fails and `CVError.divZero` for a division by zero.
-/

namespace CodeView

/-- Two-word type descriptor (`ObjType`): `words[0]` and `words[1]`. -/
structure ObjType where
  w0 : Nat
  w1 : Nat
deriving DecidableEq, Repr

/-- Constants, macros and helpers that `codeview.c` takes from headers
outside the sources (`cv.h`, `objfmt.h`, `msobj.h`, `obj.h`, `st.h`). -/
structure Defs where
  CTL_VOID : Nat
  CTL_INDEX : Nat
  CTL_BITFIELD : Nat
  CTL_LIST : Nat
  CTL_SKIP_ME : Nat
  CTL_TYPEDEF : Nat
  CTL_PARAMETER : Nat
  CTL_CONSTANT : Nat
  CTL_LABEL : Nat
  CTL_PROCEDURE : Nat
  CTL_STRING_TYPE : Nat
  CTL_ARRAY : Nat
  CTL_STRUCTURE : Nat
  CTL_POINTER : Nat
  CTL_BASED : Nat
  CTL_SCALAR : Nat
  CTL_ID : Nat
  CTL_NIL : Nat
  CTL_NEAR : Nat
  CTL_FAR : Nat
  CTL_NEAR_PTR : Nat
  CTL_FAR_PTR : Nat
  CTL_STRING : Nat
  CTL_SIGNED_INT : Nat
  CTL_UNSIGNED_INT : Nat
  CTL_WORD : Nat
  CTL_DWORD : Nat
  CTL_SDWORD : Nat
  CTL_QWORD : Nat
  CTL_SQWORD : Nat
  CTL_SBYTE : Nat
  CTL_SWORD : Nat
  CST_LAST_PREDEF : Nat
  CST_SPECIAL : Nat
  CST_MODE : Nat
  CSTM_DIRECT : Nat
  CSTM_NEAR : Nat
  CSTM_FAR : Nat
  CSTM_HUGE : Nat
  CST_TYPE : Nat
  CSTT_SIGNED : Nat
  CSTT_UNSIGNED : Nat
  CSTT_REAL : Nat
  CSTT_COMPLEX : Nat
  CSTT_BOOLEAN : Nat
  CSTT_ASCII : Nat
  CSTT_CURRENCY : Nat
  CST_SIZE : Nat
  OTYPE_SPECIAL : Nat
  OTYPE_TYPE : Nat
  OTYPE_VOID : Nat
  OTYPE_INT : Nat
  OTYPE_SIGNED : Nat
  OTYPE_NEAR : Nat
  OTYPE_FAR : Nat
  OTYPE_CHAR : Nat
  OTYPE_PTR : Nat
  OTYPE_PTR_NEAR : Nat
  OTYPE_PTR_FAR : Nat
  OTYPE_BITFIELD : Nat
  OTYPE_FLOAT : Nat
  OTYPE_COMPLEX : Nat
  OTYPE_CURRENCY : Nat
  OTYPE_BF_WIDTH : Nat
  OTYPE_BF_WIDTH_SHIFT : Nat
  OTYPE_BF_OFFSET : Nat
  OTYPE_BF_OFFSET_SHIFT : Nat
  OTYPE_BF_SIGNED : Nat
  OSYM_STRUCT : Nat
  OSYM_UNION : Nat
  OSYM_FIELD : Nat
  OSYM_TYPEDEF : Nat
  OSYM_ETYPE : Nat
  OSYM_ENUM : Nat
  OSYM_NAMELESS : Nat
  NullID : Nat
  /-- The value of `sizeof(ObjSym)`. -/
  szObjSym : Nat
  /-- The value of `sizeof(ObjSymHeader)`. -/
  szObjSymHeader : Nat
  /-- The value of `sizeof(ObjType)`. -/
  szObjType : Nat
  /-- The value of `sizeof(ObjTypeHeader)`. -/
  szObjTypeHeader : Nat
  /-- The id `ST_Enter(symbols, strings, p, n)` gives to the bytes `p[0..n)`. -/
  ST_Enter : List Nat → Nat
  /-- The id returned by the `k`-th call (from 0) of `MSObj_MakeString()`. -/
  MSObj_MakeString : Nat → Nat
  /-- The macro `OTYPE_ID_TO_STRUCT(id, ot)`: the descriptor written for a name id. -/
  OTYPE_ID_TO_STRUCT : Nat → ObjType
  /-- The call `Obj_TypeSize(type, base, FALSE)`: size in bytes of a type word,
  given the descriptors of its block. -/
  Obj_TypeSize : Nat → List ObjType → Nat
  /-- The call `MSObj_CreateArrayType(block, elType, n)` on the descriptors of
  the block: the returned type word and the descriptors afterwards. -/
  MSObj_CreateArrayType : List ObjType → Nat → Nat → Nat × List ObjType
  /-- Content of a `word` local that is read before anything was stored in it. -/
  uninitWord : Nat

/-- Ways a run of the decoder can fail to return. -/
inductive CVError where
  | fuel
  | assertion
  | divZero
deriving DecidableEq, Repr

/-- Severity argument of `Notify`. -/
inductive Severity where
  | error
  | warning
deriving DecidableEq, Repr

/-- The diagnostics of the decoder, one constructor per format string. -/
inductive Msg where
  | illegalIndexForList (idx : Nat)
  | illegalListClass (cls : Nat)
  | noBitfieldDescriptor
  | fieldNameNotString
  | nonIntegralBytes
  | nonIntegralElements
  | arrayIndexType
  | unknownScalarBase (cls : Nat)
  | memberNameNotString
  | hugePointer
  | unsupportedSpecialType (t : Nat)
  | illegalSizeIndex (s : Nat)
  | unsupportedSpecialIndex (idx : Nat)
  | undefinedTypeIndex (idx : Nat)
  | bitfieldBase
  | unsupportedClass (cls : Nat)
  | parameterConstant
  | labelMissingNil
  | labelUnknownType (cls : Nat)
  | procMissingNil
  | procUnknownCall (cls : Nat)
  | unhandledPointer (p : Nat)
  | unsupportedFixupTarget (t : Nat)
  | blockStartNotInProc
  | tooManyScopes
  | procNested (name : Nat)
  | procNotProcedure
  | procMissingSpuriousNil
  | endNoScope
  | localVarOutside (name : Nat)
  | regVarOutside (name : Nat)
  | changeSegUnknown
  | unhandledRegister (r : Nat)
deriving DecidableEq, Repr

/-- One call of `Notify`. -/
structure Note where
  sev : Severity
  msg : Msg
deriving DecidableEq, Repr

/-- Symbol record (`ObjSym`); the members of the union `u` are kept apart: the layout
of the union is in `objfmt.h`, which is not in the sources, so a member read gives what
was last stored through the same member. -/
structure ObjSym where
  name : Nat := 0
  type : Nat := 0
  flags : Nat := 0
  sType_size : Nat := 0
  sType_first : Nat := 0
  sType_last : Nat := 0
  sField_next : Nat := 0
  sField_offset : Nat := 0
  sField_type : Nat := 0
  typeDef_type : Nat := 0
  eField_next : Nat := 0
  eField_value : Nat := 0
  procLocal_next : Nat := 0
  scope_first : Nat := 0
  proc_flags : Nat := 0
  proc_address : Nat := 0
  proc_local : Nat := 0
  blockStart_next : Nat := 0
  blockStart_local : Nat := 0
  blockStart_address : Nat := 0
  blockEnd_address : Nat := 0
  localVar_type : Nat := 0
  localVar_offset : Nat := 0
  variable_address : Nat := 0
  variable_type : Nat := 0
  label_near : Nat := 0
  label_address : Nat := 0
  localStatic_symBlock : Nat := 0
  localStatic_symOff : Nat := 0
deriving DecidableEq, Repr

/-- A block of the VM file `symbols`. -/
inductive VMBlock where
  | types (ents : List ObjType)
  | syms (types : Nat) (ents : List ObjSym)
  | free
deriving DecidableEq, Repr

/-- What one call of `Obj_EnterTypeSyms` enters in the global scope: the symbols
of the block and the descriptors of its associated type block. -/
structure GlobalEntry where
  syms : List ObjSym
  types : List ObjType
deriving DecidableEq, Repr

/-- One call of `MSObj_AddAnonStruct`. -/
structure AnonStruct where
  name : Nat
  size : Nat
  nfields : Nat
deriving DecidableEq, Repr

/-- The state the type decoder works on. -/
structure CVState where
  typeSeg : List Nat
  vm : List VMBlock
  globals : List GlobalEntry
  anon : List AnonStruct
  notes : List Note
  nstr : Nat
deriving DecidableEq, Repr

/-- Result of a decoding routine: the returned word, the caller's cursor
afterwards and the state. -/
structure Res where
  ret : Nat
  bp : Nat
  st : CVState
deriving DecidableEq, Repr

deriving instance DecidableEq for Except

/-- Reduction to a 16-bit `word`. -/
def w16 (n : Nat) : Nat := n % 65536

/-- Reduction to a 32-bit `unsigned long`. -/
def w32 (n : Nat) : Nat := n % 4294967296

/-- The byte `seg[i]`. -/
def rd (seg : List Nat) (i : Nat) : Nat := seg.getD i 0 % 256

/-- The byte `p[-k]` for a pointer at offset `p`. -/
def rdBack (seg : List Nat) (p k : Nat) : Nat := if k ≤ p then rd seg (p - k) else 0

/-- The little-endian word `p[0] | (p[1] << 8)`. -/
def rdw (seg : List Nat) (p : Nat) : Nat := rd seg p ||| (rd seg (p + 1) <<< 8)

/-- The store `seg[i] = v`. -/
def wr (seg : List Nat) (i v : Nat) : List Nat := seg.set i (v % 256)

/-- The call `Notify(sev, ...)`. -/
def CVState.notify (st : CVState) (sev : Severity) (m : Msg) : CVState :=
  { st with notes := st.notes ++ [⟨sev, m⟩] }

/-- The word `OTYPE_VOID | OTYPE_SPECIAL`. -/
def Defs.voidType (d : Defs) : Nat := d.OTYPE_VOID ||| d.OTYPE_SPECIAL

/-! ## The block arena and the helpers of `msobj.c` and `obj.c` -/

/-- Modelled from the spec: the block storage layer (`VMAlloc`, `VMLock`), which
is not in the sources, as an index-based arena with stable handles; handle `h > 0`
names entry `h - 1`, handle `0` is "no block". -/
def CVState.block (st : CVState) (h : Nat) : VMBlock :=
  if h = 0 then VMBlock.free else st.vm.getD (h - 1) VMBlock.free

/-- Modelled from the spec: the arena operation behind `VMAlloc`: a new block
gets the next unused handle. -/
def VMAlloc (st : CVState) (b : VMBlock) : Nat × CVState :=
  (st.vm.length + 1, { st with vm := st.vm ++ [b] })

/-- Modelled from the spec: the arena operation behind `VMFree`: the block is
discarded, its handle is not reused. -/
def VMFree (st : CVState) (h : Nat) : CVState :=
  if h = 0 then st else { st with vm := st.vm.set (h - 1) VMBlock.free }

/-- Replace the block of handle `h`. -/
def CVState.setBlock (st : CVState) (h : Nat) (b : VMBlock) : CVState :=
  if h = 0 then st else { st with vm := st.vm.set (h - 1) b }

/-- The descriptors of type block `h` (empty when `h` is not a type block). -/
def CVState.typesOf (st : CVState) (h : Nat) : List ObjType :=
  match st.block h with
  | VMBlock.types ents => ents
  | _ => []

/-- The symbols of symbol block `h` (empty when `h` is not a symbol block). -/
def CVState.symsOf (st : CVState) (h : Nat) : List ObjSym :=
  match st.block h with
  | VMBlock.syms _ ents => ents
  | _ => []

/-- Modelled from the spec: `MSObj_AllocType` of `msobj.c`, which is not in the
sources: a descriptor is appended to the type block and its offset in the block
returned; with no block (`typeBlock == 0`) the offset is 0 and a scratch
descriptor is used, as `CVAllocSym` does for symbols.  Returns the offset, the
index of the descriptor and the state. -/
def MSObj_AllocType (d : Defs) (st : CVState) (typeBlock : Nat) : Nat × Nat × CVState :=
  if typeBlock = 0 then (0, 0, st)
  else
    match st.block typeBlock with
    | VMBlock.types ents =>
      (w16 (d.szObjTypeHeader + ents.length * d.szObjType), ents.length,
        st.setBlock typeBlock (VMBlock.types (ents ++ [⟨0, 0⟩])))
    | _ => (0, 0, st)

/-- The stores `ot->words[0] = a; ot->words[1] = b` through the pointer returned
by `MSObj_AllocType` (dropped when there is no block). -/
def setObjType (st : CVState) (typeBlock idx : Nat) (ot : ObjType) : CVState :=
  match st.block typeBlock with
  | VMBlock.types ents => st.setBlock typeBlock (VMBlock.types (ents.set idx ot))
  | _ => st

/-- Allocation of a descriptor followed by the stores of its two words. -/
def allocTypeWith (d : Defs) (st : CVState) (typeBlock : Nat) (ot : ObjType) : Nat × CVState :=
  let r := MSObj_AllocType d st typeBlock
  (r.1, setObjType r.2.2 typeBlock r.2.1 ot)

/-- Modelled from the spec: `Obj_EnterTypeSyms(file, symbols, globalSeg, tsymBlock,
OETS_TOP_LEVEL_ONLY)` of `obj.c`, which is not in the sources: the symbols of the
temporary block are registered in the global scope, with the descriptors of the
type block named in the block header. -/
def Obj_EnterTypeSyms (st : CVState) (tsymBlock : Nat) : CVState :=
  match st.block tsymBlock with
  | VMBlock.syms t ents => { st with globals := st.globals ++ [⟨ents, st.typesOf t⟩] }
  | _ => st

/-- Modelled from the spec: `MSObj_AddAnonStruct(os, ttypeBlock, size, nfields)` of
`msobj.c`, which is not in the sources: the nameless structure is recorded. -/
def MSObj_AddAnonStruct (st : CVState) (name size nfields : Nat) : CVState :=
  { st with anon := st.anon ++ [⟨name, size, nfields⟩] }

/-- Modelled from the spec: the macro `MSObj_GetWord(var, bp)` of `msobj.h`, which is
not in the sources: `var` is the little-endian word at `bp`, and `bp` moves on by 2. -/
def MSObj_GetWord (seg : List Nat) (bp : Nat) : Nat × Nat := (rdw seg bp, bp + 2)

/-- The call `MSObj_MakeString()`: the next generated name. -/
def makeString (d : Defs) (st : CVState) : Nat × CVState :=
  (d.MSObj_MakeString st.nstr, { st with nstr := st.nstr + 1 })

/-! ## Byte-tree primitives -/

/-- The `n` bytes `p[0..n)`. -/
def bytesAt (seg : List Nat) (p n : Nat) : List Nat := (List.range n).map (fun i => rd seg (p + i))

/-- `CVGetString`: the id of the string leaf at `bp` and the cursor after it. -/
def CVGetString (d : Defs) (seg : List Nat) (bp : Nat) : Except CVError (Nat × Nat) :=
  if rd seg bp = d.CTL_STRING then
    let n := rd seg (bp + 1)
    Except.ok (if n ≠ 0 then d.ST_Enter (bytesAt seg (bp + 2) n) else d.NullID, bp + (2 + n))
  else Except.error CVError.assertion

/-- `CVGetInteger`: the value of the integer leaf at `bp0` and the cursor after it. -/
def CVGetInteger (d : Defs) (seg : List Nat) (bp0 : Nat) : Except CVError (Nat × Nat) :=
  let c := rd seg bp0
  let bp := bp0 + 1
  if c = d.CTL_WORD then Except.ok (MSObj_GetWord seg bp)
  else if c = d.CTL_SDWORD ∨ c = d.CTL_DWORD then
    Except.ok (w32 (rd seg bp ||| (rd seg (bp + 1) <<< 8) ||| (rd seg (bp + 2) <<< 16)
      ||| (rd seg (bp + 3) <<< 24)), bp + 4)
  else if c = d.CTL_QWORD ∨ c = d.CTL_SQWORD then Except.error CVError.assertion
  else if c = d.CTL_SBYTE then
    Except.ok (rd seg bp ||| (if rd seg bp &&& 0x80 ≠ 0 then 0xffffff00 else 0), bp + 1)
  else if c = d.CTL_SWORD then
    Except.ok (rd seg bp ||| (rd seg (bp + 1) <<< 8)
      ||| (if rd seg (bp + 1) &&& 0x80 ≠ 0 then 0xffff0000 else 0), bp + 2)
  else Except.ok (c, bp)

/-- The loop of `CVLocateType`: skip `k` records from `bp`; `none` when a record
ends beyond the end of the buffer. -/
def CVLocateType.walk (seg : List Nat) : Nat → Nat → Option Nat
  | 0, bp => some bp
  | k + 1, bp =>
    let bp1 := bp + 3 + rdw seg (bp + 1)
    if bp1 > seg.length then none else CVLocateType.walk seg k bp1

/-- `CVLocateType`: start and length of the data of the record of a type index;
`none` is the `NULL` result. -/
def CVLocateType (d : Defs) (seg : List Nat) (index : Nat) :
    Except CVError (Option (Nat × Nat)) :=
  if index > d.CST_LAST_PREDEF then
    match CVLocateType.walk seg (index - (d.CST_LAST_PREDEF + 1)) 0 with
    | none => Except.ok none
    | some bp => Except.ok (some (bp + 3, rdw seg (bp + 1)))
  else Except.error CVError.assertion

/-- Outputs of a successful `CVLocateList`: the cursor after the list reference,
the base of the list data and the length word. -/
structure ListLoc where
  bp : Nat
  base : Nat
  len : Nat
deriving DecidableEq, Repr

/-- `CVLocateList`: `lenIn` is the content of `*lenPtr` at the call (left alone for
a nested list); `none` is the `FALSE` result. -/
def CVLocateList (d : Defs) (st : CVState) (bp lenIn : Nat) :
    Except CVError (Option ListLoc × CVState) :=
  if rd st.typeSeg bp = d.CTL_LIST then
    Except.ok (some ⟨bp + 1, bp + 1, lenIn⟩, st)
  else if rd st.typeSeg bp = d.CTL_INDEX then
    match CVLocateType d st.typeSeg (rdw st.typeSeg (bp + 1)) with
    | Except.error e => Except.error e
    | Except.ok none =>
      Except.ok (none, st.notify Severity.error (Msg.illegalIndexForList (rdw st.typeSeg (bp + 1))))
    | Except.ok (some (base, len)) =>
      Except.ok (some ⟨bp + 3, base + 1, w16 (len + 65535)⟩, st)
  else
    Except.ok (none, st.notify Severity.error (Msg.illegalListClass (rd st.typeSeg bp)))

/-! ## Symbol blocks and structured types -/

/-- `CVAllocSymAndTypeBlocks`: the new symbol block, the new type block, the state. -/
def CVAllocSymAndTypeBlocks (st : CVState) : Nat × Nat × CVState :=
  let a := VMAlloc st (VMBlock.types [])
  let b := VMAlloc a.2 (VMBlock.syms a.1 [])
  (b.1, a.1, b.2)

/-- `CVAllocSymLocked`: offset and index of the new symbol, and the state with
`osh->num` raised by one. -/
def CVAllocSymLocked (d : Defs) (st : CVState) (symBlock : Nat) : Nat × Nat × CVState :=
  match st.block symBlock with
  | VMBlock.syms t ents =>
    (w16 (d.szObjSymHeader + ents.length * d.szObjSym), ents.length,
      st.setBlock symBlock (VMBlock.syms t (ents ++ [{}])))
  | _ => (0, 0, st)

/-- `CVAllocSym`: with no block the scratch symbol `fakeOS` at offset 0 is used. -/
def CVAllocSym (d : Defs) (st : CVState) (symBlock : Nat) : Nat × Nat × CVState :=
  if symBlock = 0 then (0, 0, st) else CVAllocSymLocked d st symBlock

/-- The symbol of index `idx` in symbol block `h`. -/
def CVState.symAt (st : CVState) (h idx : Nat) : ObjSym := (st.symsOf h).getD idx {}

/-- Stores through a symbol pointer: the symbol of index `idx` becomes `f` of it. -/
def modifySym (st : CVState) (h idx : Nat) (f : ObjSym → ObjSym) : CVState :=
  match st.block h with
  | VMBlock.syms t ents => st.setBlock h (VMBlock.syms t (ents.set idx (f (ents.getD idx {}))))
  | _ => st

/-- The rewrite of a record to the `CTL_ID` form: class byte `dataBase[-1]` and the
four bytes of the name id, low byte first. -/
def writeID (d : Defs) (seg : List Nat) (dataBase name : Nat) : List Nat :=
  let s0 := if 1 ≤ dataBase then wr seg (dataBase - 1) d.CTL_ID else seg
  let s1 := wr s0 dataBase (name &&& 0xff)
  let s2 := wr s1 (dataBase + 1) ((name >>> 8) &&& 0xff)
  let s3 := wr s2 (dataBase + 2) ((name >>> 16) &&& 0xff)
  wr s3 (dataBase + 3) ((name >>> 24) &&& 0xff)

/-- `CVFinishStructuredType`; `osIdx` is the index in `tsymBlock` of the symbol
`os` points to.  Returns the offset of the descriptor and the state. -/
def CVFinishStructuredType (d : Defs) (st : CVState)
    (dataBase len osIdx tsymBlock ttypeBlock typeBlock : Nat) : Except CVError (Nat × CVState) :=
  if len < 4 then Except.error CVError.assertion
  else
    let name := (st.symAt tsymBlock osIdx).name
    let st1 := { st with typeSeg := writeID d st.typeSeg dataBase name }
    let st2 := Obj_EnterTypeSyms st1 tsymBlock
    let st3 := VMFree (VMFree st2 ttypeBlock) tsymBlock
    Except.ok (allocTypeWith d st3 typeBlock (d.OTYPE_ID_TO_STRUCT name))

/-- `CVCreateTypedef`: the tag cursor afterwards and the state. -/
def CVCreateTypedef (d : Defs) (st : CVState) (tag dataBase len typeBlock offset : Nat) :
    Except CVError (Nat × CVState) :=
  if tag < dataBase + len ∧ rd st.typeSeg tag = d.CTL_STRING ∧ rd st.typeSeg (tag + 1) ≠ 0 then
    match CVGetString d st.typeSeg tag with
    | Except.error e => Except.error e
    | Except.ok (name, tag1) =>
      let os : ObjSym := { name := name, type := d.OSYM_TYPEDEF, flags := 0, typeDef_type := offset }
      let a := VMAlloc st (VMBlock.syms typeBlock [os])
      let st1 := { a.2 with typeSeg := wr a.2.typeSeg tag d.CTL_NIL }
      Except.ok (tag1, VMFree (Obj_EnterTypeSyms st1 a.1) a.1)
  else Except.ok (tag, st)

/-- The shape of `CVProcessTypeRecord(file, &bp, len, typeBlock)` as seen by its
callers: state, cursor, length, block. -/
abbrev Decoder := CVState → Nat → Nat → Nat → Except CVError Res

/-- The search loop of `CVProcessStructure` for the first record of the last run of
`CTL_BITFIELD` records that starts before `tlistBase`: `tp` is the record examined,
`last` the class of the record before it, `acc` the value of `nextBFType`.  The
first argument bounds the number of iterations; every iteration moves `tp` on by
at least 3. -/
def findBF (d : Defs) (seg : List Nat) (tlistBase : Nat) :
    Nat → Nat → Nat → Option Nat → Option Nat
  | 0, _, _, acc => acc
  | k + 1, tp, last, acc =>
    if tp < tlistBase then
      let len := rdw seg (tp + 1)
      let thisType := rd seg (tp + 3)
      findBF d seg tlistBase k (tp + 3 + len) thisType
        (if thisType = d.CTL_BITFIELD ∧ last ≠ d.CTL_BITFIELD then some tp else acc)
    else acc

/-- The first loop of `CVProcessStructure`: decode the types of the `n` remaining
fields.  `none` in the result is the early `return(OTYPE_VOID | OTYPE_SPECIAL)`. -/
def fieldTypes (d : Defs) (rec_ : Decoder) (tlistBase ttypeBlock : Nat) :
    Nat → CVState → Nat → Option Nat → List Nat → Except CVError (Option (List Nat) × CVState)
  | 0, st, _, _, types => Except.ok (some types, st)
  | n + 1, st, tlistp, nextBF, types =>
    match rec_ st tlistp (rdw st.typeSeg (tlistp + 1)) ttypeBlock with
    | Except.error e => Except.error e
    | Except.ok r =>
      if r.ret = (d.OTYPE_BITFIELD ||| d.OTYPE_SPECIAL) ∧ r.ret &&& d.OTYPE_BF_WIDTH = 0 then
        let nbf := match nextBF with
          | some p => some p
          | none => findBF d r.st.typeSeg tlistBase tlistBase 0 d.CTL_STRUCTURE none
        match nbf with
        | none => Except.ok (none, r.st.notify Severity.error Msg.noBitfieldDescriptor)
        | some p =>
          if rd r.st.typeSeg (p + 3) ≠ d.CTL_BITFIELD then
            Except.ok (none, r.st.notify Severity.error Msg.noBitfieldDescriptor)
          else
            match rec_ r.st (p + 3) (rdw r.st.typeSeg (p + 1)) ttypeBlock with
            | Except.error e => Except.error e
            | Except.ok r2 =>
              fieldTypes d rec_ tlistBase ttypeBlock n r2.st r.bp (some r2.bp) (types ++ [r2.ret])
      else fieldTypes d rec_ tlistBase ttypeBlock n r.st r.bp nextBF (types ++ [r.ret])

/-- The test of the second loop of `CVProcessStructure` that turns the aggregate
into a union: `os` is the field just filled in, `prev` the symbol before it in
the block (`os[-1]`), `t` and `tprev` are `types[i]` and `types[i-1]`. -/
def unionTest (d : Defs) (ssymType i : Nat) (os prev : ObjSym) (t tprev : Nat) : Bool :=
  decide (ssymType = d.OSYM_STRUCT) && decide (i ≠ 0) &&
    decide (os.sField_offset = prev.sField_offset) &&
    (decide (t &&& d.OTYPE_TYPE ≠ d.OTYPE_BITFIELD) ||
      decide (tprev &&& d.OTYPE_TYPE ≠ d.OTYPE_BITFIELD) ||
      decide (t &&& d.OTYPE_BF_OFFSET = tprev &&& d.OTYPE_BF_OFFSET))

/-- The second loop of `CVProcessStructure`: one `OSYM_FIELD` symbol per field name;
`k` fields remain, `i` is the index of the current one.  Returns `ssymType`. -/
def fieldSyms (d : Defs) (tsymBlock ssymOff nfields : Nat) (types : List Nat) :
    Nat → Nat → CVState → Nat → Nat → Except CVError (Nat × CVState)
  | 0, _, st, _, ssymType => Except.ok (ssymType, st)
  | k + 1, i, st, nlistp, ssymType =>
    if rd st.typeSeg nlistp ≠ d.CTL_STRING then
      Except.ok (ssymType, st.notify Severity.error Msg.fieldNameNotString)
    else
      let a := CVAllocSymLocked d st tsymBlock
      match CVGetString d st.typeSeg nlistp with
      | Except.error e => Except.error e
      | Except.ok (name, p1) =>
        match CVGetInteger d st.typeSeg p1 with
        | Except.error e => Except.error e
        | Except.ok (off, p2) =>
          let os : ObjSym :=
            { type := d.OSYM_FIELD, name := name, flags := 0,
              sField_offset := w16 off, sField_type := types.getD i 0,
              sField_next := if i ≠ nfields - 1 then w16 (a.1 + d.szObjSym) else ssymOff }
          let st1 := modifySym a.2.2 tsymBlock a.2.1 (fun _ => os)
          let prev := st1.symAt tsymBlock (a.2.1 - 1)
          let ty := if unionTest d ssymType i os prev (types.getD i 0) (types.getD (i - 1) 0)
            then d.OSYM_UNION else ssymType
          fieldSyms d tsymBlock ssymOff nfields types k (i + 1) st1 p2 ty

/-- The call `strncmp(p, lit, n) == 0` for a NUL-terminated literal `lit` (given
without its terminator) and the bytes at `p`. -/
def strncmpEq (seg : List Nat) : Nat → Nat → List Nat → Bool
  | 0, _, _ => true
  | n + 1, p, lit =>
    if rd seg p ≠ lit.headD 0 then false
    else if rd seg p = 0 then true
    else strncmpEq seg n (p + 1) lit.tail

/-- The bytes of the literal `"(untagged)"`. -/
def untagged : List Nat := [40, 117, 110, 116, 97, 103, 103, 101, 100, 41]

/-- The second half of `CVProcessStructure`, from the allocation of the aggregate
symbol to `CVFinishStructuredType`: `types` are the decoded field types, `nlistBase`
the base of the name/offset list, `out` the value to leave in `*bpPtr`. -/
def structSyms (d : Defs) (st6 : CVState)
    (dataBase len out typeBlock tsymBlock ttypeBlock size nfields ssymName symFlags nlistBase : Nat)
    (types : List Nat) : Except CVError Res :=
  let a := CVAllocSym d st6 tsymBlock
  let ssymOff := a.1
  let os : ObjSym :=
    { flags := symFlags, name := ssymName, sType_size := w16 size,
      sType_first := w16 (ssymOff + d.szObjSym),
      sType_last := w16 (ssymOff + nfields * d.szObjSym) }
  let st7 := modifySym a.2.2 tsymBlock a.2.1 (fun _ => os)
  match fieldSyms d tsymBlock ssymOff nfields types nfields 0 st7 nlistBase d.OSYM_STRUCT with
  | Except.error e => Except.error e
  | Except.ok (ssymType, st8) =>
  let st9 := modifySym st8 tsymBlock a.2.1 (fun o => { o with type := ssymType })
  let st10 := if (st9.symAt tsymBlock a.2.1).flags &&& d.OSYM_NAMELESS ≠ 0
    then MSObj_AddAnonStruct st9 (st9.symAt tsymBlock a.2.1).name size nfields else st9
  match CVFinishStructuredType d st10 dataBase len a.2.1 tsymBlock ttypeBlock typeBlock with
  | Except.error e => Except.error e
  | Except.ok (off, st11) => Except.ok ⟨off, out, st11⟩

/-- What the first part of `CVProcessStructure` hands to the two loops. -/
structure StructHdr where
  tsymBlock : Nat
  ttypeBlock : Nat
  size : Nat
  nfields : Nat
  tlistBase : Nat
  nlistBase : Nat
  ssymName : Nat
  symFlags : Nat
  st : CVState
deriving DecidableEq, Repr

/-- The naming step of `CVProcessStructure`: the name id, the cursor after the name,
the symbol flags and the state; `bp` is the cursor after the two list references. -/
def structName (d : Defs) (st3 : CVState) (dataBase len bp : Nat) :
    Except CVError ((Nat × Nat) × Nat × CVState) :=
  let named : Bool := decide (bp < dataBase + len) && decide (rd st3.typeSeg bp = d.CTL_STRING)
    && !(strncmpEq st3.typeSeg (rd st3.typeSeg (bp + 1)) (bp + 2) untagged)
    && decide (rd st3.typeSeg (bp + 1) ≠ 0)
  if named then
    match CVGetString d st3.typeSeg bp with
    | Except.error e => Except.error e
    | Except.ok r => Except.ok (r, 0, st3)
  else Except.ok (((makeString d st3).1, bp), d.OSYM_NAMELESS, (makeString d st3).2)

/-- The first part of `CVProcessStructure` for `typeBlock != 0`, up to the rewrite of
the record to the `CTL_ID` form; `none` is an early `return(OTYPE_VOID | OTYPE_SPECIAL)`. -/
def structHeader (d : Defs) (st : CVState) (dataBase len : Nat) :
    Except CVError (Option StructHdr × CVState) :=
  let blks := CVAllocSymAndTypeBlocks st
  match CVGetInteger d blks.2.2.typeSeg dataBase with
  | Except.error e => Except.error e
  | Except.ok (szBits, bp1) =>
  match CVGetInteger d blks.2.2.typeSeg bp1 with
  | Except.error e => Except.error e
  | Except.ok (nfields, bp2) =>
  match CVLocateList d blks.2.2 bp2 d.uninitWord with
  | Except.error e => Except.error e
  | Except.ok (none, st2) => Except.ok (none, st2)
  | Except.ok (some tl, st2) =>
  match CVLocateList d st2 tl.bp d.uninitWord with
  | Except.error e => Except.error e
  | Except.ok (none, st3) => Except.ok (none, st3)
  | Except.ok (some nl, st3) =>
  match structName d st3 dataBase len nl.bp with
  | Except.error e => Except.error e
  | Except.ok ((ssymName, bp), symFlags, st4) =>
  if bp < dataBase + 4 then Except.error CVError.assertion
  else
    let st5 := { st4 with typeSeg := writeID d st4.typeSeg dataBase ssymName }
    Except.ok (some ⟨blks.1, blks.2.1, szBits / 8, nfields, tl.base, nl.base, ssymName,
      symFlags, st5⟩, st5)

/-- `CVProcessStructure`, with the decoder it calls for the field types as `rec_`. -/
def CVProcessStructure (d : Defs) (rec_ : Decoder) (st : CVState) (bp0 len typeBlock : Nat) :
    Except CVError Res :=
  if typeBlock = 0 then Except.ok ⟨d.voidType, bp0 + len, st⟩
  else
    match structHeader d st bp0 len with
    | Except.error e => Except.error e
    | Except.ok (none, st3) => Except.ok ⟨d.voidType, bp0 + len, st3⟩
    | Except.ok (some h, _) =>
    match fieldTypes d rec_ h.tlistBase h.ttypeBlock h.nfields h.st h.tlistBase none [] with
    | Except.error e => Except.error e
    | Except.ok (none, st6) => Except.ok ⟨d.voidType, bp0 + len, st6⟩
    | Except.ok (some types, st6) =>
      structSyms d st6 bp0 len (bp0 + len) typeBlock h.tsymBlock h.ttypeBlock h.size h.nfields
        h.ssymName h.symFlags h.nlistBase types

/-- The middle of `CVProcessArray`: the size of the element type, the two
divisibility diagnostics and the creation of the array descriptor for `alen` bits of
elements of type `elType`.  Returns the array type word and the state. -/
def arrayCreate (d : Defs) (st : CVState) (typeBlock alen elType : Nat) :
    Except CVError (Nat × CVState) :=
  let elSize := d.Obj_TypeSize elType (st.typesOf typeBlock)
  let st2 := if alen % 8 ≠ 0 then st.notify Severity.error Msg.nonIntegralBytes else st
  let alen1 := alen >>> 3
  if elSize = 0 then Except.error CVError.divZero
  else
    let st3 := if alen1 % elSize ≠ 0 then st2.notify Severity.error Msg.nonIntegralElements else st2
    let arr := d.MSObj_CreateArrayType (st3.typesOf typeBlock) elType (alen1 / elSize)
    Except.ok (arr.1,
      match st3.block typeBlock with
      | VMBlock.types _ => st3.setBlock typeBlock (VMBlock.types arr.2)
      | _ => st3)

/-- The end of `CVProcessArray`: the optional index type, checked to be a signed or
unsigned integer, and the optional typedef tag; `bp` is the cursor after the
element type.  Returns the state. -/
def arrayTail (d : Defs) (rec_ : Decoder) (st4 : CVState) (bp dataBase len typeBlock retval : Nat) :
    Except CVError CVState :=
  if bp < dataBase + len then
    let idx : Except CVError (Nat × CVState) :=
      if rd st4.typeSeg bp ≠ d.CTL_NIL then
        match rec_ st4 bp (rdw st4.typeSeg (bp + 1)) 0 with
        | Except.error e => Except.error e
        | Except.ok r =>
          Except.ok (r.bp,
            if r.ret &&& d.OTYPE_SPECIAL = 0 ∨
                (r.ret &&& d.OTYPE_TYPE ≠ d.OTYPE_INT ∧ r.ret &&& d.OTYPE_TYPE ≠ d.OTYPE_SIGNED)
            then r.st.notify Severity.warning Msg.arrayIndexType else r.st)
      else Except.ok (bp + 1, st4)
    match idx with
    | Except.error e => Except.error e
    | Except.ok (bp2, st5) =>
      match CVCreateTypedef d st5 bp2 dataBase len typeBlock retval with
      | Except.error e => Except.error e
      | Except.ok (_, st6) => Except.ok st6
  else Except.ok st4

/-- `CVProcessArray`, with the decoder it calls for the element and index types
as `rec_`. -/
def CVProcessArray (d : Defs) (rec_ : Decoder) (st : CVState) (bp0 len typeBlock : Nat) :
    Except CVError Res :=
  if typeBlock ≠ 0 then
    match CVGetInteger d st.typeSeg bp0 with
    | Except.error e => Except.error e
    | Except.ok (alen, bp1) =>
    let el : Except CVError Res :=
      if rdBack st.typeSeg bp0 3 = d.CTL_STRING_TYPE then
        Except.ok ⟨d.OTYPE_CHAR ||| d.OTYPE_SPECIAL, bp1, st⟩
      else rec_ st bp1 (rdw st.typeSeg (bp1 + 1)) typeBlock
    match el with
    | Except.error e => Except.error e
    | Except.ok e1 =>
    match arrayCreate d e1.st typeBlock alen e1.ret with
    | Except.error e => Except.error e
    | Except.ok (retval, st4) =>
    match arrayTail d rec_ st4 e1.bp bp0 len typeBlock retval with
    | Except.error e => Except.error e
    | Except.ok st6 => Except.ok ⟨retval, bp0 + len, st6⟩
  else Except.ok ⟨d.voidType, bp0 + len, st⟩

/-- Index in its block of the symbol at offset `off`. -/
def symIndex (d : Defs) (off : Nat) : Nat := (off - d.szObjSymHeader) / d.szObjSym

/-- The loop of `CVProcessScalar` that follows the `next` links of enumeration
members until a symbol that is not an `OSYM_ENUM`; `k` bounds the number of steps. -/
def walkEnum (d : Defs) (syms : List ObjSym) : Nat → Nat → Option ObjSym
  | 0, _ => none
  | k + 1, i =>
    let s := syms.getD i {}
    if s.type = d.OSYM_ENUM then walkEnum d syms k (symIndex d s.eField_next) else some s

/-- Modelled from the spec: `Sym_Find(symbols, globalSeg->syms, id, &block, &off, FALSE)`,
which is not in the sources: the first registered group holding a symbol named
`id`, with the index of that symbol. -/
def Sym_Find (st : CVState) (id : Nat) : Option (GlobalEntry × Nat) :=
  match st.globals.find? (fun e => e.syms.any (fun s => s.name = id)) with
  | none => none
  | some e => some (e, e.syms.findIdx (fun s => s.name = id))

/-- The member loop of `CVProcessScalar`: one `OSYM_ENUM` symbol per member; `k`
bounds the number of iterations, `msymOff` is the offset of the last member
allocated.  Returns the final `msymOff`. -/
def enumMembers (d : Defs) (tsymBlock esymOff mlistBase mlistLen : Nat) :
    Nat → CVState → Nat → Nat → Except CVError (Nat × CVState)
  | 0, _, _, _ => Except.error CVError.fuel
  | k + 1, st, mlistp, msymOff =>
    if rd st.typeSeg mlistp ≠ d.CTL_STRING then
      Except.ok (msymOff, st.notify Severity.error Msg.memberNameNotString)
    else
      let a := CVAllocSymLocked d st tsymBlock
      match CVGetString d st.typeSeg mlistp with
      | Except.error e => Except.error e
      | Except.ok (name, p1) =>
        match CVGetInteger d st.typeSeg p1 with
        | Except.error e => Except.error e
        | Except.ok (v, p2) =>
          let more : Bool := decide (p2 < mlistBase + mlistLen)
          let ms : ObjSym :=
            { type := d.OSYM_ENUM, name := name, flags := 0, eField_value := w16 v,
              eField_next := if more then w16 (a.1 + d.szObjSym) else esymOff }
          let st1 := modifySym a.2.2 tsymBlock a.2.1 (fun _ => ms)
          if more then enumMembers d tsymBlock esymOff mlistBase mlistLen k st1 p2 a.1
          else Except.ok (a.1, st1)

/-- `CVProcessScalar`. -/
def CVProcessScalar (d : Defs) (st : CVState) (bp0 len typeBlock : Nat) : Except CVError Res :=
  match CVGetInteger d st.typeSeg bp0 with
  | Except.error e => Except.error e
  | Except.ok (size, bp1) =>
  let base := rd st.typeSeg bp1
  if base ≠ d.CTL_SIGNED_INT ∧ base ≠ d.CTL_UNSIGNED_INT then
    Except.ok ⟨d.voidType, bp0 + len, st.notify Severity.error (Msg.unknownScalarBase base)⟩
  else
  let retval := if base = d.CTL_SIGNED_INT
    then w16 (d.OTYPE_SIGNED ||| ((size / 8) <<< 1) ||| d.OTYPE_SPECIAL)
    else w16 (d.OTYPE_INT ||| ((size / 8) <<< 1) ||| d.OTYPE_SPECIAL)
  let bp2 := bp1 + 1
  let nm : Except CVError (Nat × Nat) :=
    if bp2 < bp0 + len then CVGetString d st.typeSeg bp2 else Except.ok (d.NullID, bp2)
  match nm with
  | Except.error e => Except.error e
  | Except.ok (name, bp3) =>
  if bp3 < bp0 + len then
    if rd st.typeSeg bp3 = d.CTL_NIL then Except.ok ⟨retval, bp0 + len, st⟩
    else
    match CVLocateList d st bp3 d.uninitWord with
    | Except.error e => Except.error e
    | Except.ok (none, st1) => Except.ok ⟨d.voidType, bp0 + len, st1⟩
    | Except.ok (some ml, st1) =>
    let naming : Except CVError (Nat × Nat × Nat × CVState) :=
      if name = d.NullID then
        if rd st1.typeSeg ml.base = d.CTL_STRING then
          match CVGetString d st1.typeSeg ml.base with
          | Except.error e => Except.error e
          | Except.ok (first, _) =>
            match (if first ≠ d.NullID then Sym_Find st1 first else none) with
            | some (e, i) =>
              match walkEnum d e.syms (e.syms.length + 1) i with
              | none => Except.error CVError.fuel
              | some ms =>
                Except.ok (ms.name, ms.flags &&& d.OSYM_NAMELESS,
                  w16 (d.szObjSymHeader + i * d.szObjSym), st1)
            | none =>
              Except.ok ((makeString d st1).1, d.OSYM_NAMELESS, d.uninitWord, (makeString d st1).2)
        else Except.ok ((makeString d st1).1, d.OSYM_NAMELESS, d.uninitWord, (makeString d st1).2)
      else Except.ok (name, 0, d.uninitWord, st1)
    match naming with
    | Except.error e => Except.error e
    | Except.ok (name1, symflags, msymOff0, st2) =>
    let blks := CVAllocSymAndTypeBlocks st2
    let tsymBlock := blks.1
    let ttypeBlock := blks.2.1
    let a := CVAllocSym d blks.2.2 tsymBlock
    let esymOff := a.1
    let es : ObjSym :=
      { type := d.OSYM_ETYPE, sType_size := w16 (size / 8), sType_first := w16 (esymOff + d.szObjSym),
        flags := symflags, name := name1 }
    let st3 := modifySym a.2.2 tsymBlock a.2.1 (fun _ => es)
    if ml.len = 0 then Except.error CVError.assertion
    else
    match enumMembers d tsymBlock esymOff ml.base ml.len (ml.len + 1) st3 ml.base msymOff0 with
    | Except.error e => Except.error e
    | Except.ok (msymOff, st4) =>
    let st5 := modifySym st4 tsymBlock a.2.1 (fun o => { o with sType_last := msymOff })
    match CVFinishStructuredType d st5 bp0 len a.2.1 tsymBlock ttypeBlock typeBlock with
    | Except.error e => Except.error e
    | Except.ok (off, st6) => Except.ok ⟨off, bp0 + len, st6⟩
  else Except.ok ⟨retval, bp0 + len, st⟩

/-! ## The recursive decoder -/

/-- The table `sizes` of `CVFetchType`; `0xffff` is `CV_RESERVED_SIZE`. -/
def sizes : List (List Nat) :=
  [[1, 2, 4, 0xffff], [4, 8, 10, 0xffff], [8, 16, 20, 0xffff], [0xffff, 8, 0xffff, 0xffff]]

/-- The direct-mode branch of `CVFetchType` for a predefined special index: the
first `switch` gives the kind word and the row of `sizes`, then the size is or-ed in. -/
def fetchDirect (d : Defs) (st : CVState) (index : Nat) : Nat × CVState :=
  let t := index &&& d.CST_TYPE
  let k : Nat × Nat × CVState :=
    if t = d.CSTT_SIGNED then (d.OTYPE_SIGNED ||| d.OTYPE_SPECIAL, 0, st)
    else if t = d.CSTT_UNSIGNED then (d.OTYPE_INT ||| d.OTYPE_SPECIAL, 0, st)
    else if t = d.CSTT_REAL then (d.OTYPE_FLOAT ||| d.OTYPE_SPECIAL, 1, st)
    else if t = d.CSTT_COMPLEX then (d.OTYPE_COMPLEX ||| d.OTYPE_SPECIAL, 2, st)
    else if t = d.CSTT_BOOLEAN then (d.OTYPE_INT ||| d.OTYPE_SPECIAL, 0, st)
    else if t = d.CSTT_ASCII then (d.OTYPE_CHAR ||| d.OTYPE_SPECIAL, 0, st)
    else if t = d.CSTT_CURRENCY then (d.OTYPE_CURRENCY ||| d.OTYPE_SPECIAL, 3, st)
    else (d.OTYPE_VOID ||| d.OTYPE_SPECIAL, 0, st.notify Severity.error (Msg.unsupportedSpecialType t))
  let sz := (sizes.getD k.2.1 []).getD (index &&& d.CST_SIZE) 0xffff
  if sz = 0xffff then
    (k.1, k.2.2.notify Severity.error (Msg.illegalSizeIndex (index &&& d.CST_SIZE)))
  else (k.1 ||| (sz <<< 1), k.2.2)

/-- The pointer-mode branch of `CVFetchType` once the base type is known. -/
def fetchPointer (d : Defs) (st : CVState) (typeBlock index baseType : Nat) : Nat × CVState :=
  let m := index &&& d.CST_MODE
  if baseType = (d.OTYPE_VOID ||| d.OTYPE_SPECIAL) then
    if m = d.CSTM_NEAR then (d.OTYPE_PTR ||| d.OTYPE_PTR_NEAR ||| d.OTYPE_SPECIAL, st)
    else if m = d.CSTM_FAR then (d.OTYPE_PTR ||| d.OTYPE_PTR_FAR ||| d.OTYPE_SPECIAL, st)
    else if m = d.CSTM_HUGE then
      (d.OTYPE_VOID ||| d.OTYPE_SPECIAL, st.notify Severity.error Msg.hugePointer)
    else (d.uninitWord, st)
  else
    let a := MSObj_AllocType d st typeBlock
    if m = d.CSTM_NEAR then
      (a.1, setObjType a.2.2 typeBlock a.2.1
        ⟨d.OTYPE_PTR_NEAR ||| d.OTYPE_SPECIAL,
          if baseType = (d.OTYPE_FAR ||| d.OTYPE_SPECIAL) then d.OTYPE_NEAR ||| d.OTYPE_SPECIAL
          else baseType⟩)
    else if m = d.CSTM_FAR then
      (a.1, setObjType a.2.2 typeBlock a.2.1 ⟨d.OTYPE_PTR_FAR ||| d.OTYPE_SPECIAL, baseType⟩)
    else if m = d.CSTM_HUGE then
      (d.OTYPE_VOID ||| d.OTYPE_SPECIAL,
        setObjType (a.2.2.notify Severity.error Msg.hugePointer) typeBlock a.2.1 ⟨0, baseType⟩)
    else (a.1, setObjType a.2.2 typeBlock a.2.1 ⟨0, baseType⟩)

/-- The `CTL_BITFIELD` case of `CVProcessTypeRecord`; `bp` is the cursor after the
class byte and `len` the length argument. -/
def decodeBitfield (d : Defs) (st : CVState) (bp len : Nat) : Except CVError Res :=
  match CVGetInteger d st.typeSeg bp with
  | Except.error e => Except.error e
  | Except.ok (length, bp1) =>
    let b := rd st.typeSeg bp1
    if b ≠ d.CTL_SIGNED_INT ∧ b ≠ d.CTL_UNSIGNED_INT then
      Except.ok ⟨d.voidType, bp + len, st.notify Severity.error Msg.bitfieldBase⟩
    else
      let r0 := if b = d.CTL_SIGNED_INT
        then d.OTYPE_BITFIELD ||| d.OTYPE_SPECIAL ||| d.OTYPE_BF_SIGNED
        else d.OTYPE_BITFIELD ||| d.OTYPE_SPECIAL
      match CVGetInteger d st.typeSeg (bp1 + 1) with
      | Except.error e => Except.error e
      | Except.ok (offset, bp2) =>
        Except.ok ⟨w16 (r0 ||| (((w16 offset <<< d.OTYPE_BF_OFFSET_SHIFT) &&& d.OTYPE_BF_OFFSET)
          ||| ((w16 length <<< d.OTYPE_BF_WIDTH_SHIFT) &&& d.OTYPE_BF_WIDTH))), bp2, st⟩

/-- The `CTL_LABEL` case of `CVProcessTypeRecord`. -/
def decodeLabel (d : Defs) (st : CVState) (bp len : Nat) : Res :=
  if rd st.typeSeg bp ≠ d.CTL_NIL then
    ⟨d.voidType, bp + len, st.notify Severity.error Msg.labelMissingNil⟩
  else if rd st.typeSeg (bp + 1) = d.CTL_NEAR then ⟨d.OTYPE_NEAR ||| d.OTYPE_SPECIAL, bp + len, st⟩
  else if rd st.typeSeg (bp + 1) = d.CTL_FAR then ⟨d.OTYPE_FAR ||| d.OTYPE_SPECIAL, bp + len, st⟩
  else ⟨d.voidType, bp + len,
    st.notify Severity.error (Msg.labelUnknownType (rd st.typeSeg (bp + 1)))⟩

/-- The `CTL_PROCEDURE` case of `CVProcessTypeRecord`. -/
def decodeProcedure (d : Defs) (rec_ : Decoder) (st : CVState) (bp len : Nat) : Except CVError Res :=
  if rd st.typeSeg bp ≠ d.CTL_NIL then
    Except.ok ⟨d.voidType, bp + len, st.notify Severity.error Msg.procMissingNil⟩
  else
    match rec_ st (bp + 1) (rdw st.typeSeg (bp + 2)) 0 with
    | Except.error e => Except.error e
    | Except.ok r =>
      if rd r.st.typeSeg r.bp = d.CTL_NEAR then
        Except.ok ⟨d.OTYPE_NEAR ||| d.OTYPE_SPECIAL, bp + len, r.st⟩
      else if rd r.st.typeSeg r.bp = d.CTL_FAR then
        Except.ok ⟨d.OTYPE_FAR ||| d.OTYPE_SPECIAL, bp + len, r.st⟩
      else Except.ok ⟨d.voidType, bp + len,
        r.st.notify Severity.error (Msg.procUnknownCall (rd r.st.typeSeg r.bp))⟩

/-- The `CTL_TYPEDEF` case of `CVProcessTypeRecord`. -/
def decodeTypedef (d : Defs) (rec_ : Decoder) (st : CVState) (bp len typeBlock : Nat) :
    Except CVError Res :=
  if typeBlock = 0 then Except.ok ⟨d.voidType, bp + len, st⟩
  else
    let blks := CVAllocSymAndTypeBlocks st
    match rec_ blks.2.2 bp (rdw blks.2.2.typeSeg (bp + 1)) blks.2.1 with
    | Except.error e => Except.error e
    | Except.ok r =>
      let a := CVAllocSym d r.st blks.1
      match CVGetString d r.st.typeSeg r.bp with
      | Except.error e => Except.error e
      | Except.ok (name, bp1) =>
        let os : ObjSym := { type := d.OSYM_TYPEDEF, flags := 0, name := name, typeDef_type := r.ret }
        let st1 := modifySym a.2.2 blks.1 a.2.1 (fun _ => os)
        match CVFinishStructuredType d st1 bp (w16 (len + 65535)) a.2.1 blks.1 blks.2.1 typeBlock with
        | Except.error e => Except.error e
        | Except.ok (off, st2) => Except.ok ⟨off, bp1, st2⟩

/-- The `CTL_POINTER` case of `CVProcessTypeRecord`. -/
def decodePointer (d : Defs) (rec_ : Decoder) (st : CVState) (bp len typeBlock : Nat) :
    Except CVError Res :=
  let ptrType := rd st.typeSeg bp
  match rec_ st (bp + 1) (rdw st.typeSeg (bp + 2)) typeBlock with
  | Except.error e => Except.error e
  | Except.ok b =>
    let q : Nat × CVState :=
      if ptrType = d.CTL_NEAR_PTR then (d.OTYPE_PTR ||| d.OTYPE_PTR_NEAR ||| d.OTYPE_SPECIAL, b.st)
      else if ptrType = d.CTL_FAR_PTR then (d.OTYPE_PTR ||| d.OTYPE_PTR_FAR ||| d.OTYPE_SPECIAL, b.st)
      else (d.voidType, b.st.notify Severity.error (Msg.unhandledPointer ptrType))
    let a : Nat × CVState :=
      if b.ret ≠ (d.OTYPE_VOID ||| d.OTYPE_SPECIAL) then allocTypeWith d q.2 typeBlock ⟨q.1, b.ret⟩
      else q
    match CVCreateTypedef d a.2 b.bp bp len typeBlock a.1 with
    | Except.error e => Except.error e
    | Except.ok (bp1, st1) => Except.ok ⟨a.1, bp1, st1⟩

/-- The `CTL_BASED` case of `CVProcessTypeRecord`. -/
def decodeBased (d : Defs) (rec_ : Decoder) (st : CVState) (bp typeBlock : Nat) :
    Except CVError Res :=
  match rec_ st bp (rdw st.typeSeg (bp + 1)) typeBlock with
  | Except.error e => Except.error e
  | Except.ok b =>
    if b.ret ≠ (d.OTYPE_VOID ||| d.OTYPE_SPECIAL) then
      let a := allocTypeWith d b.st typeBlock ⟨d.voidType, b.ret⟩
      Except.ok ⟨a.1, b.bp, a.2⟩
    else Except.ok ⟨d.OTYPE_PTR ||| d.OTYPE_PTR_NEAR ||| d.OTYPE_SPECIAL, b.bp, b.st⟩

/-- The `CTL_ID` case of `CVProcessTypeRecord`; `bp0` is the start of the node. -/
def decodeID (d : Defs) (st : CVState) (bp0 len typeBlock : Nat) : Res :=
  let a := allocTypeWith d st typeBlock ⟨rdw st.typeSeg (bp0 + 1), rdw st.typeSeg (bp0 + 3)⟩
  ⟨a.1, bp0 + len, a.2⟩

mutual

/-- `CVFetchType(file, typeBlock, index)`; the first argument is the fuel. -/
def CVFetchType (d : Defs) : Nat → CVState → Nat → Nat → Except CVError (Nat × CVState)
  | 0, _, _, _ => Except.error CVError.fuel
  | fuel + 1, st, typeBlock, index =>
    if index ≤ d.CST_LAST_PREDEF then
      if index &&& d.CST_SPECIAL ≠ 0 then
        if index &&& d.CST_MODE ≠ d.CSTM_DIRECT then
          match CVFetchType d fuel st typeBlock
              ((index &&& (4294967295 - d.CST_MODE)) ||| d.CSTM_DIRECT) with
          | Except.error e => Except.error e
          | Except.ok (baseType, st1) => Except.ok (fetchPointer d st1 typeBlock index baseType)
        else Except.ok (fetchDirect d st index)
      else if index = 0 then Except.ok (d.OTYPE_VOID ||| d.OTYPE_SPECIAL, st)
      else if index = 1 then Except.ok (d.OTYPE_BITFIELD ||| d.OTYPE_SPECIAL, st)
      else Except.ok (d.OTYPE_VOID ||| d.OTYPE_SPECIAL,
        st.notify Severity.error (Msg.unsupportedSpecialIndex index))
    else
      match CVLocateType d st.typeSeg (w16 index) with
      | Except.error e => Except.error e
      | Except.ok none =>
        Except.ok (d.OTYPE_VOID ||| d.OTYPE_SPECIAL,
          st.notify Severity.error (Msg.undefinedTypeIndex index))
      | Except.ok (some (bp, len)) =>
        match CVProcessTypeRecord d fuel st bp len typeBlock with
        | Except.error e => Except.error e
        | Except.ok r => Except.ok (r.ret, r.st)

/-- `CVProcessTypeRecord(file, &bp, len, typeBlock)`; the first argument is the
fuel, `bp0` the cursor at the call. -/
def CVProcessTypeRecord (d : Defs) : Nat → CVState → Nat → Nat → Nat → Except CVError Res
  | 0, _, _, _, _ => Except.error CVError.fuel
  | fuel + 1, st, bp0, len, typeBlock =>
    let typeClass := rd st.typeSeg bp0
    let bp := bp0 + 1
    if typeClass = d.CTL_VOID then Except.ok ⟨d.voidType, bp, st⟩
    else if typeClass = d.CTL_INDEX then
      if typeBlock ≠ 0 then
        match CVFetchType d fuel st typeBlock (rdw st.typeSeg bp) with
        | Except.error e => Except.error e
        | Except.ok (r, st1) => Except.ok ⟨r, bp + 2, st1⟩
      else Except.ok ⟨d.voidType, bp + 2, st⟩
    else if typeClass = d.CTL_BITFIELD then decodeBitfield d st bp len
    else if typeClass = d.CTL_LIST ∨ typeClass = d.CTL_SKIP_ME then
      Except.ok ⟨d.voidType, bp + len, st⟩
    else if typeClass = d.CTL_TYPEDEF then
      decodeTypedef d (CVProcessTypeRecord d fuel) st bp len typeBlock
    else if typeClass = d.CTL_PARAMETER ∨ typeClass = d.CTL_CONSTANT then
      Except.ok ⟨d.voidType, bp, st.notify Severity.error Msg.parameterConstant⟩
    else if typeClass = d.CTL_LABEL then Except.ok (decodeLabel d st bp len)
    else if typeClass = d.CTL_PROCEDURE then
      decodeProcedure d (CVProcessTypeRecord d fuel) st bp len
    else if typeClass = d.CTL_STRING_TYPE ∨ typeClass = d.CTL_ARRAY then
      CVProcessArray d (CVProcessTypeRecord d fuel) st bp (w16 (len + 65535)) typeBlock
    else if typeClass = d.CTL_STRUCTURE then
      CVProcessStructure d (CVProcessTypeRecord d fuel) st bp (w16 (len + 65535)) typeBlock
    else if typeClass = d.CTL_POINTER then
      decodePointer d (CVProcessTypeRecord d fuel) st bp len typeBlock
    else if typeClass = d.CTL_BASED then
      decodeBased d (CVProcessTypeRecord d fuel) st bp typeBlock
    else if typeClass = d.CTL_SCALAR then CVProcessScalar d st bp (w16 (len + 65535)) typeBlock
    else if typeClass = d.CTL_ID then Except.ok (decodeID d st bp0 len typeBlock)
    else
      Except.ok ⟨d.voidType, bp + len, st.notify Severity.error (Msg.unsupportedClass typeClass)⟩

end

/-- The loop of `CVProcessUnprocessedTypeRecords`: `k` bounds the number of
iterations, `fuel` is the fuel of each decoder call, `e` is `typeSeg + typeSize`.
Returns the final cursor and the state. -/
def sweepLoop (d : Defs) (fuel e : Nat) : Nat → Nat → CVState → Except CVError (Nat × CVState)
  | 0, bp, st => if bp < e then Except.error CVError.fuel else Except.ok (bp, st)
  | k + 1, bp, st =>
    if bp < e then
      let len := rdw st.typeSeg (bp + 1)
      let c := rd st.typeSeg (bp + 3)
      if c = d.CTL_TYPEDEF ∨ c = d.CTL_STRUCTURE ∨ c = d.CTL_SCALAR then
        match CVProcessTypeRecord d fuel st (bp + 3) len 0 with
        | Except.error err => Except.error err
        | Except.ok r => sweepLoop d fuel e k r.bp r.st
      else sweepLoop d fuel e k (bp + 3 + len) st
    else Except.ok (bp, st)

/-- `CVProcessUnprocessedTypeRecords(file)`: every iteration moves the cursor on by
at least 3, so `typeSize` iterations are enough. -/
def CVProcessUnprocessedTypeRecords (d : Defs) (fuel : Nat) (st : CVState) :
    Except CVError (Nat × CVState) :=
  sweepLoop d fuel st.typeSeg.length st.typeSeg.length 0 st

/-! ## A sample assignment of the header constants -/

/-- Modelled from the spec: the headers `cv.h` and `objfmt.h` are not in the sources;
this assignment gives every leaf class, predefined-index field and type kind a value
of its own (CodeView leaf codes, `0xff` for `CTL_ID`; kind in the top four bits of a
special word, flag in bit 0, size in between), descriptor offsets count from a
2-byte header in steps of 4, string ids are taken from the bytes of the string,
every non-special type word has size 4 and special words carry their size in bits
1 to 11, and an array of `n` elements is one descriptor holding element type and
count.  It is used to evaluate the decoder on concrete buffers. -/
def geos : Defs where
  CTL_VOID := 0x9c
  CTL_INDEX := 0x83
  CTL_BITFIELD := 0x5c
  CTL_LIST := 0x7f
  CTL_SKIP_ME := 0x90
  CTL_TYPEDEF := 0x5d
  CTL_PARAMETER := 0x76
  CTL_CONSTANT := 0x61
  CTL_LABEL := 0x72
  CTL_PROCEDURE := 0x75
  CTL_STRING_TYPE := 0x60
  CTL_ARRAY := 0x78
  CTL_STRUCTURE := 0x79
  CTL_POINTER := 0x7a
  CTL_BASED := 0x8f
  CTL_SCALAR := 0x7b
  CTL_ID := 0xff
  CTL_NIL := 0x80
  CTL_NEAR := 0x74
  CTL_FAR := 0x73
  CTL_NEAR_PTR := 0x74
  CTL_FAR_PTR := 0x73
  CTL_STRING := 0x82
  CTL_SIGNED_INT := 0x7d
  CTL_UNSIGNED_INT := 0x7c
  CTL_WORD := 0x85
  CTL_DWORD := 0x86
  CTL_SDWORD := 0x8a
  CTL_QWORD := 0x87
  CTL_SQWORD := 0x8b
  CTL_SBYTE := 0x88
  CTL_SWORD := 0x89
  CST_LAST_PREDEF := 511
  CST_SPECIAL := 0x80
  CST_MODE := 0x60
  CSTM_DIRECT := 0x00
  CSTM_NEAR := 0x20
  CSTM_FAR := 0x40
  CSTM_HUGE := 0x60
  CST_TYPE := 0x1c
  CSTT_SIGNED := 0x00
  CSTT_UNSIGNED := 0x04
  CSTT_REAL := 0x08
  CSTT_COMPLEX := 0x0c
  CSTT_BOOLEAN := 0x10
  CSTT_ASCII := 0x14
  CSTT_CURRENCY := 0x18
  CST_SIZE := 0x03
  OTYPE_SPECIAL := 0x0001
  OTYPE_TYPE := 0xf000
  OTYPE_VOID := 0x6000
  OTYPE_INT := 0x1000
  OTYPE_SIGNED := 0x2000
  OTYPE_NEAR := 0x3000
  OTYPE_FAR := 0x4000
  OTYPE_CHAR := 0x5000
  OTYPE_PTR := 0x7000
  OTYPE_PTR_NEAR := 0x00dc
  OTYPE_PTR_FAR := 0x00cc
  OTYPE_BITFIELD := 0x8000
  OTYPE_FLOAT := 0x9000
  OTYPE_COMPLEX := 0xa000
  OTYPE_CURRENCY := 0xb000
  OTYPE_BF_WIDTH := 0x003e
  OTYPE_BF_WIDTH_SHIFT := 1
  OTYPE_BF_OFFSET := 0x07c0
  OTYPE_BF_OFFSET_SHIFT := 6
  OTYPE_BF_SIGNED := 0x0800
  OSYM_STRUCT := 2
  OSYM_UNION := 3
  OSYM_FIELD := 4
  OSYM_TYPEDEF := 1
  OSYM_ETYPE := 5
  OSYM_ENUM := 6
  OSYM_NAMELESS := 0x04
  NullID := 0
  szObjSym := 16
  szObjSymHeader := 8
  szObjType := 4
  szObjTypeHeader := 2
  ST_Enter := fun bs => (2 * bs.foldl (fun a b => a * 256 + b) 1) % 4294967296
  MSObj_MakeString := fun k => 2 * (4278190080 + k)
  OTYPE_ID_TO_STRUCT := fun id => ⟨id % 65536, (id / 65536) % 65536⟩
  Obj_TypeSize := fun t _ => if t % 2 = 1 then (t / 2) % 2048 else 4
  MSObj_CreateArrayType := fun ents el n => (2 + 4 * ents.length, ents ++ [⟨el, 2 * n⟩])
  uninitWord := 0

/-! ## Well-formedness of the constants and sample inputs -/

/-- The case labels of the `switch` of `CVProcessTypeRecord`; a C `switch` has no
two equal labels. -/
def Defs.classLabels (d : Defs) : List Nat :=
  [d.CTL_VOID, d.CTL_INDEX, d.CTL_BITFIELD, d.CTL_LIST, d.CTL_SKIP_ME, d.CTL_TYPEDEF,
    d.CTL_PARAMETER, d.CTL_CONSTANT, d.CTL_LABEL, d.CTL_PROCEDURE, d.CTL_STRING_TYPE,
    d.CTL_ARRAY, d.CTL_STRUCTURE, d.CTL_POINTER, d.CTL_BASED, d.CTL_SCALAR, d.CTL_ID]

/-- The case labels of the `switch` on `index & CST_TYPE` in `CVFetchType`. -/
def Defs.kindLabels (d : Defs) : List Nat :=
  [d.CSTT_SIGNED, d.CSTT_UNSIGNED, d.CSTT_REAL, d.CSTT_COMPLEX, d.CSTT_BOOLEAN, d.CSTT_ASCII,
    d.CSTT_CURRENCY]

/-- A record of the `$$TYPES` segment: linkage byte, length word, class byte, data. -/
def mkRecord (cls : Nat) (body : List Nat) : List Nat :=
  [1, (body.length + 1) % 256, (body.length + 1) / 256, cls] ++ body

/-- A state with the given type buffer and one empty type block (handle 1). -/
def initState (seg : List Nat) : CVState := ⟨seg, [VMBlock.types []], [], [], [], 0⟩

/-- A buffer holding one record already in resolved-id form, for name id `0x04030201`. -/
def idBuffer : List Nat := mkRecord 0xff [1, 2, 3, 4]

/-- One `CTL_BASED` record whose base type is the predefined 2-byte signed integer. -/
def basedBuffer : List Nat := mkRecord 0x8f [0x83, 0x81, 0]

/-- One near `CTL_POINTER` record with the same base type as `basedBuffer`. -/
def nearPtrBuffer : List Nat := mkRecord 0x7a [0x74, 0x83, 0x81, 0]

/-- One `CTL_ARRAY` record: 20 bits of the predefined 4-byte signed integer. -/
def arrayBuffer : List Nat := mkRecord 0x78 [20, 0x83, 0x82, 0]

/-- The kind word the claim names for a type field (written after the spec). -/
def specKind (d : Defs) (t : Nat) : Nat :=
  if t = d.CSTT_SIGNED then d.OTYPE_SIGNED
  else if t = d.CSTT_UNSIGNED ∨ t = d.CSTT_BOOLEAN then d.OTYPE_INT
  else if t = d.CSTT_REAL then d.OTYPE_FLOAT
  else if t = d.CSTT_COMPLEX then d.OTYPE_COMPLEX
  else if t = d.CSTT_ASCII then d.OTYPE_CHAR
  else d.OTYPE_CURRENCY

/-- The byte size the claim's table gives for a type field and a size field;
`none` for a reserved size (written after the spec). -/
def specBytes (d : Defs) (t s : Nat) : Option Nat :=
  if t = d.CSTT_REAL then [4, 8, 10].get? s
  else if t = d.CSTT_COMPLEX then [8, 16, 20].get? s
  else if t = d.CSTT_CURRENCY then (if s = 1 then some 8 else none)
  else [1, 2, 4].get? s

/-- The name/offset list of a structure as the spec describes it: `k` entries, each a
string leaf followed by an integer leaf, starting at `p`; the result lists the name id
and offset of every entry, `none` when an entry does not have that form. -/
def parseFields (d : Defs) (seg : List Nat) : Nat → Nat → Option (List (Nat × Nat))
  | 0, _ => some []
  | k + 1, p =>
    match CVGetString d seg p with
    | Except.error _ => none
    | Except.ok (name, p1) =>
      match CVGetInteger d seg p1 with
      | Except.error _ => none
      | Except.ok (off, p2) => (parseFields d seg k p2).map (fun r => (name, off) :: r)

/-- The field symbols the spec asks for: one `OSYM_FIELD` symbol per entry of the
name/offset list, in order, entry number `i` (from 0) carrying `types[i]`, linked to the
slot after its own, the last one to the aggregate symbol at `ssymOff`; `n` is the number
of symbols already in the block. -/
def fieldSymList (d : Defs) (nfields ssymOff : Nat) (types : List Nat) :
    Nat → Nat → List (Nat × Nat) → List ObjSym
  | _, _, [] => []
  | i, n, (name, off) :: rest =>
    { type := d.OSYM_FIELD, name := name, flags := 0, sField_offset := w16 off,
      sField_type := types.getD i 0,
      sField_next := if i ≠ nfields - 1 then w16 (w16 (d.szObjSymHeader + n * d.szObjSym) + d.szObjSym)
        else ssymOff } :: fieldSymList d nfields ssymOff types (i + 1) (n + 1) rest

/-- The value of `ssymType` after the second loop, as a function of the parsed list:
`i` is the index of the first entry, `prev` the offset stored in the symbol before it. -/
def classifyLoop (d : Defs) (types : List Nat) : Nat → Nat → Nat → List (Nat × Nat) → Nat
  | _, _, ty, [] => ty
  | i, prev, ty, (_, off) :: rest =>
    classifyLoop d types (i + 1) (w16 off)
      (if unionTest d ty i { sField_offset := w16 off } { sField_offset := prev }
          (types.getD i 0) (types.getD (i - 1) 0) then d.OSYM_UNION else ty) rest

/-- A structure `s` of three 2-byte integer fields `a`, `b`, `c` at the given byte
offsets: the structure record, its field-type list and its name/offset list. -/
def structBuffer (o1 o2 o3 : Nat) : List Nat :=
  mkRecord 0x79 [48, 3, 0x83, 1, 2, 0x83, 2, 2, 0x82, 1, 115]
  ++ mkRecord 0x7f [0x83, 0x81, 0, 0x83, 0x81, 0, 0x83, 0x81, 0]
  ++ mkRecord 0x7f [0x82, 1, 97, o1, 0x82, 1, 98, o2, 0x82, 1, 99, o3]

/-- A typedef record `t` for the predefined 2-byte integer. -/
def typedefBuffer : List Nat := mkRecord 0x5d [0x83, 0x81, 0, 0x82, 1, 116]

/-- An enumeration `e` with members `a = 0`, `b = 1`: the scalar record and its
member list. -/
def enumBuffer : List Nat :=
  mkRecord 0x7b [16, 0x7c, 0x82, 1, 101, 0x83, 1, 2]
  ++ mkRecord 0x7f [0x82, 1, 97, 0, 0x82, 1, 98, 1]

/-- The state of the decode of a `structBuffer` once the field types are decoded:
the destination block, the temporary type block and the empty temporary symbol block. -/
def midState (seg : List Nat) : CVState :=
  ⟨seg, [VMBlock.types [], VMBlock.types [], VMBlock.syms 2 []], [], [], [], 0⟩

/-- Symbol type, stored field offset and field type of every symbol registered in the
global scope by a run of `CVFetchType`, group by group. -/
def registered (r : Except CVError (Nat × CVState)) : List (List (Nat × Nat × Nat)) :=
  match r with
  | Except.ok x => x.2.globals.map (fun g => g.syms.map (fun s => (s.type, s.sField_offset, s.sField_type)))
  | Except.error _ => []

/-- A decoded field type is a bitfield placeholder: the bitfield special word with no
width bits. -/
def isPlaceholder (d : Defs) (w : Nat) : Bool :=
  decide (w = d.OTYPE_BITFIELD ||| d.OTYPE_SPECIAL) && decide (w &&& d.OTYPE_BF_WIDTH = 0)

/-- The field types the spec asks for: `ws` are the decoded field types in declaration
order, `bs` the decoded words of the bitfield records of the run; the `j`-th placeholder
is replaced by the `j`-th word of the run, `none` when the run is too short. -/
def fillPlaceholders (d : Defs) : List Nat → List Nat → Option (List Nat)
  | [], _ => some []
  | w :: ws, bs =>
    if isPlaceholder d w then
      match bs with
      | [] => none
      | b :: bs1 => (fillPlaceholders d ws bs1).map (fun l => b :: l)
    else (fillPlaceholders d ws bs).map (fun l => w :: l)

/-- The records of the type buffer that start before `tlistBase`, in order, each with
its start offset and class byte; `k` bounds their number. -/
def recordList (seg : List Nat) (tlistBase : Nat) : Nat → Nat → List (Nat × Nat)
  | 0, _ => []
  | k + 1, tp =>
    if tp < tlistBase then
      (tp, rd seg (tp + 3)) :: recordList seg tlistBase k (tp + 3 + rdw seg (tp + 1))
    else []

/-- The start of the nearest run of consecutive `CTL_BITFIELD` records in a list of
records (written after the spec): going back from the end, skip the records that are
not bitfields, then take bitfield records as long as they last; the run starts at the
earliest of them. -/
def nearestRun (d : Defs) (recs : List (Nat × Nat)) : Option Nat :=
  (((recs.reverse.dropWhile (fun r => decide (r.2 ≠ d.CTL_BITFIELD))).takeWhile
    (fun r => decide (r.2 = d.CTL_BITFIELD))).getLast?).map Prod.fst

/-- One iteration of the search loop on the pair (`lastType`, `nextBFType`). -/
def scanStep (d : Defs) (s : Nat × Option Nat) (r : Nat × Nat) : Nat × Option Nat :=
  (r.2, if r.2 = d.CTL_BITFIELD ∧ s.1 ≠ d.CTL_BITFIELD then some r.1 else s.2)

/-- A structure `f` with two placeholder bitfield fields `x`, `y` and a 2-byte integer
field `z`, preceded by two bitfield records (3 bits unsigned at bit 0, 5 bits signed at
bit 3): the two bitfield records, the structure record, its field-type list and its
name/offset list. -/
def bitfieldBuffer : List Nat :=
  mkRecord 0x5c [3, 0x7c, 0] ++ mkRecord 0x5c [5, 0x7d, 3]
  ++ mkRecord 0x79 [16, 3, 0x83, 3, 2, 0x83, 4, 2, 0x82, 1, 102]
  ++ mkRecord 0x7f [0x83, 1, 0, 0x83, 1, 0, 0x83, 0x81, 0]
  ++ mkRecord 0x7f [0x82, 1, 120, 0, 0x82, 1, 121, 0, 0x82, 1, 122, 2]

/-- The state of the decode of the structure of `bitfieldBuffer` after the rewrite of
its record to the `CTL_ID` form. -/
def bitfieldState : CVState :=
  ⟨writeID geos bitfieldBuffer 18 716,
    [VMBlock.types [], VMBlock.types [], VMBlock.syms 2 []], [], [], [], 0⟩

/-- A field-type entry at `p` is an index reference to a near or far pointer record
without typedef tag whose base type is an index reference to the record whose class
byte is at `sb`, of length `slen`. -/
def selfPtrField (d : Defs) (seg : List Nat) (sb slen p : Nat) : Bool :=
  decide (rd seg p = d.CTL_INDEX) && decide (d.CST_LAST_PREDEF < rdw seg (p + 1)) &&
    match CVLocateType d seg (rdw seg (p + 1)) with
    | Except.ok (some (pb, plen)) =>
      decide (rd seg pb = d.CTL_POINTER) &&
        decide (rd seg (pb + 1) = d.CTL_NEAR_PTR ∨ rd seg (pb + 1) = d.CTL_FAR_PTR) &&
        decide (rd seg (pb + 2) = d.CTL_INDEX) &&
        decide (d.CST_LAST_PREDEF < rdw seg (pb + 3)) &&
        decide (CVLocateType d seg (rdw seg (pb + 3)) = Except.ok (some (sb, slen))) &&
        !(decide (pb + 5 < pb + 1 + plen) && decide (rd seg (pb + 5) = d.CTL_STRING) &&
          decide (rd seg (pb + 6) ≠ 0))
    | _ => false

/-- The qualifier word of the pointer record a field-type entry refers to. -/
def ptrQualifier (d : Defs) (seg : List Nat) (p : Nat) : Nat :=
  match CVLocateType d seg (rdw seg (p + 1)) with
  | Except.ok (some (pb, _)) =>
    if rd seg (pb + 1) = d.CTL_NEAR_PTR then d.OTYPE_PTR ||| d.OTYPE_PTR_NEAR ||| d.OTYPE_SPECIAL
    else d.OTYPE_PTR ||| d.OTYPE_PTR_FAR ||| d.OTYPE_SPECIAL
  | _ => 0

/-- A field-type entry at `p` is an index reference to a predefined special type in
direct mode, of a supported kind and a size that is not reserved, whose type word is not
the bitfield placeholder. -/
def plainField (d : Defs) (seg : List Nat) (p : Nat) : Bool :=
  let idx := rdw seg (p + 1)
  decide (rd seg p = d.CTL_INDEX) && decide (idx ≤ d.CST_LAST_PREDEF) &&
    decide (idx &&& d.CST_SPECIAL ≠ 0) && decide (idx &&& d.CST_MODE = d.CSTM_DIRECT) &&
    decide (idx &&& d.CST_TYPE ∈ d.kindLabels) &&
    decide ((fetchDirect d ⟨[], [], [], [], [], 0⟩ idx).2.notes = []) &&
    !(decide ((fetchDirect d ⟨[], [], [], [], [], 0⟩ idx).1 = (d.OTYPE_BITFIELD ||| d.OTYPE_SPECIAL)) &&
      decide ((fetchDirect d ⟨[], [], [], [], [], 0⟩ idx).1 &&& d.OTYPE_BF_WIDTH = 0))

/-- The type word of a predefined special type in direct mode. -/
def plainWord (d : Defs) (idx : Nat) : Nat := (fetchDirect d ⟨[], [], [], [], [], 0⟩ idx).1

/-- The type words of `n` fields from field `i` on, each a self-pointer field or a plain
field, and the descriptors of the temporary type block afterwards, `ents` being its
descriptors before: a self-pointer field appends the name reference and the pointer to
it, and its word is the offset of the pointer; a plain field appends nothing. -/
def fieldRun (d : Defs) (seg : List Nat) (sb slen tlistBase : Nat) :
    Nat → Nat → List ObjType → List Nat × List ObjType
  | 0, _, ents => ([], ents)
  | n + 1, i, ents =>
    if selfPtrField d seg sb slen (tlistBase + 3 * i) = true then
      let r := fieldRun d seg sb slen tlistBase n (i + 1) (ents ++
        [⟨rdw seg (sb + 1), rdw seg (sb + 3)⟩,
         ⟨ptrQualifier d seg (tlistBase + 3 * i),
           w16 (d.szObjTypeHeader + ents.length * d.szObjType)⟩])
      (w16 (d.szObjTypeHeader + (ents.length + 1) * d.szObjType) :: r.1, r.2)
    else
      let r := fieldRun d seg sb slen tlistBase n (i + 1) ents
      (plainWord d (rdw seg (tlistBase + 3 * i + 1)) :: r.1, r.2)

/-- A list node `n` with two fields: `v`, a 2-byte signed integer at offset 0, and `p`,
a near pointer to the structure itself, at offset 2.  The structure record (index 512),
its field-type list, its name/offset list and the pointer record. -/
def selfRefBuffer : List Nat :=
  mkRecord 0x79 [0x85, 32, 0, 2, 0x83, 1, 2, 0x83, 2, 2, 0x82, 1, 110]
  ++ mkRecord 0x7f [0x83, 0x81, 0, 0x83, 3, 2]
  ++ mkRecord 0x7f [0x82, 1, 118, 0, 0x82, 1, 112, 2]
  ++ mkRecord 0x7a [0x74, 0x83, 0, 2]

/-- The state of the decode of the structure of `selfRefBuffer` after the rewrite of
its record to the `CTL_ID` form. -/
def selfRefState : CVState :=
  ⟨writeID geos selfRefBuffer 4 732,
    [VMBlock.types [], VMBlock.types [], VMBlock.syms 2 []], [], [], [], 0⟩

/-- A structure `s` of two fields whose name/offset list has a second entry that does
not start with a string leaf (its first byte is `CTL_INDEX`). -/
def badNameBuffer : List Nat :=
  mkRecord 0x79 [32, 2, 0x83, 1, 2, 0x83, 2, 2, 0x82, 1, 115]
  ++ mkRecord 0x7f [0x83, 0x81, 0, 0x83, 0x81, 0]
  ++ mkRecord 0x7f [0x82, 1, 97, 0, 0x83, 1, 98, 2]

/-- The list reference at `p` is illegal: its class byte is neither `CTL_LIST` nor
`CTL_INDEX`, or it is a `CTL_INDEX` for whose index `CVLocateType` returns `NULL`. -/
def badListRef (d : Defs) (seg : List Nat) (p : Nat) : Prop :=
  rd seg p ≠ d.CTL_LIST ∧
    (rd seg p ≠ d.CTL_INDEX ∨ CVLocateType d seg (rdw seg (p + 1)) = Except.ok none)

instance (d : Defs) (seg : List Nat) (p : Nat) : Decidable (badListRef d seg p) := by
  unfold badListRef; infer_instance

/-- A structure whose field-type list reference has class `CTL_STRING`. -/
def badListBuffer : List Nat :=
  mkRecord 0x79 [32, 2, 0x82, 1, 2, 0x83, 2, 2, 0x82, 1, 115]

/-- A structure whose name/offset list reference is index 520, past the end of the
buffer of two records. -/
def badIndexBuffer : List Nat :=
  mkRecord 0x79 [32, 2, 0x83, 1, 2, 0x83, 8, 2, 0x82, 1, 115]
  ++ mkRecord 0x7f [0x83, 0x81, 0, 0x83, 0x81, 0]

/-! ## The symbol side: retained records, segments and scopes -/

/-- A segment pointer (`SegDesc *`): `none` is `NULL`, `some i` entry `i` of the table
of descriptors, whose entries 0 and 1 are the two static descriptors `cvTypesSegment`
and `cvSymsSegment`. -/
abbrev SegPtr := Option Nat

/-- The pointer `CV_TYPES_SEGMENT`. -/
def CV_TYPES_SEGMENT : SegPtr := some 0

/-- The pointer `CV_SYMS_SEGMENT`. -/
def CV_SYMS_SEGMENT : SegPtr := some 1

/-- The fields of a segment descriptor (`SegDesc`) the file uses. -/
structure SegDesc where
  name : Nat := 0
  cls : Nat := 0
  combine : Nat := 0
  nextOff : Nat := 0
  addrH : Nat := 0
  addrT : Nat := 0
  syms : Nat := 0
deriving DecidableEq, Repr

/-- A retained public record (`MSSaveRec`): record type, length and data. -/
structure MSSaveRec where
  type : Nat
  len : Nat
  data : List Nat
deriving DecidableEq, Repr

/-- A retained fixup record (`MSSaveFixupRec`). -/
structure MSSaveFixupRec where
  startOff : Nat
  endOff : Nat
  threads : List Nat
  data : List Nat
deriving DecidableEq, Repr

/-- The outputs of a successful `MSObj_DecodeFixup`: the cursor afterwards, the location
word, the fix-data byte, the two members of the target the file reads, and the thread
state afterwards. -/
structure FixupDec where
  bp : Nat
  fixLoc : Nat
  fixData : Nat
  segment : SegPtr
  external : Nat
  threads : List Nat
deriving DecidableEq, Repr

/-- Constants of `cv.h`, `objfmt.h` and `msobj.h` used by the symbol side, and the
helpers of other modules it calls; none of them is in the sources. -/
structure SymDefs where
  CST_WITH_START : Nat
  CST_BLOCK_START : Nat
  CST_FORTRAN_ENTRY : Nat
  CST_PROC_START : Nat
  CST_END : Nat
  CST_LOCAL_VAR : Nat
  CST_VARIABLE : Nat
  CST_CODE_LABEL : Nat
  CST_CONST : Nat
  CST_SKIP_ME : Nat
  CST_CHANGE_SEG : Nat
  CST_TYPEDEF : Nat
  CST_REG_VAR : Nat
  CCC_PASCAL_NEAR : Nat
  CCC_PASCAL_FAR : Nat
  CSR_DX_AX : Nat
  CSR_SEG_REG_START : Nat
  CSR_DWORD_REG_START : Nat
  CSR_WORD_REG_START : Nat
  CSR_BYTE_REG_START : Nat
  OSYM_PROC : Nat
  OSYM_BLOCKSTART : Nat
  OSYM_BLOCKEND : Nat
  OSYM_LOCVAR : Nat
  OSYM_VAR : Nat
  OSYM_LABEL : Nat
  OSYM_LOCLABEL : Nat
  OSYM_REGVAR : Nat
  OSYM_RETURN_TYPE : Nat
  OSYM_LOCAL_STATIC : Nat
  OSYM_GLOBAL : Nat
  OSYM_NEAR : Nat
  OSYM_PROC_PASCAL : Nat
  OSYM_REG_ES : Nat
  OSYM_REG_AX : Nat
  OSYM_REG_AL : Nat
  OBJ_MAX_SYMS : Nat
  OBJ_INIT_TYPES : Nat
  MO_PUBDEF : Nat
  FL_OFFSET : Nat
  FD_NO_TARG_DISP : Nat
  FD_TARGET : Nat
  TFM_SEGMENT : Nat
  TFM_GROUP : Nat
  TFM_ABSOLUTE : Nat
  TFM_EXTERNAL : Nat
  SEG_LMEM : Nat
  /-- The global `geosRelease`. -/
  geosRelease : Nat
  /-- The string `ST_Lock(symbols, id)` gives for an id. -/
  ST_Lock : Nat → List Nat
  /-- The test `ustrncmp(s, t, n) == 0`; `s` is given from its first byte on. -/
  ustrncmp : List Nat → List Nat → Nat → Bool
  /-- The macro `MSObj_GetIndex(bp)` used as a statement: the cursor after the index. -/
  MSObj_GetIndex : List Nat → Nat → Nat
  /-- The call `MSObj_GetSegment(&bp)`: the segment and the cursor afterwards. -/
  MSObj_GetSegment : List Nat → Nat → SegPtr × Nat
  /-- The call `MSObj_DecodeFixup(file, CV_SYMS_SEGMENT, &bp, ...)` on the thread state,
  the record data and the cursor; `none` is the `FALSE` result. -/
  MSObj_DecodeFixup : List Nat → List Nat → Nat → Option FixupDec
  /-- The call `MSObj_GetLMemSegOrder(sd)`. -/
  MSObj_GetLMemSegOrder : SegDesc → Nat
  /-- The size `VMInfo(symbols, block, &curSize, ...)` reports for a block. -/
  VMInfo : VMBlock → Nat
  /-- The id `ST_LookupNoLen(symbols, strings, "CODE")`. -/
  CODE : Nat
  /-- The id `ST_EnterNoLen(symbols, strings, OSYM_PROC_START_NAME)`. -/
  procStartName : Nat
  /-- The id `ST_EnterNoLen` gives to the name `??block<n>`. -/
  blockName : Nat → Nat
  /-- Content of a `SegDesc *` local that is read before anything was stored in it. -/
  uninitSeg : SegPtr

/-- What `CV_Check` retained of the object file for `CVProcessSymbols`: the symbol
buffer, the public records in the order `pubHead.next`, ... visits them, the fixup
records in the order `fixHead.prev`, ... visits them. -/
structure ObjFile where
  symSeg : List Nat
  pubs : List MSSaveRec
  fixups : List MSSaveFixupRec
deriving DecidableEq, Repr

/-- Ways a run of the symbol side can fail to return: a failure of the type decoder, a
failed `assert`, a `NULL` segment or type pointer dereferenced, an index outside
`scopeStack[0..MAX_SCOPES)`, or fuel exhausted. -/
inductive SymError where
  | cv (e : CVError)
  | assertion
  | nullSegment
  | nullType
  | stackIndex (i : Int)
  | fuel
deriving DecidableEq, Repr

/-- The outputs of `CVLocatePublic` at a match; each is what the function stores when the
corresponding pointer argument is not `NULL`. -/
structure PubHit where
  sd : SegPtr
  offset : Nat
  real : Bool
  aliasId : Nat
deriving DecidableEq, Repr

/-- The string and `strlen` of `CVLocatePublic`: the bytes of `ST_Lock(symbols, name)` up
to the terminator. -/
def lockedName (e : SymDefs) (name : Nat) : List Nat := (e.ST_Lock name).takeWhile (· ≠ 0)

/-- The conditional of `CVLocatePublic` on the entry at `bp`. -/
def pubMatch (e : SymDefs) (namestr : List Nat) (data : List Nat) (bp : Nat) : Bool :=
  (decide (rd data bp = namestr.length) &&
    (if e.geosRelease ≥ 2 then strncmpEq data namestr.length (bp + 1) namestr
     else e.ustrncmp (data.drop (bp + 1)) namestr namestr.length)) ||
  (decide (rd data (bp + 1) = 0x5f) && decide (rd data bp = namestr.length + 1) &&
    strncmpEq data namestr.length (bp + 2) namestr)

/-- The inner loop of `CVLocatePublic` over the entries of one record, from cursor `bp`;
the first argument bounds the number of iterations. -/
def pubScan (d : Defs) (e : SymDefs) (name : Nat) (namestr : List Nat) (srp : MSSaveRec)
    (sd : SegPtr) : Nat → Nat → Except SymError (Option PubHit)
  | 0, _ => Except.error SymError.fuel
  | fuel + 1, bp =>
    if bp < srp.len then
      if pubMatch e namestr srp.data bp then
        Except.ok (some
          { aliasId := if !strncmpEq srp.data namestr.length (bp + 1) namestr
              then d.ST_Enter (bytesAt srp.data (bp + 1) (rd srp.data bp)) else name,
            offset := rdw srp.data (bp + (rd srp.data bp + 1)),
            sd := sd,
            real := decide (srp.type = e.MO_PUBDEF) })
      else pubScan d e name namestr srp sd fuel
        (e.MSObj_GetIndex srp.data (bp + (rd srp.data bp + 1 + 2)))
    else Except.ok none

/-- The outer loop of `CVLocatePublic` over the retained records. -/
def pubLoop (d : Defs) (e : SymDefs) (name : Nat) (namestr : List Nat) :
    List MSSaveRec → Except SymError (Option PubHit)
  | [] => Except.ok none
  | srp :: rest =>
    let g := e.MSObj_GetSegment srp.data (e.MSObj_GetIndex srp.data 0)
    match pubScan d e name namestr srp g.1 (srp.len + 1) g.2 with
    | Except.error err => Except.error err
    | Except.ok (some h) => Except.ok (some h)
    | Except.ok none => pubLoop d e name namestr rest

/-- `CVLocatePublic`: `none` is the `FALSE` result. -/
def CVLocatePublic (d : Defs) (e : SymDefs) (f : ObjFile) (name : Nat) :
    Except SymError (Option PubHit) :=
  pubLoop d e name (lockedName e name) f.pubs

/-- How the search of `CVLocateFixup` in one record ends: `return(TRUE)` with the stores
made, the three ways to `return(FALSE)` (`unsupported` after the `Notify`), the end of
the `while` loop, or no fuel. -/
inductive FixOutcome where
  | found (sd : SegPtr) (extra : Nat)
  | bad
  | unsupported (t : Nat)
  | noPublic
  | notHere
  | fuel
deriving DecidableEq, Repr

/-- The `while` loop of `CVLocateFixup` over the fixups of one record; `sdIn` is the
content of `*sdPtr` at the call, `end_` the end of the record, `th` the thread state. -/
def fixScan (d : Defs) (e : SymDefs) (f : ObjFile) (sdIn : SegPtr) (recOffset : Nat)
    (data : List Nat) (end_ : Nat) : Nat → Nat → List Nat → FixOutcome
  | 0, _, _ => FixOutcome.fuel
  | fuel + 1, bp, th =>
    if bp < end_ then
      match e.MSObj_DecodeFixup th data bp with
      | none => FixOutcome.bad
      | some fx =>
        if fx.fixLoc &&& e.FL_OFFSET = recOffset then
          let extra := if fx.fixData &&& e.FD_NO_TARG_DISP = 0 then rdw data fx.bp else 0
          let t := fx.fixData &&& e.FD_TARGET
          if t = e.TFM_SEGMENT then FixOutcome.found fx.segment extra
          else if t = e.TFM_GROUP ∨ t = e.TFM_ABSOLUTE then FixOutcome.unsupported t
          else if t = e.TFM_EXTERNAL then
            match CVLocatePublic d e f fx.external with
            | Except.error _ => FixOutcome.fuel
            | Except.ok none => FixOutcome.noPublic
            | Except.ok (some h) => FixOutcome.found h.sd h.offset
          else FixOutcome.found sdIn extra
        else
          fixScan d e f sdIn recOffset data end_ fuel
            (if fx.fixData &&& e.FD_NO_TARG_DISP = 0 then fx.bp + 2 else fx.bp) fx.threads
    else FixOutcome.notHere

/-- The `for` loop of `CVLocateFixup` over the retained fixup records. -/
def fixLoop (d : Defs) (e : SymDefs) (f : ObjFile) (fixOff : Nat) (sdIn : SegPtr) :
    List MSSaveFixupRec → FixOutcome
  | [] => FixOutcome.notHere
  | sfp :: rest =>
    if sfp.startOff ≤ fixOff ∧ sfp.endOff > fixOff then
      let reclen := rdw sfp.data 0
      match fixScan d e f sdIn (w16 (fixOff - sfp.startOff)) sfp.data
          (2 + reclen - 1) (2 + reclen) 2 sfp.threads with
      | FixOutcome.notHere => fixLoop d e f fixOff sdIn rest
      | o => o
    else fixLoop d e f fixOff sdIn rest

/-- One call `Sym_Enter(symbols, table, name, block, offset)`. -/
structure SymEntry where
  table : Nat
  name : Nat
  block : Nat
  offset : Nat
deriving DecidableEq, Repr

/-- The state `CVProcessSymbols` works on: the state of the type decoder, the table of
segment descriptors, the calls of `Sym_Enter`, the stores `osh->next = block` as pairs
(block of the header, value), and the locals of the function (`bp` is the offset of the
cursor in the symbol buffer).  The pointer `symBase` and the handle `mem` always
designate the block `symBlock` and are not kept. -/
structure SymState where
  cv : CVState
  segs : List SegDesc
  entered : List SymEntry
  links : List (Nat × Nat)
  symBlock : Nat
  typeBlock : Nat
  scopeStack : List Nat
  scopeTop : Int
  lastLocal : Nat
  bp : Nat
  procSD : SegPtr
  defSeg : SegPtr
  blockCount : Nat
deriving DecidableEq, Repr

/-- The size of `scopeStack` (`#define MAX_SCOPES 32`). -/
def MAX_SCOPES : Nat := 32

/-- The call `Notify(sev, ...)` from the symbol side. -/
def SymState.notify (s : SymState) (sev : Severity) (m : Msg) : SymState :=
  { s with cv := s.cv.notify sev m }

/-- `CVLocateFixup(file, fixOff, &sd, &extraOff)`: `some (sd, extra)` is the `TRUE`
result with the two stores, `none` the `FALSE` result; `sdIn` is the content of `*sdPtr`
at the call.  The copy of the thread state of the record into `msThreads`, a global of
another module read only by `MSObj_DecodeFixup`, is passed to that function. -/
def CVLocateFixup (d : Defs) (e : SymDefs) (f : ObjFile) (s : SymState) (fixOff : Nat)
    (sdIn : SegPtr) : Except SymError (Option (SegPtr × Nat) × SymState) :=
  match fixLoop d e f fixOff sdIn f.fixups with
  | FixOutcome.fuel => Except.error SymError.fuel
  | FixOutcome.found sd extra => Except.ok (some (sd, extra), s)
  | FixOutcome.unsupported t =>
    Except.ok (none, s.notify Severity.error (Msg.unsupportedFixupTarget t))
  | _ => Except.ok (none, s)

/-- The descriptor a segment pointer designates; dereferencing `NULL` does not return. -/
def segAt (s : SymState) (p : SegPtr) : Except SymError SegDesc :=
  match p with
  | none => Except.error SymError.nullSegment
  | some i => Except.ok (s.segs.getD i {})

/-- A store through a segment pointer that is not `NULL`. -/
def setSeg (s : SymState) (p : SegPtr) (g : SegDesc → SegDesc) : SymState :=
  match p with
  | none => s
  | some i => { s with segs := s.segs.set i (g (s.segs.getD i {})) }

/-- The read `scopeStack[i]`; an index outside the array does not return. -/
def stackRd (s : SymState) (i : Int) : Except SymError Nat :=
  if 0 ≤ i ∧ i < MAX_SCOPES then Except.ok (s.scopeStack.getD i.toNat 0)
  else Except.error (SymError.stackIndex i)

/-- The store `scopeStack[i] = v`; an index outside the array does not return. -/
def stackWr (s : SymState) (i : Int) (v : Nat) : Except SymError SymState :=
  if 0 ≤ i ∧ i < MAX_SCOPES then Except.ok { s with scopeStack := s.scopeStack.set i.toNat v }
  else Except.error (SymError.stackIndex i)

/-- The symbol `(ObjSym *)(symBase + off)` of block `blk`. -/
def symAtOff (d : Defs) (cv : CVState) (blk off : Nat) : ObjSym := cv.symAt blk (symIndex d off)

/-- A store through the pointer `(ObjSym *)(symBase + off)`. -/
def modifyAtOff (d : Defs) (cv : CVState) (blk off : Nat) (g : ObjSym → ObjSym) : CVState :=
  modifySym cv blk (symIndex d off) g

/-- The field `osh->types` of the header of a symbol block. -/
def hdrTypes (cv : CVState) (blk : Nat) : Nat :=
  match cv.block blk with
  | VMBlock.syms t _ => t
  | _ => 0

/-- The store `osh->types = t` in the header of a symbol block. -/
def setHdrTypes (cv : CVState) (blk t : Nat) : CVState :=
  match cv.block blk with
  | VMBlock.syms _ ents => cv.setBlock blk (VMBlock.syms t ents)
  | _ => cv

/-- `CVAllocLocalSym(symBlock, mem, curScope, &lastLocal, &symBase)`: the offset and index
of the new symbol and the state of the blocks; `*lastLocalPtr` becomes the offset. -/
def CVAllocLocalSym (d : Defs) (cv : CVState) (symBlock curScope lastLocal : Nat) :
    Nat × Nat × CVState :=
  let a := CVAllocSymLocked d cv symBlock
  let cv1 := modifySym a.2.2 symBlock a.2.1 (fun o => { o with procLocal_next := curScope })
  let cv2 :=
    if lastLocal ≠ 0 then
      modifyAtOff d cv1 symBlock lastLocal (fun o => { o with procLocal_next := a.1 })
    else modifyAtOff d cv1 symBlock curScope (fun o => { o with scope_first := a.1 })
  (a.1, a.2.1, cv2)

/-- The outputs of a successful `CVDetermineSymbolBlock`. -/
structure SymBlockSel where
  sd : SegPtr
  addr : Nat
  symBlock : Nat
  typeBlock : Nat
deriving DecidableEq, Repr

/-- The first part of `CVDetermineSymbolBlock`: the segment and offset found by the
fixup lookup or else by the public lookup; `none` is `return(FALSE)`.  `bp` is the
offset in the symbol buffer of the offset field of the record. -/
def symbolPlace (d : Defs) (e : SymDefs) (f : ObjFile) (s : SymState) (name bp : Nat) :
    Except SymError (Option (SegPtr × Nat) × SymState) :=
  match CVLocateFixup d e f s (w16 bp) e.uninitSeg with
  | Except.error err => Except.error err
  | Except.ok (some r, s1) => Except.ok (some r, s1)
  | Except.ok (none, s1) =>
    match CVLocatePublic d e f name with
    | Except.error err => Except.error err
    | Except.ok none => Except.ok (none, s1)
    | Except.ok (some h) => Except.ok (some (h.sd, h.offset), s1)

/-- The second part of `CVDetermineSymbolBlock`, from the choice of the symbol block on;
`addr` is the relocated address. -/
def chooseBlock (e : SymDefs) (s : SymState) (sd procSD : SegPtr) (seg : SegDesc)
    (addr : Nat) : SymBlockSel × SymState :=
  let useTail : Bool := decide (seg.addrT ≠ 0) &&
    (decide (e.VMInfo (s.cv.block seg.addrT) < e.OBJ_MAX_SYMS) || decide (sd = procSD))
  if useTail then
    let tb := hdrTypes s.cv seg.addrT
    (⟨sd, addr, seg.addrT, tb⟩, { s with cv := setHdrTypes s.cv seg.addrT tb })
  else
    let blks := CVAllocSymAndTypeBlocks s.cv
    let s1 : SymState := { s with cv := blks.2.2 }
    let r : Nat × SymState :=
      if seg.addrT ≠ 0 then
        let s2 : SymState := { s1 with links := s1.links ++ [(seg.addrT, blks.1)] }
        let oldTypes := hdrTypes s2.cv seg.addrT
        if e.VMInfo (s2.cv.block oldTypes) < e.OBJ_INIT_TYPES then
          (oldTypes, { s2 with cv := VMFree s2.cv blks.2.1 })
        else (blks.2.1, s2)
      else (blks.2.1, setSeg s1 sd (fun g => { g with addrH := blks.1 }))
    let s3 := setSeg r.2 sd (fun g => { g with addrT := blks.1 })
    (⟨sd, addr, blks.1, r.1⟩, { s3 with cv := setHdrTypes s3.cv blks.1 r.1 })

/-- `CVDetermineSymbolBlock(file, name, symType, bp, procSD, ...)`; `none` is the `FALSE`
result. -/
def CVDetermineSymbolBlock (d : Defs) (e : SymDefs) (f : ObjFile) (s : SymState)
    (name bp : Nat) (procSD : SegPtr) : Except SymError (Option SymBlockSel × SymState) :=
  match symbolPlace d e f s name bp with
  | Except.error err => Except.error err
  | Except.ok (none, s1) => Except.ok (none, s1)
  | Except.ok (some (sd, off), s1) =>
    match sd with
    | none => Except.error SymError.assertion
    | some i =>
      let seg := s1.segs.getD i {}
      let addr := w16 (off + (seg.nextOff + rdw f.symSeg bp))
      let r := chooseBlock e s1 sd procSD seg addr
      Except.ok (some r.1, r.2)

/-- Reduction of a C `int` to a 16-bit `word`. -/
def w16i (x : Int) : Nat := (x % 65536).toNat

/-- The first part of the block-start case: the relocated offset `extraOffset`, the block
length, the cursor after the two words, and the state. -/
def blockPlace (d : Defs) (e : SymDefs) (f : ObjFile) (s : SymState) (bp : Nat) :
    Except SymError (Nat × Nat × Nat × SymState) :=
  match CVLocateFixup d e f s (w16 bp) e.uninitSeg with
  | Except.error err => Except.error err
  | Except.ok (fx, s1) =>
    let r : SegPtr × Nat :=
      match fx with
      | some (sd, extra) => (sd, w16 (extra + rdw f.symSeg bp))
      | none => (s.defSeg, rdw f.symSeg bp)
    match segAt s1 r.1 with
    | Except.error err => Except.error err
    | Except.ok seg => Except.ok (w16 (r.2 + seg.nextOff), rdw f.symSeg (bp + 2), bp + 4, s1)

/-- The loop of the block-start case that subtracts the address of the innermost
procedure on the scope stack, examining the entries `i - 1`, ..., `0`. -/
def procAdjust (d : Defs) (e : SymDefs) (cv : CVState) (symBlock : Nat) (stack : List Nat)
    (extra : Nat) : Nat → Nat
  | 0 => extra
  | i + 1 =>
    let os := symAtOff d cv symBlock (stack.getD i 0)
    if os.type = e.OSYM_PROC then w16i ((extra : Int) - (os.proc_address : Int))
    else procAdjust d e cv symBlock stack extra i

/-- The cases `CST_WITH_START` and `CST_BLOCK_START`; `base` is the offset of the type
byte, `len` the length byte, `bp` the cursor after the type byte. -/
def doBlockStart (d : Defs) (e : SymDefs) (f : ObjFile) (s : SymState) (base len bp : Nat) :
    Except SymError SymState :=
  if s.symBlock = 0 then Except.ok (s.notify Severity.error Msg.blockStartNotInProc)
  else if s.scopeTop = MAX_SCOPES then Except.ok (s.notify Severity.error Msg.tooManyScopes)
  else
    match blockPlace d e f s bp with
    | Except.error err => Except.error err
    | Except.ok (extraOffset, blockLength, bp1, s1) =>
      match stackRd s1 (s1.scopeTop - 1) with
      | Except.error err => Except.error err
      | Except.ok top =>
        if extraOffset = (symAtOff d s1.cv s1.symBlock top).proc_address then
          match stackWr s1 s1.scopeTop top with
          | Except.error err => Except.error err
          | Except.ok s2 => Except.ok { s2 with scopeTop := s2.scopeTop + 1 }
        else
          let extra2 := procAdjust d e s1.cv s1.symBlock s1.scopeStack extraOffset
            s1.scopeTop.toNat
          let a := CVAllocLocalSym d s1.cv s1.symBlock top s1.lastLocal
          let named : Bool := decide (bp1 < base + len)
          let name := if named then d.ST_Enter (bytesAt f.symSeg (bp1 + 1) (rd f.symSeg bp1))
            else e.blockName s1.blockCount
          let cv2 := modifySym a.2.2 s1.symBlock a.2.1 (fun o =>
            { o with flags := 0, name := name, type := e.OSYM_BLOCKSTART,
                     blockStart_next := blockLength, blockStart_local := a.1,
                     blockStart_address := extra2 })
          let s1b : SymState :=
            { s1 with cv := cv2,
                      blockCount := if named then s1.blockCount else s1.blockCount + 1 }
          match stackWr s1b s1.scopeTop a.1 with
          | Except.error err => Except.error err
          | Except.ok s2 => Except.ok { s2 with scopeTop := s2.scopeTop + 1, lastLocal := 0 }

/-- The case `CST_END`. -/
def doEnd (d : Defs) (e : SymDefs) (s : SymState) : Except SymError SymState :=
  if s.scopeTop = 0 then Except.ok (s.notify Severity.error Msg.endNoScope)
  else
    match stackRd s (s.scopeTop - 1) with
    | Except.error err => Except.error err
    | Except.ok top =>
      let spurious : Except SymError Bool :=
        if s.scopeTop > 1 then
          match stackRd s (s.scopeTop - 2) with
          | Except.error err => Except.error err
          | Except.ok below => Except.ok (decide (below = top))
        else Except.ok false
      match spurious with
      | Except.error err => Except.error err
      | Except.ok true => Except.ok { s with scopeTop := s.scopeTop - 1 }
      | Except.ok false =>
        let os := symAtOff d s.cv s.symBlock top
        if os.type = e.OSYM_BLOCKSTART then
          let addr := w16 (os.blockStart_address + os.blockStart_next)
          match stackRd s (s.scopeTop - 1 - 1) with
          | Except.error err => Except.error err
          | Except.ok encl =>
            let a := CVAllocLocalSym d s.cv s.symBlock encl top
            let cv2 := modifySym a.2.2 s.symBlock a.2.1 (fun o =>
              { o with type := e.OSYM_BLOCKEND, name := d.NullID, flags := d.OSYM_NAMELESS,
                       blockEnd_address := addr })
            Except.ok { s with cv := cv2, scopeTop := s.scopeTop - 1, lastLocal := a.1 }
        else if s.scopeTop - 1 = 0 then
          Except.ok { s with scopeTop := s.scopeTop - 1, procSD := none }
        else Except.error SymError.assertion

/-- The case `CST_LOCAL_VAR`; the first argument is the fuel of the type decoder. -/
def doLocalVar (d : Defs) (e : SymDefs) (f : ObjFile) (fuel : Nat) (s : SymState) (bp : Nat) :
    Except SymError SymState :=
  let name := d.ST_Enter (bytesAt f.symSeg (bp + 5) (rd f.symSeg (bp + 4)))
  if s.scopeTop = 0 then Except.ok (s.notify Severity.error (Msg.localVarOutside name))
  else
    match stackRd s (s.scopeTop - 1) with
    | Except.error err => Except.error err
    | Except.ok top =>
      let a := CVAllocLocalSym d s.cv s.symBlock top s.lastLocal
      let cv2 := modifySym a.2.2 s.symBlock a.2.1 (fun o =>
        { o with type := e.OSYM_LOCVAR, name := name, flags := 0,
                 localVar_offset := rdw f.symSeg bp })
      match CVFetchType d fuel cv2 s.typeBlock (rdw f.symSeg (bp + 2)) with
      | Except.error err => Except.error (SymError.cv err)
      | Except.ok (t, cv3) =>
        Except.ok { s with
          cv := modifySym cv3 s.symBlock a.2.1 (fun o => { o with localVar_type := t }),
          lastLocal := a.1 }

/-- The case `CST_REG_VAR`. -/
def doRegVar (d : Defs) (e : SymDefs) (f : ObjFile) (fuel : Nat) (s : SymState) (bp : Nat) :
    Except SymError SymState :=
  let name := d.ST_Enter (bytesAt f.symSeg (bp + 4) (rd f.symSeg (bp + 3)))
  if s.scopeTop = 0 then Except.ok (s.notify Severity.error (Msg.regVarOutside name))
  else
    match stackRd s (s.scopeTop - 1) with
    | Except.error err => Except.error err
    | Except.ok top =>
      let a := CVAllocLocalSym d s.cv s.symBlock top s.lastLocal
      let cv2 := modifySym a.2.2 s.symBlock a.2.1 (fun o =>
        { o with type := e.OSYM_REGVAR, name := name, flags := 0 })
      match CVFetchType d fuel cv2 s.typeBlock (rdw f.symSeg bp) with
      | Except.error err => Except.error (SymError.cv err)
      | Except.ok (t, cv3) =>
        let cv4 := modifySym cv3 s.symBlock a.2.1 (fun o => { o with localVar_type := t })
        let r := rd f.symSeg (bp + 2)
        let s1 : SymState := { s with cv := cv4, lastLocal := a.1 }
        let setOff (v : Int) : SymState :=
          { s1 with cv := modifySym cv4 s.symBlock a.2.1 (fun o =>
              { o with localVar_offset := w16i v }) }
        if r ≥ e.CSR_DX_AX then Except.ok (s1.notify Severity.error (Msg.unhandledRegister r))
        else if r ≥ e.CSR_SEG_REG_START then
          Except.ok (setOff ((r : Int) - (e.CSR_SEG_REG_START : Int) + (e.OSYM_REG_ES : Int)))
        else if r ≥ e.CSR_DWORD_REG_START then
          Except.ok (s1.notify Severity.error (Msg.unhandledRegister r))
        else if r ≥ e.CSR_WORD_REG_START then
          Except.ok (setOff ((r : Int) - (e.CSR_WORD_REG_START : Int) + (e.OSYM_REG_AX : Int)))
        else
          Except.ok (setOff ((r : Int) - (e.CSR_BYTE_REG_START : Int) + (e.OSYM_REG_AL : Int)))

/-- The bytes of the literal `"_CLASSSEG_"`. -/
def classSegPrefix : List Nat := [95, 67, 76, 65, 83, 83, 83, 69, 71, 95]

/-- The part of the case `CST_VARIABLE` that decides the flag `OSYM_GLOBAL` of the new
symbol (of index `idx` and offset `symOff` in `blk`) and enters it when its public
definition has another spelling. -/
def variableGlobal (e : SymDefs) (s : SymState) (pub : Option PubHit)
    (seg : SegDesc) (name blk idx symOff : Nat) : SymState :=
  let setGlobal (s0 : SymState) : SymState :=
    { s0 with cv := modifySym s0.cv blk idx (fun o => { o with flags := o.flags ||| e.OSYM_GLOBAL }) }
  let isReal : Bool := match pub with
    | some h => h.real
    | none => false
  let differs : Bool := match pub with
    | some h => decide (h.aliasId ≠ name)
    | none => false
  if isReal then
    let s1 := setGlobal s
    if differs then { s1 with entered := s1.entered ++ [⟨seg.syms, name, blk, symOff⟩] } else s1
  else if seg.combine = e.SEG_LMEM ∧ e.MSObj_GetLMemSegOrder seg = 1 then setGlobal s
  else if seg.name ≠ 0 then
    if (lockedName e seg.name).take 10 = classSegPrefix then setGlobal s else s
  else s

/-- The case `CST_VARIABLE`. -/
def doVariable (d : Defs) (e : SymDefs) (f : ObjFile) (fuel : Nat) (s : SymState) (bp : Nat) :
    Except SymError SymState :=
  let name := d.ST_Enter (bytesAt f.symSeg (bp + 7) (rd f.symSeg (bp + 6)))
  match CVDetermineSymbolBlock d e f s name bp s.procSD with
  | Except.error err => Except.error err
  | Except.ok (none, s1) => Except.ok s1
  | Except.ok (some r, s1) =>
    let a := CVAllocSymLocked d s1.cv r.symBlock
    let cv1 := modifySym a.2.2 r.symBlock a.2.1 (fun o =>
      { o with type := e.OSYM_VAR, name := name, flags := 0, variable_address := r.addr })
    match CVFetchType d fuel cv1 r.typeBlock (rdw f.symSeg (bp + 4)) with
    | Except.error err => Except.error (SymError.cv err)
    | Except.ok (t, cv2) =>
      let cv3 := modifySym cv2 r.symBlock a.2.1 (fun o => { o with variable_type := t })
      match CVLocatePublic d e f name with
      | Except.error err => Except.error err
      | Except.ok pub =>
        match segAt s1 r.sd with
        | Except.error err => Except.error err
        | Except.ok seg =>
          let s2 := variableGlobal e { s1 with cv := cv3 } pub seg name r.symBlock a.2.1 a.1
          if s.procSD = none then
            Except.ok { s2 with entered := s2.entered ++ [⟨seg.syms, name, r.symBlock, a.1⟩] }
          else
            match stackRd s2 (s2.scopeTop - 1) with
            | Except.error err => Except.error err
            | Except.ok top =>
              let a2 := CVAllocLocalSym d s2.cv s2.symBlock top s2.lastLocal
              let cv5 := modifySym a2.2.2 s2.symBlock a2.2.1 (fun o =>
                { o with type := e.OSYM_LOCAL_STATIC, name := name, flags := 0,
                         localStatic_symBlock := r.symBlock, localStatic_symOff := a.1 })
              Except.ok { s2 with cv := cv5, lastLocal := a2.1 }

/-- The statements that mark the new symbol of a procedure or label (of index `idx` and
offset `symOff` in `blk`) global when its name has a real public definition, and enter
the alias when the public spelling is another one. -/
def enterPublic (e : SymDefs) (s : SymState) (pub : Option PubHit) (seg : SegDesc)
    (name blk idx symOff : Nat) : SymState :=
  match pub with
  | some h =>
    if h.real then
      let s1 : SymState := { s with cv := modifySym s.cv blk idx (fun o =>
        { o with flags := o.flags ||| e.OSYM_GLOBAL }) }
      if h.aliasId ≠ name then
        { s1 with entered := s1.entered ++ [⟨seg.syms, h.aliasId, blk, symOff⟩] }
      else s1
    else s
  | none => s

/-- The case `CST_CODE_LABEL`. -/
def doCodeLabel (d : Defs) (e : SymDefs) (f : ObjFile) (s : SymState) (bp : Nat) :
    Except SymError SymState :=
  let name := d.ST_Enter (bytesAt f.symSeg (bp + 4) (rd f.symSeg (bp + 3)))
  match CVDetermineSymbolBlock d e f s name bp s.procSD with
  | Except.error err => Except.error err
  | Except.ok (none, s1) => Except.ok s1
  | Except.ok (some r, s1) =>
    let a := CVAllocSymLocked d s1.cv r.symBlock
    let cv1 := modifySym a.2.2 r.symBlock a.2.1 (fun o =>
      { o with type := e.OSYM_LABEL, name := name, flags := 0, label_address := r.addr,
               label_near := if rd f.symSeg (bp + 2) = 0 then 1 else 0 })
    match CVLocatePublic d e f name with
    | Except.error err => Except.error err
    | Except.ok pub =>
      match segAt s1 r.sd with
      | Except.error err => Except.error err
      | Except.ok seg =>
        let s3 := enterPublic e { s1 with cv := cv1 } pub seg name r.symBlock a.2.1 a.1
        Except.ok { s3 with entered := s3.entered ++ [⟨seg.syms, name, r.symBlock, a.1⟩] }

/-- The case `CST_CHANGE_SEG`. -/
def doChangeSeg (d : Defs) (e : SymDefs) (f : ObjFile) (s : SymState) (bp : Nat) :
    Except SymError SymState :=
  match CVLocateFixup d e f s (w16 bp) s.defSeg with
  | Except.error err => Except.error err
  | Except.ok (some (sd, _), s1) => Except.ok { s1 with defSeg := sd }
  | Except.ok (none, s1) => Except.ok (s1.notify Severity.error Msg.changeSegUnknown)

/-- The end of the procedure-start case, from the `OSYM_RETURN_TYPE` symbol on: `procOff`
is the offset of the procedure symbol, `addr` its address, `ptype` the cursor in the type
buffer at the return type. -/
def procReturnType (d : Defs) (e : SymDefs) (fuel : Nat) (s7 : SymState)
    (procOff addr ptype prologueLen : Nat) : Except SymError SymState :=
  let a2 := CVAllocLocalSym d s7.cv s7.symBlock procOff 0
  let cv2 := modifySym a2.2.2 s7.symBlock a2.2.1 (fun o =>
    { o with name := d.NullID, type := e.OSYM_RETURN_TYPE, flags := d.OSYM_NAMELESS })
  match CVProcessTypeRecord d fuel cv2 ptype (rdw cv2.typeSeg (ptype + 1)) s7.typeBlock with
  | Except.error err => Except.error (SymError.cv err)
  | Except.ok res =>
    let cv3 := modifySym res.st s7.symBlock a2.2.1 (fun o => { o with localVar_type := res.ret })
    let cv4 :=
      if rd cv3.typeSeg res.bp = e.CCC_PASCAL_NEAR ∨ rd cv3.typeSeg res.bp = e.CCC_PASCAL_FAR then
        modifyAtOff d cv3 s7.symBlock procOff (fun o =>
          { o with proc_flags := o.proc_flags ||| e.OSYM_PROC_PASCAL })
      else cv3
    if prologueLen ≠ 0 then
      let a3 := CVAllocLocalSym d cv4 s7.symBlock procOff a2.1
      let cv5 := modifySym a3.2.2 s7.symBlock a3.2.1 (fun o =>
        { o with name := e.procStartName, type := e.OSYM_LOCLABEL, flags := d.OSYM_NAMELESS,
                 label_near := 1, label_address := w16 (addr + prologueLen) })
      Except.ok { s7 with cv := cv5, lastLocal := a3.1 }
    else Except.ok { s7 with cv := cv4, lastLocal := a2.1 }

/-- The second half of the procedure-start case, from the allocation of the procedure
symbol on: `r` is what `CVDetermineSymbolBlock` gave, `ptype` the cursor in the type
buffer after the two leading bytes of the `CTL_PROCEDURE` record, `bp` the cursor of the
record in the symbol buffer after the type byte. -/
def procSymbols (d : Defs) (e : SymDefs) (f : ObjFile) (fuel : Nat) (s2 : SymState)
    (r : SymBlockSel) (name ptype bp : Nat) : Except SymError SymState :=
  let a := CVAllocSymLocked d s2.cv s2.symBlock
  match stackWr { s2 with cv := a.2.2 } s2.scopeTop a.1 with
  | Except.error err => Except.error err
  | Except.ok s3 =>
    let cv1 := modifySym s3.cv s3.symBlock a.2.1 (fun o =>
      { o with type := e.OSYM_PROC, flags := 0, name := name, proc_local := a.1,
               proc_flags := if rd f.symSeg (bp + 12) = 0 then e.OSYM_NEAR else 0,
               proc_address := r.addr })
    match CVLocatePublic d e f name with
    | Except.error err => Except.error err
    | Except.ok pub =>
      match segAt s3 r.sd with
      | Except.error err => Except.error err
      | Except.ok seg =>
        let s4 : SymState := { s3 with cv := cv1, scopeTop := s3.scopeTop + 1 }
        let s5 := enterPublic e s4 pub seg name s4.symBlock a.2.1 a.1
        let s7 : SymState :=
          { s5 with entered := s5.entered ++ [⟨seg.syms, name, s5.symBlock, a.1⟩],
                    procSD := r.sd, blockCount := 0, lastLocal := 0 }
        procReturnType d e fuel s7 a.1 r.addr ptype (rdw f.symSeg (bp + 6))

/-- The cases `CST_FORTRAN_ENTRY` and `CST_PROC_START`. -/
def doProcStart (d : Defs) (e : SymDefs) (f : ObjFile) (fuel : Nat) (s : SymState) (bp : Nat) :
    Except SymError SymState :=
  let name := d.ST_Enter (bytesAt f.symSeg (bp + 14) (rd f.symSeg (bp + 13)))
  if s.scopeTop ≠ 0 then Except.ok (s.notify Severity.error (Msg.procNested name))
  else
    match CVDetermineSymbolBlock d e f s name bp none with
    | Except.error err => Except.error err
    | Except.ok (none, s1) => Except.ok s1
    | Except.ok (some r, s1) =>
      let s2 : SymState := { s1 with symBlock := r.symBlock, typeBlock := r.typeBlock }
      match CVLocateType d s2.cv.typeSeg (rdw f.symSeg (bp + 2)) with
      | Except.error err => Except.error (SymError.cv err)
      | Except.ok none => Except.error SymError.nullType
      | Except.ok (some (ptype, _)) =>
        if rd s2.cv.typeSeg ptype ≠ d.CTL_PROCEDURE then
          Except.ok (({ s2 with symBlock := 0 } : SymState).notify Severity.error
            Msg.procNotProcedure)
        else if rd s2.cv.typeSeg (ptype + 1) ≠ d.CTL_NIL then
          Except.ok (({ s2 with symBlock := 0 } : SymState).notify Severity.error
            Msg.procMissingSpuriousNil)
        else procSymbols d e f fuel s2 r name (ptype + 2) bp

/-- The `switch (*bp++)` of the loop of `CVProcessSymbols` on the record type `t`: `base`
is the offset of the type byte, `len` the length byte of the record and `bp` the offset
of the first byte after the type. -/
def symSwitch (d : Defs) (e : SymDefs) (f : ObjFile) (fuel : Nat) (s : SymState)
    (t base len bp : Nat) : Except SymError SymState :=
  if t = e.CST_WITH_START ∨ t = e.CST_BLOCK_START then doBlockStart d e f s base len bp
  else if t = e.CST_FORTRAN_ENTRY ∨ t = e.CST_PROC_START then doProcStart d e f fuel s bp
  else if t = e.CST_END then doEnd d e s
  else if t = e.CST_LOCAL_VAR then doLocalVar d e f fuel s bp
  else if t = e.CST_VARIABLE then doVariable d e f fuel s bp
  else if t = e.CST_CODE_LABEL then doCodeLabel d e f s bp
  else if t = e.CST_CONST then Except.error SymError.assertion
  else if t = e.CST_SKIP_ME then Except.ok s
  else if t = e.CST_CHANGE_SEG then doChangeSeg d e f s bp
  else if t = e.CST_TYPEDEF then Except.ok s
  else if t = e.CST_REG_VAR then doRegVar d e f fuel s bp
  else Except.ok s

/-- The body of the `while` loop of `CVProcessSymbols`: one record, at the cursor `s.bp`;
the first argument is the fuel of the type decoder. -/
def symStep (d : Defs) (e : SymDefs) (f : ObjFile) (fuel : Nat) (s : SymState) :
    Except SymError SymState :=
  match symSwitch d e f fuel s (rd f.symSeg (s.bp + 1)) (s.bp + 1) (rd f.symSeg s.bp)
      (s.bp + 1 + 1) with
  | Except.error err => Except.error err
  | Except.ok s1 => Except.ok { s1 with bp := s.bp + 1 + rd f.symSeg s.bp }

/-- The `while (bp < end)` loop of `CVProcessSymbols`; the first argument bounds the
number of records, the second is the fuel of the type decoder. -/
def symLoop (d : Defs) (e : SymDefs) (f : ObjFile) (fuel : Nat) :
    Nat → SymState → Except SymError SymState
  | 0, s => if s.bp < f.symSeg.length then Except.error SymError.fuel else Except.ok s
  | k + 1, s =>
    if s.bp < f.symSeg.length then
      match symStep d e f fuel s with
      | Except.error err => Except.error err
      | Except.ok s1 => symLoop d e f fuel k s1
    else Except.ok s

/-- The loop of `CVProcessSymbols` that looks for the default code segment among the
segments of the file, in order; `cur` is the content of `defSeg`. -/
def findDefSeg (e : SymDefs) (segs : List SegDesc) : List SegPtr → SegPtr → SegPtr
  | [], cur => cur
  | p :: rest, _ =>
    let isCode : Bool :=
      match p with
      | some i => decide ((segs.getD i {}).cls = e.CODE)
      | none => false
    if p ≠ CV_TYPES_SEGMENT ∧ p ≠ CV_SYMS_SEGMENT ∧ isCode = true then p
    else findDefSeg e segs rest p

/-- The state of `CVProcessSymbols` when its `while` loop starts, on the state `cv` of
the blocks, the descriptors `segs` and the segments `segments` of the file in the order
of the vector `segments`. -/
def symInit (d : Defs) (e : SymDefs) (cv : CVState) (segs : List SegDesc)
    (segments : List SegPtr) : SymState :=
  { cv := cv, segs := segs, entered := [], links := [], symBlock := 0,
    typeBlock := d.uninitWord, scopeStack := List.replicate MAX_SCOPES d.uninitWord,
    scopeTop := 0, lastLocal := 0, bp := 0, procSD := none,
    defSeg := if e.CODE ≠ d.NullID then findDefSeg e segs segments none else none,
    blockCount := 0 }

/-- `CVProcessSymbols` up to the end of its `while` loop (the loop that follows only
shrinks blocks, whose sizes are not kept); the fuel of the loop is the size of the symbol
buffer, since every record moves the cursor on. -/
def CVProcessSymbols (d : Defs) (e : SymDefs) (f : ObjFile) (fuel : Nat) (cv : CVState)
    (segs : List SegDesc) (segments : List SegPtr) : Except SymError SymState :=
  symLoop d e f fuel f.symSeg.length (symInit d e cv segs segments)

/-- The bytes of a short name from its sample id: the base-256 digits of `n` below the
leading 1, `k` bounding their number. -/
def unpackName : Nat → Nat → List Nat → List Nat
  | 0, _, acc => acc
  | k + 1, n, acc => if n ≤ 1 then acc else unpackName k (n / 256) (n % 256 :: acc)

/-- Upper-case form of an ASCII byte. -/
def upperByte (b : Nat) : Nat := if 97 ≤ b ∧ b ≤ 122 then b - 32 else b

/-- The decimal digits of `n` as ASCII bytes, `k` bounding their number. -/
def decimalBytes : Nat → Nat → List Nat → List Nat
  | 0, _, acc => acc
  | k + 1, n, acc =>
    if n < 10 then (48 + n) :: acc else decimalBytes k (n / 10) ((48 + n % 10) :: acc)

/-- Modelled from the spec: sample values for the constants and helpers of the symbol
side, which are not in the sources: CodeView record types, OMF fixup fields, a string
table that inverts the sample `ST_Enter` of `geos` on names of up to three bytes, a
case-insensitive `ustrncmp`, one-byte indices below 0x80, segment index `i` designating
entry `i + 1` of the descriptor table, and fixups of four bytes (location word, fix-data
byte, target byte). -/
def geosSym : SymDefs where
  CST_WITH_START := 0x0c
  CST_BLOCK_START := 0x00
  CST_FORTRAN_ENTRY := 0x0f
  CST_PROC_START := 0x01
  CST_END := 0x02
  CST_LOCAL_VAR := 0x04
  CST_VARIABLE := 0x05
  CST_CODE_LABEL := 0x0b
  CST_CONST := 0x0e
  CST_SKIP_ME := 0x10
  CST_CHANGE_SEG := 0x11
  CST_TYPEDEF := 0x12
  CST_REG_VAR := 0x0d
  CCC_PASCAL_NEAR := 0x95
  CCC_PASCAL_FAR := 0x96
  CSR_DX_AX := 32
  CSR_SEG_REG_START := 24
  CSR_DWORD_REG_START := 16
  CSR_WORD_REG_START := 8
  CSR_BYTE_REG_START := 0
  OSYM_PROC := 13
  OSYM_BLOCKSTART := 15
  OSYM_BLOCKEND := 16
  OSYM_LOCVAR := 17
  OSYM_VAR := 10
  OSYM_LABEL := 12
  OSYM_LOCLABEL := 14
  OSYM_REGVAR := 18
  OSYM_RETURN_TYPE := 19
  OSYM_LOCAL_STATIC := 20
  OSYM_GLOBAL := 1
  OSYM_NEAR := 1
  OSYM_PROC_PASCAL := 0x10
  OSYM_REG_ES := 16
  OSYM_REG_AX := 0
  OSYM_REG_AL := 8
  OBJ_MAX_SYMS := 8192
  OBJ_INIT_TYPES := 128
  MO_PUBDEF := 0x90
  FL_OFFSET := 0x3ff
  FD_NO_TARG_DISP := 4
  FD_TARGET := 3
  TFM_SEGMENT := 0
  TFM_GROUP := 1
  TFM_ABSOLUTE := 3
  TFM_EXTERNAL := 2
  SEG_LMEM := 7
  geosRelease := 2
  ST_Lock := fun id => unpackName 4 (id / 2) []
  ustrncmp := fun s t n => decide ((s.take n).map upperByte = (t.take n).map upperByte)
  MSObj_GetIndex := fun data bp => if rd data bp &&& 0x80 ≠ 0 then bp + 2 else bp + 1
  MSObj_GetSegment := fun data bp => (some (rd data bp + 1), bp + 1)
  MSObj_DecodeFixup := fun th data bp =>
    if rd data (bp + 2) = 0xff then none
    else some ⟨bp + 4, rdw data bp, rd data (bp + 2), some (rd data (bp + 3) + 1),
      geos.ST_Enter [rd data (bp + 3)], th⟩
  MSObj_GetLMemSegOrder := fun _ => 1
  VMInfo := fun b =>
    match b with
    | VMBlock.syms _ ents => 8 + 16 * ents.length
    | VMBlock.types ents => 2 + 4 * ents.length
    | VMBlock.free => 0
  CODE := geos.ST_Enter [67, 79, 68, 69]
  procStartName := geos.ST_Enter [63, 63, 83]
  blockName := fun n => geos.ST_Enter ([63, 63, 98, 108, 111, 99, 107] ++ decimalBytes 5 n [])
  uninitSeg := none

/-- A symbol record: the length byte, the type byte and the body. -/
def symRecord (t : Nat) (body : List Nat) : List Nat := (body.length + 1) :: t :: body

/-- A retained `PUBDEF` record with one entry: group index 0, segment index `seg`, the
name, the offset word and type index 0. -/
def pubRecord (seg : Nat) (name : List Nat) (off : Nat) : MSSaveRec :=
  ⟨0x90, name.length + 6, [0, seg, name.length] ++ name ++ [off % 256, off / 256, 0]⟩

/-- The name of the entry at `p` of a public record: the bytes counted by the length
byte `data[p]`. -/
def entryName (data : List Nat) (p : Nat) : List Nat := bytesAt data (p + 1) (rd data p)

/-- The entries of a retained public record from cursor `p` on, as their positions: each
entry is a length byte, the name, an offset word and a type index; `k` bounds their
number. -/
def pubEntries (e : SymDefs) (srp : MSSaveRec) : Nat → Nat → List Nat
  | 0, _ => []
  | k + 1, p =>
    if p < srp.len then
      p :: pubEntries e srp k (e.MSObj_GetIndex srp.data (p + (rd srp.data p + 1 + 2)))
    else []

/-- The entries of a retained public record; they follow the group index and the
segment index. -/
def recordEntries (e : SymDefs) (srp : MSSaveRec) : List Nat :=
  pubEntries e srp (srp.len + 1) (e.MSObj_GetSegment srp.data (e.MSObj_GetIndex srp.data 0)).2

/-- The matching rule as the claim states it: the entry's name is the requested name, or
the requested name preceded by one underscore. -/
def exactOrUnderscore (namestr entry : List Nat) : Prop :=
  entry = namestr ∨ entry = 0x5f :: namestr

instance (namestr entry : List Nat) : Decidable (exactOrUnderscore namestr entry) := by
  unfold exactOrUnderscore; infer_instance

/-- The matching rule of the code: as `exactOrUnderscore` from release 2 on; before,
an entry of the length of the requested name matches when `ustrncmp` finds no
difference. -/
def nameMatch (e : SymDefs) (namestr data : List Nat) (p : Nat) : Prop :=
  (if e.geosRelease ≥ 2 then entryName data p = namestr
    else rd data p = namestr.length ∧
      e.ustrncmp (data.drop (p + 1)) namestr namestr.length = true) ∨
  entryName data p = 0x5f :: namestr

/-- The sample environment with `geosRelease` 1. -/
def geosSymOld : SymDefs := { geosSym with geosRelease := 1 }

/-- One retained `PUBDEF` record with the entry `FOO`, in segment 1 at offset 0x20. -/
def upperFile : ObjFile := ⟨[], [pubRecord 1 [70, 79, 79] 0x20], []⟩

/-- One retained `PUBDEF` record with the entry `__`, in segment 1 at offset 0x20. -/
def underscoreFile : ObjFile := ⟨[], [pubRecord 1 [95, 95] 0x20], []⟩

/-- The range of a retained fixup record contains the offset: `startOff <= off < endOff`. -/
def inRange (sfp : MSSaveFixupRec) (off : Nat) : Prop := sfp.startOff ≤ off ∧ off < sfp.endOff

instance (sfp : MSSaveFixupRec) (off : Nat) : Decidable (inRange sfp off) := by
  unfold inRange; infer_instance

/-- The cursor after a fixup: the target displacement word, when present, follows it. -/
def afterFixup (e : SymDefs) (fx : FixupDec) : Nat :=
  if fx.fixData &&& e.FD_NO_TARG_DISP = 0 then fx.bp + 2 else fx.bp

/-- The fixups of a record as `MSObj_DecodeFixup` gives them one after the other from
cursor `bp` and thread state `th`, up to the end of the record or the first failure; `k`
bounds their number. -/
def recordFixups (e : SymDefs) (data : List Nat) (end_ : Nat) :
    Nat → Nat → List Nat → List FixupDec
  | 0, _, _ => []
  | k + 1, bp, th =>
    if bp < end_ then
      match e.MSObj_DecodeFixup th data bp with
      | none => []
      | some fx => fx :: recordFixups e data end_ k (afterFixup e fx) fx.threads
    else []

/-- The fixups of a retained fixup record: they follow the length word. -/
def fixupsOf (e : SymDefs) (sfp : MSSaveFixupRec) : List FixupDec :=
  recordFixups e sfp.data (2 + rdw sfp.data 0 - 1) (2 + rdw sfp.data 0) 2 sfp.threads

/-- The search of `CVLocateFixup` in one retained record, as `fixLoop` runs it. -/
def scanRecord (d : Defs) (e : SymDefs) (f : ObjFile) (fixOff : Nat) (sdIn : SegPtr)
    (sfp : MSSaveFixupRec) : FixOutcome :=
  fixScan d e f sdIn (w16 (fixOff - sfp.startOff)) sfp.data (2 + rdw sfp.data 0 - 1)
    (2 + rdw sfp.data 0) 2 sfp.threads

/-- A retained fixup record for the bytes `[startOff, endOff)` of the symbol buffer with
one fixup in the sample encoding: location `loc`, fix-data byte `fd`, target byte `tg`,
and the displacement word `disp`. -/
def fixRecord (startOff endOff loc fd tg disp : Nat) : MSSaveFixupRec :=
  ⟨startOff, endOff, [], [7, 0, loc % 256, loc / 256, fd, tg, disp % 256, disp / 256]⟩

/-- A file with one retained fixup record for the bytes `[8, 16)`, whose fixup at
location 2 has segment 1 as its target and displacement 0x30. -/
def fixFile : ObjFile := ⟨[], [], [fixRecord 8 16 2 0 1 0x30]⟩

/-- A state of the symbol side with nothing in it. -/
def emptySym : SymState :=
  { cv := ⟨[], [], [], [], [], 0⟩, segs := [], entered := [], links := [], symBlock := 0,
    typeBlock := 0, scopeStack := List.replicate MAX_SCOPES 0, scopeTop := 0, lastLocal := 0,
    bp := 0, procSD := none, defSeg := none, blockCount := 0 }

/-- What the search makes of the fixup found at the requested location. -/
def targetOutcome (d : Defs) (e : SymDefs) (f : ObjFile) (sdIn : SegPtr) (data : List Nat)
    (fx : FixupDec) : FixOutcome :=
  let extra := if fx.fixData &&& e.FD_NO_TARG_DISP = 0 then rdw data fx.bp else 0
  let t := fx.fixData &&& e.FD_TARGET
  if t = e.TFM_SEGMENT then FixOutcome.found fx.segment extra
  else if t = e.TFM_GROUP ∨ t = e.TFM_ABSOLUTE then FixOutcome.unsupported t
  else if t = e.TFM_EXTERNAL then
    match CVLocatePublic d e f fx.external with
    | Except.error _ => FixOutcome.fuel
    | Except.ok none => FixOutcome.noPublic
    | Except.ok (some h) => FixOutcome.found h.sd h.offset
  else FixOutcome.found sdIn extra

/-- A file with one retained fixup record for the bytes `[8, 16)` whose fixup at
location 2 has the external name `f` as its target, and a public record for `f` in
segment 3 at offset 0x44. -/
def externalFile : ObjFile := ⟨[], [pubRecord 3 [102] 0x44], [fixRecord 8 16 2 2 102 0x30]⟩

/-- The variable symbol the case `CST_VARIABLE` stores before its type is decoded. -/
def varSymbol (e : SymDefs) (name addr : Nat) : ObjSym :=
  { type := e.OSYM_VAR, name := name, flags := 0, variable_address := addr }

/-- A file whose symbol buffer is one variable record (offset word 0x10, type index 0x81,
name `v`), with no fixup and a `PUBDEF` entry `v` in segment 1 at offset 0x200. -/
def varFile : ObjFile :=
  ⟨symRecord 0x05 [0x10, 0, 0, 0, 0x81, 0, 1, 118], [pubRecord 1 [118] 0x200], []⟩

/-- The two static descriptors and a data segment at relocation base 0x100. -/
def dataSegs : List SegDesc := [{}, {}, { nextOff := 0x100, syms := 9 }]

/-- The initial state of `CVProcessSymbols` for `dataSegs` and no block. -/
def varState : SymState :=
  symInit geos geosSym ⟨[], [], [], [], [], 0⟩ dataSegs [some 0, some 1, some 2]

/-- The states after each record of the loop of `CVProcessSymbols` from state `s` on, as
far as the loop gets (it stops at the end of the buffer or at a record that does not
return); `k` bounds the number of records. -/
def symRun (d : Defs) (e : SymDefs) (f : ObjFile) (fuel : Nat) : Nat → SymState → List SymState
  | 0, _ => []
  | k + 1, s =>
    if s.bp < f.symSeg.length then
      match symStep d e f fuel s with
      | Except.error _ => []
      | Except.ok s1 => s1 :: symRun d e f fuel k s1
    else []

/-- A type buffer with one procedure record: near, returning `int`, no arguments. -/
def procTypes : List Nat := mkRecord 0x75 [0x80, 0x83, 0x81, 0, 0x63, 0]

/-- A procedure `f` at offset 0x10 of its segment with two nested blocks, at 0x20 (length
8) and 0x24 (length 2), closed by three `End` records; `f` is public. -/
def nestFile : ObjFile :=
  ⟨symRecord 0x01 [0x10, 0, 0, 2, 0x40, 0, 4, 0, 0x30, 0, 0, 0, 0, 1, 102]
    ++ symRecord 0x00 [0x20, 0, 8, 0]
    ++ symRecord 0x00 [0x24, 0, 2, 0]
    ++ symRecord 0x02 []
    ++ symRecord 0x02 []
    ++ symRecord 0x02 [],
   [pubRecord 1 [102] 0], []⟩

/-- The procedure `f` followed by 32 block starts at the offsets 0x20, 0x21, ... of its
segment, one more than the scope stack has room for after the procedure. -/
def deepFile : ObjFile :=
  ⟨symRecord 0x01 [0x10, 0, 0, 2, 0x40, 0, 4, 0, 0x30, 0, 0, 0, 0, 1, 102]
    ++ (List.range 32).flatMap (fun i => symRecord 0x00 [0x20 + i, 0, 1, 0]),
   [pubRecord 1 [102] 0], []⟩

/-- The two static descriptors and a code segment at relocation base 0x100. -/
def codeSegs : List SegDesc :=
  [{}, {}, { cls := geos.ST_Enter [67, 79, 68, 69], nextOff := 0x100, syms := 9 }]

/-- The initial state of `CVProcessSymbols` for `procTypes` and `codeSegs`. -/
def nestState : SymState :=
  symInit geos geosSym ⟨procTypes, [], [], [], [], 0⟩ codeSegs [some 0, some 1, some 2]

/-- A state at depth `MAX_SCOPES` inside a procedure whose symbols are in block 1. -/
def deepState : SymState := { emptySym with symBlock := 1, scopeTop := 32 }

/-- A symbol buffer with one block-start record. -/
def blockFile : ObjFile := ⟨symRecord 0x00 [0x20, 0, 8, 0], [], []⟩

/-- The record types `CVProcessSymbols` switches on, in the order of its `case` labels
(two labels of one case are neighbours). -/
def SymDefs.caseLabels (e : SymDefs) : List Nat :=
  [e.CST_WITH_START, e.CST_BLOCK_START, e.CST_FORTRAN_ENTRY, e.CST_PROC_START, e.CST_END,
   e.CST_LOCAL_VAR, e.CST_VARIABLE, e.CST_CODE_LABEL, e.CST_CONST, e.CST_SKIP_ME,
   e.CST_CHANGE_SEG, e.CST_TYPEDEF, e.CST_REG_VAR]

/-- A symbol buffer with one `End` record. -/
def endFile : ObjFile := ⟨symRecord 0x02 [], [], []⟩

/-- A symbol buffer with one local-variable record: offset 4, type index 0x81, name `v`. -/
def localFile : ObjFile := ⟨symRecord 0x04 [4, 0, 0x81, 0, 1, 118], [], []⟩

/-- A symbol buffer with one register-variable record: type index 0x81, register 3, name
`v`. -/
def regFile : ObjFile := ⟨symRecord 0x0d [0x81, 0, 3, 1, 118], [], []⟩

/-- A state at depth 1 inside a procedure whose symbols are in block 1. -/
def openState : SymState := { emptySym with symBlock := 1, scopeTop := 1 }

/-- The offset in its block of the symbol of index `i`. -/
def symOffset (d : Defs) (i : Nat) : Nat := d.szObjSymHeader + i * d.szObjSym

/-- The case labels of the `switch` of `CVGetInteger`. -/
def Defs.intLabels (d : Defs) : List Nat :=
  [d.CTL_WORD, d.CTL_SDWORD, d.CTL_DWORD, d.CTL_QWORD, d.CTL_SQWORD, d.CTL_SBYTE, d.CTL_SWORD]

/-- A well-formed record of the `$$TYPES` segment: a linkage byte, the length of the data
as a little-endian word, and the data. -/
def typeRecord (link : Nat) (data : List Nat) : List Nat :=
  [link, data.length % 256, data.length / 256] ++ data

/-- A type buffer that consists of exactly the given records (linkage byte and data). -/
def typeRecords : List (Nat × List Nat) → List Nat
  | [] => []
  | r :: rest => typeRecord r.1 r.2 ++ typeRecords rest

/-- An array of 80 bits of 2-byte signed integers whose index type is an index reference
to the predefined 2-byte signed integer. -/
def intIndexArray : List Nat := mkRecord 0x78 [80, 0x83, 0x81, 0, 0x83, 0x81, 0]

/-- The same array with the predefined 2-byte unsigned integer as index type. -/
def unsignedIndexArray : List Nat := mkRecord 0x78 [80, 0x83, 0x81, 0, 0x83, 0x85, 0]

/-- The same array with the `CTL_NIL` leaf for "no index type". -/
def noIndexArray : List Nat := mkRecord 0x78 [80, 0x83, 0x81, 0, 0x80]

/-- The offsets at which the records after the one at `o` start, as the length bytes of
the symbol buffer give them: each record is its length byte and as many bytes as it
says; `k` bounds their number. -/
def recordStarts (seg : List Nat) : Nat → Nat → List Nat
  | 0, _ => []
  | k + 1, o => (o + 1 + rd seg o) :: recordStarts seg k (o + 1 + rd seg o)

/-- A symbol buffer with four records that no handler reads to the end: a `CST_SKIP_ME`
record with three bytes, an `End` with two bytes at depth 0, a record of the unknown type
0x77 and a local variable at depth 0. -/
def mixedFile : ObjFile :=
  ⟨symRecord 0x10 [1, 2, 3] ++ symRecord 0x02 [9, 9] ++ symRecord 0x77 [5]
    ++ symRecord 0x04 [4, 0, 0x81, 0, 1, 118], [], []⟩

/-- The rule of the claim for the flag `OSYM_GLOBAL` of a variable: its name has a public
entry that is a real `PUBDEF`, or its segment has the combine type `SEG_LMEM` and is the
first of its group, or its segment has a name that begins with `_CLASSSEG_`. -/
def globalRule (e : SymDefs) (pub : Option PubHit) (seg : SegDesc) : Prop :=
  (∃ h, pub = some h ∧ h.real = true) ∨
    (seg.combine = e.SEG_LMEM ∧ e.MSObj_GetLMemSegOrder seg = 1) ∨
    (seg.name ≠ 0 ∧ (lockedName e seg.name).take 10 = classSegPrefix)

/-- The end of the case `CST_VARIABLE` inside a procedure: the `OSYM_LOCAL_STATIC` symbol
allocated in the scope `top`, pointing to the variable symbol at offset `symOff` of block
`blk`. -/
def localStatic (d : Defs) (e : SymDefs) (s2 : SymState) (name blk symOff top : Nat) :
    SymState :=
  { s2 with
    cv := modifySym (CVAllocLocalSym d s2.cv s2.symBlock top s2.lastLocal).2.2 s2.symBlock
      (CVAllocLocalSym d s2.cv s2.symBlock top s2.lastLocal).2.1 (fun o =>
        { o with type := e.OSYM_LOCAL_STATIC, name := name, flags := 0,
                 localStatic_symBlock := blk, localStatic_symOff := symOff }),
    lastLocal := (CVAllocLocalSym d s2.cv s2.symBlock top s2.lastLocal).1 }

/-- The variable symbol after its type `ty` is stored. -/
def typedVar (e : SymDefs) (name addr ty : Nat) : ObjSym :=
  { varSymbol e name addr with variable_type := ty }

/-- The `Sym_Enter` of the case `CST_VARIABLE` for a name whose real public definition has
another spelling. -/
def aliasEntry (pub : Option PubHit) (seg : SegDesc) (name blk symOff : Nat) :
    List SymEntry :=
  match pub with
  | some h => if h.real = true ∧ h.aliasId ≠ name then [⟨seg.syms, name, blk, symOff⟩] else []
  | none => []

/-- The procedure `f` of `nestFile` followed, inside the procedure, by a variable record
`v` (offset word 0x10, type index 0x81); both names are public in the segment of the
procedure. -/
def staticFile : ObjFile :=
  ⟨symRecord 0x01 [0x10, 0, 0, 2, 0x40, 0, 4, 0, 0x30, 0, 0, 0, 0, 1, 102]
    ++ symRecord 0x05 [0x10, 0, 0, 0, 0x81, 0, 1, 118],
   [pubRecord 1 [102] 0, pubRecord 1 [118] 0x200], []⟩

/-- The state of the loop on `staticFile` after the procedure start. -/
def staticState : SymState :=
  (symStep geos geosSym staticFile 5 nestState).toOption.getD emptySym

/-- Block `k` is a symbol block. -/
def CVState.isSyms (st : CVState) (k : Nat) : Prop := ∃ t l, st.block k = VMBlock.syms t l

/-! ## The record filter `CV_Check` -/

/-- The outputs of a successful `MSObj_DecodeSegDef`. -/
structure SegDefDec where
  type : Nat
  align : Nat
  name : Nat
  cls : Nat
  frame : Nat
  size : Nat
deriving DecidableEq, Repr

/-- The record types of `msobj.h` that `CV_Check` switches on, the names `CV_Init` gives
to the two debugging segments, and the helpers of other modules that `CV_Check` calls;
none of them is in the sources. -/
structure ChkDefs where
  MO_SEGDEF : Nat
  MO_SEGDEF32 : Nat
  MO_LEDATA : Nat
  MO_LEDATA32 : Nat
  MO_LIDATA : Nat
  MO_LIDATA32 : Nat
  MO_PUBDEF : Nat
  MO_CVPUB : Nat
  MO_COMDEF : Nat
  MO_FIXUPP : Nat
  /-- The id `cvTypesSegment.name` after `CV_Init`. -/
  typesName : Nat
  /-- The id `cvSymsSegment.name` after `CV_Init`. -/
  symsName : Nat
  /-- The call `MSObj_DecodeSegDef(file, rectype, bp, ...)` on the record buffer and the
  cursor; `none` is the `FALSE` result. -/
  MSObj_DecodeSegDef : Nat → List Nat → Nat → Option SegDefDec
  /-- The call `MSObj_GetSegment(&bp)` on the vector `segments`, the record buffer and
  the cursor: the segment and the cursor afterwards. -/
  MSObj_GetSegment : List SegPtr → List Nat → Nat → SegPtr × Nat
  /-- The call `MSObj_SaveRecord(rectype, reclen, &head)` on the record buffer: the list
  of retained records afterwards. -/
  MSObj_SaveRecord : Nat → Nat → List Nat → List MSSaveRec → List MSSaveRec
  /-- The call `MSObj_SaveFixups(startOff, reclen, datalen, &fixHead)` on the record
  buffer: the list of retained fixup records afterwards. -/
  MSObj_SaveFixups : Nat → Nat → Int → List Nat → List MSSaveFixupRec → List MSSaveFixupRec
  /-- The content of a byte of memory that `malloc` returns. -/
  uninitByte : Nat

/-- The two errors `CV_Check` reports with `Notify`. -/
inductive ChkMsg where
  | typeSegmentDefined
  | symbolSegmentDefined
deriving DecidableEq, Repr

/-- Ways `CV_Check` can fail to return: a failed `assert`, a copy through a buffer pointer
that was never set, or a copy that leaves the buffer. -/
inductive ChkError where
  | assertion
  | nullBuffer
  | outOfBounds
deriving DecidableEq, Repr

/-- A call `Pass1MS_CountRels(file, rectype, sd, startOff, reclen, bp)`. -/
structure RelCall where
  rectype : Nat
  sd : SegPtr
  startOff : Nat
  reclen : Nat
  bp : Nat
deriving DecidableEq, Repr

/-- The state `CV_Check` works on: the statics `typeSize`, `symSize`, `typeSeg` and
`symSeg` (`none` is a pointer that was never set), the vectors `segments` and `segSizes`,
the lists behind `pubHead`, `comHead` and `fixHead`, the errors reported, the sizes passed
to `malloc` and the calls of `Pass1MS_CountRels`. -/
structure CheckState where
  typeSize : Nat := 0
  symSize : Nat := 0
  typeSeg : Option (List Nat) := none
  symSeg : Option (List Nat) := none
  segments : List SegPtr := []
  segSizes : List Nat := []
  pubs : List MSSaveRec := []
  coms : List MSSaveRec := []
  fixups : List MSSaveFixupRec := []
  errors : List ChkMsg := []
  allocs : List Nat := []
  relCalls : List RelCall := []
deriving DecidableEq, Repr

/-- The statement `typeSize = symSize = 0` of `CV_Init`; the names it enters are
`typesName` and `symsName`. -/
def CV_Init (st : CheckState) : CheckState := { st with typeSize := 0, symSize := 0 }

/-- The dword `MSObj_GetDWord` reads at `p`. -/
def rdd (buf : List Nat) (p : Nat) : Nat := rdw buf p ||| (rdw buf (p + 2) <<< 16)

/-- The test `startOff + datalen <= size` of the two assertions: the `int` is converted
to the type of the `dword` and the sum is taken in 32 bits. -/
def fitsSegment (startOff : Nat) (datalen : Int) (size : Nat) : Bool :=
  decide ((((startOff : Int) + datalen) % 4294967296) ≤ (size : Int))

/-- The call `bcopy(bp, seg + startOff, datalen)`. -/
def copyData (seg : Option (List Nat)) (buf : List Nat) (bp startOff : Nat) (datalen : Int) :
    Except ChkError (Option (List Nat)) :=
  match seg with
  | none => Except.error ChkError.nullBuffer
  | some b =>
    if datalen < 0 ∨ b.length < startOff + datalen.toNat then
      Except.error ChkError.outOfBounds
    else
      Except.ok (some (b.take startOff ++ bytesAt buf bp datalen.toNat ++
        b.drop (startOff + datalen.toNat)))

/-- The end of the segment-definition case: the descriptor is added to `segments` and, in
pass 2, the size to `segSizes`. -/
def addSegment (st : CheckState) (sd : SegPtr) (size pass : Nat) : CheckState :=
  let st1 := { st with segments := st.segments ++ [sd] }
  if pass = 2 then { st1 with segSizes := st1.segSizes ++ [size] } else st1

/-- The statements of the segment-definition case for a definition of the type segment
with the size `size`. -/
def defineTypes (c : ChkDefs) (st : CheckState) (size pass : Nat) : CheckState :=
  if st.typeSize ≠ 0 then
    { st with errors := st.errors ++ [ChkMsg.typeSegmentDefined] }
  else if size ≠ 0 then
    if pass = 1 then
      { st with typeSize := size, typeSeg := some (List.replicate size c.uninitByte),
                allocs := st.allocs ++ [size] }
    else { st with typeSize := size }
  else st

/-- The statements of the segment-definition case for a definition of the symbol segment
with the size `size`. -/
def defineSyms (c : ChkDefs) (st : CheckState) (size pass : Nat) : CheckState :=
  if st.symSize ≠ 0 then
    { st with errors := st.errors ++ [ChkMsg.symbolSegmentDefined] }
  else if size ≠ 0 then
    if pass = 1 then
      { st with symSize := size, symSeg := some (List.replicate size c.uninitByte),
                allocs := st.allocs ++ [size] }
    else { st with symSize := size }
  else st

/-- The segment-definition case of `CV_Check`. -/
def checkSegDef (c : ChkDefs) (st : CheckState) (rectype : Nat) (buf : List Nat)
    (bp pass : Nat) : Except ChkError (Bool × CheckState) :=
  match c.MSObj_DecodeSegDef rectype buf bp with
  | none => Except.ok (false, st)
  | some sdef =>
    if sdef.name = c.typesName then
      Except.ok (true, addSegment (defineTypes c st sdef.size pass) CV_TYPES_SEGMENT
        sdef.size pass)
    else if sdef.name = c.symsName then
      Except.ok (true, addSegment (defineSyms c st sdef.size pass) CV_SYMS_SEGMENT
        sdef.size pass)
    else Except.ok (false, st)

/-- The start offset a data record has at the cursor `p`: a dword in the 32-bit record,
else a word. -/
def dataStart (c : ChkDefs) (rectype : Nat) (buf : List Nat) (p : Nat) : Nat :=
  if rectype = c.MO_LEDATA32 then rdd buf p else rdw buf p

/-- The cursor after the start offset read at `p`. -/
def dataCursor (c : ChkDefs) (rectype p : Nat) : Nat :=
  if rectype = c.MO_LEDATA32 then p + 4 else p + 2

/-- The end of the data case for the symbol segment, after the copy left the buffer
`seg1`: when the next record is a fixup record, the fixups are retained in pass 1 and
counted. -/
def symsTail (c : ChkDefs) (st : CheckState) (rectype reclen : Nat) (buf : List Nat)
    (pass : Nat) (sd : SegPtr) (startOff bp1 : Nat) (datalen : Int)
    (seg1 : Option (List Nat)) : CheckState :=
  let st1 := { st with symSeg := seg1 }
  if rd buf reclen = c.MO_FIXUPP then
    let st2 :=
      if pass = 1 then
        { st1 with fixups := c.MSObj_SaveFixups startOff reclen datalen buf st1.fixups }
      else st1
    { st2 with relCalls := st2.relCalls ++ [⟨rectype, sd, startOff, reclen, bp1⟩] }
  else st1

/-- The data case (`MO_LEDATA`, `MO_LEDATA32`) of `CV_Check`. -/
def checkLEData (c : ChkDefs) (st : CheckState) (rectype reclen : Nat) (buf : List Nat)
    (bp pass : Nat) : Except ChkError (Bool × CheckState) :=
  let g := c.MSObj_GetSegment st.segments buf bp
  let startOff := dataStart c rectype buf g.2
  let bp1 := dataCursor c rectype g.2
  if g.1 ≠ CV_SYMS_SEGMENT ∧ g.1 ≠ CV_TYPES_SEGMENT then Except.ok (false, st)
  else if g.1 = CV_SYMS_SEGMENT then
    let datalen : Int := (reclen : Int) - (bp1 : Int)
    if st.symSize = 0 then Except.error ChkError.assertion
    else if fitsSegment startOff datalen st.symSize = false then
      Except.error ChkError.assertion
    else
      match (if pass = 1 then copyData st.symSeg buf bp1 startOff datalen
             else Except.ok st.symSeg) with
      | Except.error err => Except.error err
      | Except.ok seg1 =>
        Except.ok (true, symsTail c st rectype reclen buf pass g.1 startOff bp1 datalen seg1)
  else
    let datalen : Int := (reclen : Int) - (bp1 : Int)
    if rd buf reclen = c.MO_FIXUPP then Except.error ChkError.assertion
    else if st.typeSize = 0 then Except.error ChkError.assertion
    else if fitsSegment startOff datalen st.typeSize = false then
      Except.error ChkError.assertion
    else
      match (if pass = 1 then copyData st.typeSeg buf bp1 startOff datalen
             else Except.ok st.typeSeg) with
      | Except.error err => Except.error err
      | Except.ok seg1 => Except.ok (true, { st with typeSeg := seg1 })

/-- `CV_Check(file, rectype, reclen, bp, pass)` on the record buffer `msobjBuf`; `bp` is
the offset of the cursor in that buffer.  The Boolean is the value returned. -/
def CV_Check (c : ChkDefs) (st : CheckState) (rectype reclen : Nat) (buf : List Nat)
    (bp pass : Nat) : Except ChkError (Bool × CheckState) :=
  if rectype = c.MO_SEGDEF32 ∨ rectype = c.MO_SEGDEF then
    checkSegDef c st rectype buf bp pass
  else if rectype = c.MO_LEDATA32 ∨ rectype = c.MO_LEDATA then
    checkLEData c st rectype reclen buf bp pass
  else if rectype = c.MO_LIDATA32 ∨ rectype = c.MO_LIDATA then
    let g := c.MSObj_GetSegment st.segments buf bp
    if g.1 ≠ CV_SYMS_SEGMENT ∧ g.1 ≠ CV_TYPES_SEGMENT then Except.ok (false, st)
    else Except.error ChkError.assertion
  else if rectype = c.MO_CVPUB ∨ rectype = c.MO_PUBDEF then
    Except.ok (true,
      if pass = 1 then { st with pubs := c.MSObj_SaveRecord rectype reclen buf st.pubs }
      else st)
  else if rectype = c.MO_COMDEF then
    Except.ok (true,
      if pass = 1 then { st with coms := c.MSObj_SaveRecord rectype reclen buf st.coms }
      else st)
  else Except.ok (false, st)

/-- The record types `CV_Check` switches on, in the order of its `case` labels. -/
def ChkDefs.caseLabels (c : ChkDefs) : List Nat :=
  [c.MO_SEGDEF32, c.MO_SEGDEF, c.MO_LEDATA32, c.MO_LEDATA, c.MO_LIDATA32, c.MO_LIDATA,
    c.MO_CVPUB, c.MO_PUBDEF, c.MO_COMDEF]

/-- The id of the segment name with index `i` in the sample records: index 1 is `$$TYPES`,
index 2 is `$$SYMBOLS`, another index the one-letter name with that code. -/
def sampleName (i : Nat) : Nat :=
  if i = 1 then geos.ST_Enter [36, 36, 84, 89, 80, 69, 83]
  else if i = 2 then geos.ST_Enter [36, 36, 83, 89, 77, 66, 79, 76, 83]
  else geos.ST_Enter [i]

/-- Sample values: the record types of the object format, and helpers that read a segment
definition made of the attribute byte, the length word and the indices of the name and of
the class, take a one-byte index into `segments`, and append what they retain. -/
def geosChk : ChkDefs where
  MO_SEGDEF := 0x98
  MO_SEGDEF32 := 0x99
  MO_LEDATA := 0xa0
  MO_LEDATA32 := 0xa1
  MO_LIDATA := 0xa2
  MO_LIDATA32 := 0xa3
  MO_PUBDEF := 0x90
  MO_CVPUB := 0x91
  MO_COMDEF := 0xb0
  MO_FIXUPP := 0x9c
  typesName := sampleName 1
  symsName := sampleName 2
  MSObj_DecodeSegDef := fun _ buf bp =>
    if rd buf bp = 0xff then none
    else some ⟨(rd buf bp >>> 2) &&& 7, rd buf bp >>> 5, sampleName (rd buf (bp + 3)),
      sampleName (rd buf (bp + 4)), 0, rdw buf (bp + 1)⟩
  MSObj_GetSegment := fun segments buf bp => (segments.getD (rd buf bp - 1) none, bp + 1)
  MSObj_SaveRecord := fun rectype reclen buf l => l ++ [⟨rectype, reclen, buf.take reclen⟩]
  MSObj_SaveFixups := fun startOff reclen datalen buf l =>
    l ++ [⟨startOff, startOff + datalen.toNat, [], buf.drop (reclen + 1)⟩]
  uninitByte := 0xcc

/-- A segment-definition record for the name with index `name` and the size `size`. -/
def segDefRecord (name size : Nat) : List Nat := [0x28, size % 256, size / 256, name, 1, 1]

/-- A data record for the segment with index `seg` in `segments`, at offset `off`,
followed by the type byte `next` of the record after it. -/
def dataRecord (seg off : Nat) (data : List Nat) (next : Nat) : List Nat :=
  [seg, off % 256, off / 256] ++ data ++ [next]

/-- The state after `CV_Init` and, in pass 1, a definition of `$$TYPES` with size 8. -/
def typesDefined : CheckState :=
  ((CV_Check geosChk (CV_Init {}) geosChk.MO_SEGDEF 6 (segDefRecord 1 8) 0 1).toOption.map
    (fun r => r.2)).getD {}

/-- A state in pass 1 with both debugging segments defined (sizes 8 and 4) and a third
segment in the map of the file. -/
def threeSegments : CheckState :=
  { typeSize := 8, symSize := 4, typeSeg := some (List.replicate 8 0xcc),
    symSeg := some (List.replicate 4 0xcc),
    segments := [CV_TYPES_SEGMENT, CV_SYMS_SEGMENT, some 2], allocs := [8, 4] }

/-- The procedure `f` of `nestFile`, closed by its `End` record, followed by a block-start
record outside any procedure. -/
def strayBlockFile : ObjFile :=
  ⟨symRecord 0x01 [0x10, 0, 0, 2, 0x40, 0, 4, 0, 0x30, 0, 0, 0, 0, 1, 102]
    ++ symRecord 0x02 []
    ++ symRecord 0x00 [0x20, 0, 8, 0],
   [pubRecord 1 [102] 0], []⟩

/-- The state of the loop on `strayBlockFile` after the procedure start and its `End`. -/
def closedState : SymState :=
  (symRun geos geosSym strayBlockFile 5 2 nestState).getLast?.getD emptySym

/-- The variable record of `varFile` in a file where the only public entry is `_v`, a
`PUBDEF` in segment 1 at offset 0x200. -/
def aliasVarFile : ObjFile :=
  ⟨symRecord 0x05 [0x10, 0, 0, 0, 0x81, 0, 1, 118], [pubRecord 1 [95, 118] 0x200], []⟩

/-- A code-label record `v` (offset word 0x10, near) in a file with the same public entry
`_v`. -/
def aliasLabelFile : ObjFile :=
  ⟨symRecord 0x0b [0x10, 0, 0, 1, 118], [pubRecord 1 [95, 118] 0x200], []⟩

/-- One near `CTL_POINTER` record whose base type is an index reference to the record
itself (type index 0x200, the first record of the buffer). -/
def selfPointerBuffer : List Nat := mkRecord 0x7a [0x74, 0x83, 0x00, 0x02]

/-- Two near `CTL_POINTER` records, each with the other one as its base type. -/
def pointerPairBuffer : List Nat :=
  mkRecord 0x7a [0x74, 0x83, 0x01, 0x02] ++ mkRecord 0x7a [0x74, 0x83, 0x00, 0x02]

/-- One `CTL_ARRAY` record: 16 bits of elements whose type is the index reference 0, the
predefined `NOTYPE`, which decodes to void. -/
def voidArrayBuffer : List Nat := mkRecord 0x78 [16, 0x83, 0, 0]

/-- A structure record whose first field is a placeholder bitfield, in a segment that
holds no `CTL_BITFIELD` record at all: the structure record, its list of field types
(the placeholder index 1 and index 0x81) and its list of names and offsets. -/
def noRunBuffer : List Nat :=
  mkRecord 0x79 [16, 2, 0x83, 1, 2, 0x83, 2, 2, 0x82, 1, 102]
  ++ mkRecord 0x7f [0x83, 1, 0, 0x83, 0x81, 0]
  ++ mkRecord 0x7f [0x82, 1, 120, 0, 0x82, 1, 122, 2]

/-- The state after the header of the structure record of `noRunBuffer`: the record
rewritten for the id of its name `f`, and the two temporary blocks. -/
def noRunState : CVState :=
  { typeSeg := writeID geos noRunBuffer 4 716,
    vm := [VMBlock.types [], VMBlock.types [], VMBlock.syms 2 []],
    globals := [], anon := [], notes := [], nstr := 0 }

/-- The header of the structure record of `noRunBuffer`. -/
def noRunHeader : StructHdr := ⟨3, 2, 2, 2, 19, 29, 716, 0, noRunState⟩

/-- Name, symbol type and `next` link of every symbol but the first of every group
registered in the global scope, and `first` and `last` link of the first symbol. -/
def ringOf (r : Except CVError (Nat × CVState)) :
    List ((Nat × Nat) × List (Nat × Nat × Nat)) :=
  match r with
  | Except.ok x => x.2.globals.map (fun g =>
      (((g.syms.getD 0 {}).sType_first, (g.syms.getD 0 {}).sType_last),
        g.syms.tail.map (fun s => (s.name, s.type, s.sField_next))))
  | Except.error _ => []

/-- The field-type entries from cursor `p` on, each with a flag and the cursor after it:
on every state that satisfies `Inv` the entry decodes, to a word that is a bitfield
placeholder exactly when the flag is set, the cursor ends where listed and the state
after it satisfies `Inv` again.  The word and the state may depend on the state the
entry is decoded in. -/
def FieldsDecode (d : Defs) (rec_ : Decoder) (ttb : Nat) (Inv : CVState → Prop) :
    Nat → List (Bool × Nat) → Prop
  | _, [] => True
  | p, (ph, p1) :: rest =>
    (∀ s : CVState, Inv s →
      ∃ w s1, rec_ s p (rdw s.typeSeg (p + 1)) ttb = Except.ok ⟨w, p1, s1⟩ ∧ Inv s1 ∧
        isPlaceholder d w = ph) ∧
    FieldsDecode d rec_ ttb Inv p1 rest

/-- The records from offset `q` on are `CTL_BITFIELD` records that decode, in order, to
the listed words and end at the listed offsets, and the record after them is not a
`CTL_BITFIELD` record; on every state that satisfies `Inv`. -/
def RunDecodes (d : Defs) (rec_ : Decoder) (ttb : Nat) (Inv : CVState → Prop) :
    Nat → List (Nat × Nat) → Prop
  | q, [] => ∀ s : CVState, Inv s → rd s.typeSeg (q + 3) ≠ d.CTL_BITFIELD
  | q, (w, q1) :: rest =>
    (∀ s : CVState, Inv s → rd s.typeSeg (q + 3) = d.CTL_BITFIELD ∧
      ∃ s1, rec_ s (q + 3) (rdw s.typeSeg (q + 1)) ttb = Except.ok ⟨w, q1, s1⟩ ∧ Inv s1) ∧
    RunDecodes d rec_ ttb Inv q1 rest

/-- What the search loop and the run have to satisfy when the cursor `nextBFType` is
`nb`: either no search was made yet, the search finds the start `q` of a run (nothing
when the run is empty) and the run decodes to `bs`; or `nb` is `q` and the records from
`q` on decode to `bs`. -/
def RunAt (d : Defs) (rec_ : Decoder) (tlistBase ttb : Nat) (Inv : CVState → Prop)
    (nb : Option Nat) (q : Nat) (bs : List (Nat × Nat)) : Prop :=
  (nb = none ∧
      (∀ s : CVState, Inv s →
        findBF d s.typeSeg tlistBase tlistBase 0 d.CTL_STRUCTURE none =
          if bs = [] then none else some q) ∧
      (bs ≠ [] → RunDecodes d rec_ ttb Inv q bs)) ∨
    (nb = some q ∧ RunDecodes d rec_ ttb Inv q bs)

/-- A field-type entry at `p` is an index reference to a near or far pointer record
without typedef tag whose base type is a plain field entry (a predefined scalar) that is
not void. -/
def plainPtrField (d : Defs) (seg : List Nat) (p : Nat) : Bool :=
  decide (rd seg p = d.CTL_INDEX) && decide (d.CST_LAST_PREDEF < rdw seg (p + 1)) &&
    match CVLocateType d seg (rdw seg (p + 1)) with
    | Except.ok (some (pb, plen)) =>
      decide (rd seg pb = d.CTL_POINTER) &&
        decide (rd seg (pb + 1) = d.CTL_NEAR_PTR ∨ rd seg (pb + 1) = d.CTL_FAR_PTR) &&
        plainField d seg (pb + 2) &&
        decide (plainWord d (rdw seg (pb + 3)) ≠ (d.OTYPE_VOID ||| d.OTYPE_SPECIAL)) &&
        !(decide (pb + 5 < pb + 1 + plen) && decide (rd seg (pb + 5) = d.CTL_STRING) &&
          decide (rd seg (pb + 6) ≠ 0))
    | _ => false

/-- The base-type word of the pointer record a field-type entry refers to, when the base
is a predefined scalar. -/
def ptrBaseWord (d : Defs) (seg : List Nat) (p : Nat) : Nat :=
  match CVLocateType d seg (rdw seg (p + 1)) with
  | Except.ok (some (pb, _)) => plainWord d (rdw seg (pb + 3))
  | _ => 0

/-- A structure `f` with a placeholder bitfield field `x`, a field `p` that is a near
pointer to a 2-byte integer, and a second placeholder bitfield field `y`, preceded by two
bitfield records and the pointer record: the two bitfield records (3 bits unsigned at bit
0, 5 bits signed at bit 3), the pointer record, the structure record, its field-type list
and its name/offset list. -/
def ptrBitfieldBuffer : List Nat :=
  mkRecord 0x5c [3, 0x7c, 0] ++ mkRecord 0x5c [5, 0x7d, 3]
  ++ mkRecord 0x7a [0x74, 0x83, 0x81, 0]
  ++ mkRecord 0x79 [48, 3, 0x83, 4, 2, 0x83, 5, 2, 0x82, 1, 102]
  ++ mkRecord 0x7f [0x83, 1, 0, 0x83, 2, 2, 0x83, 1, 0]
  ++ mkRecord 0x7f [0x82, 1, 120, 0, 0x82, 1, 112, 2, 0x82, 1, 121, 4]

/-- The state of the decode of the structure of `ptrBitfieldBuffer` after the rewrite of
its record to the `CTL_ID` form. -/
def ptrBitfieldState : CVState :=
  ⟨writeID geos ptrBitfieldBuffer 26 716,
    [VMBlock.types [], VMBlock.types [], VMBlock.syms 2 []], [], [], [], 0⟩

/-- The states the first loop goes through on `ptrBitfieldBuffer`: the type buffer is the
one of `ptrBitfieldState` and the temporary type block holds descriptors. -/
def ptrBitfieldInv (s : CVState) : Prop :=
  s.typeSeg = ptrBitfieldState.typeSeg ∧ ∃ ents, s.block 2 = VMBlock.types ents

/-- A structure whose name/offset list reference is index 514, the first index past the
end of the buffer of two records. -/
def endIndexBuffer : List Nat :=
  mkRecord 0x79 [32, 2, 0x83, 1, 2, 0x83, 2, 2, 0x82, 1, 115]
  ++ mkRecord 0x7f [0x83, 0x81, 0, 0x83, 0x81, 0]

theorem block_types_inv (st : CVState) (h : Nat) (ents : List ObjType)
    (hb : st.block h = VMBlock.types ents) : h ≠ 0 ∧ h - 1 < st.vm.length := by
  unfold CVState.block at hb
  by_cases h0 : h = 0
  · simp [h0] at hb
  · refine ⟨h0, ?_⟩
    by_contra hlt
    simp only [h0, if_false] at hb
    rw [List.getD_eq_default _ _ (by omega)] at hb
    cases hb

theorem block_setBlock_same (st : CVState) (h : Nat) (b : VMBlock)
    (h0 : h ≠ 0) (hlt : h - 1 < st.vm.length) : (st.setBlock h b).block h = b := by
  simp [CVState.setBlock, CVState.block, h0, List.getD_eq_getElem?_getD, List.getElem?_set, hlt]

theorem setBlock_setBlock (st : CVState) (h : Nat) (b1 b2 : VMBlock) :
    (st.setBlock h b1).setBlock h b2 = st.setBlock h b2 := by
  by_cases h0 : h = 0 <;> simp [CVState.setBlock, h0, List.set_set]

@[simp] theorem setBlock_typeSeg (st : CVState) (h : Nat) (b : VMBlock) :
    (st.setBlock h b).typeSeg = st.typeSeg := by
  unfold CVState.setBlock; split <;> rfl

@[simp] theorem setBlock_globals (st : CVState) (h : Nat) (b : VMBlock) :
    (st.setBlock h b).globals = st.globals := by
  unfold CVState.setBlock; split <;> rfl

@[simp] theorem setBlock_notes (st : CVState) (h : Nat) (b : VMBlock) :
    (st.setBlock h b).notes = st.notes := by
  unfold CVState.setBlock; split <;> rfl

@[simp] theorem setBlock_vm_length (st : CVState) (h : Nat) (b : VMBlock) :
    (st.setBlock h b).vm.length = st.vm.length := by
  unfold CVState.setBlock; split <;> simp

theorem allocTypeWith_types (d : Defs) (st : CVState) (tb : Nat) (ents : List ObjType)
    (w : ObjType) (hb : st.block tb = VMBlock.types ents) :
    allocTypeWith d st tb w =
      (w16 (d.szObjTypeHeader + ents.length * d.szObjType),
        st.setBlock tb (VMBlock.types (ents ++ [w]))) := by
  obtain ⟨h0, hlt⟩ := block_types_inv st tb ents hb
  simp [allocTypeWith, MSObj_AllocType, setObjType, h0, hb, block_setBlock_same, hlt,
    setBlock_setBlock]

theorem allocTypeWith_zero (d : Defs) (st : CVState) (w : ObjType) :
    allocTypeWith d st 0 w = (0, st) := by
  simp [allocTypeWith, MSObj_AllocType, setObjType, CVState.block]

theorem typesOf_setBlock_same (st : CVState) (h : Nat) (ents : List ObjType)
    (h0 : h ≠ 0) (hlt : h - 1 < st.vm.length) :
    (st.setBlock h (VMBlock.types ents)).typesOf h = ents := by
  simp [CVState.typesOf, block_setBlock_same, h0, hlt]

/-- A node whose class byte is `CTL_ID` is decoded by the `CTL_ID` case, at any fuel. -/
theorem decodeID_eq (d : Defs) (hd : d.classLabels.Nodup) (fuel : Nat) (st : CVState)
    (bp len tb : Nat) (h : rd st.typeSeg bp = d.CTL_ID) :
    CVProcessTypeRecord d (fuel + 1) st bp len tb = Except.ok (decodeID d st bp len tb) := by
  simp only [Defs.classLabels, List.nodup_cons, List.mem_cons, List.mem_singleton, not_or,
    List.not_mem_nil, not_false_eq_true, List.nodup_nil, and_true] at hd
  simp only [CVProcessTypeRecord, h]
  simp [hd, Ne.symm, eq_comm]

/-! ## C1: decoding a resolved-id node twice -/

/-- C1 (as stated, refuted): decoding the resolved-id record of `idBuffer` twice into
type block 1 returns offset 2 the first time and offset 6 the second time, and the
second decode adds a descriptor to the block. -/
theorem resolved_id_second_decode_differs :
    CVProcessTypeRecord geos 1 (initState idBuffer) 3 5 1 =
        Except.ok ⟨2, 8, ⟨idBuffer, [VMBlock.types [⟨0x0201, 0x0403⟩]], [], [], [], 0⟩⟩ ∧
      CVProcessTypeRecord geos 1 ⟨idBuffer, [VMBlock.types [⟨0x0201, 0x0403⟩]], [], [], [], 0⟩
          3 5 1 =
        Except.ok ⟨6, 8,
          ⟨idBuffer, [VMBlock.types [⟨0x0201, 0x0403⟩, ⟨0x0201, 0x0403⟩]], [], [], [], 0⟩⟩ ∧
      rd idBuffer 3 = geos.CTL_ID := by
  decide!

/-- C1 (amended): for every node in resolved-id form, two successive decodes into a type
block leave the type buffer alone and move the cursor to the same place, but each of
them appends one descriptor holding the two cached words, so the second result is the
offset of a second, identical descriptor; only with no destination block are the two
results equal and the state unchanged. -/
theorem resolved_id_decoded_twice (d : Defs) (fuel1 fuel2 : Nat) (st : CVState)
    (bp len tb : Nat) (hd : d.classLabels.Nodup) (h : rd st.typeSeg bp = d.CTL_ID) :
    (∀ ents, st.block tb = VMBlock.types ents →
      ∃ r1 r2, CVProcessTypeRecord d (fuel1 + 1) st bp len tb = Except.ok r1 ∧
        CVProcessTypeRecord d (fuel2 + 1) r1.st bp len tb = Except.ok r2 ∧
        r1.st.typeSeg = st.typeSeg ∧ r2.st.typeSeg = st.typeSeg ∧
        r1.bp = bp + len ∧ r2.bp = bp + len ∧
        r1.ret = w16 (d.szObjTypeHeader + ents.length * d.szObjType) ∧
        r2.ret = w16 (d.szObjTypeHeader + (ents.length + 1) * d.szObjType) ∧
        r1.st.typesOf tb = ents ++ [⟨rdw st.typeSeg (bp + 1), rdw st.typeSeg (bp + 3)⟩] ∧
        r2.st.typesOf tb = ents ++ [⟨rdw st.typeSeg (bp + 1), rdw st.typeSeg (bp + 3)⟩,
          ⟨rdw st.typeSeg (bp + 1), rdw st.typeSeg (bp + 3)⟩] ∧
        r2.st.globals = st.globals ∧ r2.st.notes = st.notes) ∧
    (tb = 0 →
      CVProcessTypeRecord d (fuel1 + 1) st bp len tb = Except.ok ⟨0, bp + len, st⟩ ∧
      CVProcessTypeRecord d (fuel2 + 1) st bp len tb = Except.ok ⟨0, bp + len, st⟩) := by
  constructor
  · intro ents hb
    obtain ⟨h0, hlt⟩ := block_types_inv st tb ents hb
    have e1 := decodeID_eq d hd fuel1 st bp len tb h
    have hb1 : (st.setBlock tb (VMBlock.types
        (ents ++ [⟨rdw st.typeSeg (bp + 1), rdw st.typeSeg (bp + 3)⟩]))).block tb =
        VMBlock.types (ents ++ [⟨rdw st.typeSeg (bp + 1), rdw st.typeSeg (bp + 3)⟩]) :=
      block_setBlock_same _ _ _ h0 hlt
    refine ⟨_, _, e1, decodeID_eq d hd fuel2 _ bp len tb ?_, ?_⟩
    · simp [decodeID, allocTypeWith_types d st tb ents _ hb, h]
    · simp only [decodeID, allocTypeWith_types d st tb ents _ hb, setBlock_typeSeg,
        allocTypeWith_types d _ tb _ _ hb1, setBlock_setBlock, setBlock_globals, setBlock_notes,
        List.length_append, List.length_singleton, List.append_assoc, List.singleton_append,
        true_and]
      simp [typesOf_setBlock_same, h0, hlt]
  · intro h0
    subst h0
    simp [decodeID_eq d hd _ st bp len 0 h, decodeID, allocTypeWith_zero]

/-- Witness for C1 (amended): the hypotheses hold for the record of `idBuffer`. -/
theorem resolved_id_decoded_twice_witness :
    geos.classLabels.Nodup ∧ rd (initState idBuffer).typeSeg 3 = geos.CTL_ID ∧
      (initState idBuffer).block 1 = VMBlock.types [] ∧
      ∃ r1 r2, CVProcessTypeRecord geos 1 (initState idBuffer) 3 5 1 = Except.ok r1 ∧
        CVProcessTypeRecord geos 1 r1.st 3 5 1 = Except.ok r2 ∧
        r1.st.typeSeg = idBuffer ∧ r2.st.typeSeg = idBuffer := by
  refine ⟨by decide, by decide, by decide, ?_⟩
  obtain ⟨r1, r2, h1, h2, h3, h4, _⟩ :=
    (resolved_id_decoded_twice geos 0 0 (initState idBuffer) 3 5 1 (by decide) (by decide)).1
      [] (by decide)
  exact ⟨r1, r2, h1, h2, h3, h4⟩

theorem CVCreateTypedef_ok (d : Defs) (st : CVState) (tag dataBase len tb off : Nat) :
    ∃ r, CVCreateTypedef d st tag dataBase len tb off = Except.ok r := by
  unfold CVCreateTypedef
  split
  · rename_i h
    simp [CVGetString, h.2.1]
  · exact ⟨_, rfl⟩

theorem typesOf_notify (st : CVState) (sev : Severity) (m : Msg) (h : Nat) :
    (st.notify sev m).typesOf h = st.typesOf h := rfl

theorem arrayCreate_ok (d : Defs) (st : CVState) (tb alen elType : Nat)
    (hS : 0 < d.Obj_TypeSize elType (st.typesOf tb)) :
    ∃ st4, arrayCreate d st tb alen elType = Except.ok
        ((d.MSObj_CreateArrayType (st.typesOf tb) elType
          (alen / 8 / d.Obj_TypeSize elType (st.typesOf tb))).1, st4) ∧
      st4.typeSeg = st.typeSeg := by
  have hS' : d.Obj_TypeSize elType (st.typesOf tb) ≠ 0 := by omega
  have hsh : alen >>> 3 = alen / 8 := by simp [Nat.shiftRight_eq_div_pow]
  unfold arrayCreate
  simp only [hS', if_false, hsh]
  generalize hst3 : (if alen / 8 % d.Obj_TypeSize elType (st.typesOf tb) ≠ 0 then
    CVState.notify _ _ _ else _) = st3
  have ht : st3.typesOf tb = st.typesOf tb := by
    subst hst3; split <;> split <;> rfl
  have hseg : st3.typeSeg = st.typeSeg := by
    subst hst3; split <;> split <;> rfl
  rw [ht]
  exact ⟨_, rfl, by split <;> simp [hseg]⟩

theorem arrayTail_ok (d : Defs) (rec_ : Decoder) (st4 : CVState) (bp dataBase len tb retval : Nat)
    (hidx : ∃ r, rec_ st4 bp (rdw st4.typeSeg (bp + 1)) 0 = Except.ok r) :
    ∃ s, arrayTail d rec_ st4 bp dataBase len tb retval = Except.ok s := by
  obtain ⟨r, hr⟩ := hidx
  unfold arrayTail
  split
  · split
    · simp only [hr]
      obtain ⟨q, hq⟩ := CVCreateTypedef_ok d
        (if r.ret &&& d.OTYPE_SPECIAL = 0 ∨
            (r.ret &&& d.OTYPE_TYPE ≠ d.OTYPE_INT ∧ r.ret &&& d.OTYPE_TYPE ≠ d.OTYPE_SIGNED)
          then r.st.notify Severity.warning Msg.arrayIndexType else r.st) r.bp dataBase len tb retval
      simp [hq]
    · obtain ⟨q, hq⟩ := CVCreateTypedef_ok d st4 (bp + 1) dataBase len tb retval
      simp [hq]
  · exact ⟨_, rfl⟩

/-! ## C7: element count of an array -/

/-- C7: for an array record of declared length `L` bits whose element type, as decoded,
has byte size `S > 0`, `CVProcessArray` with a destination block returns the word
`MSObj_CreateArrayType` gives for the element count `L / 8 / S`, whether or not the
divisions are exact, and leaves the cursor at the end of the record. -/
theorem array_element_count (d : Defs) (rec_ : Decoder) (st : CVState) (bp0 len tb : Nat)
    (L bp1 : Nat) (e1 : Res) (htb : tb ≠ 0)
    (hL : CVGetInteger d st.typeSeg bp0 = Except.ok (L, bp1))
    (hel : (if rdBack st.typeSeg bp0 3 = d.CTL_STRING_TYPE then
        Except.ok ⟨d.OTYPE_CHAR ||| d.OTYPE_SPECIAL, bp1, st⟩
      else rec_ st bp1 (rdw st.typeSeg (bp1 + 1)) tb) = Except.ok e1)
    (hS : 0 < d.Obj_TypeSize e1.ret (e1.st.typesOf tb))
    (hidx : ∀ s : CVState, s.typeSeg = e1.st.typeSeg →
      ∃ r, rec_ s e1.bp (rdw s.typeSeg (e1.bp + 1)) 0 = Except.ok r) :
    ∃ r, CVProcessArray d rec_ st bp0 len tb = Except.ok r ∧
      r.ret = (d.MSObj_CreateArrayType (e1.st.typesOf tb) e1.ret
        (L / 8 / d.Obj_TypeSize e1.ret (e1.st.typesOf tb))).1 ∧
      r.bp = bp0 + len := by
  obtain ⟨st4, h4, hseg⟩ := arrayCreate_ok d e1.st tb L e1.ret hS
  obtain ⟨s, hs⟩ := arrayTail_ok d rec_ st4 e1.bp bp0 len tb
    (d.MSObj_CreateArrayType (e1.st.typesOf tb) e1.ret
        (L / 8 / d.Obj_TypeSize e1.ret (e1.st.typesOf tb))).1 (hidx st4 hseg)
  simp only [CVProcessArray, htb, ne_eq, not_false_eq_true, if_true, hL, hel, h4, hs]
  exact ⟨_, rfl, rfl, rfl⟩

/-- Witness for C7: 20 bits of 4-byte elements give count 0, the array descriptor is
returned and both divisibility diagnostics are emitted. -/
theorem array_element_count_witness :
    (1 : Nat) ≠ 0 ∧ CVGetInteger geos (initState arrayBuffer).typeSeg 4 = Except.ok (20, 5) ∧
      geos.Obj_TypeSize 0x2009 [] = 4 ∧
      ∃ r, CVProcessArray geos (CVProcessTypeRecord geos 2) (initState arrayBuffer) 4 4 1 =
          Except.ok r ∧
        r.ret = (geos.MSObj_CreateArrayType [] 0x2009 0).1 ∧ r.bp = 8 ∧
        r.st.notes = [⟨Severity.error, Msg.nonIntegralBytes⟩,
          ⟨Severity.error, Msg.nonIntegralElements⟩] := by
  refine ⟨by decide, by decide!, by decide, ?_⟩
  obtain ⟨r, h1, h2, h3⟩ := array_element_count geos (CVProcessTypeRecord geos 2)
    (initState arrayBuffer) 4 4 1 20 5 ⟨0x2009, 8, initState arrayBuffer⟩ (by decide) (by decide!)
    (by decide!) (by decide)
    (by
      intro s hs
      have h0 : rd s.typeSeg 8 = 0 := by rw [hs]; decide
      refine ⟨⟨geos.voidType, 8 + 1 + rdw s.typeSeg 9,
        s.notify Severity.error (Msg.unsupportedClass 0)⟩, ?_⟩
      simp [CVProcessTypeRecord, h0, geos])
  have h4 : CVProcessArray geos (CVProcessTypeRecord geos 2) (initState arrayBuffer) 4 4 1 =
      Except.ok ⟨2, 8, ⟨arrayBuffer, [VMBlock.types [⟨0x2009, 0⟩]], [], [],
        [⟨Severity.error, Msg.nonIntegralBytes⟩, ⟨Severity.error, Msg.nonIntegralElements⟩], 0⟩⟩ := by
    decide!
  refine ⟨r, h1, h2, h3, ?_⟩
  rw [h4] at h1
  cases h1
  rfl

/-! ## C8: based pointers -/

/-- C8 (the code at the failing input): a based pointer to the predefined 2-byte signed
integer decodes to a descriptor whose first word is `OTYPE_VOID | OTYPE_SPECIAL`, while
the near pointer to the same base decodes to a descriptor whose first word is the
near-pointer word. -/
theorem based_pointer_qualifier_is_void :
    CVFetchType geos 4 (initState basedBuffer) 1 512 =
        Except.ok (2, ⟨basedBuffer,
          [VMBlock.types [⟨geos.OTYPE_VOID ||| geos.OTYPE_SPECIAL, 0x2005⟩]], [], [], [], 0⟩) ∧
      CVFetchType geos 4 (initState nearPtrBuffer) 1 512 =
        Except.ok (2, ⟨nearPtrBuffer,
          [VMBlock.types [⟨geos.OTYPE_PTR ||| geos.OTYPE_PTR_NEAR ||| geos.OTYPE_SPECIAL, 0x2005⟩]],
          [], [], [], 0⟩) ∧
      geos.OTYPE_VOID ||| geos.OTYPE_SPECIAL ≠
        geos.OTYPE_PTR ||| geos.OTYPE_PTR_NEAR ||| geos.OTYPE_SPECIAL := by
  decide!

theorem lor3 (a b c : Nat) : a ||| b ||| c = a ||| c ||| b := by
  rw [Nat.lor_assoc, Nat.lor_comm b c, ← Nat.lor_assoc]

/-! ## C9, C10: predefined special types in direct mode -/

/-- C9: for a predefined special index in direct mode whose type field is one of the
seven supported kinds, `CVFetchType` returns `kind | (bytes << 1) | OTYPE_SPECIAL` with
the kind and byte size of the claim's table, or `kind | OTYPE_SPECIAL` and an
`illegal size index` error for a reserved size; no block of the arena changes. -/
theorem fetch_direct_special (d : Defs) (fuel : Nat) (st : CVState) (tb index : Nat)
    (hk : d.kindLabels.Nodup)
    (hpre : index ≤ d.CST_LAST_PREDEF) (hsp : index &&& d.CST_SPECIAL ≠ 0)
    (hdir : index &&& d.CST_MODE = d.CSTM_DIRECT)
    (ht : index &&& d.CST_TYPE ∈ d.kindLabels) (hs : index &&& d.CST_SIZE < 4) :
    ∃ r, CVFetchType d (fuel + 1) st tb index = Except.ok r ∧ r.2.vm = st.vm ∧
      r = match specBytes d (index &&& d.CST_TYPE) (index &&& d.CST_SIZE) with
        | some b => (specKind d (index &&& d.CST_TYPE) ||| (b <<< 1) ||| d.OTYPE_SPECIAL, st)
        | none => (specKind d (index &&& d.CST_TYPE) ||| d.OTYPE_SPECIAL,
            st.notify Severity.error (Msg.illegalSizeIndex (index &&& d.CST_SIZE))) := by
  simp only [Defs.kindLabels, List.nodup_cons, List.mem_cons, List.mem_singleton, not_or,
    List.not_mem_nil, not_false_eq_true, List.nodup_nil, and_true] at hk
  obtain ⟨⟨h12,h13,h14,h15,h16,h17⟩,⟨h23,h24,h25,h26,h27⟩,⟨h34,h35,h36,h37⟩,⟨h45,h46,h47⟩,⟨h56,h57⟩,h67⟩ := hk
  simp only [CVFetchType, hpre, hsp, hdir, if_true, ne_eq, not_true_eq_false, if_false,
    not_false_eq_true, fetchDirect]
  generalize index &&& d.CST_SIZE = s at hs ⊢
  generalize index &&& d.CST_TYPE = t at ht ⊢
  simp only [Defs.kindLabels, List.mem_cons, List.mem_singleton, List.not_mem_nil, or_false] at ht
  have hs' : s = 0 ∨ s = 1 ∨ s = 2 ∨ s = 3 := by omega
  rcases ht with rfl | rfl | rfl | rfl | rfl | rfl | rfl <;>
    rcases hs' with rfl | rfl | rfl | rfl <;>
    simp [specBytes, specKind, sizes, CVState.notify, lor3,
      h12, h13, h14, h15, h16, h17, h23, h24, h25, h26, h27, h34, h35, h36, h37, h45, h46, h47,
      h56, h57, h67, Ne.symm h12, Ne.symm h13, Ne.symm h14, Ne.symm h15, Ne.symm h16,
      Ne.symm h17, Ne.symm h23, Ne.symm h24, Ne.symm h25, Ne.symm h26, Ne.symm h27,
      Ne.symm h34, Ne.symm h35, Ne.symm h36, Ne.symm h37, Ne.symm h45, Ne.symm h46,
      Ne.symm h47, Ne.symm h56, Ne.symm h57, Ne.symm h67]

/-- Witness for C9: index `0x81` (special, direct, signed, size field 1) satisfies the
hypotheses and decodes to the 2-byte signed word. -/
theorem fetch_direct_special_witness :
    geos.kindLabels.Nodup ∧ 0x81 ≤ geos.CST_LAST_PREDEF ∧ 0x81 &&& geos.CST_SPECIAL ≠ 0 ∧
      0x81 &&& geos.CST_MODE = geos.CSTM_DIRECT ∧ 0x81 &&& geos.CST_TYPE ∈ geos.kindLabels ∧
      0x81 &&& geos.CST_SIZE < 4 ∧
      ∃ r, CVFetchType geos 1 (initState []) 1 0x81 = Except.ok r ∧ r.2.vm = (initState []).vm := by
  refine ⟨by decide, by decide, by decide, by decide, by decide, by decide, ?_⟩
  obtain ⟨r, h1, h2, _⟩ := fetch_direct_special geos 0 (initState []) 1 0x81 (by decide)
    (by decide) (by decide) (by decide) (by decide) (by decide)
  exact ⟨r, h1, h2⟩

/-- C10 (the code at the failing input): index `0x9c` is predefined, special, in direct
mode, its type field `0x1c` is none of the supported kinds and its size field is 0; the
decode reports the unsupported type and returns `OTYPE_VOID | OTYPE_SPECIAL` with the
size bits of a 1-byte type or-ed in, which is not the void word. -/
theorem unsupported_special_type_gets_size_bits :
    0x9c ≤ geos.CST_LAST_PREDEF ∧ 0x9c &&& geos.CST_SPECIAL ≠ 0 ∧
      0x9c &&& geos.CST_MODE = geos.CSTM_DIRECT ∧ 0x9c &&& geos.CST_TYPE ∉ geos.kindLabels ∧
      CVFetchType geos 1 (initState []) 1 0x9c =
        Except.ok ((geos.OTYPE_VOID ||| geos.OTYPE_SPECIAL) ||| (1 <<< 1),
          (initState []).notify Severity.error (Msg.unsupportedSpecialType 0x1c)) ∧
      (geos.OTYPE_VOID ||| geos.OTYPE_SPECIAL) ||| (1 <<< 1) ≠ geos.OTYPE_VOID ||| geos.OTYPE_SPECIAL := by
  decide!

theorem block_inv (st : CVState) (h : Nat) (hb : st.block h ≠ VMBlock.free) :
    h ≠ 0 ∧ h - 1 < st.vm.length := by
  unfold CVState.block at hb
  by_cases h0 : h = 0
  · simp [h0] at hb
  · refine ⟨h0, ?_⟩
    by_contra hlt
    simp only [h0, if_false] at hb
    rw [List.getD_eq_default _ _ (by omega)] at hb
    exact hb rfl

theorem CVAllocSymLocked_syms (d : Defs) (st : CVState) (h t : Nat) (ents : List ObjSym)
    (hb : st.block h = VMBlock.syms t ents) :
    CVAllocSymLocked d st h = (w16 (d.szObjSymHeader + ents.length * d.szObjSym), ents.length,
      st.setBlock h (VMBlock.syms t (ents ++ [({} : ObjSym)]))) := by
  simp [CVAllocSymLocked, hb]

theorem modifySym_setBlock (st : CVState) (h t idx : Nat) (ents : List ObjSym)
    (f : ObjSym → ObjSym) (h0 : h ≠ 0) (hlt : h - 1 < st.vm.length) :
    modifySym (st.setBlock h (VMBlock.syms t ents)) h idx f =
      st.setBlock h (VMBlock.syms t (ents.set idx (f (ents.getD idx ({} : ObjSym))))) := by
  simp [modifySym, block_setBlock_same, h0, hlt, setBlock_setBlock]

theorem symAt_setBlock (st : CVState) (h t idx : Nat) (ents : List ObjSym)
    (h0 : h ≠ 0) (hlt : h - 1 < st.vm.length) :
    (st.setBlock h (VMBlock.syms t ents)).symAt h idx = ents.getD idx ({} : ObjSym) := by
  simp [CVState.symAt, CVState.symsOf, block_setBlock_same, h0, hlt]

theorem unionTest_congr (d : Defs) (ty i : Nat) (os prev os1 prev1 : ObjSym) (t tp : Nat)
    (h1 : os.sField_offset = os1.sField_offset) (h2 : prev.sField_offset = prev1.sField_offset) :
    unionTest d ty i os prev t tp = unionTest d ty i os1 prev1 t tp := by
  simp [unionTest, h1, h2]

theorem list_set_self {α : Type} (l : List α) (i : Nat) (h : i < l.length) :
    l.set i (l.get ⟨i, h⟩) = l := by
  apply List.ext_getElem (by simp)
  intro n h1 h2
  simp only [List.getElem_set, List.get_eq_getElem]
  split
  · rename_i e; subst e; rfl
  · rfl

theorem setBlock_self (st : CVState) (h : Nat) (b : VMBlock) (hb : st.block h = b) :
    st.setBlock h b = st := by
  unfold CVState.setBlock
  unfold CVState.block at hb
  by_cases h0 : h = 0
  · simp [h0]
  · simp only [h0, if_false] at hb ⊢
    subst hb
    congr
    rw [List.getD_eq_getElem?_getD]
    by_cases hlt : h - 1 < st.vm.length
    · simpa [hlt] using list_set_self st.vm (h - 1) hlt
    · rw [List.set_eq_of_length_le (by omega)]

theorem parseFields_succ (d : Defs) (seg : List Nat) (k p : Nat) (flds : List (Nat × Nat))
    (hp : parseFields d seg (k + 1) p = some flds) :
    ∃ name p1 off p2 rest, rd seg p = d.CTL_STRING ∧
      CVGetString d seg p = Except.ok (name, p1) ∧ CVGetInteger d seg p1 = Except.ok (off, p2) ∧
      parseFields d seg k p2 = some rest ∧ flds = (name, off) :: rest := by
  simp only [parseFields] at hp
  cases hs : CVGetString d seg p with
  | error e => simp [hs] at hp
  | ok r1 =>
    obtain ⟨name, p1⟩ := r1
    simp only [hs] at hp
    cases hi : CVGetInteger d seg p1 with
    | error e => simp [hi] at hp
    | ok r2 =>
      obtain ⟨off, p2⟩ := r2
      simp only [hi, Option.map_eq_some'] at hp
      obtain ⟨rest, hr, hf⟩ := hp
      refine ⟨name, p1, off, p2, rest, ?_, rfl, hi, hr, hf.symm⟩
      by_contra hne
      simp [CVGetString, hne] at hs

theorem fieldSyms_eq (d : Defs) (tsym ssymOff nfields t0 : Nat) (types : List Nat) :
    ∀ (k : Nat) (flds : List (Nat × Nat)) (i : Nat) (st : CVState) (nlistp ty : Nat)
      (ents : List ObjSym),
      st.block tsym = VMBlock.syms t0 ents → ents ≠ [] →
      parseFields d st.typeSeg k nlistp = some flds →
      fieldSyms d tsym ssymOff nfields types k i st nlistp ty =
        Except.ok (classifyLoop d types i (ents.getD (ents.length - 1) ({} : ObjSym)).sField_offset ty flds,
          st.setBlock tsym (VMBlock.syms t0
            (ents ++ fieldSymList d nfields ssymOff types i ents.length flds))) := by
  intro k
  induction k with
  | zero =>
    intro flds i st nlistp ty ents hb hne hp
    simp only [parseFields, Option.some.injEq] at hp
    subst hp
    simp only [fieldSyms, classifyLoop, fieldSymList, List.append_nil, setBlock_self _ _ _ hb]
  | succ k ih =>
    intro flds i st nlistp ty ents hb hne hp
    obtain ⟨name, p1, off, p2, rest, hcls, hs, hi, hr, rfl⟩ := parseFields_succ d _ k nlistp flds hp
    obtain ⟨h0, hlt⟩ := block_inv st tsym (by rw [hb]; simp)
    have hpos : 0 < ents.length := List.length_pos.mpr hne
    simp only [fieldSyms, hcls, ne_eq, not_true_eq_false, if_false, hs, hi,
      CVAllocSymLocked_syms d st tsym t0 ents hb, modifySym_setBlock _ _ _ _ _ _ h0 hlt,
      List.set_append_right _ _ (le_refl _), Nat.sub_self, List.set_cons_zero]
    rw [ih rest (i + 1) _ p2 _ (ents ++ [_]) (block_setBlock_same _ _ _ h0 hlt) (by simp)
      (by simpa using hr)]
    simp only [setBlock_setBlock, List.length_append, List.length_singleton, Nat.add_sub_cancel,
      List.append_assoc, List.singleton_append, classifyLoop, fieldSymList,
      symAt_setBlock _ _ _ _ _ h0 hlt]
    congr 3
    · simp [List.getD_eq_getElem?_getD]
    · congr 1
      refine congrArg (fun b : Bool => b = true) ?_
      apply unionTest_congr
      · rfl
      · simp [List.getD_eq_getElem?_getD, List.getElem?_append_left, hpos]

@[simp] theorem VMFree_globals (st : CVState) (h : Nat) : (VMFree st h).globals = st.globals := by
  unfold VMFree; split <;> rfl

@[simp] theorem VMFree_typeSeg (st : CVState) (h : Nat) : (VMFree st h).typeSeg = st.typeSeg := by
  unfold VMFree; split <;> rfl

theorem fieldSymList_length (d : Defs) (nfields ssymOff : Nat) (types : List Nat) :
    ∀ (flds : List (Nat × Nat)) (i n : Nat),
      (fieldSymList d nfields ssymOff types i n flds).length = flds.length := by
  intro flds
  induction flds with
  | nil => intro i n; rfl
  | cons f rest ih => intro i n; obtain ⟨a, b⟩ := f; simp [fieldSymList, ih]

/-- C3 (the code at the failing input): the sweep over a buffer holding a structure
record in tree form returns with the state unchanged, the record still of class
`CTL_STRUCTURE` and nothing registered, although a decode with a destination block
registers the structure; a typedef record in tree form is skipped in the same way,
while an enumeration record is registered. -/
theorem sweep_skips_structure_and_typedef :
    CVProcessUnprocessedTypeRecords geos 4 (initState (structBuffer 0 2 4)) =
        Except.ok (44, initState (structBuffer 0 2 4)) ∧
      rd (structBuffer 0 2 4) 3 = geos.CTL_STRUCTURE ∧
      registered (CVFetchType geos 4 (initState (structBuffer 0 2 4)) 1 512) ≠ [] ∧
      CVProcessUnprocessedTypeRecords geos 4 (initState typedefBuffer) =
        Except.ok (11, initState typedefBuffer) ∧
      rd typedefBuffer 3 = geos.CTL_TYPEDEF ∧
      registered (CVProcessUnprocessedTypeRecords geos 4 (initState enumBuffer)) =
        [[(geos.OSYM_ETYPE, 0, 0), (geos.OSYM_ENUM, 0, 0), (geos.OSYM_ENUM, 0, 0)]] := by
  decide!

theorem findBF_eq_foldl (d : Defs) (seg : List Nat) (tlistBase : Nat) :
    ∀ (k tp last : Nat) (acc : Option Nat),
      findBF d seg tlistBase k tp last acc =
        ((recordList seg tlistBase k tp).foldl (scanStep d) (last, acc)).2 := by
  intro k
  induction k with
  | zero => intro tp last acc; rfl
  | succ k ih =>
    intro tp last acc
    simp only [findBF, recordList]
    split
    · rw [ih]; rfl
    · rfl

theorem scan_eq_nearestRun (d : Defs) (l0 : Nat) (h0 : l0 ≠ d.CTL_BITFIELD) :
    ∀ recs : List (Nat × Nat),
      (recs.foldl (scanStep d) (l0, none)).1 = (recs.getLast?.map Prod.snd).getD l0 ∧
      (recs.foldl (scanStep d) (l0, none)).2 = nearestRun d recs := by
  intro recs
  induction recs using List.reverseRecOn with
  | nil => simp [nearestRun]
  | append_singleton l a ih =>
    obtain ⟨ih1, ih2⟩ := ih
    simp only [List.foldl_append, List.foldl_cons, List.foldl_nil]
    refine ⟨by simp [scanStep], ?_⟩
    simp only [scanStep, nearestRun, List.reverse_append, List.reverse_singleton,
      List.singleton_append, List.dropWhile_cons, List.takeWhile_cons]
    by_cases ha : a.2 = d.CTL_BITFIELD
    · rw [ih1]
      cases hl : l.reverse with
      | nil =>
        have : l = [] := by simpa using hl
        subst this
        simp [h0, ha]
      | cons b t =>
        have hlast : l.getLast? = some b := by
          have := congrArg List.head? hl
          simpa [List.head?_reverse] using this
        by_cases hb : b.2 = d.CTL_BITFIELD
        · simp [ha, hb, hlast, ih2, nearestRun, hl, List.getLast?_cons_cons]
        · simp [ha, hb, hlast]
    · simp [ha, ih2, nearestRun]

theorem isPlaceholder_iff (d : Defs) (w : Nat) :
    (w = d.OTYPE_BITFIELD ||| d.OTYPE_SPECIAL ∧ w &&& d.OTYPE_BF_WIDTH = 0) ↔
      isPlaceholder d w = true := by
  simp [isPlaceholder]

theorem findBF_eq_nearestRun (d : Defs) (seg : List Nat) (tlistBase : Nat)
    (hlab : d.CTL_STRUCTURE ≠ d.CTL_BITFIELD) :
    findBF d seg tlistBase tlistBase 0 d.CTL_STRUCTURE none =
      nearestRun d (recordList seg tlistBase tlistBase 0) := by
  rw [findBF_eq_foldl]
  exact (scan_eq_nearestRun d d.CTL_STRUCTURE hlab _).2

theorem fill_none_iff (d : Defs) :
    ∀ (ws bs : List Nat),
      fillPlaceholders d ws bs = none ↔ bs.length < (ws.filter (isPlaceholder d)).length := by
  intro ws
  induction ws with
  | nil => intro bs; simp [fillPlaceholders]
  | cons w ws ih =>
    intro bs
    by_cases hp : isPlaceholder d w = true
    · cases bs with
      | nil => simp [fillPlaceholders, hp]
      | cons b bs1 => simp [fillPlaceholders, hp, ih bs1]
    · simp [fillPlaceholders, hp, ih bs]

theorem fill_getD (d : Defs) :
    ∀ (ws bs l : List Nat), fillPlaceholders d ws bs = some l →
      l.length = ws.length ∧
      ∀ i, i < ws.length →
        l.getD i 0 = if isPlaceholder d (ws.getD i 0) = true
          then bs.getD ((ws.take i).filter (isPlaceholder d)).length 0 else ws.getD i 0 := by
  intro ws
  induction ws with
  | nil =>
    intro bs l h
    simp only [fillPlaceholders, Option.some.injEq] at h
    subst h
    simp
  | cons w ws ih =>
    intro bs l h
    by_cases hp : isPlaceholder d w = true
    · cases bs with
      | nil => simp [fillPlaceholders, hp] at h
      | cons b bs1 =>
        simp only [fillPlaceholders, hp, if_true, Option.map_eq_some'] at h
        obtain ⟨l1, h1, rfl⟩ := h
        obtain ⟨hl, hi⟩ := ih bs1 l1 h1
        refine ⟨by simp [hl], ?_⟩
        intro i hlt
        cases i with
        | zero => simp [hp]
        | succ i =>
          have := hi i (by simpa using hlt)
          simpa [hp] using this
    · simp only [fillPlaceholders, hp, if_false, Option.map_eq_some', Bool.false_eq_true] at h
      obtain ⟨l1, h1, rfl⟩ := h
      obtain ⟨hl, hi⟩ := ih bs l1 h1
      refine ⟨by simp [hl], ?_⟩
      intro i hlt
      cases i with
      | zero => simp [hp]
      | succ i =>
        have := hi i (by simpa using hlt)
        simpa [hp] using this

theorem classLabels_ne (d : Defs) (hd : d.classLabels.Nodup) :
    d.CTL_INDEX ≠ d.CTL_VOID ∧ d.CTL_BITFIELD ≠ d.CTL_VOID ∧ d.CTL_BITFIELD ≠ d.CTL_INDEX ∧
      d.CTL_STRUCTURE ≠ d.CTL_BITFIELD := by
  simp only [Defs.classLabels, List.nodup_cons, List.mem_cons, List.mem_singleton, not_or,
    List.not_mem_nil, not_false_eq_true, List.nodup_nil, and_true] at hd
  refine ⟨?_, ?_, ?_, ?_⟩
  · exact Ne.symm hd.1.1
  · exact Ne.symm hd.1.2.1
  · exact Ne.symm hd.2.1.1
  · exact Ne.symm hd.2.2.1.2.2.2.2.2.2.2.2.2.1

/-- An index node is decoded through `CVFetchType` when there is a destination block. -/
theorem decode_index_node (d : Defs) (hd : d.classLabels.Nodup) (fuel : Nat) (s : CVState)
    (p len tb : Nat) (hcls : rd s.typeSeg p = d.CTL_INDEX) (htb : tb ≠ 0) :
    CVProcessTypeRecord d (fuel + 1) s p len tb =
      match CVFetchType d fuel s tb (rdw s.typeSeg (p + 1)) with
      | Except.error e => Except.error e
      | Except.ok (r, s1) => Except.ok ⟨r, p + 1 + 2, s1⟩ := by
  have hne := (classLabels_ne d hd).1
  simp only [CVProcessTypeRecord, hcls, hne, if_false, htb, ne_eq, not_false_eq_true, if_true]

/-- A bitfield node is decoded by the `CTL_BITFIELD` case. -/
theorem decode_bitfield_node (d : Defs) (hd : d.classLabels.Nodup) (fuel : Nat) (s : CVState)
    (p len tb : Nat) (hcls : rd s.typeSeg p = d.CTL_BITFIELD) :
    CVProcessTypeRecord d (fuel + 1) s p len tb = decodeBitfield d s (p + 1) len := by
  have hne := classLabels_ne d hd
  simp only [CVProcessTypeRecord, hcls, hne.2.1, hne.2.2.1, if_false, if_true]

/-- A bitfield node that decodes on one state decodes in the same way on every state
with the same type buffer. -/
theorem decodeBitfield_congr (d : Defs) (s s0 : CVState) (bp len w p1 : Nat)
    (hs : s.typeSeg = s0.typeSeg)
    (h0 : decodeBitfield d s0 bp len = Except.ok ⟨w, p1, s0⟩)
    (hnote : s0.notify Severity.error Msg.bitfieldBase ≠ s0) :
    decodeBitfield d s bp len = Except.ok ⟨w, p1, s⟩ := by
  unfold decodeBitfield at h0 ⊢
  rw [hs]
  cases h1 : CVGetInteger d s0.typeSeg bp with
  | error e => simp [h1] at h0
  | ok r1 =>
    obtain ⟨length, bp1⟩ := r1
    simp only [h1] at h0 ⊢
    split at h0
    · simp only [Except.ok.injEq, Res.mk.injEq] at h0
      exact absurd h0.2.2 hnote
    · rename_i hb
      simp only [hb, if_false]
      cases h2 : CVGetInteger d s0.typeSeg (bp1 + 1) with
      | error e => simp [h2] at h0
      | ok r2 =>
        obtain ⟨offset, bp2⟩ := r2
        simp only [h2, Except.ok.injEq, Res.mk.injEq] at h0 ⊢
        exact ⟨h0.1, h0.2.1, trivial⟩

theorem notify_ne (s : CVState) (sev : Severity) (m : Msg) : s.notify sev m ≠ s := by
  intro h
  have := congrArg (fun x => x.notes.length) h
  simp [CVState.notify] at this

/-- The predefined index 1 decodes to the bare bitfield word. -/
theorem fetch_index_one (d : Defs) (fuel : Nat) (s : CVState) (tb : Nat)
    (h1 : 1 ≤ d.CST_LAST_PREDEF) (h2 : 1 &&& d.CST_SPECIAL = 0) :
    CVFetchType d (fuel + 1) s tb 1 = Except.ok (d.OTYPE_BITFIELD ||| d.OTYPE_SPECIAL, s) := by
  simp [CVFetchType, h1, h2]

/-- A predefined special index in direct mode is decoded by the direct branch. -/
theorem fetch_direct_eq (d : Defs) (fuel : Nat) (s : CVState) (tb index : Nat)
    (hpre : index ≤ d.CST_LAST_PREDEF) (hsp : index &&& d.CST_SPECIAL ≠ 0)
    (hdir : index &&& d.CST_MODE = d.CSTM_DIRECT) :
    CVFetchType d (fuel + 1) s tb index = Except.ok (fetchDirect d s index) := by
  simp [CVFetchType, hpre, hsp, hdir]

/-- The direct branch for the signed kind with a size that is not reserved. -/
theorem fetchDirect_signed (d : Defs) (s : CVState) (index sz : Nat)
    (ht : index &&& d.CST_TYPE = d.CSTT_SIGNED)
    (hsz : ([1, 2, 4, 0xffff] : List Nat).getD (index &&& d.CST_SIZE) 0xffff = sz)
    (hne : sz ≠ 0xffff) :
    fetchDirect d s index = (d.OTYPE_SIGNED ||| d.OTYPE_SPECIAL ||| (sz <<< 1), s) := by
  unfold fetchDirect
  simp only [ht, if_true, sizes, List.getD_cons_zero, hsz, hne, if_false]

theorem geos_placeholder_field (s : CVState) (p : Nat)
    (hs : s.typeSeg = bitfieldState.typeSeg)
    (hc : rd bitfieldState.typeSeg p = geos.CTL_INDEX) (hi : rdw bitfieldState.typeSeg (p + 1) = 1) :
    CVProcessTypeRecord geos 2 s p (rdw s.typeSeg (p + 1)) 2 = Except.ok ⟨0x8001, p + 3, s⟩ := by
  rw [decode_index_node geos (by decide) 1 s p _ 2 (by rw [hs]; exact hc) (by decide), hs, hi,
    fetch_index_one geos 0 s 2 (by decide) (by decide)]
  rfl

theorem geos_int_field (s : CVState) (p : Nat)
    (hs : s.typeSeg = bitfieldState.typeSeg)
    (hc : rd bitfieldState.typeSeg p = geos.CTL_INDEX)
    (hi : rdw bitfieldState.typeSeg (p + 1) = 0x81) :
    CVProcessTypeRecord geos 2 s p (rdw s.typeSeg (p + 1)) 2 = Except.ok ⟨0x2005, p + 3, s⟩ := by
  rw [decode_index_node geos (by decide) 1 s p _ 2 (by rw [hs]; exact hc) (by decide), hs, hi,
    fetch_direct_eq geos 0 s 2 0x81 (by decide) (by decide) (by decide),
    fetchDirect_signed geos s 0x81 2 (by decide) (by decide) (by decide)]
  rfl

theorem geos_bitfield_record (s : CVState) (q w q1 : Nat)
    (hs : s.typeSeg = bitfieldState.typeSeg)
    (hc : rd bitfieldState.typeSeg (q + 3) = geos.CTL_BITFIELD)
    (h0 : decodeBitfield geos bitfieldState (q + 3 + 1) (rdw bitfieldState.typeSeg (q + 1)) =
      Except.ok ⟨w, q1, bitfieldState⟩) :
    rd s.typeSeg (q + 3) = geos.CTL_BITFIELD ∧
      ∃ s1, CVProcessTypeRecord geos 2 s (q + 3) (rdw s.typeSeg (q + 1)) 2 =
        Except.ok ⟨w, q1, s1⟩ ∧ s1.typeSeg = bitfieldState.typeSeg := by
  refine ⟨by rw [hs]; exact hc, s, ?_, hs⟩
  rw [decode_bitfield_node geos (by decide) 1 s (q + 3) _ 2 (by rw [hs]; exact hc), hs]
  exact decodeBitfield_congr geos s bitfieldState _ _ w q1 hs h0 (notify_ne _ _ _)

theorem rd_lt (seg : List Nat) (p : Nat) : rd seg p < 256 := Nat.mod_lt _ (by decide)

theorem rdw_lt (seg : List Nat) (p : Nat) : rdw seg p < 65536 := by
  unfold rdw
  have h1 := rd_lt seg p
  have h2 := rd_lt seg (p + 1)
  apply Nat.or_lt_two_pow (n := 16)
  · omega
  · rw [Nat.shiftLeft_eq]; omega

theorem w16_rdw (seg : List Nat) (p : Nat) : w16 (rdw seg p) = rdw seg p :=
  Nat.mod_eq_of_lt (rdw_lt seg p)

theorem lor_land_self (a b : Nat) : (a ||| b) &&& b = b := by
  apply Nat.eq_of_testBit_eq
  intro i
  simp only [Nat.testBit_land, Nat.testBit_lor]
  cases a.testBit i <;> cases b.testBit i <;> rfl

/-- A type index above the predefined range is decoded from its record. -/
theorem fetch_record (d : Defs) (fuel : Nat) (s : CVState) (tb index bp len : Nat)
    (hidx : d.CST_LAST_PREDEF < index) (hw : w16 index = index)
    (hloc : CVLocateType d s.typeSeg index = Except.ok (some (bp, len))) :
    CVFetchType d (fuel + 1) s tb index =
      match CVProcessTypeRecord d fuel s bp len tb with
      | Except.error e => Except.error e
      | Except.ok r => Except.ok (r.ret, r.st) := by
  have h : ¬ index ≤ d.CST_LAST_PREDEF := by omega
  simp only [CVFetchType, h, if_false, hw, hloc]

/-- A pointer node is decoded by the `CTL_POINTER` case. -/
theorem decode_pointer_node (d : Defs) (hd : d.classLabels.Nodup) (fuel : Nat) (s : CVState)
    (p len tb : Nat) (hcls : rd s.typeSeg p = d.CTL_POINTER) :
    CVProcessTypeRecord d (fuel + 1) s p len tb =
      decodePointer d (CVProcessTypeRecord d fuel) s (p + 1) len tb := by
  simp only [Defs.classLabels, List.nodup_cons, List.mem_cons, List.mem_singleton, not_or,
    List.not_mem_nil, not_false_eq_true, List.nodup_nil, and_true] at hd
  simp only [CVProcessTypeRecord, hcls]
  simp [hd, Ne.symm, eq_comm]

/-- A structure node is decoded by `CVProcessStructure`. -/
theorem decode_structure_node (d : Defs) (hd : d.classLabels.Nodup) (fuel : Nat) (s : CVState)
    (p len tb : Nat) (hcls : rd s.typeSeg p = d.CTL_STRUCTURE) :
    CVProcessTypeRecord d (fuel + 1) s p len tb =
      CVProcessStructure d (CVProcessTypeRecord d fuel) s (p + 1) (w16 (len + 65535)) tb := by
  simp only [Defs.classLabels, List.nodup_cons, List.mem_cons, List.mem_singleton, not_or,
    List.not_mem_nil, not_false_eq_true, List.nodup_nil, and_true] at hd
  simp only [CVProcessTypeRecord, hcls]
  simp [hd, Ne.symm, eq_comm]

theorem block_setBlock_ne (st : CVState) (h k : Nat) (b : VMBlock) (hk : k ≠ h) :
    (st.setBlock h b).block k = st.block k := by
  unfold CVState.setBlock CVState.block
  by_cases h0 : h = 0
  · simp [h0]
  · by_cases k0 : k = 0
    · simp [k0]
    · have : h - 1 ≠ k - 1 := by omega
      simp [h0, k0, List.getD_eq_getElem?_getD, List.getElem?_set_ne this]

theorem block_VMFree_ne (st : CVState) (h k : Nat) (hk : k ≠ h) :
    (VMFree st h).block k = st.block k := by
  unfold VMFree CVState.block
  by_cases h0 : h = 0
  · simp [h0]
  · by_cases k0 : k = 0
    · simp [k0]
    · have : h - 1 ≠ k - 1 := by omega
      simp [h0, k0, List.getD_eq_getElem?_getD, List.getElem?_set_ne this]

/-- `CVFinishStructuredType` on a symbol block `tsym` whose types are in block `t0`,
with a destination block `tb` different from the temporary blocks. -/
theorem CVFinishStructuredType_full (d : Defs) (st : CVState)
    (dataBase len osIdx tsym ttype tb t0 : Nat) (ents : List ObjSym) (entsT : List ObjType)
    (hlen : 4 ≤ len) (hb : st.block tsym = VMBlock.syms t0 ents)
    (htb : st.block tb = VMBlock.types entsT) (h1 : tb ≠ tsym) (h2 : tb ≠ ttype) :
    ∃ st1, CVFinishStructuredType d st dataBase len osIdx tsym ttype tb =
        Except.ok (w16 (d.szObjTypeHeader + entsT.length * d.szObjType), st1) ∧
      st1.globals = st.globals ++ [⟨ents, st.typesOf t0⟩] ∧
      st1.typeSeg = writeID d st.typeSeg dataBase (ents.getD osIdx {}).name ∧
      st1.typesOf tb = entsT ++ [d.OTYPE_ID_TO_STRUCT (ents.getD osIdx {}).name] := by
  have hl : ¬ len < 4 := by omega
  obtain ⟨t0', tlt⟩ := block_types_inv st tb entsT htb
  have hb1 : ∀ seg, CVState.block { st with typeSeg := seg } tsym = VMBlock.syms t0 ents := by
    intro seg; simpa [CVState.block] using hb
  have hn : (st.symAt tsym osIdx).name = (ents.getD osIdx {}).name := by
    simp [CVState.symAt, CVState.symsOf, hb]
  simp only [CVFinishStructuredType, hl, if_false, hn]
  have hE : Obj_EnterTypeSyms
      { st with typeSeg := writeID d st.typeSeg dataBase (ents.getD osIdx {}).name } tsym =
      { st with typeSeg := writeID d st.typeSeg dataBase (ents.getD osIdx {}).name,
                globals := st.globals ++ [⟨ents, st.typesOf t0⟩] } := by
    unfold Obj_EnterTypeSyms
    rw [hb1]
    rfl
  rw [hE]
  generalize hS3 : VMFree (VMFree
    { st with typeSeg := writeID d st.typeSeg dataBase (ents.getD osIdx {}).name,
              globals := st.globals ++ [⟨ents, st.typesOf t0⟩] } ttype) tsym = S3
  have hS3b : S3.block tb = VMBlock.types entsT := by
    subst hS3
    rw [block_VMFree_ne _ _ _ h1, block_VMFree_ne _ _ _ h2]
    exact htb
  have hS3g : S3.globals = st.globals ++ [⟨ents, st.typesOf t0⟩] := by
    subst hS3
    simp
  have hS3s : S3.typeSeg = writeID d st.typeSeg dataBase (ents.getD osIdx {}).name := by
    subst hS3
    simp
  obtain ⟨_, hlt3⟩ := block_types_inv S3 tb entsT hS3b
  rw [allocTypeWith_types d S3 tb entsT _ hS3b]
  refine ⟨_, rfl, ?_, ?_, typesOf_setBlock_same _ _ _ t0' hlt3⟩
  · simpa using hS3g
  · simpa using hS3s

theorem rd_wr_ne (seg : List Nat) (i j v : Nat) (h : i ≠ j) : rd (wr seg i v) j = rd seg j := by
  simp [rd, wr, List.getD_eq_getElem?_getD, List.getElem?_set_ne h]

theorem rd_wr_same (seg : List Nat) (i v : Nat) (h : i < seg.length) :
    rd (wr seg i v) i = v % 256 := by
  simp [rd, wr, List.getD_eq_getElem?_getD, List.getElem?_set, h]

/-- After the rewrite of a record to the resolved-id form its class byte is `CTL_ID`. -/
theorem rd_writeID (d : Defs) (seg : List Nat) (sb name : Nat) (hsb : sb < seg.length)
    (hid : d.CTL_ID < 256) : rd (writeID d seg (sb + 1) name) sb = d.CTL_ID := by
  unfold writeID
  simp only [Nat.le_add_left, if_true, Nat.add_sub_cancel]
  rw [rd_wr_ne _ _ _ _ (by omega), rd_wr_ne _ _ _ _ (by omega), rd_wr_ne _ _ _ _ (by omega),
    rd_wr_ne _ _ _ _ (by omega), rd_wr_same _ _ _ hsb, Nat.mod_eq_of_lt hid]

theorem writeID_idem (d : Defs) (seg : List Nat) (p name : Nat) :
    writeID d (writeID d seg p name) p name = writeID d seg p name := by
  apply List.ext_getElem?
  intro i
  unfold writeID wr
  by_cases hp : 1 ≤ p
  · simp only [hp, if_true, List.getElem?_set]
    simp only [List.length_set]
    split_ifs <;> rfl
  · simp only [hp, if_false, List.getElem?_set]
    simp only [List.length_set]
    split_ifs <;> rfl

/-- For a supported kind and a size that is not reserved the direct branch reports
nothing, and its word does not depend on the state. -/
theorem fetchDirect_plain (d : Defs) (s s0 : CVState) (idx : Nat)
    (hk : idx &&& d.CST_TYPE ∈ d.kindLabels)
    (hn : (fetchDirect d s0 idx).2.notes = s0.notes) :
    fetchDirect d s idx = ((fetchDirect d s0 idx).1, s) := by
  simp only [Defs.kindLabels, List.mem_cons, List.mem_singleton, List.not_mem_nil, or_false] at hk
  have hK : ∃ kw row, ∀ st : CVState,
      (if idx &&& d.CST_TYPE = d.CSTT_SIGNED then (d.OTYPE_SIGNED ||| d.OTYPE_SPECIAL, 0, st)
      else if idx &&& d.CST_TYPE = d.CSTT_UNSIGNED then (d.OTYPE_INT ||| d.OTYPE_SPECIAL, 0, st)
      else if idx &&& d.CST_TYPE = d.CSTT_REAL then (d.OTYPE_FLOAT ||| d.OTYPE_SPECIAL, 1, st)
      else if idx &&& d.CST_TYPE = d.CSTT_COMPLEX then (d.OTYPE_COMPLEX ||| d.OTYPE_SPECIAL, 2, st)
      else if idx &&& d.CST_TYPE = d.CSTT_BOOLEAN then (d.OTYPE_INT ||| d.OTYPE_SPECIAL, 0, st)
      else if idx &&& d.CST_TYPE = d.CSTT_ASCII then (d.OTYPE_CHAR ||| d.OTYPE_SPECIAL, 0, st)
      else if idx &&& d.CST_TYPE = d.CSTT_CURRENCY then
        (d.OTYPE_CURRENCY ||| d.OTYPE_SPECIAL, 3, st)
      else (d.OTYPE_VOID ||| d.OTYPE_SPECIAL, 0,
        st.notify Severity.error (Msg.unsupportedSpecialType (idx &&& d.CST_TYPE)))) =
      ((kw, row, st) : Nat × Nat × CVState) := by
    by_cases h1 : idx &&& d.CST_TYPE = d.CSTT_SIGNED
    · exact ⟨_, _, fun st => by rw [if_pos h1]⟩
    by_cases h2 : idx &&& d.CST_TYPE = d.CSTT_UNSIGNED
    · exact ⟨_, _, fun st => by rw [if_neg h1, if_pos h2]⟩
    by_cases h3 : idx &&& d.CST_TYPE = d.CSTT_REAL
    · exact ⟨_, _, fun st => by rw [if_neg h1, if_neg h2, if_pos h3]⟩
    by_cases h4 : idx &&& d.CST_TYPE = d.CSTT_COMPLEX
    · exact ⟨_, _, fun st => by rw [if_neg h1, if_neg h2, if_neg h3, if_pos h4]⟩
    by_cases h5 : idx &&& d.CST_TYPE = d.CSTT_BOOLEAN
    · exact ⟨_, _, fun st => by rw [if_neg h1, if_neg h2, if_neg h3, if_neg h4, if_pos h5]⟩
    by_cases h6 : idx &&& d.CST_TYPE = d.CSTT_ASCII
    · exact ⟨_, _, fun st => by
        rw [if_neg h1, if_neg h2, if_neg h3, if_neg h4, if_neg h5, if_pos h6]⟩
    by_cases h7 : idx &&& d.CST_TYPE = d.CSTT_CURRENCY
    · exact ⟨_, _, fun st => by
        rw [if_neg h1, if_neg h2, if_neg h3, if_neg h4, if_neg h5, if_neg h6, if_pos h7]⟩
    exact absurd hk (by simp [h1, h2, h3, h4, h5, h6, h7])
  obtain ⟨kw, row, hK⟩ := hK
  unfold fetchDirect at hn ⊢
  dsimp only at hn ⊢
  rw [hK s0] at hn
  rw [hK s, hK s0]
  dsimp only at hn ⊢
  by_cases hsz : (sizes.getD row []).getD (idx &&& d.CST_SIZE) 0xffff = 0xffff
  · rw [if_pos hsz] at hn
    have := congrArg List.length hn
    simp [CVState.notify] at this
  · rw [if_neg hsz, if_neg hsz]

/-- A plain field is decoded to its word with no change of state. -/
theorem plain_field_decode (d : Defs) (hd : d.classLabels.Nodup) (s : CVState)
    (ttb p len : Nat) (h0 : ttb ≠ 0) (hf : plainField d s.typeSeg p = true) (fuel : Nat) :
    CVProcessTypeRecord d (fuel + 2) s p len ttb =
      Except.ok ⟨plainWord d (rdw s.typeSeg (p + 1)), p + 1 + 2, s⟩ := by
  simp only [plainField, Bool.and_eq_true, decide_eq_true_eq] at hf
  obtain ⟨⟨⟨⟨⟨⟨hc, hi⟩, hs⟩, hm⟩, hk⟩, hn⟩, _⟩ := hf
  rw [decode_index_node d hd (fuel + 1) s p len ttb hc h0,
    fetch_direct_eq d fuel s ttb _ hi hs hm,
    fetchDirect_plain d s ⟨[], [], [], [], [], 0⟩ _ hk hn]
  rfl

theorem CVLocateList_some (d : Defs) (st st2 : CVState) (bp l : Nat) (tl : ListLoc)
    (h : CVLocateList d st bp l = Except.ok (some tl, st2)) : st2 = st := by
  unfold CVLocateList at h
  split at h
  · cases h; rfl
  · split at h
    · split at h
      · cases h
      · cases h
      · cases h; rfl
    · cases h

theorem structName_frame (d : Defs) (st3 st4 : CVState) (dataBase len bp : Nat)
    (r : Nat × Nat) (fl : Nat)
    (h : structName d st3 dataBase len bp = Except.ok (r, fl, st4)) :
    st4.vm = st3.vm ∧ st4.typeSeg = st3.typeSeg ∧ st4.globals = st3.globals := by
  unfold structName at h
  dsimp only at h
  split_ifs at h
  · split at h
    · cases h
    · cases h; exact ⟨rfl, rfl, rfl⟩
  · cases h; exact ⟨rfl, rfl, rfl⟩

/-- What a successful first part of `CVProcessStructure` leaves: two new blocks, empty,
after the existing ones, and the record rewritten to the resolved-id form. -/
theorem structHeader_spec (d : Defs) (st s5 : CVState) (dataBase len : Nat) (h : StructHdr)
    (hh : structHeader d st dataBase len = Except.ok (some h, s5)) :
    h.ttypeBlock = st.vm.length + 1 ∧ h.tsymBlock = st.vm.length + 2 ∧
      h.st.vm = st.vm ++ [VMBlock.types [], VMBlock.syms (st.vm.length + 1) []] ∧
      h.st.typeSeg = writeID d st.typeSeg dataBase h.ssymName ∧
      h.st.globals = st.globals := by
  unfold structHeader at hh
  simp only [CVAllocSymAndTypeBlocks, VMAlloc] at hh
  split at hh
  · cases hh
  split at hh
  · cases hh
  split at hh
  · cases hh
  · cases hh
  rename_i tl st2 hl1
  have e2 := CVLocateList_some _ _ _ _ _ _ hl1
  subst e2
  split at hh
  · cases hh
  · cases hh
  rename_i nl st3 hl2
  have e3 := CVLocateList_some _ _ _ _ _ _ hl2
  subst e3
  split at hh
  · cases hh
  rename_i nm bp fl st4 hn
  obtain ⟨f1, f2, f3⟩ := structName_frame _ _ _ _ _ _ _ _ hn
  split at hh
  · cases hh
  · cases hh
    simp [f1, f2, f3]

theorem getD_append_fst {α : Type} (l : List α) (a b x : α) :
    (l ++ [a, b]).getD l.length x = a := by
  induction l with
  | nil => rfl
  | cons c l ih => simpa using ih

theorem getD_append_snd {α : Type} (l : List α) (a b x : α) :
    (l ++ [a, b]).getD (l.length + 1) x = b := by
  induction l with
  | nil => rfl
  | cons c l ih => simpa using ih

theorem geos_offsets_plain (k : Nat) :
    w16 (geos.szObjTypeHeader + k * geos.szObjType) &&& geos.OTYPE_SPECIAL = 0 := by
  show (2 + k * 4) % 65536 &&& 1 = 0
  rw [Nat.and_one_is_mod]
  omega

/-- C11: on `badNameBuffer`, whose second field name is not a string leaf,
`CVProcessStructure` reports the error but does not abandon the structure: the loop
over the names stops, the aggregate is registered with the one field symbol made so
far (its `last` link and the `next` link of that field pointing at offset 40, where no
symbol was allocated), the record is rewritten to the resolved-id form, and the decode
returns the offset 2 of a new descriptor, not `OTYPE_VOID | OTYPE_SPECIAL`. -/
theorem bad_field_name_still_registers :
    CVProcessTypeRecord geos 3 (initState badNameBuffer) 3 12 1 =
      Except.ok ⟨2, 15,
        ⟨writeID geos badNameBuffer 4 742,
          [VMBlock.types [⟨742, 0⟩], VMBlock.free, VMBlock.free],
          [⟨[{ name := 742, type := geos.OSYM_STRUCT, sType_size := 4, sType_first := 24,
               sType_last := 40 },
             { name := 706, type := geos.OSYM_FIELD, sField_next := 40, sField_type := 0x2005 }],
            []⟩],
          [], [⟨Severity.error, Msg.fieldNameNotString⟩], 0⟩⟩ ∧
      (2 : Nat) ≠ geos.voidType := by
  decide!

theorem CVLocateList_bad (d : Defs) (st : CVState) (p l : Nat)
    (h : badListRef d st.typeSeg p) :
    ∃ m, CVLocateList d st p l = Except.ok (none, st.notify Severity.error m) := by
  obtain ⟨h1, h2⟩ := h
  unfold CVLocateList
  rw [if_neg h1]
  by_cases hi : rd st.typeSeg p = d.CTL_INDEX
  · rcases h2 with h2 | h2
    · exact absurd hi h2
    · rw [if_pos hi, h2]
      exact ⟨_, rfl⟩
  · rw [if_neg hi]
    exact ⟨_, rfl⟩

/-- When the reference to the field-type list, or the reference to the name/offset
list after a good field-type list, is illegal (class byte neither `CTL_LIST` nor
`CTL_INDEX`, or a `CTL_INDEX` for which `CVLocateType` returns `NULL`),
`CVLocateList` gives the `FALSE` result with one error diagnostic, and
`CVProcessStructure` with a real destination block returns `OTYPE_VOID | OTYPE_SPECIAL`
with the caller's cursor advanced by the record length, the type buffer unchanged (no
rewrite to the resolved-id form), nothing registered, and that one error reported. -/
theorem bad_list_gives_void (d : Defs) (rec_ : Decoder) (st : CVState) (bp0 len tb : Nat)
    (sz nf bp1 bp2 : Nat)
    (htb : tb ≠ 0)
    (h1 : CVGetInteger d st.typeSeg bp0 = Except.ok (sz, bp1))
    (h2 : CVGetInteger d st.typeSeg bp1 = Except.ok (nf, bp2))
    (hbad : badListRef d st.typeSeg bp2 ∨
      ∃ tl, CVLocateList d (CVAllocSymAndTypeBlocks st).2.2 bp2 d.uninitWord =
          Except.ok (some tl, (CVAllocSymAndTypeBlocks st).2.2) ∧
        badListRef d st.typeSeg tl.bp) :
    (∀ p l, badListRef d st.typeSeg p →
      ∃ m, CVLocateList d st p l = Except.ok (none, st.notify Severity.error m)) ∧
    ∃ r m, CVProcessStructure d rec_ st bp0 len tb = Except.ok r ∧
      r.ret = d.OTYPE_VOID ||| d.OTYPE_SPECIAL ∧ r.bp = bp0 + len ∧
      r.st.typeSeg = st.typeSeg ∧ r.st.globals = st.globals ∧
      r.st.notes = st.notes ++ [⟨Severity.error, m⟩] := by
  refine ⟨fun p l h => CVLocateList_bad d st p l h, ?_⟩
  have hseg : (CVAllocSymAndTypeBlocks st).2.2.typeSeg = st.typeSeg := rfl
  unfold CVProcessStructure structHeader
  rw [if_neg htb]
  dsimp only
  rw [hseg, h1]
  dsimp only
  rw [h2]
  dsimp only
  rcases hbad with hb | ⟨tl, htl, hb⟩
  · obtain ⟨m, hm⟩ := CVLocateList_bad d (CVAllocSymAndTypeBlocks st).2.2 bp2 d.uninitWord hb
    rw [hm]
    exact ⟨_, m, rfl, rfl, rfl, rfl, rfl, rfl⟩
  · obtain ⟨m, hm⟩ := CVLocateList_bad d (CVAllocSymAndTypeBlocks st).2.2 tl.bp d.uninitWord hb
    rw [htl]
    dsimp only
    rw [hm]
    exact ⟨_, m, rfl, rfl, rfl, rfl, rfl, rfl⟩

theorem bytesAt_succ (seg : List Nat) (p n : Nat) :
    bytesAt seg p (n + 1) = rd seg p :: bytesAt seg (p + 1) n := by
  unfold bytesAt
  rw [List.range_succ_eq_map]
  simp [List.map_map, Function.comp_def, Nat.add_assoc, Nat.add_comm 1]

theorem strncmpEq_iff (seg : List Nat) :
    ∀ (lit : List Nat) (p : Nat), (∀ x ∈ lit, x ≠ 0) →
      (strncmpEq seg lit.length p lit = true ↔ bytesAt seg p lit.length = lit) := by
  intro lit
  induction lit with
  | nil => intro p _; simp [strncmpEq, bytesAt]
  | cons a l ih =>
    intro p hz
    have ha : a ≠ 0 := hz a (List.mem_cons_self _ _)
    have hl : ∀ x ∈ l, x ≠ 0 := fun x hx => hz x (List.mem_cons_of_mem _ hx)
    rw [List.length_cons, bytesAt_succ]
    unfold strncmpEq
    by_cases h : rd seg p = a
    · have h0 : ¬ rd seg p = 0 := by rw [h]; exact ha
      simp only [List.headD_cons, h, ne_eq, not_true_eq_false, if_false, ha, List.tail_cons,
        List.cons.injEq, true_and]
      exact ih (p + 1) hl
    · simp [h]

theorem lockedName_ne_zero (e : SymDefs) (name : Nat) : ∀ x ∈ lockedName e name, x ≠ 0 := by
  intro x hx
  have := List.mem_takeWhile_imp hx
  simpa using this

theorem bytesAt_length (seg : List Nat) (p n : Nat) : (bytesAt seg p n).length = n := by
  simp [bytesAt]

/-- The conditional of `CVLocatePublic` is the rule `nameMatch`. -/
theorem pubMatch_iff (e : SymDefs) (name : Nat) (data : List Nat) (p : Nat) :
    pubMatch e (lockedName e name) data p = true ↔ nameMatch e (lockedName e name) data p := by
  have hz := lockedName_ne_zero e name
  generalize lockedName e name = ns at hz
  have h1 := strncmpEq_iff data ns (p + 1) hz
  have h2 := strncmpEq_iff data ns (p + 2) hz
  have e1 : entryName data p = ns ↔ rd data p = ns.length ∧ bytesAt data (p + 1) ns.length = ns := by
    unfold entryName
    constructor
    · intro h
      have hl := congrArg List.length h
      rw [bytesAt_length] at hl
      rw [← hl]
      exact ⟨rfl, h⟩
    · rintro ⟨hl, h⟩
      rw [hl]; exact h
  have e2 : entryName data p = 0x5f :: ns ↔
      rd data (p + 1) = 0x5f ∧ rd data p = ns.length + 1 ∧ bytesAt data (p + 2) ns.length = ns := by
    unfold entryName
    constructor
    · intro h
      have hl := congrArg List.length h
      rw [bytesAt_length, List.length_cons] at hl
      rw [hl, bytesAt_succ] at h
      injection h with ha hb
      exact ⟨ha, hl, hb⟩
    · rintro ⟨ha, hl, hb⟩
      rw [hl, bytesAt_succ, ha, hb]
  unfold pubMatch nameMatch
  rw [e2]
  by_cases hr : e.geosRelease ≥ 2
  · rw [if_pos hr, if_pos hr, e1]
    simp only [Bool.or_eq_true, Bool.and_eq_true, decide_eq_true_eq, h1, h2, and_assoc]
  · rw [if_neg hr, if_neg hr]
    simp only [Bool.or_eq_true, Bool.and_eq_true, decide_eq_true_eq, h2, and_assoc]

theorem pubScan_eq (d : Defs) (e : SymDefs) (name : Nat) (ns : List Nat) (srp : MSSaveRec)
    (sd : SegPtr) (hadv : ∀ data bp, bp ≤ e.MSObj_GetIndex data bp) :
    ∀ (k bp : Nat), srp.len ≤ bp + k →
      (∃ r, pubScan d e name ns srp sd (k + 1) bp = Except.ok r ∧
        (r.isSome = true ↔ ∃ p ∈ pubEntries e srp (k + 1) bp, pubMatch e ns srp.data p = true)) := by
  intro k
  induction k with
  | zero =>
    intro bp h
    have hlt : ¬ bp < srp.len := by omega
    exact ⟨none, by simp [pubScan, hlt], by simp [pubEntries, hlt]⟩
  | succ k ih =>
    intro bp h
    by_cases hlt : bp < srp.len
    · by_cases hm : pubMatch e ns srp.data bp = true
      · refine ⟨_, by rw [pubScan, if_pos hlt, if_pos hm], ?_⟩
        simp only [Option.isSome_some, true_iff]
        exact ⟨bp, by rw [pubEntries, if_pos hlt]; exact List.mem_cons_self _ _, hm⟩
      · have hge := hadv srp.data (bp + (rd srp.data bp + 1 + 2))
        obtain ⟨r, hr, hiff⟩ := ih (e.MSObj_GetIndex srp.data (bp + (rd srp.data bp + 1 + 2)))
          (by omega)
        refine ⟨r, by rw [pubScan, if_pos hlt, if_neg hm]; exact hr, ?_⟩
        rw [hiff]
        conv => rhs; rw [pubEntries, if_pos hlt]
        constructor
        · rintro ⟨p, hp, hpm⟩
          exact ⟨p, List.mem_cons_of_mem _ hp, hpm⟩
        · rintro ⟨p, hp, hpm⟩
          rcases List.mem_cons.mp hp with rfl | hp
          · exact absurd hpm hm
          · exact ⟨p, hp, hpm⟩
    · exact ⟨none, by rw [pubScan, if_neg hlt], by simp [pubEntries, hlt]⟩

theorem pubLoop_eq (d : Defs) (e : SymDefs) (name : Nat) (ns : List Nat)
    (hadv : ∀ data bp, bp ≤ e.MSObj_GetIndex data bp) :
    ∀ pubs : List MSSaveRec, ∃ r, pubLoop d e name ns pubs = Except.ok r ∧
      (r.isSome = true ↔
        ∃ srp ∈ pubs, ∃ p ∈ recordEntries e srp, pubMatch e ns srp.data p = true) := by
  intro pubs
  induction pubs with
  | nil => exact ⟨none, rfl, by simp⟩
  | cons srp rest ih =>
    obtain ⟨r, hr, hiff⟩ := pubScan_eq d e name ns srp
      (e.MSObj_GetSegment srp.data (e.MSObj_GetIndex srp.data 0)).1 hadv srp.len
      (e.MSObj_GetSegment srp.data (e.MSObj_GetIndex srp.data 0)).2 (by omega)
    obtain ⟨r2, hr2, hiff2⟩ := ih
    unfold pubLoop
    dsimp only
    rw [hr]
    cases r with
    | some h =>
      refine ⟨some h, rfl, ?_⟩
      simp only [Option.isSome_some, true_iff]
      obtain ⟨p, hp, hpm⟩ := hiff.mp rfl
      exact ⟨srp, List.mem_cons_self _ _, p, hp, hpm⟩
    | none =>
      refine ⟨r2, hr2, ?_⟩
      rw [hiff2]
      constructor
      · rintro ⟨s, hs, p, hp, hpm⟩
        exact ⟨s, List.mem_cons_of_mem _ hs, p, hp, hpm⟩
      · rintro ⟨s, hs, p, hp, hpm⟩
        rcases List.mem_cons.mp hs with rfl | hs
        · have := hiff.mpr ⟨p, hp, hpm⟩
          simp at this
        · exact ⟨s, hs, p, hp, hpm⟩

/-- C13 (counterexample): with `geosRelease` 1 and a case-insensitive `ustrncmp`, the
entry `FOO` matches the requested name `foo`: `CVLocatePublic` returns `TRUE` although
the entry's name is neither the requested name nor that name after an underscore. -/
theorem older_release_matches_other_case :
    CVLocatePublic geos geosSymOld upperFile (geos.ST_Enter [102, 111, 111]) =
        Except.ok (some ⟨some 2, 0x20, true, geos.ST_Enter [70, 79, 79]⟩) ∧
      recordEntries geosSymOld (pubRecord 1 [70, 79, 79] 0x20) = [2] ∧
      entryName (pubRecord 1 [70, 79, 79] 0x20).data 2 = [70, 79, 79] ∧
      lockedName geosSymOld (geos.ST_Enter [102, 111, 111]) = [102, 111, 111] ∧
      ¬ exactOrUnderscore [102, 111, 111] [70, 79, 79] := by
  decide!

/-- C13 (amended): an entry matches in `CVLocatePublic` exactly by the rule `nameMatch`:
from release 2 on when its name is the requested name byte for byte or the requested
name preceded by one underscore, and before release 2 with `ustrncmp` in place of the
exact comparison; `CVLocatePublic` returns, and it returns `TRUE` iff some entry of some
retained record matches.  The index macro is assumed not to move the cursor back. -/
theorem public_match_rule (d : Defs) (e : SymDefs) (f : ObjFile) (name : Nat)
    (hadv : ∀ data bp, bp ≤ e.MSObj_GetIndex data bp) :
    (∀ data p, pubMatch e (lockedName e name) data p = true ↔
      nameMatch e (lockedName e name) data p) ∧
    (e.geosRelease ≥ 2 → ∀ data p, nameMatch e (lockedName e name) data p ↔
      exactOrUnderscore (lockedName e name) (entryName data p)) ∧
    ∃ r, CVLocatePublic d e f name = Except.ok r ∧
      (r.isSome = true ↔
        ∃ srp ∈ f.pubs, ∃ p ∈ recordEntries e srp, nameMatch e (lockedName e name) srp.data p) := by
  refine ⟨fun data p => pubMatch_iff e name data p, ?_, ?_⟩
  · intro hr data p
    unfold nameMatch exactOrUnderscore
    rw [if_pos hr]
  · obtain ⟨r, hr, hiff⟩ := pubLoop_eq d e name (lockedName e name) hadv f.pubs
    refine ⟨r, hr, ?_⟩
    rw [hiff]
    constructor
    · rintro ⟨s, hs, p, hp, hpm⟩
      exact ⟨s, hs, p, hp, (pubMatch_iff e name s.data p).mp hpm⟩
    · rintro ⟨s, hs, p, hp, hpm⟩
      exact ⟨s, hs, p, hp, (pubMatch_iff e name s.data p).mpr hpm⟩

theorem geosSym_index_adv (data : List Nat) (bp : Nat) : bp ≤ geosSym.MSObj_GetIndex data bp := by
  show bp ≤ if rd data bp &&& 0x80 ≠ 0 then bp + 2 else bp + 1
  split <;> omega

/-- Witness for C13 (amended): in the sample environment of release 2 the record with
the entry `__` is found for the requested name `_`, through the underscore rule. -/
theorem public_match_rule_witness :
    (∀ data bp, bp ≤ geosSym.MSObj_GetIndex data bp) ∧
      recordEntries geosSym (pubRecord 1 [95, 95] 0x20) = [2] ∧
      exactOrUnderscore (lockedName geosSym (geos.ST_Enter [95]))
        (entryName (pubRecord 1 [95, 95] 0x20).data 2) ∧
      ∃ r, CVLocatePublic geos geosSym underscoreFile (geos.ST_Enter [95]) = Except.ok r ∧
        (r.isSome = true ↔ ∃ srp ∈ underscoreFile.pubs, ∃ p ∈ recordEntries geosSym srp,
          nameMatch geosSym (lockedName geosSym (geos.ST_Enter [95])) srp.data p) :=
  ⟨geosSym_index_adv, by decide!, by decide!,
    (public_match_rule geos geosSym underscoreFile (geos.ST_Enter [95]) geosSym_index_adv).2.2⟩

/-- C14: for the requested name `_` and the retained entry `__`, which matches through
the underscore rule, `CVLocatePublic` stores the requested id itself as the alias,
although the matched spelling differs from the requested name: the test compares only
the first `strlen(name)` bytes of the entry.  The id of the entry's own spelling is
another one. -/
theorem alias_of_underscore_names :
    CVLocatePublic geos geosSym underscoreFile (geos.ST_Enter [95]) =
        Except.ok (some ⟨some 2, 0x20, true, geos.ST_Enter [95]⟩) ∧
      entryName (pubRecord 1 [95, 95] 0x20).data 2 = [95, 95] ∧
      lockedName geosSym (geos.ST_Enter [95]) = [95] ∧
      geos.ST_Enter [95, 95] ≠ geos.ST_Enter [95] := by
  decide!

theorem fixScan_found (d : Defs) (e : SymDefs) (f : ObjFile) (sdIn : SegPtr)
    (recOffset : Nat) (data : List Nat) (end_ : Nat) (fx : FixupDec) :
    ∀ (k bp : Nat) (th : List Nat),
      (recordFixups e data end_ k bp th).find?
          (fun x => decide (x.fixLoc &&& e.FL_OFFSET = recOffset)) = some fx →
      fixScan d e f sdIn recOffset data end_ k bp th = targetOutcome d e f sdIn data fx := by
  intro k
  induction k with
  | zero => intro bp th h; simp [recordFixups] at h
  | succ k ih =>
    intro bp th h
    by_cases hlt : bp < end_
    · rw [recordFixups, if_pos hlt] at h
      rw [fixScan, if_pos hlt]
      cases hdec : e.MSObj_DecodeFixup th data bp with
      | none => rw [hdec] at h; simp at h
      | some fx0 =>
        rw [hdec] at h
        dsimp only at h ⊢
        by_cases hm : fx0.fixLoc &&& e.FL_OFFSET = recOffset
        · rw [List.find?_cons_of_pos _ (by simpa using hm)] at h
          injection h with h
          subst h
          rw [if_pos hm]
          rfl
        · rw [List.find?_cons_of_neg _ (by simpa using hm)] at h
          rw [if_neg hm]
          exact ih _ _ h
    · rw [recordFixups, if_neg hlt] at h
      simp at h

theorem fixLoop_skip (d : Defs) (e : SymDefs) (f : ObjFile) (fixOff : Nat) (sdIn : SegPtr)
    (l : List MSSaveFixupRec) :
    ∀ pre : List MSSaveFixupRec,
      (∀ r ∈ pre, inRange r fixOff → scanRecord d e f fixOff sdIn r = FixOutcome.notHere) →
      fixLoop d e f fixOff sdIn (pre ++ l) = fixLoop d e f fixOff sdIn l := by
  intro pre
  induction pre with
  | nil => intro _; rfl
  | cons r pre ih =>
    intro h
    have ih' := ih (fun x hx => h x (List.mem_cons_of_mem _ hx))
    rw [List.cons_append]
    conv => lhs; unfold fixLoop
    by_cases hr : r.startOff ≤ fixOff ∧ r.endOff > fixOff
    · have := h r (List.mem_cons_self _ _) hr
      unfold scanRecord at this
      rw [if_pos hr]
      dsimp only
      rw [this]
      exact ih'
    · rw [if_neg hr]
      exact ih'

/-- C16: when the fixup at the requested location is found (`fx`, the first fixup with
that location in the record `sfp` containing the offset, the records before `sfp` having
given nothing): for a segment target `CVLocateFixup` returns `TRUE` with that segment and
the displacement word that follows the fixup, or 0 when the fixup has none; for a group
or absolute target it reports the error and returns `FALSE`; for an external target it
returns what `CVLocatePublic` finds for the external name: `TRUE` with the segment and
offset of the public entry, or `FALSE`. -/
theorem fixup_target_kinds (d : Defs) (e : SymDefs) (f : ObjFile) (s : SymState)
    (fixOff : Nat) (sdIn : SegPtr) (pre rest : List MSSaveFixupRec) (sfp : MSSaveFixupRec)
    (fx : FixupDec)
    (hlab : [e.TFM_SEGMENT, e.TFM_GROUP, e.TFM_ABSOLUTE, e.TFM_EXTERNAL].Nodup)
    (hf : f.fixups = pre ++ sfp :: rest)
    (hpre : ∀ r ∈ pre, inRange r fixOff → scanRecord d e f fixOff sdIn r = FixOutcome.notHere)
    (hin : inRange sfp fixOff)
    (hfx : (fixupsOf e sfp).find?
      (fun x => decide (x.fixLoc &&& e.FL_OFFSET = w16 (fixOff - sfp.startOff))) = some fx) :
    (fx.fixData &&& e.FD_TARGET = e.TFM_SEGMENT →
      CVLocateFixup d e f s fixOff sdIn = Except.ok
        (some (fx.segment,
          if fx.fixData &&& e.FD_NO_TARG_DISP = 0 then rdw sfp.data fx.bp else 0), s)) ∧
    (fx.fixData &&& e.FD_TARGET = e.TFM_GROUP ∨ fx.fixData &&& e.FD_TARGET = e.TFM_ABSOLUTE →
      CVLocateFixup d e f s fixOff sdIn = Except.ok
        (none, s.notify Severity.error (Msg.unsupportedFixupTarget (fx.fixData &&& e.FD_TARGET)))) ∧
    (fx.fixData &&& e.FD_TARGET = e.TFM_EXTERNAL → ∀ h,
      CVLocatePublic d e f fx.external = Except.ok h →
      CVLocateFixup d e f s fixOff sdIn =
        Except.ok (h.map (fun p => (p.sd, p.offset)), s)) := by
  simp only [List.nodup_cons, List.mem_cons, List.mem_singleton, not_or, List.not_mem_nil,
    not_false_eq_true, List.nodup_nil, and_true] at hlab
  obtain ⟨⟨h12, h13, h14⟩, ⟨h23, h24⟩, h34⟩ := hlab
  have hin' : sfp.startOff ≤ fixOff ∧ sfp.endOff > fixOff := hin
  have hnot : ∀ o, targetOutcome d e f sdIn sfp.data fx = o → o ≠ FixOutcome.notHere := by
    intro o ho
    subst ho
    unfold targetOutcome
    dsimp only
    split
    · simp
    · split
      · simp
      · split
        · split <;> simp
        · simp
  have hloop : fixLoop d e f fixOff sdIn f.fixups = targetOutcome d e f sdIn sfp.data fx := by
    rw [hf, fixLoop_skip d e f fixOff sdIn (sfp :: rest) pre hpre]
    unfold fixLoop
    rw [if_pos hin']
    dsimp only
    have := fixScan_found d e f sdIn (w16 (fixOff - sfp.startOff)) sfp.data
      (2 + rdw sfp.data 0 - 1) fx (2 + rdw sfp.data 0) 2 sfp.threads hfx
    rw [this]
    generalize ho : targetOutcome d e f sdIn sfp.data fx = o
    have := hnot o ho
    cases o <;> first | rfl | exact absurd rfl this
  unfold CVLocateFixup
  rw [hloop]
  unfold targetOutcome
  dsimp only
  refine ⟨?_, ?_, ?_⟩
  · intro c1
    rw [if_pos c1]
  · intro c2
    have c1 : ¬ fx.fixData &&& e.FD_TARGET = e.TFM_SEGMENT := by
      rcases c2 with c | c <;> rw [c]
      · exact fun h => h12 h.symm
      · exact fun h => h13 h.symm
    rw [if_neg c1, if_pos c2]
  · intro c3 h hp
    have c1 : ¬ fx.fixData &&& e.FD_TARGET = e.TFM_SEGMENT := by
      rw [c3]; exact fun h => h14 h.symm
    have c2 : ¬ (fx.fixData &&& e.FD_TARGET = e.TFM_GROUP ∨
        fx.fixData &&& e.FD_TARGET = e.TFM_ABSOLUTE) := by
      rw [c3]
      rintro (h | h)
      · exact h24 h.symm
      · exact h34 h.symm
    rw [if_neg c1, if_neg c2, if_pos c3, hp]
    cases h <;> rfl

/-- Witness for C16: the fixup of `fixFile` at offset 10 has a segment target and the
displacement 0x30; that of `externalFile` has an external target, whose public entry is in
segment 3 at offset 0x44. -/
theorem fixup_target_kinds_witness :
    [geosSym.TFM_SEGMENT, geosSym.TFM_GROUP, geosSym.TFM_ABSOLUTE, geosSym.TFM_EXTERNAL].Nodup ∧
      inRange (fixRecord 8 16 2 0 1 0x30) 10 ∧
      (fixupsOf geosSym (fixRecord 8 16 2 0 1 0x30)).find?
          (fun x => decide (x.fixLoc &&& geosSym.FL_OFFSET = w16 (10 - 8))) =
        some ⟨6, 2, 0, some 2, geos.ST_Enter [1], []⟩ ∧
      CVLocateFixup geos geosSym fixFile emptySym 10 none =
        Except.ok (some (some 2, 0x30), emptySym) ∧
      CVLocateFixup geos geosSym externalFile emptySym 10 none =
        Except.ok (some (some 4, 0x44), emptySym) := by
  have hfx : (fixupsOf geosSym (fixRecord 8 16 2 0 1 0x30)).find?
      (fun x => decide (x.fixLoc &&& geosSym.FL_OFFSET = w16 (10 - 8))) =
      some ⟨6, 2, 0, some 2, geos.ST_Enter [1], []⟩ := by decide!
  have h := (fixup_target_kinds geos geosSym fixFile emptySym 10 none [] []
    (fixRecord 8 16 2 0 1 0x30) ⟨6, 2, 0, some 2, geos.ST_Enter [1], []⟩ (by decide) rfl
    (fun r hr => by simp at hr) (by decide) hfx).1 (by decide)
  exact ⟨by decide, by decide, hfx, h, by decide!⟩

theorem CVLocateFixup_segs (d : Defs) (e : SymDefs) (f : ObjFile) (s s1 : SymState)
    (fixOff : Nat) (sdIn : SegPtr) (r : Option (SegPtr × Nat))
    (h : CVLocateFixup d e f s fixOff sdIn = Except.ok (r, s1)) :
    s1 = s ∨ ∃ m, s1 = s.notify Severity.error m := by
  unfold CVLocateFixup at h
  split at h
  · cases h
  · cases h; left; rfl
  · cases h; right; exact ⟨_, rfl⟩
  · cases h; left; rfl

theorem notify_fields (s : SymState) (sev : Severity) (m : Msg) :
    (s.notify sev m).segs = s.segs ∧ (s.notify sev m).scopeTop = s.scopeTop ∧
    (s.notify sev m).scopeStack = s.scopeStack ∧ (s.notify sev m).lastLocal = s.lastLocal ∧
    (s.notify sev m).symBlock = s.symBlock ∧ (s.notify sev m).procSD = s.procSD ∧
    (s.notify sev m).entered = s.entered ∧ (s.notify sev m).blockCount = s.blockCount ∧
    (s.notify sev m).cv.vm = s.cv.vm :=
  ⟨rfl, rfl, rfl, rfl, rfl, rfl, rfl, rfl, rfl⟩

theorem chooseBlock_sel (e : SymDefs) (s : SymState) (sd procSD : SegPtr) (seg : SegDesc)
    (addr : Nat) :
    (chooseBlock e s sd procSD seg addr).1.sd = sd ∧
      (chooseBlock e s sd procSD seg addr).1.addr = addr := by
  unfold chooseBlock
  dsimp only
  split <;> exact ⟨rfl, rfl⟩

/-- C17: `CVDetermineSymbolBlock` fails exactly when the fixup lookup for the offset
field and the public lookup for the name both fail: it returns `FALSE` when both do, it
succeeds when the fixup lookup finds a segment, and whenever it returns `FALSE` both have
failed.  When the fixup lookup fails and the
public lookup finds an entry (in a segment that is not `NULL`), it succeeds with the
segment of the entry and the address `(public offset + nextOff of that segment + the word
stored in the record) mod 2^16`.  For a variable record outside any procedure resolved
that way, whose type decodes leaving the symbol block as it is, the variable symbol
appended to the chosen block carries that address and, when the public record is a real
`PUBDEF`, the flag `OSYM_GLOBAL`. -/
theorem variable_resolved_by_public (d : Defs) (e : SymDefs) (f : ObjFile) (fuel : Nat)
    (s : SymState) (bp : Nat) :
    (∀ name procSD s1, CVLocateFixup d e f s (w16 bp) e.uninitSeg = Except.ok (none, s1) →
      CVLocatePublic d e f name = Except.ok none →
      CVDetermineSymbolBlock d e f s name bp procSD = Except.ok (none, s1)) ∧
    (∀ name procSD s1 i extra,
      CVLocateFixup d e f s (w16 bp) e.uninitSeg = Except.ok (some (some i, extra), s1) →
      ∃ r s2, CVDetermineSymbolBlock d e f s name bp procSD = Except.ok (some r, s2)) ∧
    (∀ name procSD r, CVDetermineSymbolBlock d e f s name bp procSD = Except.ok r →
      (r.1 = none ↔ (∃ s1, CVLocateFixup d e f s (w16 bp) e.uninitSeg = Except.ok (none, s1)) ∧
        CVLocatePublic d e f name = Except.ok none)) ∧
    (∀ name procSD s1 h i,
      CVLocateFixup d e f s (w16 bp) e.uninitSeg = Except.ok (none, s1) →
      CVLocatePublic d e f name = Except.ok (some h) → h.sd = some i →
      ∃ r s2, CVDetermineSymbolBlock d e f s name bp procSD = Except.ok (some r, s2) ∧
        r.sd = h.sd ∧
        r.addr = (h.offset + ((s.segs.getD i {}).nextOff + rdw f.symSeg bp)) % 65536) ∧
    (∀ s1 h i t0 ents t cv2,
      CVLocateFixup d e f s (w16 bp) e.uninitSeg = Except.ok (none, s1) →
      CVLocatePublic d e f (d.ST_Enter (bytesAt f.symSeg (bp + 7) (rd f.symSeg (bp + 6)))) =
        Except.ok (some h) →
      h.sd = some i → h.real = true → s.procSD = none →
      let name := d.ST_Enter (bytesAt f.symSeg (bp + 7) (rd f.symSeg (bp + 6)))
      let addr := (h.offset + ((s.segs.getD i {}).nextOff + rdw f.symSeg bp)) % 65536
      let sel := chooseBlock e s1 h.sd none (s.segs.getD i {}) addr
      sel.2.cv.block sel.1.symBlock = VMBlock.syms t0 ents →
      CVFetchType d fuel (sel.2.cv.setBlock sel.1.symBlock
          (VMBlock.syms t0 (ents ++ [varSymbol e name addr])))
        sel.1.typeBlock (rdw f.symSeg (bp + 4)) = Except.ok (t, cv2) →
      cv2.block sel.1.symBlock = VMBlock.syms t0 (ents ++ [varSymbol e name addr]) →
      ∃ s3, doVariable d e f fuel s bp = Except.ok s3 ∧
        s3.cv.symsOf sel.1.symBlock = ents ++
          [{ varSymbol e name addr with variable_type := t, flags := 0 ||| e.OSYM_GLOBAL }]) := by
  refine ⟨?_, ?_, ?_, ?_, ?_⟩
  · intro name procSD s1 hfix hpub
    unfold CVDetermineSymbolBlock symbolPlace
    rw [hfix]
    dsimp only
    rw [hpub]
  · intro name procSD s1 i extra hfix
    unfold CVDetermineSymbolBlock symbolPlace
    rw [hfix]
    exact ⟨_, _, rfl⟩
  · intro name procSD r hr
    unfold CVDetermineSymbolBlock symbolPlace at hr
    cases hfix : CVLocateFixup d e f s (w16 bp) e.uninitSeg with
    | error err => rw [hfix] at hr; cases hr
    | ok v =>
      obtain ⟨fx, s1⟩ := v
      rw [hfix] at hr
      cases fx with
      | some p =>
        obtain ⟨sd, off⟩ := p
        dsimp only at hr
        cases sd with
        | none => cases hr
        | some i =>
          dsimp only at hr
          cases hr
          simp
      | none =>
        dsimp only at hr
        cases hpub : CVLocatePublic d e f name with
        | error err => rw [hpub] at hr; cases hr
        | ok pr =>
          rw [hpub] at hr
          cases pr with
          | none =>
            dsimp only at hr
            cases hr
            simp
          | some h =>
            dsimp only at hr
            cases hsd : h.sd with
            | none => rw [hsd] at hr; cases hr
            | some i =>
              rw [hsd] at hr
              dsimp only at hr
              cases hr
              simp
  · intro name procSD s1 h i hfix hpub hsd
    have hsegs : s1.segs = s.segs := by
      rcases CVLocateFixup_segs d e f s s1 _ _ _ hfix with h1 | ⟨m, h1⟩
      · rw [h1]
      · rw [h1]; rfl
    obtain ⟨hsd0, off, real, al⟩ := h
    dsimp only at hsd
    subst hsd
    unfold CVDetermineSymbolBlock symbolPlace
    rw [hfix]
    dsimp only
    rw [hpub]
    dsimp only
    rw [hsegs]
    exact ⟨_, _, rfl, (chooseBlock_sel _ _ _ _ _ _).1, (chooseBlock_sel _ _ _ _ _ _).2⟩
  · intro s1 h i t0 ents t cv2 hfix hpub hsd hreal hproc
    obtain ⟨hsd0, off, real, al⟩ := h
    dsimp only at hsd hreal
    subst hsd
    subst hreal
    intro name addr sel hblk hdec hkeep
    have hsegs : s1.segs = s.segs := by
      rcases CVLocateFixup_segs d e f s s1 _ _ _ hfix with h1 | ⟨m, h1⟩
      · rw [h1]
      · rw [h1]; rfl
    obtain ⟨b0, blt⟩ := block_inv sel.2.cv sel.1.symBlock (by rw [hblk]; simp)
    obtain ⟨_, blt2⟩ := block_inv cv2 sel.1.symBlock (by rw [hkeep]; simp)
    have hdsb : CVDetermineSymbolBlock d e f s name bp s.procSD = Except.ok (some sel.1, sel.2) := by
      unfold CVDetermineSymbolBlock symbolPlace
      rw [hfix]
      dsimp only
      rw [hpub]
      dsimp only
      rw [hproc, hsegs]
      rfl
    have hsel : sel.1.sd = some i := (chooseBlock_sel _ _ _ _ _ _).1
    have hadr : sel.1.addr = addr := (chooseBlock_sel _ _ _ _ _ _).2
    have halloc := CVAllocSymLocked_syms d sel.2.cv sel.1.symBlock t0 ents hblk
    unfold doVariable
    dsimp only
    rw [hdsb]
    dsimp only
    rw [halloc]
    dsimp only
    rw [modifySym_setBlock _ _ _ _ _ _ b0 blt]
    have hlist : (ents ++ [({} : ObjSym)]).set ents.length
        { ((ents ++ [({} : ObjSym)]).getD ents.length {}) with
          type := e.OSYM_VAR, name := name, flags := 0, variable_address := sel.1.addr } =
        ents ++ [varSymbol e name addr] := by
      rw [hadr]
      simp [varSymbol, List.getD_eq_getElem?_getD]
    rw [hlist, hdec]
    dsimp only
    rw [hpub]
    dsimp only
    rw [hsel]
    simp only [segAt]
    rw [hproc]
    simp only [if_true]
    refine ⟨_, rfl, ?_⟩
    unfold variableGlobal
    simp only [if_true]
    have hcv2 := setBlock_self cv2 sel.1.symBlock _ hkeep
    rw [← hcv2]
    rw [modifySym_setBlock _ _ _ _ _ _ b0 blt2]
    split
    · simp only [CVState.symsOf]
      rw [modifySym_setBlock _ _ _ _ _ _ b0 blt2, block_setBlock_same _ _ _ b0 blt2]
      simp [varSymbol, List.getD_eq_getElem?_getD]
    · simp only [CVState.symsOf]
      rw [modifySym_setBlock _ _ _ _ _ _ b0 blt2, block_setBlock_same _ _ _ b0 blt2]
      simp [varSymbol, List.getD_eq_getElem?_getD]

/-- Witness for C17: the variable `v` of `varFile` has no fixup and a real public entry;
it is placed in segment 2 at address `0x200 + 0x100 + 0x10` and flagged global. -/
theorem variable_resolved_by_public_witness :
    CVLocateFixup geos geosSym varFile varState (w16 2) geosSym.uninitSeg =
        Except.ok (none, varState) ∧
      CVLocatePublic geos geosSym varFile (geos.ST_Enter [118]) =
        Except.ok (some ⟨some 2, 0x200, true, geos.ST_Enter [118]⟩) ∧
      (∃ s3, doVariable geos geosSym varFile 2 varState 2 = Except.ok s3 ∧
        s3.cv.symsOf 2 =
          [{ type := geosSym.OSYM_VAR, name := geos.ST_Enter [118],
             flags := geosSym.OSYM_GLOBAL, variable_address := 0x310,
             variable_type := 0x2005 }]) ∧
      (symStep geos geosSym varFile 2 varState).toOption.map (fun s => s.entered) =
        some [⟨9, geos.ST_Enter [118], 2, 8⟩] := by
  have hfix : CVLocateFixup geos geosSym varFile varState (w16 2) geosSym.uninitSeg =
      Except.ok (none, varState) := by decide!
  have hpub : CVLocatePublic geos geosSym varFile (geos.ST_Enter [118]) =
      Except.ok (some ⟨some 2, 0x200, true, geos.ST_Enter [118]⟩) := by decide!
  refine ⟨hfix, hpub, ?_, by decide!⟩
  exact (variable_resolved_by_public geos geosSym varFile 2 varState 2).2.2.2.2 varState
    ⟨some 2, 0x200, true, geos.ST_Enter [118]⟩ 2 1 [] 0x2005
    ((chooseBlock geosSym varState (some 2) none (dataSegs.getD 2 {}) 0x310).2.cv.setBlock 2
      (VMBlock.syms 1 [varSymbol geosSym (geos.ST_Enter [118]) 0x310]))
    hfix hpub rfl rfl rfl (by decide!) (by decide!) (by decide!)

theorem CVLocateFixup_top (d : Defs) (e : SymDefs) (f : ObjFile) (s s1 : SymState)
    (fixOff : Nat) (sdIn : SegPtr) (r : Option (SegPtr × Nat))
    (h : CVLocateFixup d e f s fixOff sdIn = Except.ok (r, s1)) :
    s1.scopeTop = s.scopeTop := by
  rcases CVLocateFixup_segs d e f s s1 _ _ _ h with h1 | ⟨m, h1⟩
  · rw [h1]
  · rw [h1]; rfl

theorem setSeg_top (s : SymState) (p : SegPtr) (g : SegDesc → SegDesc) :
    (setSeg s p g).scopeTop = s.scopeTop := by
  unfold setSeg
  split <;> rfl

theorem chooseBlock_top (e : SymDefs) (s : SymState) (sd procSD : SegPtr) (seg : SegDesc)
    (addr : Nat) : (chooseBlock e s sd procSD seg addr).2.scopeTop = s.scopeTop := by
  unfold chooseBlock
  dsimp only
  split
  · rfl
  · split
    · split
      · simp only [setSeg_top]
      · simp only [setSeg_top]
    · simp only [setSeg_top]

theorem CVDetermineSymbolBlock_top (d : Defs) (e : SymDefs) (f : ObjFile) (s s1 : SymState)
    (name bp : Nat) (procSD : SegPtr) (r : Option SymBlockSel)
    (h : CVDetermineSymbolBlock d e f s name bp procSD = Except.ok (r, s1)) :
    s1.scopeTop = s.scopeTop := by
  unfold CVDetermineSymbolBlock symbolPlace at h
  cases hfix : CVLocateFixup d e f s (w16 bp) e.uninitSeg with
  | error err => rw [hfix] at h; cases h
  | ok v =>
    obtain ⟨fx, s0⟩ := v
    have ht := CVLocateFixup_top d e f s s0 _ _ _ hfix
    rw [hfix] at h
    cases fx with
    | some p =>
      obtain ⟨sd, off⟩ := p
      dsimp only at h
      cases sd with
      | none => cases h
      | some i =>
        dsimp only at h
        cases h
        rw [chooseBlock_top, ht]
    | none =>
      dsimp only at h
      cases hpub : CVLocatePublic d e f name with
      | error err => rw [hpub] at h; cases h
      | ok pr =>
        rw [hpub] at h
        cases pr with
        | none =>
          dsimp only at h
          cases h
          exact ht
        | some hh =>
          dsimp only at h
          cases hsd : hh.sd with
          | none => rw [hsd] at h; cases h
          | some i =>
            rw [hsd] at h
            dsimp only at h
            cases h
            rw [chooseBlock_top, ht]

theorem stackWr_top (s s1 : SymState) (i : Int) (v : Nat) (h : stackWr s i v = Except.ok s1) :
    s1.scopeTop = s.scopeTop ∧ 0 ≤ i ∧ i < 32 := by
  unfold stackWr at h
  split at h
  · cases h
    rename_i hi
    exact ⟨rfl, hi.1, hi.2⟩
  · cases h

theorem blockPlace_top (d : Defs) (e : SymDefs) (f : ObjFile) (s s1 : SymState)
    (bp a b c : Nat) (h : blockPlace d e f s bp = Except.ok (a, b, c, s1)) :
    s1.scopeTop = s.scopeTop := by
  unfold blockPlace at h
  cases hfix : CVLocateFixup d e f s (w16 bp) e.uninitSeg with
  | error err => rw [hfix] at h; cases h
  | ok v =>
    obtain ⟨fx, s0⟩ := v
    have ht := CVLocateFixup_top d e f s s0 _ _ _ hfix
    rw [hfix] at h
    dsimp only at h
    split at h
    · cases h
    · cases h
      exact ht

theorem doBlockStart_top (d : Defs) (e : SymDefs) (f : ObjFile) (s s1 : SymState)
    (base len bp : Nat) (h : doBlockStart d e f s base len bp = Except.ok s1) :
    s1.scopeTop = s.scopeTop ∨ (s1.scopeTop = s.scopeTop + 1 ∧ s.scopeTop < 32) := by
  unfold doBlockStart at h
  split at h
  · cases h; left; rfl
  split at h
  · cases h; left; rfl
  split at h
  · cases h
  rename_i x1 x2 x3 s0 hbp
  have ht := blockPlace_top d e f s s0 bp _ _ _ hbp
  split at h
  · cases h
  split at h
  · split at h
    · cases h
    · rename_i s2 hw
      cases h
      obtain ⟨h1, h2, h3⟩ := stackWr_top _ _ _ _ hw
      right
      dsimp only
      rw [h1, ht]
      exact ⟨rfl, by rw [← ht]; exact h3⟩
  · dsimp only at h
    split at h
    · cases h
    · rename_i s2 hw
      cases h
      obtain ⟨h1, h2, h3⟩ := stackWr_top _ _ _ _ hw
      right
      dsimp only
      rw [h1]
      dsimp only
      rw [ht]
      exact ⟨rfl, by rw [← ht]; exact h3⟩

theorem doEnd_top (d : Defs) (e : SymDefs) (s s1 : SymState)
    (h : doEnd d e s = Except.ok s1) :
    (s.scopeTop = 0 ∧ s1.scopeTop = 0) ∨ (s.scopeTop ≠ 0 ∧ s1.scopeTop = s.scopeTop - 1) := by
  unfold doEnd at h
  split at h
  · rename_i h0
    cases h
    left
    exact ⟨h0, h0⟩
  rename_i h0
  right
  refine ⟨h0, ?_⟩
  split at h
  · cases h
  dsimp only at h
  split at h
  · cases h
  · cases h; rfl
  · split at h
    · split at h
      · cases h
      · cases h; rfl
    · split at h
      · cases h; rfl
      · cases h

theorem enterPublic_top (e : SymDefs) (s : SymState) (pub : Option PubHit) (seg : SegDesc)
    (name blk idx symOff : Nat) :
    (enterPublic e s pub seg name blk idx symOff).scopeTop = s.scopeTop := by
  unfold enterPublic
  split
  · split
    · dsimp only
      split <;> rfl
    · rfl
  · rfl

theorem procReturnType_top (d : Defs) (e : SymDefs) (fuel : Nat) (s7 s1 : SymState)
    (procOff addr ptype prologueLen : Nat)
    (h : procReturnType d e fuel s7 procOff addr ptype prologueLen = Except.ok s1) :
    s1.scopeTop = s7.scopeTop := by
  unfold procReturnType at h
  dsimp only at h
  split at h
  · cases h
  · split at h <;> cases h <;> rfl

theorem procSymbols_top (d : Defs) (e : SymDefs) (f : ObjFile) (fuel : Nat) (s2 s1 : SymState)
    (r : SymBlockSel) (name ptype bp : Nat)
    (h : procSymbols d e f fuel s2 r name ptype bp = Except.ok s1) :
    s1.scopeTop = s2.scopeTop + 1 ∧ s2.scopeTop < 32 := by
  unfold procSymbols at h
  dsimp only at h
  split at h
  · cases h
  rename_i s3 hw
  obtain ⟨h1, h2, h3⟩ := stackWr_top _ _ _ _ hw
  dsimp only at h1
  split at h
  · cases h
  split at h
  · cases h
  have := procReturnType_top _ _ _ _ _ _ _ _ _ h
  dsimp only at this
  rw [this, enterPublic_top, h1]
  exact ⟨rfl, h3⟩

theorem doProcStart_top (d : Defs) (e : SymDefs) (f : ObjFile) (fuel : Nat) (s s1 : SymState)
    (bp : Nat) (h : doProcStart d e f fuel s bp = Except.ok s1) :
    s1.scopeTop = s.scopeTop ∨ (s1.scopeTop = s.scopeTop + 1 ∧ s.scopeTop < 32) := by
  unfold doProcStart at h
  dsimp only at h
  split at h
  · cases h; left; rfl
  split at h
  · cases h
  · rename_i s0 hd
    cases h
    left
    exact CVDetermineSymbolBlock_top _ _ _ _ _ _ _ _ _ hd
  · rename_i r s0 hd
    have ht := CVDetermineSymbolBlock_top _ _ _ _ _ _ _ _ _ hd
    split at h
    · cases h
    · cases h
    · split at h
      · cases h; left; exact ht
      · split at h
        · cases h; left; exact ht
        · obtain ⟨h1, h2⟩ := procSymbols_top _ _ _ _ _ _ _ _ _ _ h
          dsimp only at h1 h2
          right
          rw [h1, ht]
          exact ⟨rfl, by rw [← ht]; exact h2⟩

theorem doLocalVar_top (d : Defs) (e : SymDefs) (f : ObjFile) (fuel : Nat) (s s1 : SymState)
    (bp : Nat) (h : doLocalVar d e f fuel s bp = Except.ok s1) : s1.scopeTop = s.scopeTop := by
  unfold doLocalVar at h
  dsimp only at h
  split at h
  · cases h; rfl
  split at h
  · cases h
  split at h
  · cases h
  · cases h; rfl

theorem doRegVar_top (d : Defs) (e : SymDefs) (f : ObjFile) (fuel : Nat) (s s1 : SymState)
    (bp : Nat) (h : doRegVar d e f fuel s bp = Except.ok s1) : s1.scopeTop = s.scopeTop := by
  unfold doRegVar at h
  dsimp only at h
  split at h
  · cases h; rfl
  split at h
  · cases h
  split at h
  · cases h
  · split at h
    · cases h; rfl
    · split at h
      · cases h; rfl
      · split at h
        · cases h; rfl
        · split at h <;> cases h <;> rfl

theorem variableGlobal_top (e : SymDefs) (s : SymState) (pub : Option PubHit) (seg : SegDesc)
    (name blk idx symOff : Nat) :
    (variableGlobal e s pub seg name blk idx symOff).scopeTop = s.scopeTop := by
  unfold variableGlobal
  dsimp only
  split
  · split <;> rfl
  · split
    · rfl
    · split
      · split <;> rfl
      · rfl

theorem doVariable_top (d : Defs) (e : SymDefs) (f : ObjFile) (fuel : Nat) (s s1 : SymState)
    (bp : Nat) (h : doVariable d e f fuel s bp = Except.ok s1) : s1.scopeTop = s.scopeTop := by
  unfold doVariable at h
  dsimp only at h
  split at h
  · cases h
  · rename_i s0 hd
    cases h
    exact CVDetermineSymbolBlock_top _ _ _ _ _ _ _ _ _ hd
  · rename_i r s0 hd
    have ht := CVDetermineSymbolBlock_top _ _ _ _ _ _ _ _ _ hd
    split at h
    · cases h
    split at h
    · cases h
    split at h
    · cases h
    split at h
    · cases h
      dsimp only
      rw [variableGlobal_top]
      exact ht
    · split at h
      · cases h
      · cases h
        dsimp only
        rw [variableGlobal_top]
        exact ht

theorem doCodeLabel_top (d : Defs) (e : SymDefs) (f : ObjFile) (s s1 : SymState)
    (bp : Nat) (h : doCodeLabel d e f s bp = Except.ok s1) : s1.scopeTop = s.scopeTop := by
  unfold doCodeLabel at h
  dsimp only at h
  split at h
  · cases h
  · rename_i s0 hd
    cases h
    exact CVDetermineSymbolBlock_top _ _ _ _ _ _ _ _ _ hd
  · rename_i r s0 hd
    have ht := CVDetermineSymbolBlock_top _ _ _ _ _ _ _ _ _ hd
    split at h
    · cases h
    split at h
    · cases h
    · cases h
      dsimp only
      rw [enterPublic_top]
      exact ht

theorem doChangeSeg_top (d : Defs) (e : SymDefs) (f : ObjFile) (s s1 : SymState)
    (bp : Nat) (h : doChangeSeg d e f s bp = Except.ok s1) : s1.scopeTop = s.scopeTop := by
  unfold doChangeSeg at h
  split at h
  · cases h
  · rename_i sd x s0 hf
    cases h
    show s0.scopeTop = _
    exact CVLocateFixup_top _ _ _ _ _ _ _ _ hf
  · rename_i s0 hf
    cases h
    show s0.scopeTop = _
    exact CVLocateFixup_top _ _ _ _ _ _ _ _ hf

/-- The depth of the scope stack after the switch on one record: unchanged, one more
(from a depth below 32), or one less (from a depth that is not 0). -/
theorem symSwitch_top (d : Defs) (e : SymDefs) (f : ObjFile) (fuel : Nat) (s s1 : SymState)
    (t base len bp : Nat) (hr : symSwitch d e f fuel s t base len bp = Except.ok s1) :
    s1.scopeTop = s.scopeTop ∨ (s1.scopeTop = s.scopeTop + 1 ∧ s.scopeTop < 32) ∨
      (s.scopeTop ≠ 0 ∧ s1.scopeTop = s.scopeTop - 1) := by
  unfold symSwitch at hr
  by_cases c1 : t = e.CST_WITH_START ∨ t = e.CST_BLOCK_START
  · rw [if_pos c1] at hr
    rcases doBlockStart_top _ _ _ _ _ _ _ _ hr with h | h
    · exact Or.inl h
    · exact Or.inr (Or.inl h)
  rw [if_neg c1] at hr
  by_cases c2 : t = e.CST_FORTRAN_ENTRY ∨ t = e.CST_PROC_START
  · rw [if_pos c2] at hr
    rcases doProcStart_top _ _ _ _ _ _ _ hr with h | h
    · exact Or.inl h
    · exact Or.inr (Or.inl h)
  rw [if_neg c2] at hr
  by_cases c3 : t = e.CST_END
  · rw [if_pos c3] at hr
    rcases doEnd_top _ _ _ _ hr with ⟨h1, h2⟩ | h
    · exact Or.inl (by rw [h1, h2])
    · exact Or.inr (Or.inr h)
  rw [if_neg c3] at hr
  by_cases c4 : t = e.CST_LOCAL_VAR
  · rw [if_pos c4] at hr
    exact Or.inl (doLocalVar_top _ _ _ _ _ _ _ hr)
  rw [if_neg c4] at hr
  by_cases c5 : t = e.CST_VARIABLE
  · rw [if_pos c5] at hr
    exact Or.inl (doVariable_top _ _ _ _ _ _ _ hr)
  rw [if_neg c5] at hr
  by_cases c6 : t = e.CST_CODE_LABEL
  · rw [if_pos c6] at hr
    exact Or.inl (doCodeLabel_top _ _ _ _ _ _ hr)
  rw [if_neg c6] at hr
  by_cases c7 : t = e.CST_CONST
  · rw [if_pos c7] at hr
    exact Except.noConfusion hr
  rw [if_neg c7] at hr
  by_cases c8 : t = e.CST_SKIP_ME
  · rw [if_pos c8] at hr
    exact Or.inl (congrArg SymState.scopeTop (Except.ok.inj hr)).symm
  rw [if_neg c8] at hr
  by_cases c9 : t = e.CST_CHANGE_SEG
  · rw [if_pos c9] at hr
    exact Or.inl (doChangeSeg_top _ _ _ _ _ _ hr)
  rw [if_neg c9] at hr
  by_cases c10 : t = e.CST_TYPEDEF
  · rw [if_pos c10] at hr
    exact Or.inl (congrArg SymState.scopeTop (Except.ok.inj hr)).symm
  rw [if_neg c10] at hr
  by_cases c11 : t = e.CST_REG_VAR
  · rw [if_pos c11] at hr
    exact Or.inl (doRegVar_top _ _ _ _ _ _ _ hr)
  rw [if_neg c11] at hr
  exact Or.inl (congrArg SymState.scopeTop (Except.ok.inj hr)).symm

theorem symStep_top (d : Defs) (e : SymDefs) (f : ObjFile) (fuel : Nat) (s s1 : SymState)
    (h : symStep d e f fuel s = Except.ok s1) :
    s1.scopeTop = s.scopeTop ∨ (s1.scopeTop = s.scopeTop + 1 ∧ s.scopeTop < 32) ∨
      (s.scopeTop ≠ 0 ∧ s1.scopeTop = s.scopeTop - 1) := by
  unfold symStep at h
  split at h
  · cases h
  rename_i s0 hr
  cases h
  exact symSwitch_top _ _ _ _ _ s0 _ _ _ _ hr

theorem symStep_depth (d : Defs) (e : SymDefs) (f : ObjFile) (fuel : Nat) (s s1 : SymState)
    (h0 : 0 ≤ s.scopeTop ∧ s.scopeTop ≤ 32)
    (h : symStep d e f fuel s = Except.ok s1) : 0 ≤ s1.scopeTop ∧ s1.scopeTop ≤ 32 := by
  rcases symStep_top _ _ _ _ _ _ h with h1 | ⟨h1, h2⟩ | ⟨h1, h2⟩ <;> omega

theorem symLoop_depth (d : Defs) (e : SymDefs) (f : ObjFile) (fuel : Nat) :
    ∀ (k : Nat) (s s1 : SymState), 0 ≤ s.scopeTop ∧ s.scopeTop ≤ 32 →
      symLoop d e f fuel k s = Except.ok s1 → 0 ≤ s1.scopeTop ∧ s1.scopeTop ≤ 32 := by
  intro k
  induction k with
  | zero =>
    intro s s1 h0 h
    unfold symLoop at h
    split at h
    · cases h
    · cases h; exact h0
  | succ k ih =>
    intro s s1 h0 h
    unfold symLoop at h
    split at h
    · split at h
      · cases h
      · rename_i s2 hs
        exact ih s2 s1 (symStep_depth _ _ _ _ _ _ h0 hs) h
    · cases h; exact h0

theorem symRun_depth (d : Defs) (e : SymDefs) (f : ObjFile) (fuel : Nat) :
    ∀ (k : Nat) (s : SymState), 0 ≤ s.scopeTop ∧ s.scopeTop ≤ 32 →
      ∀ s1 ∈ symRun d e f fuel k s, 0 ≤ s1.scopeTop ∧ s1.scopeTop ≤ 32 := by
  intro k
  induction k with
  | zero =>
    intro s _ s1 h
    unfold symRun at h
    cases h
  | succ k ih =>
    intro s h0 s1 h
    unfold symRun at h
    split at h
    · split at h
      · cases h
      · rename_i s2 hs
        have h2 := symStep_depth _ _ _ _ _ _ h0 hs
        rcases List.mem_cons.mp h with h | h
        · rw [h]; exact h2
        · exact ih s2 h2 s1 h
    · cases h

theorem symStep_block_start (d : Defs) (e : SymDefs) (f : ObjFile) (fuel : Nat) (s : SymState)
    (ht : rd f.symSeg (s.bp + 1) = e.CST_WITH_START ∨ rd f.symSeg (s.bp + 1) = e.CST_BLOCK_START) :
    symStep d e f fuel s =
      (doBlockStart d e f s (s.bp + 1) (rd f.symSeg s.bp) (s.bp + 1 + 1)).map
        (fun s1 => { s1 with bp := s.bp + 1 + rd f.symSeg s.bp }) := by
  unfold symStep symSwitch
  rw [if_pos ht]
  cases doBlockStart d e f s (s.bp + 1) (rd f.symSeg s.bp) (s.bp + 1 + 1) <;> rfl

/-- C18: the depth `scopeTop` of the scope stack is between 0 and `MAX_SCOPES` after
every record that `CVProcessSymbols` processes and at its end; one record moves the depth
by at most one and keeps it in that range; and a block start at depth `MAX_SCOPES` is
answered by a diagnostic (too many nested scopes inside a procedure) and leaves the stack
and its depth as they were. -/
theorem scope_depth_bounded (d : Defs) (e : SymDefs) (f : ObjFile) (fuel : Nat) :
    (∀ (cv : CVState) (segs : List SegDesc) (segments : List SegPtr) (k : Nat),
        ∀ s ∈ symRun d e f fuel k (symInit d e cv segs segments),
          0 ≤ s.scopeTop ∧ s.scopeTop ≤ MAX_SCOPES) ∧
      (∀ (cv : CVState) (segs : List SegDesc) (segments : List SegPtr) (s : SymState),
        CVProcessSymbols d e f fuel cv segs segments = Except.ok s →
          0 ≤ s.scopeTop ∧ s.scopeTop ≤ MAX_SCOPES) ∧
      (∀ s s1 : SymState, 0 ≤ s.scopeTop → s.scopeTop ≤ MAX_SCOPES →
        symStep d e f fuel s = Except.ok s1 →
          0 ≤ s1.scopeTop ∧ s1.scopeTop ≤ MAX_SCOPES ∧
            (s1.scopeTop = s.scopeTop ∨ s1.scopeTop = s.scopeTop + 1 ∨
              s1.scopeTop = s.scopeTop - 1)) ∧
      (∀ s : SymState, s.scopeTop = MAX_SCOPES →
        (rd f.symSeg (s.bp + 1) = e.CST_WITH_START ∨
          rd f.symSeg (s.bp + 1) = e.CST_BLOCK_START) →
        symStep d e f fuel s = Except.ok
          { s.notify Severity.error
              (if s.symBlock = 0 then Msg.blockStartNotInProc else Msg.tooManyScopes) with
            bp := s.bp + 1 + rd f.symSeg s.bp }) := by
  refine ⟨?_, ?_, ?_, ?_⟩
  · intro cv segs segments k s hs
    exact symRun_depth d e f fuel k _ ⟨le_refl _, by show (0 : Int) ≤ 32; decide⟩ s hs
  · intro cv segs segments s hs
    exact symLoop_depth d e f fuel _ _ s ⟨le_refl _, by show (0 : Int) ≤ 32; decide⟩ hs
  · intro s s1 h0 h1 hs
    have h32 : (MAX_SCOPES : Int) = 32 := rfl
    rw [h32] at h1 ⊢
    rcases symStep_top _ _ _ _ _ _ hs with h | ⟨h, h2⟩ | ⟨h2, h⟩
    · exact ⟨by omega, by omega, Or.inl h⟩
    · exact ⟨by omega, by omega, Or.inr (Or.inl h)⟩
    · exact ⟨by omega, by omega, Or.inr (Or.inr h)⟩
  · intro s hs ht
    rw [symStep_block_start d e f fuel s ht]
    unfold doBlockStart
    by_cases hb : s.symBlock = 0
    · rw [if_pos hb, if_pos hb]; rfl
    · rw [if_neg hb, if_pos hs, if_neg hb]; rfl

theorem scope_depth_bounded_witness :
    (symRun geos geosSym deepFile 5 33 nestState).map (fun s => (s.scopeTop, s.cv.notes)) =
        (List.range 31).map (fun i => (((i : Nat) : Int) + 1, [])) ++
          [(32, []), (32, [⟨Severity.error, Msg.tooManyScopes⟩])] ∧
      ((symRun geos geosSym deepFile 5 33 nestState).all
        (fun s => decide (0 ≤ s.scopeTop ∧ s.scopeTop ≤ MAX_SCOPES))) = true ∧
      deepState.scopeTop = MAX_SCOPES ∧
      symStep geos geosSym blockFile 5 deepState = Except.ok
        { deepState.notify Severity.error Msg.tooManyScopes with bp := 6 } :=
  ⟨by decide!,
   List.all_eq_true.mpr (fun s hs => decide_eq_true
     ((scope_depth_bounded geos geosSym deepFile 5).1 _ _ _ 33 s hs)),
   rfl,
   (scope_depth_bounded geos geosSym blockFile 5).2.2.2 deepState rfl (Or.inr rfl)⟩

theorem symStep_end (d : Defs) (e : SymDefs) (f : ObjFile) (fuel : Nat) (s : SymState)
    (hl : e.caseLabels.Nodup) (ht : rd f.symSeg (s.bp + 1) = e.CST_END) :
    symStep d e f fuel s =
      (doEnd d e s).map (fun s1 => { s1 with bp := s.bp + 1 + rd f.symSeg s.bp }) := by
  unfold SymDefs.caseLabels at hl
  simp only [List.nodup_cons, List.mem_cons, List.mem_singleton, not_or] at hl
  unfold symStep symSwitch
  rw [ht, if_neg (by rw [not_or]; exact ⟨fun h => hl.1.2.2.2.1 h.symm, fun h => hl.2.1.2.2.1 h.symm⟩),
    if_neg (by rw [not_or]; exact ⟨fun h => hl.2.2.1.2.1 h.symm, fun h => hl.2.2.2.1.1 h.symm⟩),
    if_pos rfl]
  cases doEnd d e s <;> rfl

theorem symStep_proc_start (d : Defs) (e : SymDefs) (f : ObjFile) (fuel : Nat) (s : SymState)
    (hl : e.caseLabels.Nodup)
    (ht : rd f.symSeg (s.bp + 1) = e.CST_FORTRAN_ENTRY ∨
      rd f.symSeg (s.bp + 1) = e.CST_PROC_START) :
    symStep d e f fuel s =
      (doProcStart d e f fuel s (s.bp + 1 + 1)).map
        (fun s1 => { s1 with bp := s.bp + 1 + rd f.symSeg s.bp }) := by
  unfold SymDefs.caseLabels at hl
  simp only [List.nodup_cons, List.mem_cons, List.mem_singleton, not_or] at hl
  unfold symStep symSwitch
  have h1 : ¬ (rd f.symSeg (s.bp + 1) = e.CST_WITH_START ∨
      rd f.symSeg (s.bp + 1) = e.CST_BLOCK_START) := by
    rcases ht with ht | ht <;> rw [ht, not_or]
    · exact ⟨fun h => hl.1.2.1 h.symm, fun h => hl.2.1.1 h.symm⟩
    · exact ⟨fun h => hl.1.2.2.1 h.symm, fun h => hl.2.1.2.1 h.symm⟩
  rw [if_neg h1, if_pos ht]
  cases doProcStart d e f fuel s (s.bp + 1 + 1) <;> rfl

theorem symStep_local_var (d : Defs) (e : SymDefs) (f : ObjFile) (fuel : Nat) (s : SymState)
    (hl : e.caseLabels.Nodup) (ht : rd f.symSeg (s.bp + 1) = e.CST_LOCAL_VAR) :
    symStep d e f fuel s =
      (doLocalVar d e f fuel s (s.bp + 1 + 1)).map
        (fun s1 => { s1 with bp := s.bp + 1 + rd f.symSeg s.bp }) := by
  unfold SymDefs.caseLabels at hl
  simp only [List.nodup_cons, List.mem_cons, List.mem_singleton, not_or] at hl
  unfold symStep symSwitch
  rw [ht, if_neg (by rw [not_or]; exact ⟨fun h => hl.1.2.2.2.2.1 h.symm,
      fun h => hl.2.1.2.2.2.1 h.symm⟩),
    if_neg (by rw [not_or]; exact ⟨fun h => hl.2.2.1.2.2.1 h.symm,
      fun h => hl.2.2.2.1.2.1 h.symm⟩),
    if_neg (fun h => hl.2.2.2.2.1.1 h.symm), if_pos rfl]
  cases doLocalVar d e f fuel s (s.bp + 1 + 1) <;> rfl

theorem symStep_reg_var (d : Defs) (e : SymDefs) (f : ObjFile) (fuel : Nat) (s : SymState)
    (hl : e.caseLabels.Nodup) (ht : rd f.symSeg (s.bp + 1) = e.CST_REG_VAR) :
    symStep d e f fuel s =
      (doRegVar d e f fuel s (s.bp + 1 + 1)).map
        (fun s1 => { s1 with bp := s.bp + 1 + rd f.symSeg s.bp }) := by
  unfold SymDefs.caseLabels at hl
  simp only [List.nodup_cons, List.mem_cons, List.mem_singleton, not_or] at hl
  obtain ⟨⟨-, -, -, -, -, -, -, -, -, -, -, a1⟩, ⟨-, -, -, -, -, -, -, -, -, -, a2⟩,
    ⟨-, -, -, -, -, -, -, -, -, a3⟩, ⟨-, -, -, -, -, -, -, -, a4⟩, ⟨-, -, -, -, -, -, -, a5⟩,
    ⟨-, -, -, -, -, -, a6⟩, ⟨-, -, -, -, -, a7⟩, ⟨-, -, -, -, a8⟩, ⟨-, -, -, a9⟩, ⟨-, -, a10⟩,
    ⟨-, a11⟩, a12, -⟩ := hl
  unfold symStep symSwitch
  rw [ht, if_neg (by rw [not_or]; exact ⟨fun h => a1.1 h.symm, fun h => a2.1 h.symm⟩),
    if_neg (by rw [not_or]; exact ⟨fun h => a3.1 h.symm, fun h => a4.1 h.symm⟩),
    if_neg (fun h => a5.1 h.symm), if_neg (fun h => a6.1 h.symm), if_neg (fun h => a7.1 h.symm),
    if_neg (fun h => a8.1 h.symm), if_neg (fun h => a9.1 h.symm), if_neg (fun h => a10.1 h.symm),
    if_neg (fun h => a11.1 h.symm), if_neg (fun h => a12.1 h.symm), if_pos rfl]
  cases doRegVar d e f fuel s (s.bp + 1 + 1) <;> rfl

/-- C19: a record that is illegal at the current depth (an `End`, a local variable or a
register variable at depth 0, a procedure start at a depth other than 0) is answered by
one error diagnostic; the record returns, the cursor goes on to the next record and the
loop continues from there; the blocks (so the symbols), the scope stack, its depth, the
last local and the current symbol block are as before. -/
theorem illegal_record_rejected (d : Defs) (e : SymDefs) (f : ObjFile) (fuel : Nat)
    (s : SymState) (hl : e.caseLabels.Nodup) :
    (rd f.symSeg (s.bp + 1) = e.CST_END → s.scopeTop = 0 →
        symStep d e f fuel s = Except.ok
          { s.notify Severity.error Msg.endNoScope with
            bp := s.bp + 1 + rd f.symSeg s.bp }) ∧
      (rd f.symSeg (s.bp + 1) = e.CST_LOCAL_VAR → s.scopeTop = 0 →
        symStep d e f fuel s = Except.ok
          { s.notify Severity.error (Msg.localVarOutside
              (d.ST_Enter (bytesAt f.symSeg (s.bp + 7) (rd f.symSeg (s.bp + 6))))) with
            bp := s.bp + 1 + rd f.symSeg s.bp }) ∧
      (rd f.symSeg (s.bp + 1) = e.CST_REG_VAR → s.scopeTop = 0 →
        symStep d e f fuel s = Except.ok
          { s.notify Severity.error (Msg.regVarOutside
              (d.ST_Enter (bytesAt f.symSeg (s.bp + 6) (rd f.symSeg (s.bp + 5))))) with
            bp := s.bp + 1 + rd f.symSeg s.bp }) ∧
      ((rd f.symSeg (s.bp + 1) = e.CST_FORTRAN_ENTRY ∨
          rd f.symSeg (s.bp + 1) = e.CST_PROC_START) → s.scopeTop ≠ 0 →
        symStep d e f fuel s = Except.ok
          { s.notify Severity.error (Msg.procNested
              (d.ST_Enter (bytesAt f.symSeg (s.bp + 16) (rd f.symSeg (s.bp + 15))))) with
            bp := s.bp + 1 + rd f.symSeg s.bp }) ∧
      (∀ (m : Msg) (b : Nat) (s1 : SymState),
        s1 = { s.notify Severity.error m with bp := b } →
          s1.cv.vm = s.cv.vm ∧ s1.scopeStack = s.scopeStack ∧ s1.scopeTop = s.scopeTop ∧
          s1.lastLocal = s.lastLocal ∧ s1.symBlock = s.symBlock ∧ s1.entered = s.entered ∧
          s1.cv.notes = s.cv.notes ++ [⟨Severity.error, m⟩]) ∧
      (∀ (k : Nat) (s1 : SymState), symStep d e f fuel s = Except.ok s1 →
        s.bp < f.symSeg.length →
          symLoop d e f fuel (k + 1) s = symLoop d e f fuel k s1) := by
  refine ⟨?_, ?_, ?_, ?_, ?_, ?_⟩
  · intro ht h0
    rw [symStep_end d e f fuel s hl ht]
    unfold doEnd
    rw [if_pos h0]
    rfl
  · intro ht h0
    rw [symStep_local_var d e f fuel s hl ht]
    unfold doLocalVar
    dsimp only
    rw [if_pos h0]
    rfl
  · intro ht h0
    rw [symStep_reg_var d e f fuel s hl ht]
    unfold doRegVar
    dsimp only
    rw [if_pos h0]
    rfl
  · intro ht h0
    rw [symStep_proc_start d e f fuel s hl ht]
    unfold doProcStart
    dsimp only
    rw [if_pos h0]
    rfl
  · intro m b s1 h1
    rw [h1]
    exact ⟨rfl, rfl, rfl, rfl, rfl, rfl, rfl⟩
  · intro k s1 hs hb
    rw [symLoop, if_pos hb, hs]

theorem illegal_record_rejected_witness :
    symStep geos geosSym endFile 5 emptySym =
        Except.ok { emptySym.notify Severity.error Msg.endNoScope with bp := 2 } ∧
      symStep geos geosSym localFile 5 emptySym =
        Except.ok { emptySym.notify Severity.error
          (Msg.localVarOutside (geos.ST_Enter [118])) with bp := 8 } ∧
      symStep geos geosSym regFile 5 emptySym =
        Except.ok { emptySym.notify Severity.error
          (Msg.regVarOutside (geos.ST_Enter [118])) with bp := 7 } ∧
      symStep geos geosSym nestFile 5 openState =
        Except.ok { openState.notify Severity.error
          (Msg.procNested (geos.ST_Enter [102])) with bp := 17 } ∧
      symLoop geos geosSym endFile 5 1 emptySym =
        Except.ok { emptySym.notify Severity.error Msg.endNoScope with bp := 2 } := by
  have hl : geosSym.caseLabels.Nodup := by decide
  have h := fun f s => illegal_record_rejected geos geosSym f 5 s hl
  refine ⟨(h endFile emptySym).1 rfl rfl, (h localFile emptySym).2.1 rfl rfl,
    (h regFile emptySym).2.2.1 rfl rfl,
    (h nestFile openState).2.2.2.1 (Or.inr rfl) (by decide), ?_⟩
  rw [(h endFile emptySym).2.2.2.2.2 0 _ ((h endFile emptySym).1 rfl rfl) (by decide)]
  rfl

theorem blockPlace_state (d : Defs) (e : SymDefs) (f : ObjFile) (s s1 : SymState)
    (bp x l bp1 : Nat) (h : blockPlace d e f s bp = Except.ok (x, l, bp1, s1)) :
    s1 = s ∨ ∃ m, s1 = s.notify Severity.error m := by
  unfold blockPlace at h
  split at h
  · cases h
  rename_i fx s0 hf
  dsimp only at h
  split at h
  · cases h
  cases h
  exact CVLocateFixup_segs _ _ _ _ _ _ _ _ hf

theorem getD_set_other {α : Type} (l : List α) (i j : Nat) (v x : α) (h : i ≠ j) :
    (l.set i v).getD j x = l.getD j x := by
  rw [List.getD_eq_getElem?_getD, List.getD_eq_getElem?_getD, List.getElem?_set_ne h]

theorem getD_set_here {α : Type} (l : List α) (i : Nat) (v x : α) (h : i < l.length) :
    (l.set i v).getD i x = v := by
  rw [List.getD_eq_getElem?_getD, List.getElem?_set_self h]
  rfl

theorem getD_append_lt {α : Type} (l1 l2 : List α) (i : Nat) (x : α) (h : i < l1.length) :
    (l1 ++ l2).getD i x = l1.getD i x := by
  rw [List.getD_eq_getElem?_getD, List.getD_eq_getElem?_getD, List.getElem?_append_left h]

theorem getD_append_len {α : Type} (l : List α) (a x : α) :
    (l ++ [a]).getD l.length x = a := by
  rw [List.getD_eq_getElem?_getD, List.getElem?_append_right (le_refl _)]
  simp

theorem symsOf_of_block (st : CVState) (h t : Nat) (ents : List ObjSym)
    (hb : st.block h = VMBlock.syms t ents) : st.symsOf h = ents := by
  unfold CVState.symsOf
  rw [hb]

/-- C29: `CVGetInteger` does not return (its `assert(0)` fails) exactly when the leading
byte of the leaf is `CTL_QWORD` or `CTL_SQWORD`; for every other leading byte it returns a
value with the cursor moved on, by 1 to 5 bytes, and it has no other way to fail. -/
theorem integer_leaf_assertion (d : Defs) (seg : List Nat) (bp : Nat)
    (hl : d.intLabels.Nodup) :
    (CVGetInteger d seg bp = Except.error CVError.assertion ↔
        (rd seg bp = d.CTL_QWORD ∨ rd seg bp = d.CTL_SQWORD)) ∧
      (¬ (rd seg bp = d.CTL_QWORD ∨ rd seg bp = d.CTL_SQWORD) →
        ∃ v bp1, CVGetInteger d seg bp = Except.ok (v, bp1) ∧ bp < bp1 ∧ bp1 ≤ bp + 5) ∧
      (∀ err, CVGetInteger d seg bp = Except.error err → err = CVError.assertion) := by
  unfold Defs.intLabels at hl
  simp only [List.nodup_cons, List.mem_cons, List.mem_singleton, not_or, List.not_mem_nil,
    not_false_eq_true, List.nodup_nil, and_true] at hl
  obtain ⟨⟨-, -, hwq, hws, -, -⟩, ⟨-, hsq, hss, -, -⟩, ⟨hdq, hds, -, -⟩, -⟩ := hl
  have hq : (rd seg bp = d.CTL_QWORD ∨ rd seg bp = d.CTL_SQWORD) →
      CVGetInteger d seg bp = Except.error CVError.assertion := by
    intro h
    unfold CVGetInteger
    dsimp only
    have h1 : ¬ rd seg bp = d.CTL_WORD := by
      rcases h with h | h <;> rw [h]
      · exact fun x => hwq x.symm
      · exact fun x => hws x.symm
    have h2 : ¬ (rd seg bp = d.CTL_SDWORD ∨ rd seg bp = d.CTL_DWORD) := by
      rcases h with h | h <;> rw [h, not_or]
      · exact ⟨fun x => hsq x.symm, fun x => hdq x.symm⟩
      · exact ⟨fun x => hss x.symm, fun x => hds x.symm⟩
    rw [if_neg h1, if_neg h2, if_pos h]
  have hn : ¬ (rd seg bp = d.CTL_QWORD ∨ rd seg bp = d.CTL_SQWORD) →
      ∃ v bp1, CVGetInteger d seg bp = Except.ok (v, bp1) ∧ bp < bp1 ∧ bp1 ≤ bp + 5 := by
    intro h
    unfold CVGetInteger MSObj_GetWord
    dsimp only
    rw [if_neg h]
    split
    · exact ⟨_, _, rfl, by omega, by omega⟩
    split
    · exact ⟨_, _, rfl, by omega, by omega⟩
    split
    · exact ⟨_, _, rfl, by omega, by omega⟩
    split
    · exact ⟨_, _, rfl, by omega, by omega⟩
    · exact ⟨_, _, rfl, by omega, by omega⟩
  refine ⟨⟨?_, hq⟩, hn, ?_⟩
  · intro h
    by_contra hc
    obtain ⟨v, bp1, hv, _⟩ := hn hc
    rw [hv] at h
    cases h
  · intro err h
    by_cases hc : rd seg bp = d.CTL_QWORD ∨ rd seg bp = d.CTL_SQWORD
    · rw [hq hc] at h
      cases h
      rfl
    · obtain ⟨v, bp1, hv, _⟩ := hn hc
      rw [hv] at h
      cases h

theorem integer_leaf_assertion_witness :
    geos.intLabels.Nodup ∧
      CVGetInteger geos [geos.CTL_QWORD, 1, 0, 0, 0, 0, 0, 0, 0] 0 =
        Except.error CVError.assertion ∧
      CVGetInteger geos [geos.CTL_SQWORD, 1, 0, 0, 0, 0, 0, 0, 0] 0 =
        Except.error CVError.assertion ∧
      (∃ v bp1, CVGetInteger geos [geos.CTL_WORD, 0x34, 0x12] 0 = Except.ok (v, bp1) ∧
        0 < bp1 ∧ bp1 ≤ 0 + 5) ∧
      CVGetInteger geos [geos.CTL_WORD, 0x34, 0x12] 0 = Except.ok (0x1234, 3) ∧
      CVGetInteger geos [17] 0 = Except.ok (17, 1) := by
  have hl : geos.intLabels.Nodup := by decide
  refine ⟨hl, ?_, ?_, ?_, by decide, by decide⟩
  · exact (integer_leaf_assertion geos _ 0 hl).1.mpr (Or.inl (by decide))
  · exact (integer_leaf_assertion geos _ 0 hl).1.mpr (Or.inr (by decide))
  · exact (integer_leaf_assertion geos _ 0 hl).2.1 (by decide)

theorem rdw_typeRecord (pre rest : List Nat) (link : Nat) (data : List Nat)
    (hd : data.length < 65536) :
    rdw (pre ++ (typeRecord link data ++ rest)) (pre.length + 1) = data.length := by
  unfold rdw rd typeRecord
  have h1 : (pre ++ ([link, data.length % 256, data.length / 256] ++ data ++ rest)).getD
      (pre.length + 1) 0 = data.length % 256 := by
    rw [List.getD_eq_getElem?_getD, List.getElem?_append_right (by omega)]
    simp
  have h2 : (pre ++ ([link, data.length % 256, data.length / 256] ++ data ++ rest)).getD
      (pre.length + 1 + 1) 0 = data.length / 256 := by
    rw [List.getD_eq_getElem?_getD, List.getElem?_append_right (by omega)]
    have : pre.length + 1 + 1 - pre.length = 2 := by omega
    rw [this]
    simp
  rw [h1, h2]
  have h3 : data.length / 256 < 256 := by omega
  rw [Nat.mod_mod, Nat.mod_eq_of_lt h3]
  have h4 : (data.length / 256) <<< 8 = 2 ^ 8 * (data.length / 256) := by
    rw [Nat.shiftLeft_eq, Nat.mul_comm]
  rw [h4, Nat.lor_comm, ← Nat.mul_add_lt_is_or (Nat.mod_lt _ (by decide)) (data.length / 256)]
  omega

theorem walk_typeRecords :
    ∀ (recs : List (Nat × List Nat)) (pre : List Nat),
      (∀ r ∈ recs, r.2.length < 65536) →
      CVLocateType.walk (pre ++ typeRecords recs) recs.length pre.length =
        some (pre ++ typeRecords recs).length := by
  intro recs
  induction recs with
  | nil =>
    intro pre _
    simp [CVLocateType.walk, typeRecords]
  | cons r rest ih =>
    intro pre h
    have hr : r.2.length < 65536 := h r (List.mem_cons_self _ _)
    show CVLocateType.walk (pre ++ (typeRecord r.1 r.2 ++ typeRecords rest)) (rest.length + 1)
      pre.length = _
    unfold CVLocateType.walk
    dsimp only
    rw [rdw_typeRecord pre (typeRecords rest) r.1 r.2 hr]
    have hlen : (typeRecord r.1 r.2).length = 3 + r.2.length := by
      unfold typeRecord
      simp
      omega
    rw [if_neg (by simp [hlen]; omega)]
    have := ih (pre ++ typeRecord r.1 r.2) (fun x hx => h x (List.mem_cons_of_mem _ hx))
    rw [List.append_assoc] at this
    have e : (pre ++ typeRecord r.1 r.2).length = pre.length + 3 + r.2.length := by
      rw [List.length_append, hlen]; omega
    rw [e] at this
    exact this

/-- C30: on a type buffer that consists of exactly `n` well-formed records, `CVLocateType`
for the index of record number `n`, the first index out of bounds, does not return
`NULL`: it returns the pointer 3 bytes past the end of the buffer (the test of the loop is
`bp > endTypes`, which the end of the last record does not satisfy) and stores as the
length the word read at 1 byte past the end. -/
theorem locate_type_past_end (d : Defs) (recs : List (Nat × List Nat))
    (h : ∀ r ∈ recs, r.2.length < 65536) :
    CVLocateType d (typeRecords recs) (d.CST_LAST_PREDEF + 1 + recs.length) =
      Except.ok (some ((typeRecords recs).length + 3,
        rdw (typeRecords recs) ((typeRecords recs).length + 1))) := by
  have hw := walk_typeRecords recs [] h
  simp only [List.nil_append, List.length_nil] at hw
  unfold CVLocateType
  rw [if_pos (by omega)]
  have e : d.CST_LAST_PREDEF + 1 + recs.length - (d.CST_LAST_PREDEF + 1) = recs.length := by
    omega
  rw [e, hw]

theorem locate_type_past_end_witness :
    (∀ r ∈ [((1 : Nat), [geos.CTL_SKIP_ME]), (1, [geos.CTL_SKIP_ME, 0])], r.2.length < 65536) ∧
      typeRecords [(1, [geos.CTL_SKIP_ME]), (1, [geos.CTL_SKIP_ME, 0])] =
        [1, 1, 0, 0x90, 1, 2, 0, 0x90, 0] ∧
      CVLocateType geos [1, 1, 0, 0x90, 1, 2, 0, 0x90, 0] (geos.CST_LAST_PREDEF + 1 + 2) =
        Except.ok (some (12, 0)) ∧
      CVLocateType geos [1, 1, 0, 0x90, 1, 2, 0, 0x90, 0] (geos.CST_LAST_PREDEF + 1 + 1) =
        Except.ok (some (7, 2)) := by
  have h : ∀ r ∈ [((1 : Nat), [geos.CTL_SKIP_ME]), (1, [geos.CTL_SKIP_ME, 0])],
      r.2.length < 65536 := by decide
  exact ⟨h, by decide, locate_type_past_end geos _ h, by decide⟩

/-- C28: when the index-type leaf of an array record is an index reference (class byte
`CTL_INDEX`), `CVProcessArray` decodes it with `typeBlock` 0, for which the `CTL_INDEX`
case does not look the index up and leaves `OTYPE_VOID | OTYPE_SPECIAL`; the test on the
kind then fails and the warning about the index type is emitted, whatever type the index
designates, a predefined signed or unsigned integer included. -/
theorem array_index_reference_warns (d : Defs) (fuel : Nat) (st4 : CVState)
    (bp dataBase len tb retval : Nat)
    (hnil : d.CTL_INDEX ≠ d.CTL_NIL) (hvoid : d.CTL_INDEX ≠ d.CTL_VOID)
    (hkind : d.voidType &&& d.OTYPE_TYPE ≠ d.OTYPE_INT ∧
      d.voidType &&& d.OTYPE_TYPE ≠ d.OTYPE_SIGNED)
    (hin : bp < dataBase + len) (hidx : rd st4.typeSeg bp = d.CTL_INDEX) :
    CVProcessTypeRecord d (fuel + 1) st4 bp (rdw st4.typeSeg (bp + 1)) 0 =
        Except.ok ⟨d.voidType, bp + 1 + 2, st4⟩ ∧
      arrayTail d (CVProcessTypeRecord d (fuel + 1)) st4 bp dataBase len tb retval =
        (CVCreateTypedef d (st4.notify Severity.warning Msg.arrayIndexType) (bp + 1 + 2)
          dataBase len tb retval).map (fun r => r.2) := by
  have h1 : CVProcessTypeRecord d (fuel + 1) st4 bp (rdw st4.typeSeg (bp + 1)) 0 =
      Except.ok ⟨d.voidType, bp + 1 + 2, st4⟩ := by
    unfold CVProcessTypeRecord
    dsimp only
    rw [hidx, if_neg hvoid, if_pos rfl, if_neg (by simp)]
  refine ⟨h1, ?_⟩
  unfold arrayTail
  rw [if_pos hin]
  dsimp only
  rw [hidx, if_pos hnil, h1]
  dsimp only
  rw [if_pos (Or.inr hkind)]
  cases CVCreateTypedef d (st4.notify Severity.warning Msg.arrayIndexType) (bp + 1 + 2)
    dataBase len tb retval with
  | error e => rfl
  | ok r => rfl

theorem array_index_reference_warns_witness :
    (geos.CTL_INDEX ≠ geos.CTL_NIL ∧ geos.CTL_INDEX ≠ geos.CTL_VOID) ∧
      (8 < 4 + 7 ∧ rd intIndexArray 8 = geos.CTL_INDEX) ∧
      CVFetchType geos 3 (initState intIndexArray) 1 0x81 =
        Except.ok (geos.OTYPE_SIGNED ||| geos.OTYPE_SPECIAL ||| (2 <<< 1),
          initState intIndexArray) ∧
      CVProcessTypeRecord geos 3 (initState intIndexArray) 8 0x81 0 =
        Except.ok ⟨geos.voidType, 11, initState intIndexArray⟩ ∧
      (CVProcessTypeRecord geos 3 (initState intIndexArray) 3 8 1).toOption.map
          (fun r => r.st.notes) = some [⟨Severity.warning, Msg.arrayIndexType⟩] ∧
      (CVProcessTypeRecord geos 3 (initState unsignedIndexArray) 3 8 1).toOption.map
          (fun r => r.st.notes) = some [⟨Severity.warning, Msg.arrayIndexType⟩] ∧
      (CVProcessTypeRecord geos 3 (initState noIndexArray) 3 6 1).toOption.map
          (fun r => r.st.notes) = some [] := by
  have h := array_index_reference_warns geos 2 (initState intIndexArray) 8 4 7 1 2
    (by decide) (by decide) (by decide) (by decide) (by decide)
  exact ⟨by decide, by decide, by decide!, h.1, by decide!, by decide!, by decide!⟩

theorem symStep_bp (d : Defs) (e : SymDefs) (f : ObjFile) (fuel : Nat) (s s1 : SymState)
    (h : symStep d e f fuel s = Except.ok s1) : s1.bp = s.bp + 1 + rd f.symSeg s.bp := by
  unfold symStep at h
  split at h
  · cases h
  · cases h
    rfl

theorem symRun_bp (d : Defs) (e : SymDefs) (f : ObjFile) (fuel : Nat) :
    ∀ (k : Nat) (s : SymState),
      (symRun d e f fuel k s).map (fun x => x.bp) =
        (recordStarts f.symSeg k s.bp).take (symRun d e f fuel k s).length := by
  intro k
  induction k with
  | zero => intro s; rfl
  | succ k ih =>
    intro s
    unfold symRun
    split
    · split
      · rfl
      · rename_i s1 hs
        have hb := symStep_bp d e f fuel s s1 hs
        unfold recordStarts
        rw [List.map_cons, List.length_cons, List.take_succ_cons, ih s1, hb]
    · rfl

theorem symSwitch_ignored (d : Defs) (e : SymDefs) (f : ObjFile) (fuel : Nat) (s : SymState)
    (t base len bp : Nat) (hl : e.caseLabels.Nodup)
    (ht : t = e.CST_SKIP_ME ∨ t = e.CST_TYPEDEF ∨ t ∉ e.caseLabels) :
    symSwitch d e f fuel s t base len bp = Except.ok s := by
  unfold SymDefs.caseLabels at hl ht
  simp only [List.nodup_cons, List.mem_cons, List.mem_singleton, not_or, List.not_mem_nil,
    not_false_eq_true, List.nodup_nil, and_true] at hl ht
  obtain ⟨⟨-, -, -, -, -, -, -, -, a1, -, b1, -⟩, ⟨-, -, -, -, -, -, -, a2, -, b2, -⟩,
    ⟨-, -, -, -, -, -, a3, -, b3, -⟩, ⟨-, -, -, -, -, a4, -, b4, -⟩, ⟨-, -, -, -, a5, -, b5, -⟩,
    ⟨-, -, -, a6, -, b6, -⟩, ⟨-, -, a7, -, b7, -⟩, ⟨-, a8, -, b8, -⟩, ⟨a9, -, b9, -⟩,
    ⟨c1, c2, -⟩, ⟨c3, -⟩, -⟩ := hl
  unfold symSwitch
  rcases ht with ht | ht | ht
  · subst ht
    rw [if_neg (by rw [not_or]; exact ⟨fun h => a1 h.symm, fun h => a2 h.symm⟩),
      if_neg (by rw [not_or]; exact ⟨fun h => a3 h.symm, fun h => a4 h.symm⟩),
      if_neg (fun h => a5 h.symm), if_neg (fun h => a6 h.symm), if_neg (fun h => a7 h.symm),
      if_neg (fun h => a8 h.symm), if_neg (fun h => a9 h.symm), if_pos rfl]
  · subst ht
    rw [if_neg (by rw [not_or]; exact ⟨fun h => b1 h.symm, fun h => b2 h.symm⟩),
      if_neg (by rw [not_or]; exact ⟨fun h => b3 h.symm, fun h => b4 h.symm⟩),
      if_neg (fun h => b5 h.symm), if_neg (fun h => b6 h.symm), if_neg (fun h => b7 h.symm),
      if_neg (fun h => b8 h.symm), if_neg (fun h => b9 h.symm), if_neg (fun h => c2 h.symm),
      if_neg (fun h => c3 h.symm), if_pos rfl]
  · obtain ⟨n1, n2, n3, n4, n5, n6, n7, n8, n9, n10, n11, n12, n13⟩ := ht
    rw [if_neg (by rw [not_or]; exact ⟨n1, n2⟩), if_neg (by rw [not_or]; exact ⟨n3, n4⟩),
      if_neg n5, if_neg n6, if_neg n7, if_neg n8, if_neg n9, if_neg n10, if_neg n11,
      if_neg n12, if_neg n13]

/-- C21: whatever the record at the cursor `o` is, when the body of the loop of
`CVProcessSymbols` returns the cursor is `o + 1 + len`, `len` being the length byte of
the record, and the rest of what a handler read has no effect on it: the cursors of the
states the loop goes through are the offsets the length bytes alone determine.  A record
that is ignored (`CST_SKIP_ME`, `CST_TYPEDEF`, or a type that is no case label) returns
with nothing but the cursor changed. -/
theorem cursor_after_record (d : Defs) (e : SymDefs) (f : ObjFile) (fuel : Nat)
    (s : SymState) (hl : e.caseLabels.Nodup) :
    (∀ s1, symStep d e f fuel s = Except.ok s1 → s1.bp = s.bp + 1 + rd f.symSeg s.bp) ∧
      (∀ k, (symRun d e f fuel k s).map (fun x => x.bp) =
        (recordStarts f.symSeg k s.bp).take (symRun d e f fuel k s).length) ∧
      ((rd f.symSeg (s.bp + 1) = e.CST_SKIP_ME ∨ rd f.symSeg (s.bp + 1) = e.CST_TYPEDEF ∨
          rd f.symSeg (s.bp + 1) ∉ e.caseLabels) →
        symStep d e f fuel s = Except.ok { s with bp := s.bp + 1 + rd f.symSeg s.bp }) := by
  refine ⟨fun s1 h => symStep_bp d e f fuel s s1 h, fun k => symRun_bp d e f fuel k s, ?_⟩
  intro ht
  unfold symStep
  rw [symSwitch_ignored d e f fuel s _ _ _ _ hl ht]

theorem cursor_after_record_witness :
    geosSym.caseLabels.Nodup ∧
      symStep geos geosSym mixedFile 5 emptySym = Except.ok { emptySym with bp := 5 } ∧
      recordStarts mixedFile.symSeg 4 0 = [5, 9, 12, 20] ∧
      (symRun geos geosSym mixedFile 5 4 emptySym).map (fun x => x.bp) = [5, 9, 12, 20] ∧
      (symRun geos geosSym mixedFile 5 4 emptySym).map (fun x => x.cv.notes.length) =
        [0, 1, 1, 2] := by
  have hl : geosSym.caseLabels.Nodup := by decide
  exact ⟨hl, (cursor_after_record geos geosSym mixedFile 5 emptySym hl).2.2
    (Or.inl (by decide)), by decide, by decide!, by decide!⟩

theorem CVLocateFixup_count (d : Defs) (e : SymDefs) (f : ObjFile) (s s1 : SymState)
    (fixOff : Nat) (sdIn : SegPtr) (r : Option (SegPtr × Nat))
    (h : CVLocateFixup d e f s fixOff sdIn = Except.ok (r, s1)) :
    s1.blockCount = s.blockCount := by
  rcases CVLocateFixup_segs d e f s s1 _ _ _ h with h1 | ⟨m, h1⟩
  · rw [h1]
  · rw [h1]; rfl

theorem setSeg_count (s : SymState) (p : SegPtr) (g : SegDesc → SegDesc) :
    (setSeg s p g).blockCount = s.blockCount := by
  unfold setSeg
  split <;> rfl

theorem chooseBlock_count (e : SymDefs) (s : SymState) (sd procSD : SegPtr) (seg : SegDesc)
    (addr : Nat) : (chooseBlock e s sd procSD seg addr).2.blockCount = s.blockCount := by
  unfold chooseBlock
  dsimp only
  split
  · rfl
  · split
    · split
      · simp only [setSeg_count]
      · simp only [setSeg_count]
    · simp only [setSeg_count]

theorem CVDetermineSymbolBlock_count (d : Defs) (e : SymDefs) (f : ObjFile) (s s1 : SymState)
    (name bp : Nat) (procSD : SegPtr) (r : Option SymBlockSel)
    (h : CVDetermineSymbolBlock d e f s name bp procSD = Except.ok (r, s1)) :
    s1.blockCount = s.blockCount := by
  unfold CVDetermineSymbolBlock symbolPlace at h
  cases hfix : CVLocateFixup d e f s (w16 bp) e.uninitSeg with
  | error err => rw [hfix] at h; cases h
  | ok v =>
    obtain ⟨fx, s0⟩ := v
    have ht := CVLocateFixup_count d e f s s0 _ _ _ hfix
    rw [hfix] at h
    cases fx with
    | some p =>
      obtain ⟨sd, off⟩ := p
      dsimp only at h
      cases sd with
      | none => cases h
      | some i =>
        dsimp only at h
        cases h
        rw [chooseBlock_count, ht]
    | none =>
      dsimp only at h
      cases hpub : CVLocatePublic d e f name with
      | error err => rw [hpub] at h; cases h
      | ok pr =>
        rw [hpub] at h
        cases pr with
        | none =>
          dsimp only at h
          cases h
          exact ht
        | some hh =>
          dsimp only at h
          cases hsd : hh.sd with
          | none => rw [hsd] at h; cases h
          | some i =>
            rw [hsd] at h
            dsimp only at h
            cases h
            rw [chooseBlock_count, ht]

theorem stackWr_count (s s1 : SymState) (i : Int) (v : Nat) (h : stackWr s i v = Except.ok s1) :
    s1.blockCount = s.blockCount := by
  unfold stackWr at h
  split at h
  · cases h; rfl
  · cases h

theorem blockPlace_count (d : Defs) (e : SymDefs) (f : ObjFile) (s s1 : SymState)
    (bp a b c : Nat) (h : blockPlace d e f s bp = Except.ok (a, b, c, s1)) :
    s1.blockCount = s.blockCount := by
  rcases blockPlace_state _ _ _ _ _ _ _ _ _ h with h1 | ⟨m, h1⟩
  · rw [h1]
  · rw [h1]; rfl

theorem doBlockStart_count (d : Defs) (e : SymDefs) (f : ObjFile) (s s1 : SymState)
    (base len bp : Nat) (h : doBlockStart d e f s base len bp = Except.ok s1) :
    s1.blockCount = s.blockCount ∨ s1.blockCount = s.blockCount + 1 := by
  unfold doBlockStart at h
  split at h
  · cases h; left; rfl
  split at h
  · cases h; left; rfl
  split at h
  · cases h
  rename_i x1 x2 x3 s0 hbp
  have ht := blockPlace_count d e f s s0 bp _ _ _ hbp
  split at h
  · cases h
  split at h
  · split at h
    · cases h
    · rename_i s2 hw
      cases h
      left
      show s2.blockCount = _
      rw [stackWr_count _ _ _ _ hw, ht]
  · dsimp only at h
    split at h
    · cases h
    · rename_i s2 hw
      cases h
      have := stackWr_count _ _ _ _ hw
      dsimp only at this
      show s2.blockCount = _ ∨ s2.blockCount = _
      rw [this, ht]
      split
      · left; rfl
      · right; rfl

theorem doEnd_count (d : Defs) (e : SymDefs) (s s1 : SymState)
    (h : doEnd d e s = Except.ok s1) : s1.blockCount = s.blockCount := by
  unfold doEnd at h
  split at h
  · cases h; rfl
  split at h
  · cases h
  dsimp only at h
  split at h
  · cases h
  · cases h; rfl
  · split at h
    · split at h
      · cases h
      · cases h; rfl
    · split at h
      · cases h; rfl
      · cases h

theorem doLocalVar_count (d : Defs) (e : SymDefs) (f : ObjFile) (fuel : Nat) (s s1 : SymState)
    (bp : Nat) (h : doLocalVar d e f fuel s bp = Except.ok s1) :
    s1.blockCount = s.blockCount := by
  unfold doLocalVar at h
  dsimp only at h
  split at h
  · cases h; rfl
  split at h
  · cases h
  split at h
  · cases h
  · cases h; rfl

theorem doRegVar_count (d : Defs) (e : SymDefs) (f : ObjFile) (fuel : Nat) (s s1 : SymState)
    (bp : Nat) (h : doRegVar d e f fuel s bp = Except.ok s1) : s1.blockCount = s.blockCount := by
  unfold doRegVar at h
  dsimp only at h
  split at h
  · cases h; rfl
  split at h
  · cases h
  split at h
  · cases h
  · split at h
    · cases h; rfl
    · split at h
      · cases h; rfl
      · split at h
        · cases h; rfl
        · split at h <;> cases h <;> rfl

theorem variableGlobal_count (e : SymDefs) (s : SymState) (pub : Option PubHit) (seg : SegDesc)
    (name blk idx symOff : Nat) :
    (variableGlobal e s pub seg name blk idx symOff).blockCount = s.blockCount := by
  unfold variableGlobal
  dsimp only
  split
  · split <;> rfl
  · split
    · rfl
    · split
      · split <;> rfl
      · rfl

theorem doVariable_count (d : Defs) (e : SymDefs) (f : ObjFile) (fuel : Nat) (s s1 : SymState)
    (bp : Nat) (h : doVariable d e f fuel s bp = Except.ok s1) :
    s1.blockCount = s.blockCount := by
  unfold doVariable at h
  dsimp only at h
  split at h
  · cases h
  · rename_i s0 hd
    cases h
    exact CVDetermineSymbolBlock_count _ _ _ _ _ _ _ _ _ hd
  · rename_i r s0 hd
    have ht := CVDetermineSymbolBlock_count _ _ _ _ _ _ _ _ _ hd
    split at h
    · cases h
    split at h
    · cases h
    split at h
    · cases h
    split at h
    · cases h
      dsimp only
      rw [variableGlobal_count]
      exact ht
    · split at h
      · cases h
      · cases h
        dsimp only
        rw [variableGlobal_count]
        exact ht

theorem enterPublic_count (e : SymDefs) (s : SymState) (pub : Option PubHit) (seg : SegDesc)
    (name blk idx symOff : Nat) :
    (enterPublic e s pub seg name blk idx symOff).blockCount = s.blockCount := by
  unfold enterPublic
  split
  · split
    · dsimp only
      split <;> rfl
    · rfl
  · rfl

theorem doCodeLabel_count (d : Defs) (e : SymDefs) (f : ObjFile) (s s1 : SymState)
    (bp : Nat) (h : doCodeLabel d e f s bp = Except.ok s1) : s1.blockCount = s.blockCount := by
  unfold doCodeLabel at h
  dsimp only at h
  split at h
  · cases h
  · rename_i s0 hd
    cases h
    exact CVDetermineSymbolBlock_count _ _ _ _ _ _ _ _ _ hd
  · rename_i r s0 hd
    have ht := CVDetermineSymbolBlock_count _ _ _ _ _ _ _ _ _ hd
    split at h
    · cases h
    split at h
    · cases h
    · cases h
      dsimp only
      rw [enterPublic_count]
      exact ht

theorem doChangeSeg_count (d : Defs) (e : SymDefs) (f : ObjFile) (s s1 : SymState)
    (bp : Nat) (h : doChangeSeg d e f s bp = Except.ok s1) : s1.blockCount = s.blockCount := by
  unfold doChangeSeg at h
  split at h
  · cases h
  · rename_i sd x s0 hf
    cases h
    show s0.blockCount = _
    exact CVLocateFixup_count _ _ _ _ _ _ _ _ hf
  · rename_i s0 hf
    cases h
    show s0.blockCount = _
    exact CVLocateFixup_count _ _ _ _ _ _ _ _ hf

theorem procReturnType_count (d : Defs) (e : SymDefs) (fuel : Nat) (s7 s1 : SymState)
    (procOff addr ptype prologueLen : Nat)
    (h : procReturnType d e fuel s7 procOff addr ptype prologueLen = Except.ok s1) :
    s1.blockCount = s7.blockCount := by
  unfold procReturnType at h
  dsimp only at h
  split at h
  · cases h
  · split at h <;> cases h <;> rfl

theorem procSymbols_count (d : Defs) (e : SymDefs) (f : ObjFile) (fuel : Nat) (s2 s1 : SymState)
    (r : SymBlockSel) (name ptype bp : Nat)
    (h : procSymbols d e f fuel s2 r name ptype bp = Except.ok s1) :
    s1.blockCount = 0 := by
  unfold procSymbols at h
  dsimp only at h
  split at h
  · cases h
  split at h
  · cases h
  split at h
  · cases h
  have := procReturnType_count _ _ _ _ _ _ _ _ _ h
  dsimp only at this
  exact this

theorem doProcStart_count (d : Defs) (e : SymDefs) (f : ObjFile) (fuel : Nat) (s s1 : SymState)
    (bp : Nat) (h : doProcStart d e f fuel s bp = Except.ok s1) :
    s1.blockCount = s.blockCount ∨ s1.blockCount = 0 := by
  unfold doProcStart at h
  dsimp only at h
  split at h
  · cases h; left; rfl
  split at h
  · cases h
  · rename_i s0 hd
    cases h
    left
    exact CVDetermineSymbolBlock_count _ _ _ _ _ _ _ _ _ hd
  · rename_i r s0 hd
    have ht := CVDetermineSymbolBlock_count _ _ _ _ _ _ _ _ _ hd
    split at h
    · cases h
    · cases h
    · split at h
      · cases h; left; exact ht
      · split at h
        · cases h; left; exact ht
        · right
          exact procSymbols_count _ _ _ _ _ _ _ _ _ _ h

/-- The counter of anonymous blocks after the switch on one record: it is left as it
is or raised by one, or set to 0 by a procedure start. -/
theorem symSwitch_count (d : Defs) (e : SymDefs) (f : ObjFile) (fuel : Nat) (s s1 : SymState)
    (t base len bp : Nat) (hr : symSwitch d e f fuel s t base len bp = Except.ok s1) :
    s1.blockCount = s.blockCount ∨ s1.blockCount = s.blockCount + 1 ∨
      ((t = e.CST_FORTRAN_ENTRY ∨ t = e.CST_PROC_START) ∧ s1.blockCount = 0) := by
  unfold symSwitch at hr
  by_cases c1 : t = e.CST_WITH_START ∨ t = e.CST_BLOCK_START
  · rw [if_pos c1] at hr
    rcases doBlockStart_count _ _ _ _ _ _ _ _ hr with h | h
    · exact Or.inl h
    · exact Or.inr (Or.inl h)
  rw [if_neg c1] at hr
  by_cases c2 : t = e.CST_FORTRAN_ENTRY ∨ t = e.CST_PROC_START
  · rw [if_pos c2] at hr
    rcases doProcStart_count _ _ _ _ _ _ _ hr with h | h
    · exact Or.inl h
    · exact Or.inr (Or.inr ⟨c2, h⟩)
  rw [if_neg c2] at hr
  refine Or.inl ?_
  by_cases c3 : t = e.CST_END
  · rw [if_pos c3] at hr
    exact doEnd_count _ _ _ _ hr
  rw [if_neg c3] at hr
  by_cases c4 : t = e.CST_LOCAL_VAR
  · rw [if_pos c4] at hr
    exact doLocalVar_count _ _ _ _ _ _ _ hr
  rw [if_neg c4] at hr
  by_cases c5 : t = e.CST_VARIABLE
  · rw [if_pos c5] at hr
    exact doVariable_count _ _ _ _ _ _ _ hr
  rw [if_neg c5] at hr
  by_cases c6 : t = e.CST_CODE_LABEL
  · rw [if_pos c6] at hr
    exact doCodeLabel_count _ _ _ _ _ _ hr
  rw [if_neg c6] at hr
  by_cases c7 : t = e.CST_CONST
  · rw [if_pos c7] at hr
    exact Except.noConfusion hr
  rw [if_neg c7] at hr
  by_cases c8 : t = e.CST_SKIP_ME
  · rw [if_pos c8] at hr
    exact (congrArg SymState.blockCount (Except.ok.inj hr)).symm
  rw [if_neg c8] at hr
  by_cases c9 : t = e.CST_CHANGE_SEG
  · rw [if_pos c9] at hr
    exact doChangeSeg_count _ _ _ _ _ _ hr
  rw [if_neg c9] at hr
  by_cases c10 : t = e.CST_TYPEDEF
  · rw [if_pos c10] at hr
    exact (congrArg SymState.blockCount (Except.ok.inj hr)).symm
  rw [if_neg c10] at hr
  by_cases c11 : t = e.CST_REG_VAR
  · rw [if_pos c11] at hr
    exact doRegVar_count _ _ _ _ _ _ _ hr
  rw [if_neg c11] at hr
  exact (congrArg SymState.blockCount (Except.ok.inj hr)).symm

theorem symStep_count (d : Defs) (e : SymDefs) (f : ObjFile) (fuel : Nat) (s s1 : SymState)
    (h : symStep d e f fuel s = Except.ok s1) :
    s1.blockCount = s.blockCount ∨ s1.blockCount = s.blockCount + 1 ∨
      ((rd f.symSeg (s.bp + 1) = e.CST_FORTRAN_ENTRY ∨
        rd f.symSeg (s.bp + 1) = e.CST_PROC_START) ∧ s1.blockCount = 0) := by
  unfold symStep at h
  split at h
  · cases h
  rename_i s0 hr
  cases h
  exact symSwitch_count _ _ _ _ _ s0 _ _ _ _ hr

theorem symRun_count (d : Defs) (e : SymDefs) (f : ObjFile) (fuel : Nat) :
    ∀ (k : Nat) (s : SymState),
      (∀ x ∈ s :: symRun d e f fuel k s, ¬ (rd f.symSeg (x.bp + 1) = e.CST_FORTRAN_ENTRY ∨
        rd f.symSeg (x.bp + 1) = e.CST_PROC_START)) →
      List.Chain (fun a b => a ≤ b) s.blockCount
        ((symRun d e f fuel k s).map (fun x => x.blockCount)) := by
  intro k
  induction k with
  | zero => intro s _; exact List.Chain.nil
  | succ k ih =>
    intro s h
    unfold symRun at h ⊢
    split
    · rename_i hb
      rw [if_pos hb] at h
      split
      · exact List.Chain.nil
      · rename_i s1 hs
        rw [hs] at h
        dsimp only at h
        rw [List.map_cons]
        refine List.Chain.cons ?_ (ih s1 (fun x hx => h x (List.mem_cons_of_mem _ hx)))
        rcases symStep_count d e f fuel s s1 hs with h1 | h1 | ⟨h1, _⟩
        · omega
        · omega
        · exact absurd h1 (h s (List.mem_cons_self _ _))
    · exact List.Chain.nil

theorem symsOf_setBlock_same (st : CVState) (h t : Nat) (ents : List ObjSym)
    (h0 : h ≠ 0) (hlt : h - 1 < st.vm.length) :
    (st.setBlock h (VMBlock.syms t ents)).symsOf h = ents := by
  unfold CVState.symsOf
  rw [block_setBlock_same _ _ _ h0 hlt]

theorem symsOf_setBlock_ne (st : CVState) (h k : Nat) (b : VMBlock) (hk : k ≠ h) :
    (st.setBlock h b).symsOf k = st.symsOf k := by
  unfold CVState.symsOf
  rw [block_setBlock_ne _ _ _ _ hk]

theorem symsOf_modifySym (st : CVState) (h j : Nat) (g : ObjSym → ObjSym) (k : Nat) :
    (modifySym st h j g).symsOf k =
      if k = h then (st.symsOf k).set j (g ((st.symsOf k).getD j {})) else st.symsOf k := by
  unfold modifySym
  cases hb : st.block h with
  | syms t ents =>
    obtain ⟨h0, hlt⟩ := block_inv st h (by rw [hb]; exact fun x => by cases x)
    dsimp only
    by_cases hk : k = h
    · subst hk
      rw [if_pos rfl, symsOf_setBlock_same _ _ _ _ h0 hlt, symsOf_of_block _ _ _ _ hb]
    · rw [if_neg hk, symsOf_setBlock_ne _ _ _ _ hk]
  | types ents =>
    dsimp only
    by_cases hk : k = h
    · subst hk
      rw [if_pos rfl]
      unfold CVState.symsOf
      rw [hb]
      rfl
    · rw [if_neg hk]
  | free =>
    dsimp only
    by_cases hk : k = h
    · subst hk
      rw [if_pos rfl]
      unfold CVState.symsOf
      rw [hb]
      rfl
    · rw [if_neg hk]

theorem symsOf_modifySym_length (st : CVState) (h j : Nat) (g : ObjSym → ObjSym) (k : Nat) :
    ((modifySym st h j g).symsOf k).length = (st.symsOf k).length := by
  rw [symsOf_modifySym]
  split
  · rw [List.length_set]
  · rfl

theorem symAt_modifySym (st : CVState) (h j : Nat) (g : ObjSym → ObjSym) (k i : Nat) :
    (modifySym st h j g).symAt k i =
      if k = h ∧ i = j ∧ i < (st.symsOf k).length then g (st.symAt k i) else st.symAt k i := by
  unfold CVState.symAt
  rw [symsOf_modifySym]
  by_cases hk : k = h
  · rw [if_pos hk]
    by_cases hi : i = j
    · subst hi
      by_cases hl : i < (st.symsOf k).length
      · rw [if_pos ⟨hk, rfl, hl⟩, getD_set_here _ _ _ _ hl]
      · rw [if_neg (fun x => hl x.2.2), List.getD_eq_default _ _ (by rw [List.length_set]; omega),
          List.getD_eq_default _ _ (by omega)]
    · rw [if_neg (fun x => hi x.2.1), getD_set_other _ _ _ _ _ (Ne.symm hi)]
  · rw [if_neg hk, if_neg (fun x => hk x.1)]

theorem symsOf_alloc (d : Defs) (st : CVState) (h t : Nat) (ents : List ObjSym)
    (hb : st.block h = VMBlock.syms t ents) (k : Nat) :
    (CVAllocSymLocked d st h).2.2.symsOf k =
      if k = h then ents ++ [({} : ObjSym)] else st.symsOf k := by
  obtain ⟨h0, hlt⟩ := block_inv st h (by rw [hb]; exact fun x => by cases x)
  rw [CVAllocSymLocked_syms d st h t ents hb]
  dsimp only
  by_cases hk : k = h
  · subst hk
    rw [if_pos rfl, symsOf_setBlock_same _ _ _ _ h0 hlt]
  · rw [if_neg hk, symsOf_setBlock_ne _ _ _ _ hk]

theorem alloc_index (d : Defs) (st : CVState) (h : Nat) :
    (CVAllocSymLocked d st h).2.1 = (st.symsOf h).length := by
  unfold CVAllocSymLocked CVState.symsOf
  cases st.block h <;> rfl

theorem symAt_alloc (d : Defs) (st : CVState) (h k i : Nat) :
    (CVAllocSymLocked d st h).2.2.symAt k i = st.symAt k i := by
  cases hb : st.block h with
  | syms t ents =>
    unfold CVState.symAt
    rw [symsOf_alloc d st h t ents hb]
    split
    · rename_i hk
      subst hk
      rw [symsOf_of_block _ _ _ _ hb]
      by_cases hi : i < ents.length
      · rw [getD_append_lt _ _ _ _ hi]
      · rw [List.getD_eq_default ents _ (by omega)]
        by_cases hi2 : i = ents.length
        · rw [hi2, getD_append_len]
        · rw [List.getD_eq_default _ _ (by rw [List.length_append]; simp; omega)]
    · rfl
  | types ents =>
    unfold CVAllocSymLocked
    rw [hb]
  | free =>
    unfold CVAllocSymLocked
    rw [hb]

/-- What `CVAllocLocalSym` leaves of a symbol that exists: everything but the two link
fields. -/
theorem symAt_allocLocal (d : Defs) (cv : CVState) (blk c L k i : Nat) :
    ∃ n1 n2, (CVAllocLocalSym d cv blk c L).2.2.symAt k i =
      { cv.symAt k i with procLocal_next := n1, scope_first := n2 } := by
  unfold CVAllocLocalSym modifyAtOff
  dsimp only
  split
  · rw [symAt_modifySym, symAt_modifySym, symAt_alloc]
    split
    · split
      · exact ⟨_, _, rfl⟩
      · exact ⟨_, _, rfl⟩
    · split
      · exact ⟨_, _, rfl⟩
      · exact ⟨_, _, rfl⟩
  · rw [symAt_modifySym, symAt_modifySym, symAt_alloc]
    split
    · split
      · exact ⟨_, _, rfl⟩
      · exact ⟨_, _, rfl⟩
    · split
      · exact ⟨_, _, rfl⟩
      · exact ⟨_, _, rfl⟩

theorem allocLocal_index (d : Defs) (cv : CVState) (blk c L : Nat) :
    (CVAllocLocalSym d cv blk c L).2.1 = (cv.symsOf blk).length := by
  unfold CVAllocLocalSym
  exact alloc_index d cv blk

theorem allocLocal_length (d : Defs) (cv : CVState) (blk c L t : Nat) (ents : List ObjSym)
    (hb : cv.block blk = VMBlock.syms t ents) (k : Nat) :
    ((CVAllocLocalSym d cv blk c L).2.2.symsOf k).length =
      if k = blk then ents.length + 1 else (cv.symsOf k).length := by
  unfold CVAllocLocalSym modifyAtOff
  dsimp only
  have : ((CVAllocSymLocked d cv blk).2.2.symsOf k).length =
      if k = blk then ents.length + 1 else (cv.symsOf k).length := by
    rw [symsOf_alloc d cv blk t ents hb]
    by_cases hk : k = blk
    · rw [if_pos hk, if_pos hk, List.length_append]
      rfl
    · rw [if_neg hk, if_neg hk]
  split
  · rw [symsOf_modifySym_length, symsOf_modifySym_length, this]
  · rw [symsOf_modifySym_length, symsOf_modifySym_length, this]

theorem variableGlobal_cv (e : SymDefs) (s : SymState) (pub : Option PubHit) (seg : SegDesc)
    (name blk idx symOff : Nat) :
    (globalRule e pub seg →
      (variableGlobal e s pub seg name blk idx symOff).cv =
        modifySym s.cv blk idx (fun o => { o with flags := o.flags ||| e.OSYM_GLOBAL })) ∧
    (¬ globalRule e pub seg → (variableGlobal e s pub seg name blk idx symOff).cv = s.cv) := by
  unfold globalRule variableGlobal
  cases pub with
  | none =>
    dsimp only
    constructor
    · intro h
      rcases h with ⟨h, h1, _⟩ | h | h
      · cases h1
      · rw [if_neg (by simp), if_pos h]
      · rw [if_neg (by simp)]
        split
        · rfl
        · rw [if_pos h.1, if_pos h.2]
    · intro h
      rw [not_or, not_or] at h
      rw [if_neg (by simp), if_neg h.2.1]
      split
      · rename_i hn
        rw [if_neg (fun x => h.2.2 ⟨hn, x⟩)]
      · rfl
  | some p =>
    dsimp only
    by_cases hr : p.real = true
    · constructor
      · intro _
        rw [if_pos hr]
        split <;> rfl
      · intro h
        exact absurd (Or.inl ⟨p, rfl, hr⟩) h
    · constructor
      · intro h
        rcases h with ⟨h, h1, h2⟩ | h | h
        · cases h1
          exact absurd h2 hr
        · rw [if_neg hr, if_pos h]
        · rw [if_neg hr]
          split
          · rfl
          · rw [if_pos h.1, if_pos h.2]
      · intro h
        rw [not_or, not_or] at h
        rw [if_neg hr, if_neg h.2.1]
        split
        · rename_i hn
          rw [if_neg (fun x => h.2.2 ⟨hn, x⟩)]
        · rfl

theorem variableGlobal_fields (e : SymDefs) (s : SymState) (pub : Option PubHit) (seg : SegDesc)
    (name blk idx symOff : Nat) :
    (variableGlobal e s pub seg name blk idx symOff).scopeTop = s.scopeTop ∧
    (variableGlobal e s pub seg name blk idx symOff).scopeStack = s.scopeStack ∧
    (variableGlobal e s pub seg name blk idx symOff).symBlock = s.symBlock ∧
    (variableGlobal e s pub seg name blk idx symOff).lastLocal = s.lastLocal := by
  unfold variableGlobal
  dsimp only
  split
  · split <;> exact ⟨rfl, rfl, rfl, rfl⟩
  · split
    · exact ⟨rfl, rfl, rfl, rfl⟩
    · split
      · split <;> exact ⟨rfl, rfl, rfl, rfl⟩
      · exact ⟨rfl, rfl, rfl, rfl⟩

/-- What the case `CST_VARIABLE` does with a record that resolves, to the block selection
`r` in state `s1`, when the block chosen holds the symbols `ents` and the decoding of the
type (which gives `ty` and `cv2`) returns: the state `s2` after the flag of the variable
symbol is decided, and then the entry in the table of the segment outside a procedure, or
the local static symbol inside one. -/
theorem doVariable_shape (d : Defs) (e : SymDefs) (f : ObjFile) (fuel : Nat) (s : SymState)
    (bp : Nat) (r : SymBlockSel) (s1 : SymState) (i t : Nat) (ents : List ObjSym)
    (ty : Nat) (cv2 : CVState) (pub : Option PubHit)
    (hdet : CVDetermineSymbolBlock d e f s
      (d.ST_Enter (bytesAt f.symSeg (bp + 7) (rd f.symSeg (bp + 6)))) bp s.procSD =
        Except.ok (some r, s1))
    (hsd : r.sd = some i)
    (hblk : s1.cv.block r.symBlock = VMBlock.syms t ents)
    (hfetch : CVFetchType d fuel (s1.cv.setBlock r.symBlock (VMBlock.syms t (ents ++
        [varSymbol e (d.ST_Enter (bytesAt f.symSeg (bp + 7) (rd f.symSeg (bp + 6)))) r.addr])))
      r.typeBlock (rdw f.symSeg (bp + 4)) = Except.ok (ty, cv2))
    (hpub : CVLocatePublic d e f
      (d.ST_Enter (bytesAt f.symSeg (bp + 7) (rd f.symSeg (bp + 6)))) = Except.ok pub) :
    ∃ s2, s2 = variableGlobal e
        { s1 with cv := modifySym cv2 r.symBlock ents.length
                          (fun o => { o with variable_type := ty }) }
        pub (s1.segs.getD i {})
        (d.ST_Enter (bytesAt f.symSeg (bp + 7) (rd f.symSeg (bp + 6)))) r.symBlock ents.length
        (w16 (d.szObjSymHeader + ents.length * d.szObjSym)) ∧
      (s.procSD = none → doVariable d e f fuel s bp = Except.ok
        { s2 with entered := s2.entered ++ [⟨(s1.segs.getD i {}).syms,
          d.ST_Enter (bytesAt f.symSeg (bp + 7) (rd f.symSeg (bp + 6))), r.symBlock,
          w16 (d.szObjSymHeader + ents.length * d.szObjSym)⟩] }) ∧
      (s.procSD ≠ none → 1 ≤ s2.scopeTop → s2.scopeTop ≤ 32 →
        doVariable d e f fuel s bp = Except.ok
          (localStatic d e s2 (d.ST_Enter (bytesAt f.symSeg (bp + 7) (rd f.symSeg (bp + 6))))
            r.symBlock (w16 (d.szObjSymHeader + ents.length * d.szObjSym))
            (s2.scopeStack.getD (s2.scopeTop - 1).toNat 0))) := by
  obtain ⟨b0, blt⟩ := block_inv s1.cv r.symBlock (by rw [hblk]; exact fun x => by cases x)
  have halloc := CVAllocSymLocked_syms d s1.cv r.symBlock t ents hblk
  have hlist : (ents ++ [({} : ObjSym)]).set ents.length
      { ((ents ++ [({} : ObjSym)]).getD ents.length {}) with
        type := e.OSYM_VAR,
        name := d.ST_Enter (bytesAt f.symSeg (bp + 7) (rd f.symSeg (bp + 6))), flags := 0,
        variable_address := r.addr } =
      ents ++ [varSymbol e (d.ST_Enter (bytesAt f.symSeg (bp + 7) (rd f.symSeg (bp + 6))))
        r.addr] := by
    simp [varSymbol, List.getD_eq_getElem?_getD]
  refine ⟨_, rfl, ?_, ?_⟩
  · intro hproc
    unfold doVariable
    dsimp only
    rw [hdet]
    dsimp only
    rw [halloc]
    dsimp only
    rw [modifySym_setBlock _ _ _ _ _ _ b0 blt, hlist, hfetch]
    dsimp only
    rw [hpub]
    dsimp only
    rw [hsd]
    simp only [segAt]
    rw [if_pos hproc]
  · intro hproc h1 h32
    unfold doVariable
    dsimp only
    rw [hdet]
    dsimp only
    rw [halloc]
    dsimp only
    rw [modifySym_setBlock _ _ _ _ _ _ b0 blt, hlist, hfetch]
    dsimp only
    rw [hpub]
    dsimp only
    rw [hsd]
    simp only [segAt]
    rw [if_neg hproc]
    unfold stackRd
    have h32' : (MAX_SCOPES : Int) = 32 := rfl
    rw [if_pos ⟨by omega, by omega⟩]
    rfl

theorem variableGlobal_var (e : SymDefs) (s1 : SymState) (cv2 : CVState) (pub : Option PubHit)
    (seg : SegDesc) (name addr ty blk off : Nat) (ents : List ObjSym)
    (hkeep : cv2.symsOf blk = ents ++ [varSymbol e name addr]) :
    ((variableGlobal e
        { s1 with cv := modifySym cv2 blk ents.length (fun o => { o with variable_type := ty }) }
        pub seg name blk ents.length off).cv.symsOf blk).length = ents.length + 1 ∧
    (globalRule e pub seg →
      (variableGlobal e
        { s1 with cv := modifySym cv2 blk ents.length (fun o => { o with variable_type := ty }) }
        pub seg name blk ents.length off).cv.symAt blk ents.length =
        { typedVar e name addr ty with flags := 0 ||| e.OSYM_GLOBAL }) ∧
    (¬ globalRule e pub seg →
      (variableGlobal e
        { s1 with cv := modifySym cv2 blk ents.length (fun o => { o with variable_type := ty }) }
        pub seg name blk ents.length off).cv.symAt blk ents.length = typedVar e name addr ty) := by
  have hlen : ((modifySym cv2 blk ents.length
      (fun o => { o with variable_type := ty })).symsOf blk).length = ents.length + 1 := by
    rw [symsOf_modifySym_length, hkeep, List.length_append]
    rfl
  have h3 : (modifySym cv2 blk ents.length
      (fun o => { o with variable_type := ty })).symAt blk ents.length =
      typedVar e name addr ty := by
    rw [symAt_modifySym, if_pos ⟨rfl, rfl, by rw [hkeep, List.length_append]; simp⟩]
    unfold CVState.symAt
    rw [hkeep, getD_append_len]
    rfl
  obtain ⟨hy, hn⟩ := variableGlobal_cv e
    { s1 with cv := modifySym cv2 blk ents.length (fun o => { o with variable_type := ty }) }
    pub seg name blk ents.length off
  by_cases hG : globalRule e pub seg
  · refine ⟨?_, fun _ => ?_, fun h => absurd hG h⟩
    · rw [hy hG, symsOf_modifySym_length]
      exact hlen
    · rw [hy hG, symAt_modifySym, if_pos ⟨rfl, rfl, by rw [hlen]; omega⟩]
      show _ = _
      dsimp only
      rw [h3]
      rfl
  · refine ⟨?_, fun h => absurd h hG, fun _ => ?_⟩
    · rw [hn hG]
      exact hlen
    · rw [hn hG]
      exact h3

/-- C23: for a variable record that resolves (to the block selection `r`, in a chosen
block that holds symbols, with a type whose decoding returns and leaves the symbols of
that block as they are), the case `CST_VARIABLE` returns and the variable symbol it has
appended carries the flag `OSYM_GLOBAL` if and only if the name has a public entry that is
a real `PUBDEF`, or the segment is an `SEG_LMEM` segment that is the first of its group,
or the segment has a name that begins with `_CLASSSEG_`; its flags are otherwise 0. -/
theorem variable_global_flag (d : Defs) (e : SymDefs) (f : ObjFile) (fuel : Nat)
    (s : SymState) (bp : Nat) (r : SymBlockSel) (s1 : SymState) (i t : Nat)
    (ents : List ObjSym) (ty : Nat) (cv2 : CVState) (pub : Option PubHit)
    (hdet : CVDetermineSymbolBlock d e f s
      (d.ST_Enter (bytesAt f.symSeg (bp + 7) (rd f.symSeg (bp + 6)))) bp s.procSD =
        Except.ok (some r, s1))
    (hsd : r.sd = some i)
    (hblk : s1.cv.block r.symBlock = VMBlock.syms t ents)
    (hfetch : CVFetchType d fuel (s1.cv.setBlock r.symBlock (VMBlock.syms t (ents ++
        [varSymbol e (d.ST_Enter (bytesAt f.symSeg (bp + 7) (rd f.symSeg (bp + 6)))) r.addr])))
      r.typeBlock (rdw f.symSeg (bp + 4)) = Except.ok (ty, cv2))
    (hkeep : cv2.symsOf r.symBlock = ents ++
      [varSymbol e (d.ST_Enter (bytesAt f.symSeg (bp + 7) (rd f.symSeg (bp + 6)))) r.addr])
    (hpub : CVLocatePublic d e f
      (d.ST_Enter (bytesAt f.symSeg (bp + 7) (rd f.symSeg (bp + 6)))) = Except.ok pub)
    (hdepth : s.procSD ≠ none → 1 ≤ s.scopeTop ∧ s.scopeTop ≤ 32)
    (hg : e.OSYM_GLOBAL ≠ 0) :
    ∃ s3, doVariable d e f fuel s bp = Except.ok s3 ∧
      (s3.cv.symAt r.symBlock ents.length).type = e.OSYM_VAR ∧
      (s3.cv.symAt r.symBlock ents.length).name =
        d.ST_Enter (bytesAt f.symSeg (bp + 7) (rd f.symSeg (bp + 6))) ∧
      (s3.cv.symAt r.symBlock ents.length).variable_address = r.addr ∧
      (s3.cv.symAt r.symBlock ents.length).variable_type = ty ∧
      (globalRule e pub (s1.segs.getD i {}) →
        (s3.cv.symAt r.symBlock ents.length).flags = e.OSYM_GLOBAL) ∧
      (¬ globalRule e pub (s1.segs.getD i {}) →
        (s3.cv.symAt r.symBlock ents.length).flags = 0) ∧
      ((s3.cv.symAt r.symBlock ents.length).flags &&& e.OSYM_GLOBAL ≠ 0 ↔
        globalRule e pub (s1.segs.getD i {})) := by
  obtain ⟨s2, hs2, hnone, hsome⟩ := doVariable_shape d e f fuel s bp r s1 i t ents ty cv2 pub
    hdet hsd hblk hfetch hpub
  obtain ⟨hlen, hy, hn⟩ := variableGlobal_var e s1 cv2 pub (s1.segs.getD i {})
    (d.ST_Enter (bytesAt f.symSeg (bp + 7) (rd f.symSeg (bp + 6)))) r.addr ty r.symBlock
    (w16 (d.szObjSymHeader + ents.length * d.szObjSym)) ents hkeep
  rw [← hs2] at hlen hy hn
  -- the variable symbol in the state `s2`
  have hv : (s2.cv.symAt r.symBlock ents.length).type = e.OSYM_VAR ∧
      (s2.cv.symAt r.symBlock ents.length).name =
        d.ST_Enter (bytesAt f.symSeg (bp + 7) (rd f.symSeg (bp + 6))) ∧
      (s2.cv.symAt r.symBlock ents.length).variable_address = r.addr ∧
      (s2.cv.symAt r.symBlock ents.length).variable_type = ty ∧
      (globalRule e pub (s1.segs.getD i {}) →
        (s2.cv.symAt r.symBlock ents.length).flags = e.OSYM_GLOBAL) ∧
      (¬ globalRule e pub (s1.segs.getD i {}) →
        (s2.cv.symAt r.symBlock ents.length).flags = 0) := by
    by_cases hG : globalRule e pub (s1.segs.getD i {})
    · rw [hy hG]
      exact ⟨rfl, rfl, rfl, rfl, fun _ => Nat.zero_or _, fun h => absurd hG h⟩
    · rw [hn hG]
      exact ⟨rfl, rfl, rfl, rfl, fun h => absurd h hG, fun _ => rfl⟩
  have hfin : ∀ o : ObjSym, o.type = e.OSYM_VAR ∧
      o.name = d.ST_Enter (bytesAt f.symSeg (bp + 7) (rd f.symSeg (bp + 6))) ∧
      o.variable_address = r.addr ∧ o.variable_type = ty ∧
      (globalRule e pub (s1.segs.getD i {}) → o.flags = e.OSYM_GLOBAL) ∧
      (¬ globalRule e pub (s1.segs.getD i {}) → o.flags = 0) →
      o.type = e.OSYM_VAR ∧
      o.name = d.ST_Enter (bytesAt f.symSeg (bp + 7) (rd f.symSeg (bp + 6))) ∧
      o.variable_address = r.addr ∧ o.variable_type = ty ∧
      (globalRule e pub (s1.segs.getD i {}) → o.flags = e.OSYM_GLOBAL) ∧
      (¬ globalRule e pub (s1.segs.getD i {}) → o.flags = 0) ∧
      (o.flags &&& e.OSYM_GLOBAL ≠ 0 ↔ globalRule e pub (s1.segs.getD i {})) := by
    intro o ⟨a1, a2, a3, a4, a5, a6⟩
    refine ⟨a1, a2, a3, a4, a5, a6, ?_⟩
    by_cases hG : globalRule e pub (s1.segs.getD i {})
    · rw [a5 hG, Nat.and_self]
      exact ⟨fun _ => hG, fun _ => hg⟩
    · rw [a6 hG, Nat.zero_and]
      exact ⟨fun h => absurd rfl h, fun h => absurd h hG⟩
  by_cases hproc : s.procSD = none
  · exact ⟨_, hnone hproc, hfin _ hv⟩
  · have htop : s2.scopeTop = s.scopeTop := by
      rw [hs2, (variableGlobal_fields _ _ _ _ _ _ _ _).1]
      show s1.scopeTop = s.scopeTop
      exact CVDetermineSymbolBlock_top _ _ _ _ _ _ _ _ _ hdet
    obtain ⟨hd1, hd2⟩ := hdepth hproc
    refine ⟨_, hsome hproc (by rw [htop]; exact hd1) (by rw [htop]; exact hd2), hfin _ ?_⟩
    have hsame : (localStatic d e s2
        (d.ST_Enter (bytesAt f.symSeg (bp + 7) (rd f.symSeg (bp + 6)))) r.symBlock
        (w16 (d.szObjSymHeader + ents.length * d.szObjSym))
        (s2.scopeStack.getD (s2.scopeTop - 1).toNat 0)).cv.symAt r.symBlock ents.length =
        (CVAllocLocalSym d s2.cv s2.symBlock (s2.scopeStack.getD (s2.scopeTop - 1).toNat 0)
          s2.lastLocal).2.2.symAt r.symBlock ents.length := by
      unfold localStatic
      dsimp only
      rw [symAt_modifySym, if_neg]
      intro ⟨hb, hi, _⟩
      rw [allocLocal_index, ← hb, hlen] at hi
      omega
    rw [hsame]
    obtain ⟨n1, n2, hl⟩ := symAt_allocLocal d s2.cv s2.symBlock
      (s2.scopeStack.getD (s2.scopeTop - 1).toNat 0) s2.lastLocal r.symBlock ents.length
    rw [hl]
    exact hv

theorem modifySym_isSyms (st : CVState) (h j : Nat) (g : ObjSym → ObjSym) (k : Nat)
    (hk : st.isSyms k) : (modifySym st h j g).isSyms k := by
  obtain ⟨t, l, hb⟩ := hk
  unfold modifySym
  cases hh : st.block h with
  | syms t1 ents =>
    obtain ⟨h0, hlt⟩ := block_inv st h (by rw [hh]; exact fun x => by cases x)
    dsimp only
    by_cases e1 : k = h
    · subst e1
      exact ⟨_, _, block_setBlock_same _ _ _ h0 hlt⟩
    · exact ⟨t, l, by rw [block_setBlock_ne _ _ _ _ e1, hb]⟩
  | types ents => exact ⟨t, l, hb⟩
  | free => exact ⟨t, l, hb⟩

theorem allocLocal_grows (d : Defs) (cv : CVState) (blk c L : Nat) (hb : cv.isSyms blk)
    (k : Nat) :
    ((CVAllocLocalSym d cv blk c L).2.2.symsOf k).length =
      if k = blk then (cv.symsOf k).length + 1 else (cv.symsOf k).length := by
  obtain ⟨t, l, hb⟩ := hb
  rw [allocLocal_length d cv blk c L t l hb]
  by_cases hk : k = blk
  · rw [if_pos hk, if_pos hk, hk, symsOf_of_block _ _ _ _ hb]
  · rw [if_neg hk, if_neg hk]

theorem CVLocateFixup_frame (d : Defs) (e : SymDefs) (f : ObjFile) (s s1 : SymState)
    (fixOff : Nat) (sdIn : SegPtr) (r : Option (SegPtr × Nat))
    (h : CVLocateFixup d e f s fixOff sdIn = Except.ok (r, s1)) :
    s1.entered = s.entered ∧ s1.symBlock = s.symBlock ∧ s1.lastLocal = s.lastLocal ∧
      s1.scopeStack = s.scopeStack := by
  rcases CVLocateFixup_segs d e f s s1 _ _ _ h with h1 | ⟨m, h1⟩
  · rw [h1]
    exact ⟨rfl, rfl, rfl, rfl⟩
  · rw [h1]
    exact ⟨rfl, rfl, rfl, rfl⟩

theorem setSeg_frame (s : SymState) (p : SegPtr) (g : SegDesc → SegDesc) :
    (setSeg s p g).entered = s.entered ∧ (setSeg s p g).symBlock = s.symBlock ∧
      (setSeg s p g).lastLocal = s.lastLocal ∧ (setSeg s p g).scopeStack = s.scopeStack := by
  unfold setSeg
  split
  · exact ⟨rfl, rfl, rfl, rfl⟩
  · exact ⟨rfl, rfl, rfl, rfl⟩

theorem chooseBlock_frame (e : SymDefs) (s : SymState) (sd procSD : SegPtr) (seg : SegDesc)
    (addr : Nat) :
    (chooseBlock e s sd procSD seg addr).2.entered = s.entered ∧
      (chooseBlock e s sd procSD seg addr).2.symBlock = s.symBlock ∧
      (chooseBlock e s sd procSD seg addr).2.lastLocal = s.lastLocal ∧
      (chooseBlock e s sd procSD seg addr).2.scopeStack = s.scopeStack := by
  unfold chooseBlock
  dsimp only
  split
  · exact ⟨rfl, rfl, rfl, rfl⟩
  · split
    · split
      · simp only [(setSeg_frame _ _ _).1, (setSeg_frame _ _ _).2.1, (setSeg_frame _ _ _).2.2.1,
          (setSeg_frame _ _ _).2.2.2, and_self]
      · simp only [(setSeg_frame _ _ _).1, (setSeg_frame _ _ _).2.1, (setSeg_frame _ _ _).2.2.1,
          (setSeg_frame _ _ _).2.2.2, and_self]
    · simp only [(setSeg_frame _ _ _).1, (setSeg_frame _ _ _).2.1, (setSeg_frame _ _ _).2.2.1,
        (setSeg_frame _ _ _).2.2.2, and_self]

theorem CVDetermineSymbolBlock_frame (d : Defs) (e : SymDefs) (f : ObjFile) (s s1 : SymState)
    (name bp : Nat) (procSD : SegPtr) (r : Option SymBlockSel)
    (h : CVDetermineSymbolBlock d e f s name bp procSD = Except.ok (r, s1)) :
    s1.entered = s.entered ∧ s1.symBlock = s.symBlock ∧ s1.lastLocal = s.lastLocal ∧
      s1.scopeStack = s.scopeStack := by
  unfold CVDetermineSymbolBlock symbolPlace at h
  cases hfix : CVLocateFixup d e f s (w16 bp) e.uninitSeg with
  | error err => rw [hfix] at h; cases h
  | ok v =>
    obtain ⟨fx, s0⟩ := v
    obtain ⟨a1, a2, a3, a4⟩ := CVLocateFixup_frame d e f s s0 _ _ _ hfix
    rw [hfix] at h
    cases fx with
    | some p =>
      obtain ⟨sd, off⟩ := p
      dsimp only at h
      cases sd with
      | none => cases h
      | some i =>
        dsimp only at h
        cases h
        obtain ⟨b1, b2, b3, b4⟩ := chooseBlock_frame e s0 (some i) procSD (s0.segs.getD i {})
          (w16 (off + ((s0.segs.getD i {}).nextOff + rdw f.symSeg bp)))
        exact ⟨b1.trans a1, b2.trans a2, b3.trans a3, b4.trans a4⟩
    | none =>
      dsimp only at h
      cases hpub : CVLocatePublic d e f name with
      | error err => rw [hpub] at h; cases h
      | ok pr =>
        rw [hpub] at h
        cases pr with
        | none =>
          dsimp only at h
          cases h
          exact ⟨a1, a2, a3, a4⟩
        | some hh =>
          dsimp only at h
          cases hsd : hh.sd with
          | none => rw [hsd] at h; cases h
          | some i =>
            rw [hsd] at h
            dsimp only at h
            cases h
            obtain ⟨b1, b2, b3, b4⟩ := chooseBlock_frame e s0 (some i) procSD
              (s0.segs.getD i {})
              (w16 (hh.offset + ((s0.segs.getD i {}).nextOff + rdw f.symSeg bp)))
            exact ⟨b1.trans a1, b2.trans a2, b3.trans a3, b4.trans a4⟩

theorem variableGlobal_entered (e : SymDefs) (s : SymState) (pub : Option PubHit)
    (seg : SegDesc) (name blk idx symOff : Nat) :
    (variableGlobal e s pub seg name blk idx symOff).entered =
      s.entered ++ aliasEntry pub seg name blk symOff := by
  unfold variableGlobal aliasEntry
  cases pub with
  | none =>
    dsimp only
    rw [if_neg Bool.false_ne_true]
    split
    · exact (List.append_nil _).symm
    · split
      · split
        · exact (List.append_nil _).symm
        · exact (List.append_nil _).symm
      · exact (List.append_nil _).symm
  | some h =>
    dsimp only
    by_cases hr : h.real = true
    · rw [if_pos hr]
      by_cases ha : h.aliasId = name
      · rw [if_neg (by simpa using ha), if_neg (fun x => x.2 ha)]
        exact (List.append_nil _).symm
      · rw [if_pos (by simpa using ha), if_pos ⟨hr, ha⟩]
    · have ha : (if h.real = true ∧ h.aliasId ≠ name then
          [(⟨seg.syms, name, blk, symOff⟩ : SymEntry)] else []) = [] :=
        if_neg (fun x => hr x.1)
      rw [ha, List.append_nil, if_neg hr]
      split
      · rfl
      · split
        · split
          · rfl
          · rfl
        · rfl

theorem variableGlobal_syms (e : SymDefs) (s : SymState) (pub : Option PubHit)
    (seg : SegDesc) (name blk idx symOff : Nat) (k : Nat) :
    ((variableGlobal e s pub seg name blk idx symOff).cv.symsOf k).length =
      (s.cv.symsOf k).length ∧
    (s.cv.isSyms k → (variableGlobal e s pub seg name blk idx symOff).cv.isSyms k) := by
  obtain ⟨hy, hn⟩ := variableGlobal_cv e s pub seg name blk idx symOff
  by_cases hG : globalRule e pub seg
  · rw [hy hG]
    exact ⟨symsOf_modifySym_length _ _ _ _ _, modifySym_isSyms _ _ _ _ _⟩
  · rw [hn hG]
    exact ⟨rfl, id⟩

/-- Witness for C23: the variable `v` of `varFile`, outside any procedure, has a real
public entry; its symbol, the first of block 2, is flagged `OSYM_GLOBAL`. -/
theorem variable_global_flag_witness :
    globalRule geosSym (some ⟨some 2, 0x200, true, geos.ST_Enter [118]⟩)
        (dataSegs.getD 2 {}) ∧
      ∃ s3, doVariable geos geosSym varFile 2 varState 2 = Except.ok s3 ∧
        (s3.cv.symAt 2 0).type = geosSym.OSYM_VAR ∧
        (s3.cv.symAt 2 0).flags = geosSym.OSYM_GLOBAL := by
  have hG : globalRule geosSym (some ⟨some 2, 0x200, true, geos.ST_Enter [118]⟩)
      (dataSegs.getD 2 {}) := Or.inl ⟨_, rfl, rfl⟩
  obtain ⟨s3, h1, h2, -, -, -, h3, -, -⟩ :=
    variable_global_flag geos geosSym varFile 2 varState 2
      (chooseBlock geosSym varState (some 2) none (dataSegs.getD 2 {}) 0x310).1
      (chooseBlock geosSym varState (some 2) none (dataSegs.getD 2 {}) 0x310).2
      2 1 [] 0x2005
      ((chooseBlock geosSym varState (some 2) none (dataSegs.getD 2 {}) 0x310).2.cv.setBlock 2
        (VMBlock.syms 1 [varSymbol geosSym (geos.ST_Enter [118]) 0x310]))
      (some ⟨some 2, 0x200, true, geos.ST_Enter [118]⟩)
      (by decide!) (by decide!) (by decide!) (by decide!) (by decide!) (by decide!)
      (fun h => absurd rfl h) (by decide)
  exact ⟨hG, s3, h1, h2, h3 hG⟩

/-- C24 (counterexample): in `staticFile` the variable `v` lies in the segment of the open
procedure `f` (the place found for its record is segment 2, which is `procSD`); the case
`CST_VARIABLE` all the same appends an `OSYM_LOCAL_STATIC` symbol named `v` to the block
of the procedure, after the `OSYM_VAR` symbol, and makes no entry for `v` in the table of
the segment: the only entry is the one of `f`. -/
theorem same_segment_static :
    staticState.procSD = some 2 ∧
      (CVDetermineSymbolBlock geos geosSym staticFile staticState (geos.ST_Enter [118]) 19
        staticState.procSD).toOption.map (fun p => p.1.map (fun r => r.sd)) =
          some (some (some 2)) ∧
      (staticState.cv.symsOf 2).length = 3 ∧
      (doVariable geos geosSym staticFile 5 staticState 19).toOption.map
        (fun s => ((s.cv.symsOf 2).drop 3).map (fun o => (o.type, o.name))) =
          some [(geosSym.OSYM_VAR, geos.ST_Enter [118]),
                (geosSym.OSYM_LOCAL_STATIC, geos.ST_Enter [118])] ∧
      (doVariable geos geosSym staticFile 5 staticState 19).toOption.map
        (fun s => s.entered) = some [⟨9, geos.ST_Enter [102], 2, 8⟩] ∧
      (symRun geos geosSym staticFile 5 2 nestState).map (fun s => s.entered) =
        [[⟨9, geos.ST_Enter [102], 2, 8⟩], [⟨9, geos.ST_Enter [102], 2, 8⟩]] := by
  decide!

/-- C24 (amended): for a variable record that resolves (to the block selection `r`, in a
block that holds symbols, with a type whose decoding returns), the case `CST_VARIABLE`
returns, and an `OSYM_LOCAL_STATIC` symbol is created exactly when a procedure is open,
whatever the segment of the variable.  With no procedure open (`procSD` is `NULL`) no
symbol is added after the decoding of the type, the last local is as before and the
variable is entered in the table of its segment.  With a procedure open, whose block is a
symbol block, one symbol is appended to that block: it has the type `OSYM_LOCAL_STATIC`,
the name of the variable, no flag, and points to the variable symbol (block and offset);
it becomes the last local, and the variable is not entered in the table of its segment
(the only entry the case can make then is the one for a real public definition with
another spelling). -/
theorem variable_local_static (d : Defs) (e : SymDefs) (f : ObjFile) (fuel : Nat)
    (s : SymState) (bp : Nat) (r : SymBlockSel) (s1 : SymState) (i t : Nat)
    (ents : List ObjSym) (ty : Nat) (cv2 : CVState) (pub : Option PubHit)
    (hdet : CVDetermineSymbolBlock d e f s
      (d.ST_Enter (bytesAt f.symSeg (bp + 7) (rd f.symSeg (bp + 6)))) bp s.procSD =
        Except.ok (some r, s1))
    (hsd : r.sd = some i)
    (hblk : s1.cv.block r.symBlock = VMBlock.syms t ents)
    (hfetch : CVFetchType d fuel (s1.cv.setBlock r.symBlock (VMBlock.syms t (ents ++
        [varSymbol e (d.ST_Enter (bytesAt f.symSeg (bp + 7) (rd f.symSeg (bp + 6)))) r.addr])))
      r.typeBlock (rdw f.symSeg (bp + 4)) = Except.ok (ty, cv2))
    (hpub : CVLocatePublic d e f
      (d.ST_Enter (bytesAt f.symSeg (bp + 7) (rd f.symSeg (bp + 6)))) = Except.ok pub)
    (hdepth : s.procSD ≠ none → 1 ≤ s.scopeTop ∧ s.scopeTop ≤ 32)
    (hp : s.procSD ≠ none → cv2.isSyms s.symBlock) :
    ∃ s3, doVariable d e f fuel s bp = Except.ok s3 ∧
      (s.procSD = none →
        (∀ k, (s3.cv.symsOf k).length = (cv2.symsOf k).length) ∧
        s3.lastLocal = s.lastLocal ∧
        s3.entered = s.entered ++
          aliasEntry pub (s1.segs.getD i {})
            (d.ST_Enter (bytesAt f.symSeg (bp + 7) (rd f.symSeg (bp + 6)))) r.symBlock
            (w16 (d.szObjSymHeader + ents.length * d.szObjSym)) ++
          [⟨(s1.segs.getD i {}).syms,
            d.ST_Enter (bytesAt f.symSeg (bp + 7) (rd f.symSeg (bp + 6))), r.symBlock,
            w16 (d.szObjSymHeader + ents.length * d.szObjSym)⟩]) ∧
      (s.procSD ≠ none →
        (∀ k, (s3.cv.symsOf k).length =
          if k = s.symBlock then (cv2.symsOf k).length + 1 else (cv2.symsOf k).length) ∧
        (s3.cv.symAt s.symBlock (cv2.symsOf s.symBlock).length).type = e.OSYM_LOCAL_STATIC ∧
        (s3.cv.symAt s.symBlock (cv2.symsOf s.symBlock).length).name =
          d.ST_Enter (bytesAt f.symSeg (bp + 7) (rd f.symSeg (bp + 6))) ∧
        (s3.cv.symAt s.symBlock (cv2.symsOf s.symBlock).length).flags = 0 ∧
        (s3.cv.symAt s.symBlock (cv2.symsOf s.symBlock).length).localStatic_symBlock =
          r.symBlock ∧
        (s3.cv.symAt s.symBlock (cv2.symsOf s.symBlock).length).localStatic_symOff =
          w16 (d.szObjSymHeader + ents.length * d.szObjSym) ∧
        s3.lastLocal =
          w16 (d.szObjSymHeader + (cv2.symsOf s.symBlock).length * d.szObjSym) ∧
        s3.entered = s.entered ++
          aliasEntry pub (s1.segs.getD i {})
            (d.ST_Enter (bytesAt f.symSeg (bp + 7) (rd f.symSeg (bp + 6)))) r.symBlock
            (w16 (d.szObjSymHeader + ents.length * d.szObjSym))) := by
  obtain ⟨s2, hs2, hnone, hsome⟩ := doVariable_shape d e f fuel s bp r s1 i t ents ty cv2 pub
    hdet hsd hblk hfetch hpub
  obtain ⟨f1, f2, f3, f4⟩ := CVDetermineSymbolBlock_frame d e f s s1 _ _ _ _ hdet
  have hent : s2.entered = s.entered ++
      aliasEntry pub (s1.segs.getD i {})
        (d.ST_Enter (bytesAt f.symSeg (bp + 7) (rd f.symSeg (bp + 6)))) r.symBlock
        (w16 (d.szObjSymHeader + ents.length * d.szObjSym)) := by
    rw [hs2, variableGlobal_entered]
    show s1.entered ++ _ = _
    rw [f1]
  have hlen : ∀ k, (s2.cv.symsOf k).length = (cv2.symsOf k).length := by
    intro k
    rw [hs2, (variableGlobal_syms _ _ _ _ _ _ _ _ k).1]
    exact symsOf_modifySym_length _ _ _ _ _
  have hblock : s2.symBlock = s.symBlock := by
    rw [hs2, (variableGlobal_fields _ _ _ _ _ _ _ _).2.2.1]
    exact f2
  have hlast : s2.lastLocal = s.lastLocal := by
    rw [hs2, (variableGlobal_fields _ _ _ _ _ _ _ _).2.2.2]
    exact f3
  by_cases hproc : s.procSD = none
  · refine ⟨_, hnone hproc, fun _ => ⟨hlen, hlast, ?_⟩, fun h => absurd hproc h⟩
    show s2.entered ++ _ = _
    rw [hent]
  · have htop : s2.scopeTop = s.scopeTop := by
      rw [hs2, (variableGlobal_fields _ _ _ _ _ _ _ _).1]
      show s1.scopeTop = s.scopeTop
      exact CVDetermineSymbolBlock_top _ _ _ _ _ _ _ _ _ hdet
    obtain ⟨hd1, hd2⟩ := hdepth hproc
    have hsy : s2.cv.isSyms s2.symBlock := by
      rw [hblock, hs2]
      exact (variableGlobal_syms _ _ _ _ _ _ _ _ _).2 (modifySym_isSyms _ _ _ _ _ (hp hproc))
    have hidx : (CVAllocLocalSym d s2.cv s2.symBlock
        (s2.scopeStack.getD (s2.scopeTop - 1).toNat 0) s2.lastLocal).2.1 =
        (cv2.symsOf s.symBlock).length := by
      rw [allocLocal_index, hlen, hblock]
    have hgrow := allocLocal_grows d s2.cv s2.symBlock
      (s2.scopeStack.getD (s2.scopeTop - 1).toNat 0) s2.lastLocal hsy
    have hnew : (localStatic d e s2
        (d.ST_Enter (bytesAt f.symSeg (bp + 7) (rd f.symSeg (bp + 6)))) r.symBlock
        (w16 (d.szObjSymHeader + ents.length * d.szObjSym))
        (s2.scopeStack.getD (s2.scopeTop - 1).toNat 0)).cv.symAt s.symBlock
          (cv2.symsOf s.symBlock).length =
        { (CVAllocLocalSym d s2.cv s2.symBlock
            (s2.scopeStack.getD (s2.scopeTop - 1).toNat 0) s2.lastLocal).2.2.symAt s.symBlock
              (cv2.symsOf s.symBlock).length with
          type := e.OSYM_LOCAL_STATIC,
          name := d.ST_Enter (bytesAt f.symSeg (bp + 7) (rd f.symSeg (bp + 6))),
          flags := 0, localStatic_symBlock := r.symBlock,
          localStatic_symOff := w16 (d.szObjSymHeader + ents.length * d.szObjSym) } := by
      unfold localStatic
      dsimp only
      rw [symAt_modifySym, if_pos]
      refine ⟨hblock.symm, hidx.symm, ?_⟩
      rw [hgrow, if_pos hblock.symm, hlen]
      exact Nat.lt_succ_self _
    refine ⟨_, hsome hproc (by rw [htop]; exact hd1) (by rw [htop]; exact hd2),
      fun h => absurd h hproc, fun _ => ⟨?_, ?_, ?_, ?_, ?_, ?_, ?_, hent⟩⟩
    · intro k
      unfold localStatic
      dsimp only
      rw [symsOf_modifySym_length, hgrow, hblock, hlen]
    · rw [hnew]
    · rw [hnew]
    · rw [hnew]
    · rw [hnew]
    · rw [hnew]
    · unfold localStatic
      dsimp only
      unfold CVAllocLocalSym
      dsimp only
      obtain ⟨tp, l, hb⟩ := hsy
      rw [CVAllocSymLocked_syms d s2.cv s2.symBlock tp l hb]
      dsimp only
      rw [← symsOf_of_block _ _ _ _ hb, hlen, hblock]

/-- Witness for C24 (amended): in `staticFile` the procedure `f` is open when the record of
`v` is read; a local static symbol is appended to block 2 (its fifth symbol, at offset 72)
and `v` is not entered. -/
theorem variable_local_static_witness :
    staticState.procSD ≠ none ∧
      ∃ s3, doVariable geos geosSym staticFile 5 staticState 19 = Except.ok s3 ∧
        (s3.cv.symsOf 2).length = 5 ∧
        (s3.cv.symAt 2 4).type = geosSym.OSYM_LOCAL_STATIC ∧
        (s3.cv.symAt 2 4).localStatic_symBlock = 2 ∧
        (s3.cv.symAt 2 4).localStatic_symOff = 56 ∧
        s3.lastLocal = 72 ∧
        s3.entered = [⟨9, geos.ST_Enter [102], 2, 8⟩] := by
  have hproc : staticState.procSD ≠ none := by decide!
  obtain ⟨s3, h1, -, h2⟩ :=
    variable_local_static geos geosSym staticFile 5 staticState 19 ⟨some 2, 784, 2, 1⟩
      staticState 2 1 (staticState.cv.symsOf 2) 0x2005
      (staticState.cv.setBlock 2 (VMBlock.syms 1 (staticState.cv.symsOf 2 ++
        [varSymbol geosSym (geos.ST_Enter [118]) 784])))
      (some ⟨some 2, 0x200, true, geos.ST_Enter [118]⟩)
      (by decide!) rfl (by decide!) (by decide!) (by decide!)
      (fun _ => by decide!) (fun _ => ⟨1, staticState.cv.symsOf 2 ++
        [varSymbol geosSym (geos.ST_Enter [118]) 784], by decide!⟩)
  obtain ⟨a1, a2, -, -, a5, a6, a7, a8⟩ := h2 hproc
  have hl : ((staticState.cv.setBlock 2 (VMBlock.syms 1 (staticState.cv.symsOf 2 ++
      [varSymbol geosSym (geos.ST_Enter [118]) 784]))).symsOf 2).length = 4 := by decide!
  have hb : staticState.symBlock = 2 := by decide!
  rw [hb, hl] at a2 a5 a6 a7
  rw [hb] at a1
  refine ⟨hproc, s3, h1, ?_, a2, a5, ?_, ?_, ?_⟩
  · rw [a1 2, if_pos rfl, hl]
  · rw [a6]
    decide!
  · rw [a7]
    decide!
  · rw [a8]
    decide!

theorem CV_Check_segdef (c : ChkDefs) (st : CheckState) (rectype reclen : Nat)
    (buf : List Nat) (bp pass : Nat)
    (hr : rectype = c.MO_SEGDEF32 ∨ rectype = c.MO_SEGDEF) :
    CV_Check c st rectype reclen buf bp pass = checkSegDef c st rectype buf bp pass := by
  unfold CV_Check
  rw [if_pos hr]

theorem chk_labels (c : ChkDefs) (hl : c.caseLabels.Nodup) :
    (c.MO_LEDATA32 ≠ c.MO_SEGDEF32 ∧ c.MO_LEDATA32 ≠ c.MO_SEGDEF ∧
      c.MO_LEDATA ≠ c.MO_SEGDEF32 ∧ c.MO_LEDATA ≠ c.MO_SEGDEF) ∧
    (c.MO_LIDATA32 ≠ c.MO_SEGDEF32 ∧ c.MO_LIDATA32 ≠ c.MO_SEGDEF ∧
      c.MO_LIDATA32 ≠ c.MO_LEDATA32 ∧ c.MO_LIDATA32 ≠ c.MO_LEDATA ∧
      c.MO_LIDATA ≠ c.MO_SEGDEF32 ∧ c.MO_LIDATA ≠ c.MO_SEGDEF ∧
      c.MO_LIDATA ≠ c.MO_LEDATA32 ∧ c.MO_LIDATA ≠ c.MO_LEDATA) ∧
    (c.MO_CVPUB ≠ c.MO_SEGDEF32 ∧ c.MO_CVPUB ≠ c.MO_SEGDEF ∧
      c.MO_CVPUB ≠ c.MO_LEDATA32 ∧ c.MO_CVPUB ≠ c.MO_LEDATA ∧
      c.MO_CVPUB ≠ c.MO_LIDATA32 ∧ c.MO_CVPUB ≠ c.MO_LIDATA ∧
      c.MO_PUBDEF ≠ c.MO_SEGDEF32 ∧ c.MO_PUBDEF ≠ c.MO_SEGDEF ∧
      c.MO_PUBDEF ≠ c.MO_LEDATA32 ∧ c.MO_PUBDEF ≠ c.MO_LEDATA ∧
      c.MO_PUBDEF ≠ c.MO_LIDATA32 ∧ c.MO_PUBDEF ≠ c.MO_LIDATA) ∧
    (c.MO_COMDEF ≠ c.MO_SEGDEF32 ∧ c.MO_COMDEF ≠ c.MO_SEGDEF ∧
      c.MO_COMDEF ≠ c.MO_LEDATA32 ∧ c.MO_COMDEF ≠ c.MO_LEDATA ∧
      c.MO_COMDEF ≠ c.MO_LIDATA32 ∧ c.MO_COMDEF ≠ c.MO_LIDATA ∧
      c.MO_COMDEF ≠ c.MO_CVPUB ∧ c.MO_COMDEF ≠ c.MO_PUBDEF) := by
  simp only [ChkDefs.caseLabels, List.nodup_cons, List.mem_cons, List.mem_singleton, not_or,
    List.not_mem_nil, not_false_eq_true, and_true, List.nodup_nil] at hl
  obtain ⟨⟨h12, h13, h14, h15, h16, h17, h18, h19⟩,
    ⟨h23, h24, h25, h26, h27, h28, h29⟩,
    ⟨h34, h35, h36, h37, h38, h39⟩,
    ⟨h45, h46, h47, h48, h49⟩,
    ⟨h56, h57, h58, h59⟩,
    ⟨h67, h68, h69⟩,
    ⟨h78, h79⟩,
    h89⟩ := hl
  exact ⟨⟨Ne.symm h13, Ne.symm h23, Ne.symm h14, Ne.symm h24⟩,
    ⟨Ne.symm h15, Ne.symm h25, Ne.symm h35, Ne.symm h45, Ne.symm h16, Ne.symm h26, Ne.symm h36, Ne.symm h46⟩,
    ⟨Ne.symm h17, Ne.symm h27, Ne.symm h37, Ne.symm h47, Ne.symm h57, Ne.symm h67, Ne.symm h18, Ne.symm h28, Ne.symm h38, Ne.symm h48, Ne.symm h58, Ne.symm h68⟩,
    ⟨Ne.symm h19, Ne.symm h29, Ne.symm h39, Ne.symm h49, Ne.symm h59, Ne.symm h69, Ne.symm h79, Ne.symm h89⟩⟩

theorem CV_Check_ledata (c : ChkDefs) (st : CheckState) (rectype reclen : Nat)
    (buf : List Nat) (bp pass : Nat) (hl : c.caseLabels.Nodup)
    (hr : rectype = c.MO_LEDATA32 ∨ rectype = c.MO_LEDATA) :
    CV_Check c st rectype reclen buf bp pass = checkLEData c st rectype reclen buf bp pass := by
  obtain ⟨⟨a1, a2, a3, a4⟩, -⟩ := chk_labels c hl
  unfold CV_Check
  rw [if_neg, if_pos hr]
  rcases hr with h | h
  · rw [h, not_or]
    exact ⟨a1, a2⟩
  · rw [h, not_or]
    exact ⟨a3, a4⟩

theorem CV_Check_lidata (c : ChkDefs) (st : CheckState) (rectype reclen : Nat)
    (buf : List Nat) (bp pass : Nat) (hl : c.caseLabels.Nodup)
    (hr : rectype = c.MO_LIDATA32 ∨ rectype = c.MO_LIDATA) :
    CV_Check c st rectype reclen buf bp pass =
      if (c.MSObj_GetSegment st.segments buf bp).1 ≠ CV_SYMS_SEGMENT ∧
          (c.MSObj_GetSegment st.segments buf bp).1 ≠ CV_TYPES_SEGMENT then
        Except.ok (false, st)
      else Except.error ChkError.assertion := by
  obtain ⟨-, ⟨a1, a2, a3, a4, a5, a6, a7, a8⟩, -⟩ := chk_labels c hl
  unfold CV_Check
  rw [if_neg, if_neg, if_pos hr]
  · rcases hr with h | h
    · rw [h, not_or]
      exact ⟨a3, a4⟩
    · rw [h, not_or]
      exact ⟨a7, a8⟩
  · rcases hr with h | h
    · rw [h, not_or]
      exact ⟨a1, a2⟩
    · rw [h, not_or]
      exact ⟨a5, a6⟩

theorem CV_Check_pub (c : ChkDefs) (st : CheckState) (rectype reclen : Nat)
    (buf : List Nat) (bp pass : Nat) (hl : c.caseLabels.Nodup)
    (hr : rectype = c.MO_CVPUB ∨ rectype = c.MO_PUBDEF) :
    CV_Check c st rectype reclen buf bp pass =
      Except.ok (true,
        if pass = 1 then { st with pubs := c.MSObj_SaveRecord rectype reclen buf st.pubs }
        else st) := by
  obtain ⟨-, -, ⟨a1, a2, a3, a4, a5, a6, b1, b2, b3, b4, b5, b6⟩, -⟩ := chk_labels c hl
  unfold CV_Check
  rw [if_neg, if_neg, if_neg, if_pos hr]
  · rcases hr with h | h
    · rw [h, not_or]
      exact ⟨a5, a6⟩
    · rw [h, not_or]
      exact ⟨b5, b6⟩
  · rcases hr with h | h
    · rw [h, not_or]
      exact ⟨a3, a4⟩
    · rw [h, not_or]
      exact ⟨b3, b4⟩
  · rcases hr with h | h
    · rw [h, not_or]
      exact ⟨a1, a2⟩
    · rw [h, not_or]
      exact ⟨b1, b2⟩

theorem CV_Check_com (c : ChkDefs) (st : CheckState) (rectype reclen : Nat)
    (buf : List Nat) (bp pass : Nat) (hl : c.caseLabels.Nodup)
    (hr : rectype = c.MO_COMDEF) :
    CV_Check c st rectype reclen buf bp pass =
      Except.ok (true,
        if pass = 1 then { st with coms := c.MSObj_SaveRecord rectype reclen buf st.coms }
        else st) := by
  obtain ⟨-, -, -, ⟨a1, a2, a3, a4, a5, a6, a7, a8⟩⟩ := chk_labels c hl
  unfold CV_Check
  rw [hr, if_neg (not_or.mpr ⟨a1, a2⟩), if_neg (not_or.mpr ⟨a3, a4⟩),
    if_neg (not_or.mpr ⟨a5, a6⟩), if_neg (not_or.mpr ⟨a7, a8⟩), if_pos rfl]

theorem CV_Check_other (c : ChkDefs) (st : CheckState) (rectype reclen : Nat)
    (buf : List Nat) (bp pass : Nat) (hr : rectype ∉ c.caseLabels) :
    CV_Check c st rectype reclen buf bp pass = Except.ok (false, st) := by
  unfold ChkDefs.caseLabels at hr
  simp only [List.mem_cons, List.mem_singleton, not_or, List.not_mem_nil, not_false_eq_true,
    and_true] at hr
  obtain ⟨a1, a2, a3, a4, a5, a6, a7, a8, a9⟩ := hr
  unfold CV_Check
  rw [if_neg (not_or.mpr ⟨a1, a2⟩), if_neg (not_or.mpr ⟨a3, a4⟩),
    if_neg (not_or.mpr ⟨a5, a6⟩), if_neg (not_or.mpr ⟨a7, a8⟩), if_neg a9]

/-- C27 (counterexample): after the definition of `$$TYPES` (the first segment of the
file), an `MO_LIDATA` record addressed to segment 1 does not make `CV_Check` return
`FALSE`: the assertion of the case fails. -/
theorem lidata_to_debug_segment :
    CV_Check geosChk (CV_Init {}) geosChk.MO_SEGDEF 6 (segDefRecord 1 8) 0 1 =
        Except.ok (true, typesDefined) ∧
      typesDefined.segments = [CV_TYPES_SEGMENT] ∧
      CV_Check geosChk typesDefined geosChk.MO_LIDATA 7 (dataRecord 1 0 [2, 0, 1, 65] 0x8a) 0 1
        = Except.error ChkError.assertion := by
  decide

/-- C27 (amended): with distinct `case` labels, `CV_Check` returns `FALSE` and leaves its
state as it is for every record type that is not one of its labels, for every segment
definition that cannot be decoded or whose name is neither the name of the type segment
nor that of the symbol segment, and for every `MO_LEDATA` or `MO_LIDATA` record (16- or
32-bit) addressed to a segment that is neither debugging segment; for an `MO_LIDATA`
record addressed to a debugging segment it does not return, an assertion fails; it
returns `TRUE` for every `MO_PUBDEF`, `MO_CVPUB` and `MO_COMDEF` record in either pass
(and then changes its state in pass 1 only, where the record is retained). -/
theorem record_not_consumed (c : ChkDefs) (st : CheckState) (rectype reclen : Nat)
    (buf : List Nat) (bp pass : Nat) (hl : c.caseLabels.Nodup) :
    (rectype ∉ c.caseLabels →
      CV_Check c st rectype reclen buf bp pass = Except.ok (false, st)) ∧
    (rectype = c.MO_SEGDEF32 ∨ rectype = c.MO_SEGDEF →
      (∀ sdef, c.MSObj_DecodeSegDef rectype buf bp = some sdef →
        sdef.name ≠ c.typesName ∧ sdef.name ≠ c.symsName) →
      CV_Check c st rectype reclen buf bp pass = Except.ok (false, st)) ∧
    (rectype = c.MO_LEDATA32 ∨ rectype = c.MO_LEDATA →
      (c.MSObj_GetSegment st.segments buf bp).1 ≠ CV_SYMS_SEGMENT →
      (c.MSObj_GetSegment st.segments buf bp).1 ≠ CV_TYPES_SEGMENT →
      CV_Check c st rectype reclen buf bp pass = Except.ok (false, st)) ∧
    (rectype = c.MO_LIDATA32 ∨ rectype = c.MO_LIDATA →
      (c.MSObj_GetSegment st.segments buf bp).1 ≠ CV_SYMS_SEGMENT →
      (c.MSObj_GetSegment st.segments buf bp).1 ≠ CV_TYPES_SEGMENT →
      CV_Check c st rectype reclen buf bp pass = Except.ok (false, st)) ∧
    (rectype = c.MO_LIDATA32 ∨ rectype = c.MO_LIDATA →
      (c.MSObj_GetSegment st.segments buf bp).1 = CV_SYMS_SEGMENT ∨
        (c.MSObj_GetSegment st.segments buf bp).1 = CV_TYPES_SEGMENT →
      CV_Check c st rectype reclen buf bp pass = Except.error ChkError.assertion) ∧
    (rectype = c.MO_PUBDEF ∨ rectype = c.MO_CVPUB ∨ rectype = c.MO_COMDEF →
      ∃ st1, CV_Check c st rectype reclen buf bp pass = Except.ok (true, st1) ∧
        (pass ≠ 1 → st1 = st)) := by
  refine ⟨CV_Check_other c st rectype reclen buf bp pass, ?_, ?_, ?_, ?_, ?_⟩
  · intro hr hd
    rw [CV_Check_segdef c st rectype reclen buf bp pass hr]
    unfold checkSegDef
    cases hdec : c.MSObj_DecodeSegDef rectype buf bp with
    | none => rfl
    | some sdef =>
      obtain ⟨h1, h2⟩ := hd sdef hdec
      dsimp only
      rw [if_neg h1, if_neg h2]
  · intro hr h1 h2
    rw [CV_Check_ledata c st rectype reclen buf bp pass hl hr]
    unfold checkLEData
    dsimp only
    rw [if_pos ⟨h1, h2⟩]
  · intro hr h1 h2
    rw [CV_Check_lidata c st rectype reclen buf bp pass hl hr, if_pos ⟨h1, h2⟩]
  · intro hr h
    rw [CV_Check_lidata c st rectype reclen buf bp pass hl hr, if_neg]
    intro h2
    rcases h with h | h
    · exact h2.1 h
    · exact h2.2 h
  · intro hr
    rcases hr with h | h | h
    · rw [CV_Check_pub c st rectype reclen buf bp pass hl (Or.inr h)]
      exact ⟨_, rfl, fun hp => if_neg hp⟩
    · rw [CV_Check_pub c st rectype reclen buf bp pass hl (Or.inl h)]
      exact ⟨_, rfl, fun hp => if_neg hp⟩
    · rw [CV_Check_com c st rectype reclen buf bp pass hl h]
      exact ⟨_, rfl, fun hp => if_neg hp⟩

/-- Witness for C27 (amended): in `threeSegments` an `MO_LIDATA` record for the third
segment is not consumed and leaves the state as it is, a record of the type 0x8a is not
consumed either, and an `MO_PUBDEF` record is consumed. -/
theorem record_not_consumed_witness :
    geosChk.caseLabels.Nodup ∧
      CV_Check geosChk threeSegments geosChk.MO_LIDATA 7 (dataRecord 3 0 [2, 0, 1, 65] 0x8a)
        0 1 = Except.ok (false, threeSegments) ∧
      CV_Check geosChk threeSegments 0x8a 7 (dataRecord 3 0 [2, 0, 1, 65] 0x8a) 0 1 =
        Except.ok (false, threeSegments) ∧
      ∃ st1, CV_Check geosChk threeSegments geosChk.MO_PUBDEF 7
          (dataRecord 0 1 [1, 118, 0, 2] 0x8a) 0 2 = Except.ok (true, st1) ∧
        (2 ≠ 1 → st1 = threeSegments) :=
  ⟨by decide,
    (record_not_consumed geosChk threeSegments geosChk.MO_LIDATA 7
      (dataRecord 3 0 [2, 0, 1, 65] 0x8a) 0 1 (by decide)).2.2.2.1 (Or.inr rfl) (by decide)
      (by decide),
    (record_not_consumed geosChk threeSegments 0x8a 7
      (dataRecord 3 0 [2, 0, 1, 65] 0x8a) 0 1 (by decide)).1 (by decide),
    (record_not_consumed geosChk threeSegments geosChk.MO_PUBDEF 7
      (dataRecord 0 1 [1, 118, 0, 2] 0x8a) 0 2 (by decide)).2.2.2.2.2 (Or.inl rfl)⟩

/-- A definition of the type segment is consumed. -/
theorem check_types_def (c : ChkDefs) (st : CheckState) (rectype reclen : Nat)
    (buf : List Nat) (bp pass : Nat) (sdef : SegDefDec)
    (hr : rectype = c.MO_SEGDEF32 ∨ rectype = c.MO_SEGDEF)
    (hd : c.MSObj_DecodeSegDef rectype buf bp = some sdef)
    (hn : sdef.name = c.typesName) :
    CV_Check c st rectype reclen buf bp pass =
      Except.ok (true, addSegment (defineTypes c st sdef.size pass) CV_TYPES_SEGMENT
        sdef.size pass) := by
  rw [CV_Check_segdef c st rectype reclen buf bp pass hr]
  unfold checkSegDef
  rw [hd]
  dsimp only
  rw [if_pos hn]

/-- A definition of the symbol segment is consumed. -/
theorem check_syms_def (c : ChkDefs) (st : CheckState) (rectype reclen : Nat)
    (buf : List Nat) (bp pass : Nat) (sdef : SegDefDec)
    (hr : rectype = c.MO_SEGDEF32 ∨ rectype = c.MO_SEGDEF)
    (hd : c.MSObj_DecodeSegDef rectype buf bp = some sdef)
    (hne : c.typesName ≠ c.symsName)
    (hn : sdef.name = c.symsName) :
    CV_Check c st rectype reclen buf bp pass =
      Except.ok (true, addSegment (defineSyms c st sdef.size pass) CV_SYMS_SEGMENT
        sdef.size pass) := by
  rw [CV_Check_segdef c st rectype reclen buf bp pass hr]
  unfold checkSegDef
  rw [hd]
  dsimp only
  rw [if_neg (by rw [hn]; exact Ne.symm hne), if_pos hn]

theorem types_twice (c : ChkDefs) (st : CheckState) (pass N s1 s2 : Nat) (hN : N ≠ 0)
    (h0 : st.typeSize = 0) (hs : (s1 = 0 ∧ s2 = N) ∨ (s1 = N ∧ s2 = 0)) :
    (addSegment (defineTypes c (addSegment (defineTypes c st s1 pass) CV_TYPES_SEGMENT s1 pass)
      s2 pass) CV_TYPES_SEGMENT s2 pass).typeSize = N ∧
    (addSegment (defineTypes c (addSegment (defineTypes c st s1 pass) CV_TYPES_SEGMENT s1 pass)
      s2 pass) CV_TYPES_SEGMENT s2 pass).typeSeg =
        (if pass = 1 then some (List.replicate N c.uninitByte) else st.typeSeg) ∧
    (addSegment (defineTypes c (addSegment (defineTypes c st s1 pass) CV_TYPES_SEGMENT s1 pass)
      s2 pass) CV_TYPES_SEGMENT s2 pass).allocs = st.allocs ++ (if pass = 1 then [N] else []) ∧
    (addSegment (defineTypes c (addSegment (defineTypes c st s1 pass) CV_TYPES_SEGMENT s1 pass)
      s2 pass) CV_TYPES_SEGMENT s2 pass).symSize = st.symSize ∧
    (addSegment (defineTypes c (addSegment (defineTypes c st s1 pass) CV_TYPES_SEGMENT s1 pass)
      s2 pass) CV_TYPES_SEGMENT s2 pass).symSeg = st.symSeg ∧
    (s1 = 0 →
      (addSegment (defineTypes c (addSegment (defineTypes c st s1 pass) CV_TYPES_SEGMENT s1 pass)
        s2 pass) CV_TYPES_SEGMENT s2 pass).errors = st.errors) ∧
    (s2 = 0 →
      (addSegment (defineTypes c (addSegment (defineTypes c st s1 pass) CV_TYPES_SEGMENT s1 pass)
        s2 pass) CV_TYPES_SEGMENT s2 pass).errors =
          st.errors ++ [ChkMsg.typeSegmentDefined]) := by
  rcases hs with ⟨rfl, rfl⟩ | ⟨rfl, rfl⟩
  · by_cases hp : pass = 1
    · subst hp
      simp [addSegment, defineTypes, h0, hN]
    · by_cases hp2 : pass = 2
      · subst hp2
        simp [addSegment, defineTypes, h0, hN]
      · simp [addSegment, defineTypes, h0, hN, hp, hp2]
  · by_cases hp : pass = 1
    · subst hp
      simp [addSegment, defineTypes, h0, hN]
    · by_cases hp2 : pass = 2
      · subst hp2
        simp [addSegment, defineTypes, h0, hN]
      · simp [addSegment, defineTypes, h0, hN, hp, hp2]

theorem syms_twice (c : ChkDefs) (st : CheckState) (pass N s1 s2 : Nat) (hN : N ≠ 0)
    (h0 : st.symSize = 0) (hs : (s1 = 0 ∧ s2 = N) ∨ (s1 = N ∧ s2 = 0)) :
    (addSegment (defineSyms c (addSegment (defineSyms c st s1 pass) CV_SYMS_SEGMENT s1 pass)
      s2 pass) CV_SYMS_SEGMENT s2 pass).symSize = N ∧
    (addSegment (defineSyms c (addSegment (defineSyms c st s1 pass) CV_SYMS_SEGMENT s1 pass)
      s2 pass) CV_SYMS_SEGMENT s2 pass).symSeg =
        (if pass = 1 then some (List.replicate N c.uninitByte) else st.symSeg) ∧
    (addSegment (defineSyms c (addSegment (defineSyms c st s1 pass) CV_SYMS_SEGMENT s1 pass)
      s2 pass) CV_SYMS_SEGMENT s2 pass).allocs = st.allocs ++ (if pass = 1 then [N] else []) ∧
    (addSegment (defineSyms c (addSegment (defineSyms c st s1 pass) CV_SYMS_SEGMENT s1 pass)
      s2 pass) CV_SYMS_SEGMENT s2 pass).typeSize = st.typeSize ∧
    (addSegment (defineSyms c (addSegment (defineSyms c st s1 pass) CV_SYMS_SEGMENT s1 pass)
      s2 pass) CV_SYMS_SEGMENT s2 pass).typeSeg = st.typeSeg ∧
    (s1 = 0 →
      (addSegment (defineSyms c (addSegment (defineSyms c st s1 pass) CV_SYMS_SEGMENT s1 pass)
        s2 pass) CV_SYMS_SEGMENT s2 pass).errors = st.errors) ∧
    (s2 = 0 →
      (addSegment (defineSyms c (addSegment (defineSyms c st s1 pass) CV_SYMS_SEGMENT s1 pass)
        s2 pass) CV_SYMS_SEGMENT s2 pass).errors =
          st.errors ++ [ChkMsg.symbolSegmentDefined]) := by
  rcases hs with ⟨rfl, rfl⟩ | ⟨rfl, rfl⟩
  · by_cases hp : pass = 1
    · subst hp
      simp [addSegment, defineSyms, h0, hN]
    · by_cases hp2 : pass = 2
      · subst hp2
        simp [addSegment, defineSyms, h0, hN]
      · simp [addSegment, defineSyms, h0, hN, hp, hp2]
  · by_cases hp : pass = 1
    · subst hp
      simp [addSegment, defineSyms, h0, hN]
    · by_cases hp2 : pass = 2
      · subst hp2
        simp [addSegment, defineSyms, h0, hN]
      · simp [addSegment, defineSyms, h0, hN, hp, hp2]

/-- C25 (counterexample): in pass 1, after `CV_Init`, a definition of `$$TYPES` with size
8 followed by one with size 0 makes `CV_Check` report the error `type descriptor segment
already defined`, and the same two definitions of `$$SYMBOLS` the error `symbol segment
already defined`; in the other order no error is reported. -/
theorem size_zero_second :
    typesDefined.errors = [] ∧ typesDefined.typeSize = 8 ∧
      (CV_Check geosChk typesDefined geosChk.MO_SEGDEF 6 (segDefRecord 1 0) 0 1).toOption.map
        (fun r => r.2.errors) = some [ChkMsg.typeSegmentDefined] ∧
      ((CV_Check geosChk (CV_Init {}) geosChk.MO_SEGDEF 6 (segDefRecord 2 8) 0 1).toOption.bind
        (fun r => (CV_Check geosChk r.2 geosChk.MO_SEGDEF 6 (segDefRecord 2 0) 0 1).toOption)).map
          (fun r => r.2.errors) = some [ChkMsg.symbolSegmentDefined] ∧
      ((CV_Check geosChk (CV_Init {}) geosChk.MO_SEGDEF 6 (segDefRecord 1 0) 0 1).toOption.bind
        (fun r => (CV_Check geosChk r.2 geosChk.MO_SEGDEF 6 (segDefRecord 1 8) 0 1).toOption)).map
          (fun r => r.2.errors) = some [] := by
  decide

/-- C25 (amended): for each of the two debugging segments (whose names differ), when the
segment has no size yet and two segment definitions for it are read, one with size 0 and
one with size `N > 0`, both are consumed, the size of the segment is then `N`, and one
buffer, of `N` bytes, is allocated in pass 1 and none in pass 2; the other debugging
segment is left as it is.  When the definition with size 0 comes first no error is
reported; when it comes second the error `already defined` is reported for it. -/
theorem segment_defined_twice (c : ChkDefs) (st : CheckState) (r1 r2 l1 l2 : Nat)
    (buf1 buf2 : List Nat) (bp1 bp2 pass : Nat) (d1 d2 : SegDefDec) (N : Nat)
    (hr1 : r1 = c.MO_SEGDEF32 ∨ r1 = c.MO_SEGDEF)
    (hr2 : r2 = c.MO_SEGDEF32 ∨ r2 = c.MO_SEGDEF)
    (hd1 : c.MSObj_DecodeSegDef r1 buf1 bp1 = some d1)
    (hd2 : c.MSObj_DecodeSegDef r2 buf2 bp2 = some d2)
    (hne : c.typesName ≠ c.symsName) (hN : N ≠ 0)
    (hsame : d2.name = d1.name)
    (hsizes : (d1.size = 0 ∧ d2.size = N) ∨ (d1.size = N ∧ d2.size = 0))
    (hfresh : (d1.name = c.typesName → st.typeSize = 0) ∧
      (d1.name = c.symsName → st.symSize = 0)) :
    (d1.name = c.typesName →
      ∃ st1 st2, CV_Check c st r1 l1 buf1 bp1 pass = Except.ok (true, st1) ∧
        CV_Check c st1 r2 l2 buf2 bp2 pass = Except.ok (true, st2) ∧
        st2.typeSize = N ∧
        st2.typeSeg = (if pass = 1 then some (List.replicate N c.uninitByte) else st.typeSeg) ∧
        st2.allocs = st.allocs ++ (if pass = 1 then [N] else []) ∧
        st2.symSize = st.symSize ∧ st2.symSeg = st.symSeg ∧
        (d1.size = 0 → st2.errors = st.errors) ∧
        (d2.size = 0 → st2.errors = st.errors ++ [ChkMsg.typeSegmentDefined])) ∧
    (d1.name = c.symsName →
      ∃ st1 st2, CV_Check c st r1 l1 buf1 bp1 pass = Except.ok (true, st1) ∧
        CV_Check c st1 r2 l2 buf2 bp2 pass = Except.ok (true, st2) ∧
        st2.symSize = N ∧
        st2.symSeg = (if pass = 1 then some (List.replicate N c.uninitByte) else st.symSeg) ∧
        st2.allocs = st.allocs ++ (if pass = 1 then [N] else []) ∧
        st2.typeSize = st.typeSize ∧ st2.typeSeg = st.typeSeg ∧
        (d1.size = 0 → st2.errors = st.errors) ∧
        (d2.size = 0 → st2.errors = st.errors ++ [ChkMsg.symbolSegmentDefined])) := by
  constructor
  · intro hn
    exact ⟨_, _, check_types_def c st r1 l1 buf1 bp1 pass d1 hr1 hd1 hn,
      check_types_def c _ r2 l2 buf2 bp2 pass d2 hr2 hd2 (hsame.trans hn),
      types_twice c st pass N d1.size d2.size hN (hfresh.1 hn) hsizes⟩
  · intro hn
    exact ⟨_, _, check_syms_def c st r1 l1 buf1 bp1 pass d1 hr1 hd1 hne hn,
      check_syms_def c _ r2 l2 buf2 bp2 pass d2 hr2 hd2 hne (hsame.trans hn),
      syms_twice c st pass N d1.size d2.size hN (hfresh.2 hn) hsizes⟩

/-- Witness for C25 (amended): after `CV_Init`, in pass 1, the definitions of `$$SYMBOLS`
with the sizes 0 and 8, in this order: the size is 8, one buffer of 8 bytes is allocated
and no error is reported. -/
theorem segment_defined_twice_witness :
    ∃ st1 st2,
      CV_Check geosChk (CV_Init {}) geosChk.MO_SEGDEF 6 (segDefRecord 2 0) 0 1 =
        Except.ok (true, st1) ∧
      CV_Check geosChk st1 geosChk.MO_SEGDEF32 6 (segDefRecord 2 8) 0 1 =
        Except.ok (true, st2) ∧
      st2.symSize = 8 ∧ st2.symSeg = some (List.replicate 8 0xcc) ∧ st2.allocs = [8] ∧
      st2.errors = [] := by
  obtain ⟨st1, st2, h1, h2, h3, h4, h5, -, -, h8, -⟩ :=
    (segment_defined_twice geosChk (CV_Init {}) geosChk.MO_SEGDEF geosChk.MO_SEGDEF32 6 6
      (segDefRecord 2 0) (segDefRecord 2 8) 0 0 1
      ⟨2, 1, sampleName 2, sampleName 1, 0, 0⟩ ⟨2, 1, sampleName 2, sampleName 1, 0, 8⟩ 8
      (Or.inr rfl) (Or.inl rfl) (by decide) (by decide) (by decide) (by decide) rfl
      (Or.inl ⟨rfl, rfl⟩) ⟨fun _ => rfl, fun _ => rfl⟩).2 rfl
  exact ⟨st1, st2, h1, h2, h3, h4, h5, h8 rfl⟩

theorem bytesAt_getD_lt (seg : List Nat) (p n j : Nat) (hj : j < n) :
    (bytesAt seg p n).getD j 0 = rd seg (p + j) := by
  unfold bytesAt
  rw [List.getD_eq_getElem?_getD, List.getElem?_map, List.getElem?_range hj]
  rfl

theorem lor_shift8 (a b : Nat) (ha : a < 256) : a ||| (b <<< 8) = a + 256 * b := by
  have h4 : b <<< 8 = 2 ^ 8 * b := by rw [Nat.shiftLeft_eq, Nat.mul_comm]
  rw [h4, Nat.lor_comm, ← Nat.mul_add_lt_is_or (by omega) b]
  omega

theorem lor_shift16 (a b : Nat) (ha : a < 65536) : a ||| (b <<< 16) = a + 65536 * b := by
  have h4 : b <<< 16 = 2 ^ 16 * b := by rw [Nat.shiftLeft_eq, Nat.mul_comm]
  rw [h4, Nat.lor_comm, ← Nat.mul_add_lt_is_or (by omega) b]
  omega

theorem lor_shift24 (a b : Nat) (ha : a < 16777216) :
    a ||| (b <<< 24) = a + 16777216 * b := by
  have h4 : b <<< 24 = 2 ^ 24 * b := by rw [Nat.shiftLeft_eq, Nat.mul_comm]
  rw [h4, Nat.lor_comm, ← Nat.mul_add_lt_is_or (by omega) b]
  omega

theorem lor_high_byte (a : Nat) (ha : a < 256) : a ||| 0xffffff00 = 0xffffff00 + a := by
  have h : (0xffffff00 : Nat) = 2 ^ 8 * 0xffffff := by decide
  rw [h, Nat.lor_comm, ← Nat.mul_add_lt_is_or (by omega) 0xffffff]

theorem lor_high_word (a : Nat) (ha : a < 65536) : a ||| 0xffff0000 = 0xffff0000 + a := by
  have h : (0xffff0000 : Nat) = 2 ^ 16 * 0xffff := by decide
  rw [h, Nat.lor_comm, ← Nat.mul_add_lt_is_or (by omega) 0xffff]

theorem sign_bit (a : Nat) (ha : a < 256) : a &&& 0x80 ≠ 0 ↔ 128 ≤ a := by
  have h : (0x80 : Nat) = 2 ^ 7 := by decide
  rw [h, Nat.and_two_pow, Nat.testBit_to_div_mod]
  by_cases h1 : 128 ≤ a
  · have h2 : a / 128 % 2 = 1 := by omega
    simp [h2, h1]
  · have h2 : a / 128 % 2 = 0 := by omega
    simp [h2, h1]

/-- C31: what `CVGetInteger` returns for each supported leaf, with the bytes after the
leading byte called `b1`, `b2`, ...: for `CTL_WORD` the word `b1 + 256 b2` and the cursor
3 bytes on; for `CTL_DWORD` and `CTL_SDWORD` the 32-bit value
`b1 + 256 b2 + 65536 b3 + 16777216 b4` and the cursor 5 bytes on; for `CTL_SBYTE` the byte
`b1` extended with its bit 7 to 32 bits (`b1` below 128, else `0xffffff00 + b1`) and the
cursor 2 bytes on; for `CTL_SWORD` the word `b1 + 256 b2` extended with its bit 15 to 32
bits and the cursor 3 bytes on; a leading byte that is no case label is the value itself,
with the cursor 1 byte on. -/
theorem integer_leaf_values (d : Defs) (seg : List Nat) (bp : Nat)
    (hl : d.intLabels.Nodup) :
    (rd seg bp = d.CTL_WORD →
      CVGetInteger d seg bp = Except.ok (rd seg (bp + 1) + 256 * rd seg (bp + 2), bp + 3)) ∧
    (rd seg bp = d.CTL_DWORD ∨ rd seg bp = d.CTL_SDWORD →
      CVGetInteger d seg bp = Except.ok
        (rd seg (bp + 1) + 256 * rd seg (bp + 2) + 65536 * rd seg (bp + 3) +
          16777216 * rd seg (bp + 4), bp + 5)) ∧
    (rd seg bp = d.CTL_SBYTE →
      CVGetInteger d seg bp = Except.ok
        (if rd seg (bp + 1) < 128 then rd seg (bp + 1) else 0xffffff00 + rd seg (bp + 1),
          bp + 2)) ∧
    (rd seg bp = d.CTL_SWORD →
      CVGetInteger d seg bp = Except.ok
        (if rd seg (bp + 1) + 256 * rd seg (bp + 2) < 32768
          then rd seg (bp + 1) + 256 * rd seg (bp + 2)
          else 0xffff0000 + (rd seg (bp + 1) + 256 * rd seg (bp + 2)), bp + 3)) ∧
    (rd seg bp ∉ d.intLabels → CVGetInteger d seg bp = Except.ok (rd seg bp, bp + 1)) := by
  have hnd := hl
  unfold Defs.intLabels at hl
  simp only [List.nodup_cons, List.mem_cons, List.mem_singleton, not_or, List.not_mem_nil,
    not_false_eq_true, List.nodup_nil, and_true] at hl
  obtain ⟨⟨hws, hwd, hwq, hwsq, hwsb, hwsw⟩, ⟨hsd, hsq, hssq, hssb, hssw⟩,
    ⟨hdq, hdsq, hdsb, hdsw⟩, ⟨hqsq, hqsb, hqsw⟩, ⟨hsqsb, hsqsw⟩, hsbsw⟩ := hl
  have b1 := rd_lt seg (bp + 1)
  have b2 := rd_lt seg (bp + 1 + 1)
  have b3 := rd_lt seg (bp + 1 + 2)
  have b4 := rd_lt seg (bp + 1 + 3)
  refine ⟨?_, ?_, ?_, ?_, ?_⟩
  · intro h
    unfold CVGetInteger MSObj_GetWord rdw
    dsimp only
    rw [if_pos h, lor_shift8 _ _ b1]
  · intro h
    have h1 : ¬ rd seg bp = d.CTL_WORD := by
      rcases h with h | h
      · rw [h]; exact fun x => hwd x.symm
      · rw [h]; exact fun x => hws x.symm
    have h2 : rd seg bp = d.CTL_SDWORD ∨ rd seg bp = d.CTL_DWORD := h.symm
    unfold CVGetInteger
    dsimp only
    rw [if_neg h1, if_pos h2, lor_shift8 _ _ b1, lor_shift16 _ _ (by omega),
      lor_shift24 _ _ (by omega)]
    unfold w32
    rw [Nat.mod_eq_of_lt (by omega)]
  · intro h
    have h1 : ¬ rd seg bp = d.CTL_WORD := by rw [h]; exact fun x => hwsb x.symm
    have h2 : ¬ (rd seg bp = d.CTL_SDWORD ∨ rd seg bp = d.CTL_DWORD) := by
      rw [h, not_or]; exact ⟨fun x => hssb x.symm, fun x => hdsb x.symm⟩
    have h3 : ¬ (rd seg bp = d.CTL_QWORD ∨ rd seg bp = d.CTL_SQWORD) := by
      rw [h, not_or]; exact ⟨fun x => hqsb x.symm, fun x => hsqsb x.symm⟩
    unfold CVGetInteger
    dsimp only
    rw [if_neg h1, if_neg h2, if_neg h3, if_pos h]
    by_cases hs : rd seg (bp + 1) < 128
    · have hn : ¬ (rd seg (bp + 1) &&& 0x80 ≠ 0) := by
        rw [sign_bit _ b1]; omega
      rw [if_neg hn, if_pos hs, Nat.or_zero]
    · have hn : rd seg (bp + 1) &&& 0x80 ≠ 0 := by
        rw [sign_bit _ b1]; omega
      rw [if_pos hn, if_neg hs, lor_high_byte _ b1]
  · intro h
    have h1 : ¬ rd seg bp = d.CTL_WORD := by rw [h]; exact fun x => hwsw x.symm
    have h2 : ¬ (rd seg bp = d.CTL_SDWORD ∨ rd seg bp = d.CTL_DWORD) := by
      rw [h, not_or]; exact ⟨fun x => hssw x.symm, fun x => hdsw x.symm⟩
    have h3 : ¬ (rd seg bp = d.CTL_QWORD ∨ rd seg bp = d.CTL_SQWORD) := by
      rw [h, not_or]; exact ⟨fun x => hqsw x.symm, fun x => hsqsw x.symm⟩
    have h4 : ¬ rd seg bp = d.CTL_SBYTE := by rw [h]; exact fun x => hsbsw x.symm
    unfold CVGetInteger
    dsimp only
    rw [if_neg h1, if_neg h2, if_neg h3, if_neg h4, if_pos h, lor_shift8 _ _ b1]
    by_cases hs : rd seg (bp + 1) + 256 * rd seg (bp + 1 + 1) < 32768
    · have hn : ¬ (rd seg (bp + 1 + 1) &&& 0x80 ≠ 0) := by
        rw [sign_bit _ b2]; omega
      rw [if_neg hn, if_pos hs, Nat.or_zero]
    · have hn : rd seg (bp + 1 + 1) &&& 0x80 ≠ 0 := by
        rw [sign_bit _ b2]; omega
      rw [if_pos hn, if_neg hs, lor_high_word _ (by omega)]
  · intro h
    unfold Defs.intLabels at h
    simp only [List.mem_cons, List.mem_singleton, not_or, List.not_mem_nil, not_false_eq_true,
      and_true] at h
    obtain ⟨n1, n2, n3, n4, n5, n6, n7⟩ := h
    unfold CVGetInteger
    dsimp only
    rw [if_neg n1, if_neg (not_or.mpr ⟨n2, n3⟩), if_neg (not_or.mpr ⟨n4, n5⟩), if_neg n6,
      if_neg n7]

/-- Witness for C31: one leaf of each kind. -/
theorem integer_leaf_values_witness :
    geos.intLabels.Nodup ∧
      CVGetInteger geos [geos.CTL_WORD, 0x34, 0x12] 0 = Except.ok (0x1234, 3) ∧
      CVGetInteger geos [geos.CTL_DWORD, 0x78, 0x56, 0x34, 0x92] 0 =
        Except.ok (0x92345678, 5) ∧
      CVGetInteger geos [geos.CTL_SDWORD, 0x78, 0x56, 0x34, 0x92] 0 =
        Except.ok (0x92345678, 5) ∧
      CVGetInteger geos [geos.CTL_SBYTE, 0xfe] 0 = Except.ok (0xfffffffe, 2) ∧
      CVGetInteger geos [geos.CTL_SBYTE, 0x7e] 0 = Except.ok (0x7e, 2) ∧
      CVGetInteger geos [geos.CTL_SWORD, 0x00, 0x80] 0 = Except.ok (0xffff8000, 3) ∧
      CVGetInteger geos [geos.CTL_SWORD, 0xff, 0x7f] 0 = Except.ok (0x7fff, 3) ∧
      CVGetInteger geos [0x11, 7] 0 = Except.ok (0x11, 1) := by
  have hl : geos.intLabels.Nodup := by decide
  refine ⟨hl, ?_, ?_, ?_, ?_, ?_, ?_, ?_, ?_⟩
  · exact (integer_leaf_values geos [geos.CTL_WORD, 0x34, 0x12] 0 hl).1 (by decide)
  · exact (integer_leaf_values geos [geos.CTL_DWORD, 0x78, 0x56, 0x34, 0x92] 0 hl).2.1
      (Or.inl (by decide))
  · exact (integer_leaf_values geos [geos.CTL_SDWORD, 0x78, 0x56, 0x34, 0x92] 0 hl).2.1
      (Or.inr (by decide))
  · exact (integer_leaf_values geos [geos.CTL_SBYTE, 0xfe] 0 hl).2.2.1 (by decide)
  · exact (integer_leaf_values geos [geos.CTL_SBYTE, 0x7e] 0 hl).2.2.1 (by decide)
  · exact (integer_leaf_values geos [geos.CTL_SWORD, 0x00, 0x80] 0 hl).2.2.2.1 (by decide)
  · exact (integer_leaf_values geos [geos.CTL_SWORD, 0xff, 0x7f] 0 hl).2.2.2.1 (by decide)
  · exact (integer_leaf_values geos [0x11, 7] 0 hl).2.2.2.2 (by decide)

/-- C32: on a string leaf (`CTL_STRING`, the length byte `n`, then `n` bytes) `CVGetString`
returns and moves the cursor on by `2 + n`; the id is `NullID` when `n = 0` and the id
`ST_Enter` gives to exactly the `n` bytes otherwise; so, `ST_Enter` not giving `NullID`
to that string, the id is `NullID` if and only if `n = 0`. -/
theorem string_leaf_id (d : Defs) (seg : List Nat) (bp : Nat)
    (hs : rd seg bp = d.CTL_STRING)
    (hE : rd seg (bp + 1) ≠ 0 →
      d.ST_Enter (bytesAt seg (bp + 2) (rd seg (bp + 1))) ≠ d.NullID) :
    ∃ id, CVGetString d seg bp = Except.ok (id, bp + (2 + rd seg (bp + 1))) ∧
      (id = d.NullID ↔ rd seg (bp + 1) = 0) ∧
      (rd seg (bp + 1) ≠ 0 → id = d.ST_Enter (bytesAt seg (bp + 2) (rd seg (bp + 1)))) ∧
      (bytesAt seg (bp + 2) (rd seg (bp + 1))).length = rd seg (bp + 1) ∧
      (∀ i, i < rd seg (bp + 1) →
        (bytesAt seg (bp + 2) (rd seg (bp + 1))).getD i 0 = rd seg (bp + 2 + i)) := by
  unfold CVGetString
  rw [if_pos hs]
  refine ⟨_, rfl, ?_, ?_, bytesAt_length _ _ _, fun i hi => bytesAt_getD_lt _ _ _ _ hi⟩
  · by_cases h0 : rd seg (bp + 1) = 0
    · rw [if_neg (not_not.mpr h0)]
      exact ⟨fun _ => h0, fun _ => rfl⟩
    · rw [if_pos h0]
      exact ⟨fun h => absurd h (hE h0), fun h => absurd h h0⟩
  · intro h0
    rw [if_pos h0]

/-- Witness for C32: the string leaf `"ab"` and the empty string leaf. -/
theorem string_leaf_id_witness :
    (∃ id, CVGetString geos [geos.CTL_STRING, 2, 97, 98, 5] 0 = Except.ok (id, 4) ∧
      id = geos.ST_Enter [97, 98] ∧ id ≠ geos.NullID) ∧
    (∃ id, CVGetString geos [geos.CTL_STRING, 0, 97, 98, 5] 0 = Except.ok (id, 2) ∧
      id = geos.NullID) := by
  constructor
  · obtain ⟨id, h1, h2, h3, -, -⟩ :=
      string_leaf_id geos [geos.CTL_STRING, 2, 97, 98, 5] 0 (by decide) (fun _ => by decide)
    exact ⟨id, h1, h3 (by decide), fun h => absurd (h2.mp h) (by decide)⟩
  · obtain ⟨id, h1, h2, -, -, -⟩ :=
      string_leaf_id geos [geos.CTL_STRING, 0, 97, 98, 5] 0 (by decide) (fun h => absurd rfl h)
    exact ⟨id, h1, h2.mpr (by decide)⟩

theorem writeID_length (d : Defs) (seg : List Nat) (p name : Nat) :
    (writeID d seg p name).length = seg.length := by
  unfold writeID wr
  dsimp only
  split <;> simp only [List.length_set]

/-- The four bytes after the class byte of a record rewritten for the id `name`. -/
theorem rd_writeID_bytes (d : Defs) (seg : List Nat) (sb name : Nat)
    (hin : sb + 4 < seg.length) :
    rd (writeID d seg (sb + 1) name) (sb + 1) = name % 256 ∧
    rd (writeID d seg (sb + 1) name) (sb + 2) = name / 256 % 256 ∧
    rd (writeID d seg (sb + 1) name) (sb + 3) = name / 65536 % 256 ∧
    rd (writeID d seg (sb + 1) name) (sb + 4) = name / 16777216 % 256 := by
  have m1 : name &&& 0xff = name % 256 := Nat.and_pow_two_sub_one_eq_mod name 8
  have m2 : (name >>> 8) &&& 0xff = name / 256 % 256 := by
    rw [Nat.shiftRight_eq_div_pow]
    exact Nat.and_pow_two_sub_one_eq_mod _ 8
  have m3 : (name >>> 16) &&& 0xff = name / 65536 % 256 := by
    rw [Nat.shiftRight_eq_div_pow]
    exact Nat.and_pow_two_sub_one_eq_mod _ 8
  have m4 : (name >>> 24) &&& 0xff = name / 16777216 % 256 := by
    rw [Nat.shiftRight_eq_div_pow]
    exact Nat.and_pow_two_sub_one_eq_mod _ 8
  unfold writeID
  simp only [Nat.le_add_left, if_true, Nat.add_sub_cancel]
  rw [m1, m2, m3, m4]
  have l0 : (wr seg sb d.CTL_ID).length = seg.length := by unfold wr; rw [List.length_set]
  have l1 : (wr (wr seg sb d.CTL_ID) (sb + 1) (name % 256)).length = seg.length := by
    unfold wr; rw [List.length_set, List.length_set]
  have l2 : (wr (wr (wr seg sb d.CTL_ID) (sb + 1) (name % 256)) (sb + 1 + 1)
      (name / 256 % 256)).length = seg.length := by
    unfold wr; rw [List.length_set, List.length_set, List.length_set]
  have l3 : (wr (wr (wr (wr seg sb d.CTL_ID) (sb + 1) (name % 256)) (sb + 1 + 1)
      (name / 256 % 256)) (sb + 1 + 2) (name / 65536 % 256)).length = seg.length := by
    unfold wr; rw [List.length_set, List.length_set, List.length_set, List.length_set]
  refine ⟨?_, ?_, ?_, ?_⟩
  · rw [rd_wr_ne _ _ _ _ (by omega), rd_wr_ne _ _ _ _ (by omega), rd_wr_ne _ _ _ _ (by omega),
      rd_wr_same _ _ _ (by omega), Nat.mod_mod]
  · rw [rd_wr_ne _ _ _ _ (by omega), rd_wr_ne _ _ _ _ (by omega),
      rd_wr_same _ _ _ (by omega), Nat.mod_mod]
  · rw [rd_wr_ne _ _ _ _ (by omega), rd_wr_same _ _ _ (by omega), Nat.mod_mod]
  · rw [rd_wr_same _ _ _ (by omega), Nat.mod_mod]

/-- The two words of a record rewritten for the id `name`. -/
theorem rdw_writeID (d : Defs) (seg : List Nat) (sb name : Nat)
    (hin : sb + 4 < seg.length) :
    rdw (writeID d seg (sb + 1) name) (sb + 1) = name % 65536 ∧
    rdw (writeID d seg (sb + 1) name) (sb + 3) = name / 65536 % 65536 := by
  obtain ⟨h1, h2, h3, h4⟩ := rd_writeID_bytes d seg sb name hin
  unfold rdw
  rw [h1, h2, h3, h4, lor_shift8 _ _ (Nat.mod_lt _ (by decide)),
    lor_shift8 _ _ (Nat.mod_lt _ (by decide))]
  constructor
  · omega
  · omega

/-- C33: for every 32-bit name id and every record of at least four data bytes inside the
buffer, once the record is collapsed to the resolved-id form (class byte `CTL_ID`, then the
id in four bytes, low byte first, as `CVFinishStructuredType` and `CVProcessStructure`
write it), `CVProcessTypeRecord` on that record with a destination block returns, appends
one descriptor to the block, whose first word is the low 16 bits of the id and whose
second word is the high 16 bits, returns the offset of that descriptor, leaves the buffer
as it is and moves the cursor to the start of the record plus its length. -/
theorem resolved_id_round_trip (d : Defs) (fuel : Nat) (st : CVState)
    (sb len tb name : Nat) (ents : List ObjType)
    (hd : d.classLabels.Nodup) (hid : d.CTL_ID < 256) (hname : name < 4294967296)
    (hin : sb + 4 < st.typeSeg.length)
    (hb : st.block tb = VMBlock.types ents) :
    rd (writeID d st.typeSeg (sb + 1) name) sb = d.CTL_ID ∧
    (List.range 4).map (fun i => rd (writeID d st.typeSeg (sb + 1) name) (sb + 1 + i)) =
      [name % 256, name / 256 % 256, name / 65536 % 256, name / 16777216] ∧
    ∃ r, CVProcessTypeRecord d (fuel + 1)
        { st with typeSeg := writeID d st.typeSeg (sb + 1) name } sb len tb = Except.ok r ∧
      r.ret = w16 (d.szObjTypeHeader + ents.length * d.szObjType) ∧
      r.bp = sb + len ∧
      r.st.typesOf tb = ents ++ [⟨name % 65536, name / 65536⟩] ∧
      r.st.typeSeg = writeID d st.typeSeg (sb + 1) name := by
  have hcls := rd_writeID d st.typeSeg sb name (by omega) hid
  obtain ⟨c1, c2, c3, c4⟩ := rd_writeID_bytes d st.typeSeg sb name hin
  obtain ⟨w1, w2⟩ := rdw_writeID d st.typeSeg sb name hin
  have hb1 : CVState.block { st with typeSeg := writeID d st.typeSeg (sb + 1) name } tb =
      VMBlock.types ents := by
    simpa [CVState.block] using hb
  obtain ⟨t0, tlt⟩ := block_types_inv { st with typeSeg := writeID d st.typeSeg (sb + 1) name }
    tb ents hb1
  refine ⟨hcls, ?_, ?_⟩
  · have e4 : name / 16777216 % 256 = name / 16777216 := Nat.mod_eq_of_lt (by omega)
    simp only [List.range, List.range.loop, List.map, Nat.add_zero]
    rw [c1, c2, c3, c4, e4]
  · rw [decodeID_eq d hd fuel _ sb len tb hcls]
    unfold decodeID
    dsimp only
    rw [w1, w2, allocTypeWith_types d _ tb ents _ hb1]
    have e2 : name / 65536 % 65536 = name / 65536 := Nat.mod_eq_of_lt (by omega)
    rw [e2]
    refine ⟨_, rfl, rfl, rfl, ?_, ?_⟩
    · exact typesOf_setBlock_same _ _ _ t0 tlt
    · exact setBlock_typeSeg _ _ _

/-- Witness for C33: the structure record of `structBuffer`, collapsed for the id
`0x04030201`, decodes to the descriptor `(0x0201, 0x0403)` at offset 2 of block 1, with the
cursor at the end of the record. -/
theorem resolved_id_round_trip_witness :
    ∃ r, CVProcessTypeRecord geos 1
        { initState (structBuffer 0 2 4) with
          typeSeg := writeID geos (structBuffer 0 2 4) 4 0x04030201 } 3 12 1 = Except.ok r ∧
      r.ret = 2 ∧ r.bp = 15 ∧ r.st.typesOf 1 = [⟨0x0201, 0x0403⟩] := by
  obtain ⟨-, -, r, h1, h2, h3, h4, -⟩ :=
    resolved_id_round_trip geos 0 (initState (structBuffer 0 2 4)) 3 12 1 0x04030201 []
      (by decide) (by decide) (by decide) (by decide) rfl
  exact ⟨r, h1, h2, h3, h4⟩

/-- C35: at depth 0 the block-start case tests `symBlock == 0`, not the depth.  While no
procedure has been opened (`symBlock` is 0) the record is rejected with the error `block
start not in procedure` and nothing else happens.  Once a procedure has been opened and
closed, `symBlock` still names its block: the record is not rejected, and when the place
of the block is found the case reads `scopeStack[scopeTop-1]` with `scopeTop = 0`, the
entry before the array. -/
theorem block_start_after_closed_procedure (d : Defs) (e : SymDefs) (f : ObjFile)
    (s : SymState) (base len bp : Nat) (r : Nat × Nat × Nat × SymState)
    (h0 : s.scopeTop = 0) :
    (s.symBlock = 0 →
      doBlockStart d e f s base len bp =
        Except.ok (s.notify Severity.error Msg.blockStartNotInProc)) ∧
    (s.symBlock ≠ 0 → blockPlace d e f s bp = Except.ok r →
      doBlockStart d e f s base len bp = Except.error (SymError.stackIndex (-1))) := by
  constructor
  · intro hb
    unfold doBlockStart
    rw [if_pos hb]
  · intro hb hp
    obtain ⟨x, bl, bp1, s1⟩ := r
    have ht := blockPlace_top d e f s s1 bp x bl bp1 hp
    have hm : ¬ (s.scopeTop = MAX_SCOPES) := by
      rw [h0]
      decide
    have hrd : stackRd s1 (s1.scopeTop - 1) = Except.error (SymError.stackIndex (-1)) := by
      unfold stackRd
      rw [ht, h0]
      rfl
    unfold doBlockStart
    rw [if_neg hb, if_neg hm, hp]
    dsimp only
    rw [hrd]

/-- Witness for C35: in `strayBlockFile` the loop is at depth 0 with `symBlock = 2` after
the procedure and its `End`; the block-start record that follows is not rejected, the
step reads `scopeStack[-1]`: the loop does not go on, and no error was reported. -/
theorem block_start_after_closed_procedure_witness :
    closedState.scopeTop = 0 ∧ closedState.symBlock = 2 ∧ closedState.procSD = none ∧
      closedState.cv.notes = [] ∧
      doBlockStart geos geosSym strayBlockFile closedState 20 5 21 =
        Except.error (SymError.stackIndex (-1)) ∧
      symStep geos geosSym strayBlockFile 5 closedState =
        Except.error (SymError.stackIndex (-1)) ∧
      (symRun geos geosSym strayBlockFile 5 3 nestState).map (fun s => s.scopeTop) = [1, 0] ∧
      doBlockStart geos geosSym strayBlockFile nestState 20 5 21 =
        Except.ok (nestState.notify Severity.error Msg.blockStartNotInProc) :=
  ⟨by decide!, by decide!, by decide!, by decide!,
    (block_start_after_closed_procedure geos geosSym strayBlockFile closedState 20 5 21
      (288, 8, 25, closedState) (by decide!)).2 (by decide!) (by decide!),
    by decide!, by decide!,
    (block_start_after_closed_procedure geos geosSym strayBlockFile nestState 20 5 21
      (0, 0, 0, nestState) (by decide!)).1 (by decide!)⟩

theorem enterPublic_alias (e : SymDefs) (s0 : SymState) (h : PubHit) (seg : SegDesc)
    (name blk idx off : Nat) (hreal : h.real = true) (halias : h.aliasId ≠ name) :
    (enterPublic e s0 (some h) seg name blk idx off).entered =
      s0.entered ++ [⟨seg.syms, h.aliasId, blk, off⟩] := by
  unfold enterPublic
  dsimp only
  rw [if_pos hreal, if_pos halias]

/-- C40: for a variable record that resolves and whose name has a real public definition
under another spelling (`aliasId` differs from the id of the name), the case
`CST_VARIABLE` returns and the entry it makes for the public definition carries the id of
the name, not the alias id: the table of the segment gets the name once inside a
procedure and twice outside, and no new entry has the alias id.  The statements that the
procedure-start and code-label cases run for the same public definition (`enterPublic`)
make the entry under the alias id. -/
theorem variable_alias_entered_under_name (d : Defs) (e : SymDefs) (f : ObjFile)
    (fuel : Nat) (s : SymState) (bp : Nat) (r : SymBlockSel) (s1 : SymState) (i t : Nat)
    (ents : List ObjSym) (ty : Nat) (cv2 : CVState) (h : PubHit)
    (hdet : CVDetermineSymbolBlock d e f s
      (d.ST_Enter (bytesAt f.symSeg (bp + 7) (rd f.symSeg (bp + 6)))) bp s.procSD =
        Except.ok (some r, s1))
    (hsd : r.sd = some i)
    (hblk : s1.cv.block r.symBlock = VMBlock.syms t ents)
    (hfetch : CVFetchType d fuel (s1.cv.setBlock r.symBlock (VMBlock.syms t (ents ++
        [varSymbol e (d.ST_Enter (bytesAt f.symSeg (bp + 7) (rd f.symSeg (bp + 6)))) r.addr])))
      r.typeBlock (rdw f.symSeg (bp + 4)) = Except.ok (ty, cv2))
    (hpub : CVLocatePublic d e f
      (d.ST_Enter (bytesAt f.symSeg (bp + 7) (rd f.symSeg (bp + 6)))) = Except.ok (some h))
    (hreal : h.real = true)
    (halias : h.aliasId ≠ d.ST_Enter (bytesAt f.symSeg (bp + 7) (rd f.symSeg (bp + 6))))
    (hdepth : s.procSD ≠ none → 1 ≤ s.scopeTop ∧ s.scopeTop ≤ 32) :
    (∀ (s0 : SymState) (blk idx off : Nat),
      (enterPublic e s0 (some h) (s1.segs.getD i {})
        (d.ST_Enter (bytesAt f.symSeg (bp + 7) (rd f.symSeg (bp + 6)))) blk idx off).entered =
        s0.entered ++ [⟨(s1.segs.getD i {}).syms, h.aliasId, blk, off⟩]) ∧
    ∃ s3, doVariable d e f fuel s bp = Except.ok s3 ∧
      s3.entered = s.entered ++
        [⟨(s1.segs.getD i {}).syms,
          d.ST_Enter (bytesAt f.symSeg (bp + 7) (rd f.symSeg (bp + 6))), r.symBlock,
          w16 (d.szObjSymHeader + ents.length * d.szObjSym)⟩] ++
        (if s.procSD = none then
          [⟨(s1.segs.getD i {}).syms,
            d.ST_Enter (bytesAt f.symSeg (bp + 7) (rd f.symSeg (bp + 6))), r.symBlock,
            w16 (d.szObjSymHeader + ents.length * d.szObjSym)⟩]
         else []) ∧
      ∀ x ∈ s3.entered, x.name = h.aliasId → x ∈ s.entered := by
  refine ⟨fun s0 blk idx off => enterPublic_alias e s0 h _ _ blk idx off hreal halias, ?_⟩
  obtain ⟨s2, hs2, hnone, hsome⟩ := doVariable_shape d e f fuel s bp r s1 i t ents ty cv2
    (some h) hdet hsd hblk hfetch hpub
  obtain ⟨f1, -, -, -⟩ := CVDetermineSymbolBlock_frame d e f s s1 _ _ _ _ hdet
  have hent : s2.entered = s.entered ++
      [⟨(s1.segs.getD i {}).syms,
        d.ST_Enter (bytesAt f.symSeg (bp + 7) (rd f.symSeg (bp + 6))), r.symBlock,
        w16 (d.szObjSymHeader + ents.length * d.szObjSym)⟩] := by
    rw [hs2, variableGlobal_entered]
    show s1.entered ++ _ = _
    rw [f1]
    unfold aliasEntry
    dsimp only
    rw [if_pos ⟨hreal, halias⟩]
  have hmem : ∀ (l : List SymEntry) (x : SymEntry),
      x ∈ s.entered ++
        [⟨(s1.segs.getD i {}).syms,
          d.ST_Enter (bytesAt f.symSeg (bp + 7) (rd f.symSeg (bp + 6))), r.symBlock,
          w16 (d.szObjSymHeader + ents.length * d.szObjSym)⟩] ++ l →
      (∀ y ∈ l, y.name = d.ST_Enter (bytesAt f.symSeg (bp + 7) (rd f.symSeg (bp + 6)))) →
      x.name = h.aliasId → x ∈ s.entered := by
    intro l x hx hl hxa
    rw [List.mem_append, List.mem_append, List.mem_singleton] at hx
    rcases hx with (hx | hx) | hx
    · exact hx
    · rw [hx] at hxa
      exact absurd hxa.symm halias
    · exact absurd ((hl x hx).symm.trans hxa).symm halias
  by_cases hproc : s.procSD = none
  · refine ⟨_, hnone hproc, ?_, ?_⟩
    · show s2.entered ++ _ = _
      rw [hent, if_pos hproc]
    · intro x hx
      have hx2 : x ∈ s2.entered ++
          [⟨(s1.segs.getD i {}).syms,
            d.ST_Enter (bytesAt f.symSeg (bp + 7) (rd f.symSeg (bp + 6))), r.symBlock,
            w16 (d.szObjSymHeader + ents.length * d.szObjSym)⟩] := hx
      rw [hent] at hx2
      exact hmem _ x hx2 (fun y hy => by rw [List.mem_singleton] at hy; rw [hy])
  · have htop : s2.scopeTop = s.scopeTop := by
      rw [hs2, (variableGlobal_fields _ _ _ _ _ _ _ _).1]
      show s1.scopeTop = s.scopeTop
      exact CVDetermineSymbolBlock_top _ _ _ _ _ _ _ _ _ hdet
    obtain ⟨hd1, hd2⟩ := hdepth hproc
    refine ⟨_, hsome hproc (by rw [htop]; exact hd1) (by rw [htop]; exact hd2), ?_, ?_⟩
    · show s2.entered = _
      rw [hent, if_neg hproc, List.append_nil]
    · intro x hx
      have hx2 : x ∈ s2.entered := hx
      rw [hent, ← List.append_nil (s.entered ++ _)] at hx2
      exact hmem [] x hx2 (fun y hy => absurd hy (List.not_mem_nil y))

/-- Witness for C40: the variable `v` of `aliasVarFile`, public as `_v`, is entered twice
under the id of `v` and never under the id of `_v`, while the code label `v` of
`aliasLabelFile`, with the same public entry, is entered under the id of `_v` and under
the id of `v`. -/
theorem variable_alias_entered_under_name_witness :
    CVLocatePublic geos geosSym aliasVarFile (geos.ST_Enter [118]) =
        Except.ok (some ⟨some 2, 0x200, true, geos.ST_Enter [95, 118]⟩) ∧
      (∃ s3, doVariable geos geosSym aliasVarFile 2 varState 2 = Except.ok s3 ∧
        s3.entered = [⟨9, geos.ST_Enter [118], 2, 8⟩, ⟨9, geos.ST_Enter [118], 2, 8⟩]) ∧
      (doCodeLabel geos geosSym aliasLabelFile varState 2).toOption.map (fun s => s.entered) =
        some [⟨9, geos.ST_Enter [95, 118], 2, 8⟩, ⟨9, geos.ST_Enter [118], 2, 8⟩] := by
  have hpub : CVLocatePublic geos geosSym aliasVarFile (geos.ST_Enter [118]) =
      Except.ok (some ⟨some 2, 0x200, true, geos.ST_Enter [95, 118]⟩) := by decide!
  refine ⟨hpub, ?_, by decide!⟩
  obtain ⟨-, s3, h1, h2, -⟩ :=
    variable_alias_entered_under_name geos geosSym aliasVarFile 2 varState 2
      (chooseBlock geosSym varState (some 2) none (dataSegs.getD 2 {}) 0x310).1
      (chooseBlock geosSym varState (some 2) none (dataSegs.getD 2 {}) 0x310).2
      2 1 [] 0x2005
      ((chooseBlock geosSym varState (some 2) none (dataSegs.getD 2 {}) 0x310).2.cv.setBlock 2
        (VMBlock.syms 1 [varSymbol geosSym (geos.ST_Enter [118]) 0x310]))
      ⟨some 2, 0x200, true, geos.ST_Enter [95, 118]⟩
      (by decide!) (by decide!) (by decide!) (by decide!) hpub rfl (by decide)
      (fun h => absurd rfl h)
  refine ⟨s3, h1, ?_⟩
  rw [h2]
  decide!

/-- C36: when the record of the type index `idx` is a pointer record whose base type is
an index reference to `idx` itself, `CVFetchType` for `idx` with a destination block
calls `CVProcessTypeRecord` on the record, which calls itself on the base-type leaf, which
calls `CVFetchType` for `idx` again, in the same state: no amount of fuel gives a result,
the recursion does not end. -/
theorem pointer_cycle_runs_forever (d : Defs) (st : CVState) (tb idx bp len : Nat)
    (hd : d.classLabels.Nodup) (htb : tb ≠ 0)
    (hidx : d.CST_LAST_PREDEF < idx) (hw : w16 idx = idx)
    (hloc : CVLocateType d st.typeSeg idx = Except.ok (some (bp, len)))
    (hcls : rd st.typeSeg bp = d.CTL_POINTER)
    (hleaf : rd st.typeSeg (bp + 2) = d.CTL_INDEX)
    (hself : rdw st.typeSeg (bp + 3) = idx) :
    ∀ fuel, CVFetchType d fuel st tb idx = Except.error CVError.fuel ∧
      CVProcessTypeRecord d fuel st bp len tb = Except.error CVError.fuel := by
  have key : ∀ fuel, CVFetchType d fuel st tb idx = Except.error CVError.fuel ∧
      CVProcessTypeRecord d fuel st bp len tb = Except.error CVError.fuel ∧
      CVProcessTypeRecord d fuel st (bp + 1 + 1) (rdw st.typeSeg (bp + 1 + 2)) tb =
        Except.error CVError.fuel := by
    intro fuel
    induction fuel with
    | zero =>
      refine ⟨?_, ?_, ?_⟩
      · unfold CVFetchType
        rfl
      · unfold CVProcessTypeRecord
        rfl
      · unfold CVProcessTypeRecord
        rfl
    | succ n ih =>
      obtain ⟨i1, i2, i3⟩ := ih
      refine ⟨?_, ?_, ?_⟩
      · rw [fetch_record d n st tb idx bp len hidx hw hloc, i2]
      · rw [decode_pointer_node d hd n st bp len tb hcls]
        unfold decodePointer
        dsimp only
        rw [i3]
      · rw [decode_index_node d hd n st (bp + 1 + 1) _ tb hleaf htb]
        have e : bp + 1 + 1 + 1 = bp + 3 := by omega
        rw [e, hself, i1]
  intro fuel
  exact ⟨(key fuel).1, (key fuel).2.1⟩

/-- Witness for C36: the pointer record of `selfPointerBuffer`, of type index 0x200, refers
to itself; with fuel 1000 the decoder has not returned.  The two records of
`pointerPairBuffer` refer to each other and behave the same up to fuel 40. -/
theorem pointer_cycle_runs_forever_witness :
    CVLocateType geos selfPointerBuffer 0x200 = Except.ok (some (3, 5)) ∧
      CVFetchType geos 1000 (initState selfPointerBuffer) 1 0x200 =
        Except.error CVError.fuel ∧
      (List.range 40).all (fun fuel =>
        decide (CVFetchType geos fuel (initState pointerPairBuffer) 1 0x200 =
          Except.error CVError.fuel)) = true :=
  ⟨by decide,
    (pointer_cycle_runs_forever geos (initState selfPointerBuffer) 1 0x200 3 5 (by decide)
      (by decide) (by decide) (by decide) (by decide) (by decide) (by decide) (by decide)
      1000).1,
    by decide!⟩

/-- C37: `CVProcessArray` computes `alen % elSize` and `alen / elSize` with whatever
`Obj_TypeSize` returns for the element type: for an array record decoded with a
destination block whose length and element type decode and whose element type has the
size 0, the divisor is 0 and the function does not return. -/
theorem array_zero_size_element (d : Defs) (rec_ : Decoder) (st : CVState)
    (bp0 len tb alen bp1 : Nat) (e1 : Res)
    (htb : tb ≠ 0)
    (hint : CVGetInteger d st.typeSeg bp0 = Except.ok (alen, bp1))
    (hel : (if rdBack st.typeSeg bp0 3 = d.CTL_STRING_TYPE then
        Except.ok ⟨d.OTYPE_CHAR ||| d.OTYPE_SPECIAL, bp1, st⟩
      else rec_ st bp1 (rdw st.typeSeg (bp1 + 1)) tb) = Except.ok e1)
    (hz : d.Obj_TypeSize e1.ret (e1.st.typesOf tb) = 0) :
    arrayCreate d e1.st tb alen e1.ret = Except.error CVError.divZero ∧
      CVProcessArray d rec_ st bp0 len tb = Except.error CVError.divZero := by
  have h1 : arrayCreate d e1.st tb alen e1.ret = Except.error CVError.divZero := by
    unfold arrayCreate
    dsimp only
    rw [if_pos hz]
  refine ⟨h1, ?_⟩
  unfold CVProcessArray
  rw [if_pos htb, hint]
  dsimp only
  rw [hel]
  dsimp only
  rw [h1]

/-- Witness for C37: the element type of the array of `voidArrayBuffer` decodes to the
void word, for which the sample `Obj_TypeSize` gives 0; the decoding of the record, and the
fetch of its type index, end in the division by zero. -/
theorem array_zero_size_element_witness :
    geos.Obj_TypeSize geos.voidType [] = 0 ∧
      CVProcessArray geos (CVProcessTypeRecord geos 2) (initState voidArrayBuffer) 4 4 1 =
        Except.error CVError.divZero ∧
      CVFetchType geos 4 (initState voidArrayBuffer) 1 0x200 =
        Except.error CVError.divZero :=
  ⟨by decide,
    (array_zero_size_element geos (CVProcessTypeRecord geos 2) (initState voidArrayBuffer)
      4 4 1 16 5 ⟨geos.voidType, 8, initState voidArrayBuffer⟩ (by decide) (by decide)
      (by decide!) (by decide)).2,
    by decide!⟩

theorem CVProcessScalar_bp (d : Defs) (st : CVState) (bp0 len tb : Nat) (r : Res)
    (h : CVProcessScalar d st bp0 len tb = Except.ok r) : r.bp = bp0 + len := by
  unfold CVProcessScalar at h
  dsimp only at h
  split at h
  · cases h
  split at h
  · cases h
    rfl
  split at h
  · cases h
  split at h
  · split at h
    · cases h
      rfl
    split at h
    · cases h
    · cases h
      rfl
    split at h
    · cases h
    split at h
    · cases h
    split at h
    · cases h
    split at h
    · cases h
    · cases h
      rfl
  · cases h
    rfl

/-- A typedef node is decoded by the `CTL_TYPEDEF` case. -/
theorem decode_typedef_node (d : Defs) (hd : d.classLabels.Nodup) (fuel : Nat) (s : CVState)
    (p len tb : Nat) (hcls : rd s.typeSeg p = d.CTL_TYPEDEF) :
    CVProcessTypeRecord d (fuel + 1) s p len tb =
      decodeTypedef d (CVProcessTypeRecord d fuel) s (p + 1) len tb := by
  simp only [Defs.classLabels, List.nodup_cons, List.mem_cons, List.mem_singleton, not_or,
    List.not_mem_nil, not_false_eq_true, List.nodup_nil, and_true] at hd
  simp only [CVProcessTypeRecord, hcls]
  simp [hd, Ne.symm, eq_comm]

/-- A scalar node is decoded by `CVProcessScalar`. -/
theorem decode_scalar_node (d : Defs) (hd : d.classLabels.Nodup) (fuel : Nat) (s : CVState)
    (p len tb : Nat) (hcls : rd s.typeSeg p = d.CTL_SCALAR) :
    CVProcessTypeRecord d (fuel + 1) s p len tb =
      CVProcessScalar d s (p + 1) (w16 (len + 65535)) tb := by
  simp only [Defs.classLabels, List.nodup_cons, List.mem_cons, List.mem_singleton, not_or,
    List.not_mem_nil, not_false_eq_true, List.nodup_nil, and_true] at hd
  simp only [CVProcessTypeRecord, hcls]
  simp [hd, Ne.symm, eq_comm]

theorem w16_pred (len : Nat) (h1 : 1 ≤ len) (h2 : len < 65536) :
    w16 (len + 65535) = len - 1 := by
  unfold w16
  omega

/-- C38: the cursor of the sweep after the record at offset `o` (inside the buffer, data
length `len`, class byte at `o + 3`).  For a class that is none of the three the cursor is
`o + 3 + len`; so it is for `CTL_STRUCTURE`, and for `CTL_SCALAR` when its decoding
returns, the length counting the class byte (`1 ≤ len`); but for `CTL_TYPEDEF` the decoder
skips `len` bytes from the byte after the class byte and the cursor is `o + 3 + 1 + len`,
one byte past the start of the next record. -/
theorem sweep_cursor_after_record (d : Defs) (fuel e k o : Nat) (st : CVState)
    (hd : d.classLabels.Nodup) (ho : o < e) :
    (rd st.typeSeg (o + 3) = d.CTL_TYPEDEF →
      sweepLoop d (fuel + 1) e (k + 1) o st =
        sweepLoop d (fuel + 1) e k (o + 3 + 1 + rdw st.typeSeg (o + 1)) st) ∧
    (rd st.typeSeg (o + 3) = d.CTL_STRUCTURE → 1 ≤ rdw st.typeSeg (o + 1) →
      sweepLoop d (fuel + 1) e (k + 1) o st =
        sweepLoop d (fuel + 1) e k (o + 3 + rdw st.typeSeg (o + 1)) st) ∧
    (rd st.typeSeg (o + 3) = d.CTL_SCALAR → 1 ≤ rdw st.typeSeg (o + 1) →
      ∀ r, CVProcessTypeRecord d (fuel + 1) st (o + 3) (rdw st.typeSeg (o + 1)) 0 =
          Except.ok r →
        r.bp = o + 3 + rdw st.typeSeg (o + 1) ∧
        sweepLoop d (fuel + 1) e (k + 1) o st =
          sweepLoop d (fuel + 1) e k (o + 3 + rdw st.typeSeg (o + 1)) r.st) ∧
    (rd st.typeSeg (o + 3) ≠ d.CTL_TYPEDEF → rd st.typeSeg (o + 3) ≠ d.CTL_STRUCTURE →
      rd st.typeSeg (o + 3) ≠ d.CTL_SCALAR →
      sweepLoop d (fuel + 1) e (k + 1) o st =
        sweepLoop d (fuel + 1) e k (o + 3 + rdw st.typeSeg (o + 1)) st) := by
  have hlen := rdw_lt st.typeSeg (o + 1)
  refine ⟨?_, ?_, ?_, ?_⟩
  · intro hc
    have hcase : rd st.typeSeg (o + 3) = d.CTL_TYPEDEF ∨
        rd st.typeSeg (o + 3) = d.CTL_STRUCTURE ∨ rd st.typeSeg (o + 3) = d.CTL_SCALAR :=
      Or.inl hc
    have hdec : CVProcessTypeRecord d (fuel + 1) st (o + 3) (rdw st.typeSeg (o + 1)) 0 =
        Except.ok ⟨d.voidType, o + 3 + 1 + rdw st.typeSeg (o + 1), st⟩ := by
      rw [decode_typedef_node d hd fuel st (o + 3) _ 0 hc]
      unfold decodeTypedef
      rw [if_pos rfl]
    conv => lhs; unfold sweepLoop
    dsimp only
    rw [if_pos ho, if_pos hcase, hdec]
  · intro hc h1
    have hcase : rd st.typeSeg (o + 3) = d.CTL_TYPEDEF ∨
        rd st.typeSeg (o + 3) = d.CTL_STRUCTURE ∨ rd st.typeSeg (o + 3) = d.CTL_SCALAR :=
      Or.inr (Or.inl hc)
    have hdec : CVProcessTypeRecord d (fuel + 1) st (o + 3) (rdw st.typeSeg (o + 1)) 0 =
        Except.ok ⟨d.voidType, o + 3 + rdw st.typeSeg (o + 1), st⟩ := by
      rw [decode_structure_node d hd fuel st (o + 3) _ 0 hc, w16_pred _ h1 hlen]
      unfold CVProcessStructure
      rw [if_pos rfl]
      have e1 : o + 3 + 1 + (rdw st.typeSeg (o + 1) - 1) = o + 3 + rdw st.typeSeg (o + 1) := by
        omega
      rw [e1]
    conv => lhs; unfold sweepLoop
    dsimp only
    rw [if_pos ho, if_pos hcase, hdec]
  · intro hc h1 r hr
    have hcase : rd st.typeSeg (o + 3) = d.CTL_TYPEDEF ∨
        rd st.typeSeg (o + 3) = d.CTL_STRUCTURE ∨ rd st.typeSeg (o + 3) = d.CTL_SCALAR :=
      Or.inr (Or.inr hc)
    have hbp : r.bp = o + 3 + rdw st.typeSeg (o + 1) := by
      rw [decode_scalar_node d hd fuel st (o + 3) _ 0 hc, w16_pred _ h1 hlen] at hr
      rw [CVProcessScalar_bp d st _ _ 0 r hr]
      omega
    refine ⟨hbp, ?_⟩
    conv => lhs; unfold sweepLoop
    dsimp only
    rw [if_pos ho, if_pos hcase, hr]
    dsimp only
    rw [hbp]
  · intro n1 n2 n3
    have hcase : ¬ (rd st.typeSeg (o + 3) = d.CTL_TYPEDEF ∨
        rd st.typeSeg (o + 3) = d.CTL_STRUCTURE ∨ rd st.typeSeg (o + 3) = d.CTL_SCALAR) := by
      rw [not_or, not_or]
      exact ⟨n1, n2, n3⟩
    conv => lhs; unfold sweepLoop
    dsimp only
    rw [if_pos ho, if_neg hcase]

/-- Witness for C38: in `typedefBuffer ++ enumBuffer` the typedef record (offset 0, length
7) is followed at offset 10 by an enumeration; after the typedef the cursor of the sweep
is 11, the sweep reads a length there that takes it out of the buffer, and the
enumeration, which the sweep of `enumBuffer` alone registers, is never looked at. -/
theorem sweep_cursor_after_record_witness :
    typedefBuffer.length = 10 ∧
      sweepLoop geos 5 34 (33 + 1) 0 (initState (typedefBuffer ++ enumBuffer)) =
        sweepLoop geos 5 34 33 11 (initState (typedefBuffer ++ enumBuffer)) ∧
      CVProcessUnprocessedTypeRecords geos 5 (initState (typedefBuffer ++ enumBuffer)) =
        Except.ok (31502, initState (typedefBuffer ++ enumBuffer)) ∧
      (CVProcessUnprocessedTypeRecords geos 5 (initState enumBuffer)).toOption.map
        (fun r => (r.1, r.2.globals.length)) = some (24, 1) :=
  ⟨by decide,
    (sweep_cursor_after_record geos 4 34 33 0 (initState (typedefBuffer ++ enumBuffer))
      (by decide) (by decide)).1 (by decide),
    by decide!, by decide!⟩

/-- Claim C39, the error path: a structure record at `sb` (data at `sb + 1`) whose header
is accepted with name id `h.ssymName`, whose first field decodes to the placeholder
bitfield type and before whose type list no run of bitfield records is found.
`CVProcessStructure` reports the missing descriptor and returns
`OTYPE_VOID | OTYPE_SPECIAL`, yet the record it leaves behind is in the resolved-id
form carrying `h.ssymName` (class byte `CTL_ID`, then the four bytes of the id) and
nothing has been entered in the global scope. -/
theorem missing_bitfield_leaves_resolved_id (d : Defs) (rec_ : Decoder) (st s5 : CVState)
    (sb len tb n : Nat) (h : StructHdr) (r : Res)
    (htb : tb ≠ 0)
    (hid : d.CTL_ID < 256)
    (hin : sb + 4 < st.typeSeg.length)
    (hhdr : structHeader d st (sb + 1) len = Except.ok (some h, s5))
    (hn : h.nfields = n + 1)
    (hrec : rec_ h.st h.tlistBase (rdw h.st.typeSeg (h.tlistBase + 1)) h.ttypeBlock = Except.ok r)
    (hph : r.ret = (d.OTYPE_BITFIELD ||| d.OTYPE_SPECIAL) ∧ r.ret &&& d.OTYPE_BF_WIDTH = 0)
    (hnone : findBF d r.st.typeSeg h.tlistBase h.tlistBase 0 d.CTL_STRUCTURE none = none)
    (hkeep : r.st.typeSeg = h.st.typeSeg ∧ r.st.globals = h.st.globals) :
    ∃ out, CVProcessStructure d rec_ st (sb + 1) len tb = Except.ok out ∧
      out.ret = d.voidType ∧ out.bp = sb + 1 + len ∧
      out.st.notes = r.st.notes ++ [⟨Severity.error, Msg.noBitfieldDescriptor⟩] ∧
      out.st.typeSeg = writeID d st.typeSeg (sb + 1) h.ssymName ∧
      rd out.st.typeSeg sb = d.CTL_ID ∧
      rd out.st.typeSeg (sb + 1) = h.ssymName % 256 ∧
      rd out.st.typeSeg (sb + 2) = h.ssymName / 256 % 256 ∧
      rd out.st.typeSeg (sb + 3) = h.ssymName / 65536 % 256 ∧
      rd out.st.typeSeg (sb + 4) = h.ssymName / 16777216 % 256 ∧
      out.st.globals = st.globals := by
  obtain ⟨_, _, _, hseg, hglob⟩ := structHeader_spec d st s5 (sb + 1) len h hhdr
  have hft : fieldTypes d rec_ h.tlistBase h.ttypeBlock h.nfields h.st h.tlistBase none [] =
      Except.ok (none, r.st.notify Severity.error Msg.noBitfieldDescriptor) := by
    rw [hn]
    unfold fieldTypes
    simp only [hrec]
    rw [if_pos hph]
    simp only [hnone]
  have hrun : CVProcessStructure d rec_ st (sb + 1) len tb =
      Except.ok ⟨d.voidType, sb + 1 + len, r.st.notify Severity.error Msg.noBitfieldDescriptor⟩ := by
    unfold CVProcessStructure
    rw [if_neg htb]
    simp only [hhdr, hft]
  have hts : (r.st.notify Severity.error Msg.noBitfieldDescriptor).typeSeg =
      writeID d st.typeSeg (sb + 1) h.ssymName := by
    show r.st.typeSeg = _
    rw [hkeep.1, hseg]
  obtain ⟨b1, b2, b3, b4⟩ := rd_writeID_bytes d st.typeSeg sb h.ssymName hin
  refine ⟨_, hrun, rfl, rfl, rfl, hts, ?_, ?_, ?_, ?_, ?_, ?_⟩
  · show rd (r.st.notify Severity.error Msg.noBitfieldDescriptor).typeSeg sb = _
    rw [hts]
    exact rd_writeID d st.typeSeg sb h.ssymName (by omega) hid
  · show rd (r.st.notify Severity.error Msg.noBitfieldDescriptor).typeSeg (sb + 1) = _
    rw [hts]; exact b1
  · show rd (r.st.notify Severity.error Msg.noBitfieldDescriptor).typeSeg (sb + 2) = _
    rw [hts]; exact b2
  · show rd (r.st.notify Severity.error Msg.noBitfieldDescriptor).typeSeg (sb + 3) = _
    rw [hts]; exact b3
  · show rd (r.st.notify Severity.error Msg.noBitfieldDescriptor).typeSeg (sb + 4) = _
    rw [hts]; exact b4
  · show r.st.globals = _
    rw [hkeep.2, hglob]

/-- Claim C39 on `noRunBuffer`: the structure `f` is rejected for its missing bitfield
descriptor, the record is left in the resolved-id form for the id 716 of `f`, and the
global scope is empty; a later fetch of the record answers with a type word and still
no symbol in the global scope. -/
theorem missing_bitfield_leaves_resolved_id_witness :
    geos.ST_Enter [102] = 716 ∧
    (∃ out, CVProcessStructure geos (CVProcessTypeRecord geos 2) (initState noRunBuffer) 4 11 1 =
        Except.ok out ∧
      out.ret = geos.voidType ∧ rd out.st.typeSeg 3 = geos.CTL_ID ∧
      rd out.st.typeSeg 4 = 716 % 256 ∧ rd out.st.typeSeg 5 = 716 / 256 % 256 ∧
      out.st.globals = []) ∧
    (CVFetchType geos 4 (initState noRunBuffer) 1 512).map (fun x => (x.1, x.2.globals)) =
      Except.ok (geos.voidType, []) ∧
    ((CVFetchType geos 4 (initState noRunBuffer) 1 512).bind
      (fun x => CVFetchType geos 4 x.2 1 512)).map (fun x => (x.1, x.2.globals)) =
      Except.ok (2, []) := by
  refine ⟨by decide!, ?_, by decide!, by decide!⟩
  obtain ⟨out, h1, h2, -, -, -, h3, h4, h5, -, -, h6⟩ :=
    missing_bitfield_leaves_resolved_id geos (CVProcessTypeRecord geos 2)
      (initState noRunBuffer) noRunState 3 11 1 1 noRunHeader ⟨32769, 22, noRunState⟩
      (by decide) (by decide) (by decide) (by decide!) rfl (by decide!) (by decide!)
      (by decide!) ⟨rfl, rfl⟩
  exact ⟨out, h1, h2, h3, h4, h5, h6⟩

theorem CVAllocSymLocked_offset (d : Defs) (st : CVState) (h t : Nat) (ents : List ObjSym)
    (hb : st.block h = VMBlock.syms t ents) :
    (CVAllocSymLocked d st h).1 = w16 (symOffset d ents.length) ∧
      (CVAllocSymLocked d st h).2.1 = ents.length := by
  unfold CVAllocSymLocked symOffset
  rw [hb]
  exact ⟨rfl, rfl⟩

theorem symOffset_succ (d : Defs) (k : Nat) :
    w16 (w16 (symOffset d k) + d.szObjSym) = w16 (symOffset d (k + 1)) := by
  unfold symOffset w16
  rw [Nat.add_mul, Nat.one_mul, Nat.mod_add_mod, Nat.add_assoc]

theorem symOffset_add (d : Defs) (n : Nat) :
    w16 (w16 d.szObjSymHeader + n * d.szObjSym) = w16 (symOffset d n) := by
  unfold symOffset w16
  rw [Nat.mod_add_mod]

theorem parseFields_length (d : Defs) (seg : List Nat) :
    ∀ (k p : Nat) (flds : List (Nat × Nat)), parseFields d seg k p = some flds →
      flds.length = k := by
  intro k
  induction k with
  | zero =>
    intro p flds h
    simp only [parseFields] at h
    cases h
    rfl
  | succ k ih =>
    intro p flds h
    obtain ⟨name, p1, off, p2, rest, -, -, -, hr, rfl⟩ := parseFields_succ d seg k p flds h
    rw [List.length_cons, ih p2 rest hr]

theorem fieldSymList_link (d : Defs) (nfields ssymOff : Nat) (types : List Nat) :
    ∀ (flds : List (Nat × Nat)) (i n j : Nat), j < flds.length →
      ((fieldSymList d nfields ssymOff types i n flds).getD j {}).name =
          (flds.getD j (0, 0)).1 ∧
        ((fieldSymList d nfields ssymOff types i n flds).getD j {}).type = d.OSYM_FIELD ∧
        ((fieldSymList d nfields ssymOff types i n flds).getD j {}).sField_next =
          if i + j ≠ nfields - 1 then w16 (symOffset d (n + j + 1)) else ssymOff := by
  intro flds
  induction flds with
  | nil => intro i n j hj; simp at hj
  | cons f rest ih =>
    intro i n j hj
    obtain ⟨a, b⟩ := f
    cases j with
    | zero =>
      simp only [fieldSymList, List.getD_cons_zero, Nat.add_zero]
      refine ⟨trivial, trivial, ?_⟩
      rw [← symOffset_succ d n]
      rfl
    | succ j =>
      have := ih (i + 1) (n + 1) j (by simpa using hj)
      simp only [fieldSymList, List.getD_cons_succ]
      rw [this.1, this.2.1, this.2.2]
      refine ⟨rfl, rfl, ?_⟩
      have e1 : i + 1 + j = i + (j + 1) := by omega
      have e2 : n + 1 + j + 1 = n + (j + 1) + 1 := by omega
      rw [e1, e2]

/-- The group `structSyms` registers, with the aggregate symbol spelled out. -/
theorem structSyms_group (d : Defs) (st6 : CVState)
    (dataBase len out tb tsym ttype size nfields name flags nlistBase t0 : Nat)
    (types : List Nat) (flds : List (Nat × Nat)) (entsT : List ObjType)
    (hblk : st6.block tsym = VMBlock.syms t0 [])
    (hlen : 4 ≤ len)
    (hparse : parseFields d st6.typeSeg nfields nlistBase = some flds)
    (htb : st6.block tb = VMBlock.types entsT) (h1 : tb ≠ tsym) (h2 : tb ≠ ttype)
    (h3 : t0 ≠ tsym) :
    ∃ r,
      structSyms d st6 dataBase len out tb tsym ttype size nfields name flags nlistBase types =
        Except.ok r ∧
      r.st.globals = st6.globals ++
        [⟨({ name := name, type := classifyLoop d types 0 0 d.OSYM_STRUCT flds, flags := flags,
             sType_size := w16 size, sType_first := w16 (w16 d.szObjSymHeader + d.szObjSym),
             sType_last := w16 (w16 d.szObjSymHeader + nfields * d.szObjSym) } : ObjSym) ::
            fieldSymList d nfields (w16 d.szObjSymHeader) types 0 1 flds, st6.typesOf t0⟩] := by
  obtain ⟨h0, hlt⟩ := block_inv st6 tsym (by rw [hblk]; simp)
  have hfs := fieldSyms_eq d tsym (w16 d.szObjSymHeader) nfields t0 types nfields flds 0
    (st6.setBlock tsym (VMBlock.syms t0
      [{ flags := flags, name := name, sType_size := w16 size,
         sType_first := w16 (w16 d.szObjSymHeader + d.szObjSym),
         sType_last := w16 (w16 d.szObjSymHeader + nfields * d.szObjSym) }]))
    nlistBase d.OSYM_STRUCT _ (block_setBlock_same _ _ _ h0 hlt) (by simp) (by simpa using hparse)
  simp only [structSyms, CVAllocSym, h0, if_false, CVAllocSymLocked_syms d st6 tsym t0 [] hblk,
    List.length_nil, Nat.zero_mul, Nat.add_zero, List.nil_append,
    modifySym_setBlock _ _ _ _ _ _ h0 hlt, List.set_cons_zero]
  simp only [List.length_singleton, Nat.sub_self, List.getD_cons_zero, List.singleton_append] at hfs
  rw [hfs]
  simp only [setBlock_setBlock, modifySym_setBlock _ _ _ _ _ _ h0 hlt, List.set_cons_zero,
    List.getD_cons_zero, symAt_setBlock _ _ _ _ _ h0 hlt]
  generalize hS : (if flags &&& d.OSYM_NAMELESS ≠ 0 then MSObj_AddAnonStruct _ _ _ _ else _) = S
  have hSb : S.block tsym = VMBlock.syms t0
      ({ name := name, type := classifyLoop d types 0 0 d.OSYM_STRUCT flds, flags := flags,
         sType_size := w16 size, sType_first := w16 (w16 d.szObjSymHeader + d.szObjSym),
         sType_last := w16 (w16 d.szObjSymHeader + nfields * d.szObjSym) } ::
        fieldSymList d nfields (w16 d.szObjSymHeader) types 0 1 flds) := by
    subst hS
    split
    · exact block_setBlock_same _ _ _ h0 hlt
    · exact block_setBlock_same _ _ _ h0 hlt
  have hSo : ∀ k, k ≠ tsym → S.block k = st6.block k := by
    intro k hk
    subst hS
    split
    · exact block_setBlock_ne _ _ _ _ hk
    · exact block_setBlock_ne _ _ _ _ hk
  have hSg : S.globals = st6.globals := by
    subst hS
    split <;> simp [MSObj_AddAnonStruct]
  have hSt : S.typesOf t0 = st6.typesOf t0 := by
    unfold CVState.typesOf
    rw [hSo t0 h3]
  obtain ⟨st1, hF, hg, hseg, hty⟩ :=
    CVFinishStructuredType_full d S dataBase len 0 tsym ttype tb t0 _ entsT hlen hSb
      (by rw [hSo tb h1]; exact htb) h1 h2
  rw [hF]
  refine ⟨_, rfl, ?_⟩
  rw [hg, hSg, hSt]

/-- Claim C34: the second half of `CVProcessStructure`, run with an empty temporary
symbol block over a well-formed name/offset list of `nfields ≥ 1` entries, registers one
group of `nfields + 1` symbols: the aggregate symbol named `name`, then one `OSYM_FIELD`
symbol per entry in declaration order.  With the word `w16 (symOffset d k)` the offset of
the symbol of index `k` of the block, the aggregate (index 0) has `first` the offset of field 1 and
`last` the offset of field `nfields`; field `j < nfields` has `next` the offset of field
`j + 1`, and field `nfields` has `next` the offset of the aggregate. -/
theorem field_ring_closed (d : Defs) (st6 : CVState)
    (dataBase len out tb tsym ttype size nfields name flags nlistBase t0 : Nat)
    (types : List Nat) (flds : List (Nat × Nat)) (entsT : List ObjType)
    (hn : 1 ≤ nfields)
    (hblk : st6.block tsym = VMBlock.syms t0 [])
    (hlen : 4 ≤ len)
    (hparse : parseFields d st6.typeSeg nfields nlistBase = some flds)
    (htb : st6.block tb = VMBlock.types entsT) (h1 : tb ≠ tsym) (h2 : tb ≠ ttype)
    (h3 : t0 ≠ tsym) :
    ∃ r syms,
      structSyms d st6 dataBase len out tb tsym ttype size nfields name flags nlistBase types =
        Except.ok r ∧
      r.st.globals = st6.globals ++ [⟨syms, st6.typesOf t0⟩] ∧
      syms.length = nfields + 1 ∧
      (syms.getD 0 {}).name = name ∧
      (syms.getD 0 {}).sType_first = w16 (symOffset d 1) ∧
      (syms.getD 0 {}).sType_last = w16 (symOffset d nfields) ∧
      (∀ j, 1 ≤ j → j ≤ nfields →
        (syms.getD j {}).type = d.OSYM_FIELD ∧
        (syms.getD j {}).name = (flds.getD (j - 1) (0, 0)).1) ∧
      (∀ j, 1 ≤ j → j < nfields → (syms.getD j {}).sField_next = w16 (symOffset d (j + 1))) ∧
      (syms.getD nfields {}).sField_next = w16 (symOffset d 0) := by
  obtain ⟨r, hr, hg⟩ := structSyms_group d st6 dataBase len out tb tsym ttype size nfields name
    flags nlistBase t0 types flds entsT hblk hlen hparse htb h1 h2 h3
  have hfl := parseFields_length d st6.typeSeg nfields nlistBase flds hparse
  have h0 : w16 d.szObjSymHeader = w16 (symOffset d 0) := by
    unfold symOffset
    rw [Nat.zero_mul, Nat.add_zero]
  refine ⟨r, _, hr, hg, ?_, rfl, ?_, ?_, ?_, ?_, ?_⟩
  · rw [List.length_cons, fieldSymList_length, hfl]
  · show w16 (w16 d.szObjSymHeader + d.szObjSym) = w16 (symOffset d 1)
    rw [h0]
    exact symOffset_succ d 0
  · exact symOffset_add d nfields
  · intro j hj1 hj2
    obtain ⟨k, rfl⟩ : ∃ k, j = k + 1 := ⟨j - 1, by omega⟩
    have := fieldSymList_link d nfields (w16 d.szObjSymHeader) types flds 0 1 k (by omega)
    simp only [List.getD_cons_succ, Nat.add_sub_cancel]
    exact ⟨this.2.1, this.1⟩
  · intro j hj1 hj2
    obtain ⟨k, rfl⟩ : ∃ k, j = k + 1 := ⟨j - 1, by omega⟩
    have := fieldSymList_link d nfields (w16 d.szObjSymHeader) types flds 0 1 k (by omega)
    simp only [List.getD_cons_succ]
    have e : 1 + k + 1 = k + 1 + 1 := by omega
    rw [this.2.2, if_pos (by omega), e]
  · obtain ⟨k, rfl⟩ : ∃ k, nfields = k + 1 := ⟨nfields - 1, by omega⟩
    have := fieldSymList_link d (k + 1) (w16 d.szObjSymHeader) types flds 0 1 k (by omega)
    simp only [List.getD_cons_succ]
    rw [this.2.2, if_neg (by simp), h0]

/-- Claim C34 on the structure `s` of three fields at offsets 0, 2, 4: through the whole
decoder the group registered holds the aggregate with `first` 24 and `last` 56 and the
fields `a`, `b`, `c` (ids 706, 708, 710) with `next` 40, 56 and 8, where the symbols of
index 0 to 3 are at offsets 8, 24, 40, 56; and the hypotheses of the theorem hold at the
start of the second half of `CVProcessStructure`. -/
theorem field_ring_closed_witness :
    [0, 1, 2, 3].map (fun k => w16 (symOffset geos k)) = [8, 24, 40, 56] ∧
    ringOf (CVFetchType geos 4 (initState (structBuffer 0 2 4)) 1 512) =
      [((24, 56), [(706, geos.OSYM_FIELD, 40), (708, geos.OSYM_FIELD, 56),
        (710, geos.OSYM_FIELD, 8)])] ∧
    ∃ r syms, structSyms geos (midState (structBuffer 0 2 4)) 4 11 15 1 3 2 6 3 742 0 32
        [0x2005, 0x2005, 0x2005] = Except.ok r ∧
      r.st.globals = [⟨syms, []⟩] ∧ syms.length = 4 ∧
      (syms.getD 0 {}).sType_first = 24 ∧ (syms.getD 0 {}).sType_last = 56 ∧
      (syms.getD 1 {}).sField_next = 40 ∧ (syms.getD 2 {}).sField_next = 56 ∧
      (syms.getD 3 {}).sField_next = 8 := by
  refine ⟨by decide, by decide!, ?_⟩
  obtain ⟨r, syms, h1, h2, h3, -, h4, h5, -, h6, h7⟩ :=
    field_ring_closed geos (midState (structBuffer 0 2 4))
      4 11 15 1 3 2 6 3 742 0 32 2 [0x2005, 0x2005, 0x2005] [(706, 0), (708, 2), (710, 4)] []
      (by decide) (by decide) (by decide) (by decide!) (by decide) (by decide) (by decide)
      (by decide)
  exact ⟨r, syms, h1, h2, h3, h4, h5, h6 1 (by decide) (by decide),
    h6 2 (by decide) (by decide), h7⟩

theorem fieldTypes_fill (d : Defs) (rec_ : Decoder) (tlistBase ttb : Nat)
    (Inv : CVState → Prop) :
    ∀ (fs : List (Bool × Nat)) (s : CVState) (p : Nat) (nb : Option Nat) (q : Nat)
      (bs : List (Nat × Nat)) (acc : List Nat),
      Inv s → FieldsDecode d rec_ ttb Inv p fs →
      ((∃ x ∈ fs, x.1 = true) → RunAt d rec_ tlistBase ttb Inv nb q bs) →
      ∃ s1, Inv s1 ∧
        ((bs.length < (fs.filter (fun x => x.1)).length ∧
          fieldTypes d rec_ tlistBase ttb fs.length s p nb acc =
            Except.ok (none, s1.notify Severity.error Msg.noBitfieldDescriptor)) ∨
         ((fs.filter (fun x => x.1)).length ≤ bs.length ∧
          ∃ ws l, ws.map (isPlaceholder d) = fs.map Prod.fst ∧
            fillPlaceholders d ws (bs.map Prod.fst) = some l ∧
            fieldTypes d rec_ tlistBase ttb fs.length s p nb acc =
              Except.ok (some (acc ++ l), s1))) := by
  intro fs
  induction fs with
  | nil =>
    intro s p nb q bs acc hI _ _
    exact ⟨s, hI, Or.inr ⟨by simp, [], [], rfl, rfl, by simp [fieldTypes]⟩⟩
  | cons f rest ih =>
    intro s p nb q bs acc hI hF hR
    obtain ⟨ph, p1⟩ := f
    obtain ⟨hf, hrest⟩ := hF
    obtain ⟨w, s1, hrec, hI1, hph⟩ := hf s hI
    simp only [List.length_cons, fieldTypes, hrec]
    by_cases hp : isPlaceholder d w = true
    · have hp2 := (isPlaceholder_iff d w).2 hp
      have hph1 : ph = true := by rw [← hph]; exact hp
      subst hph1
      have hR0 : RunAt d rec_ tlistBase ttb Inv nb q bs :=
        hR ⟨(true, p1), List.mem_cons_self _ _, rfl⟩
      rw [if_pos hp2]
      cases bs with
      | nil =>
        refine ⟨s1, hI1, Or.inl ⟨by simp, ?_⟩⟩
        rcases hR0 with ⟨rfl, hscan, _⟩ | ⟨rfl, hrun⟩
        · simp only [hscan s1 hI1, if_true]
        · have := hrun s1 hI1
          simp only [this, ne_eq, not_false_eq_true, if_true]
      | cons b bs1 =>
        obtain ⟨bw, q1⟩ := b
        have hrun : RunDecodes d rec_ ttb Inv q ((bw, q1) :: bs1) := by
          rcases hR0 with ⟨_, _, h⟩ | ⟨_, h⟩
          · exact h (by simp)
          · exact h
        obtain ⟨hcls, s2, hrec2, hI2⟩ := hrun.1 s1 hI1
        obtain ⟨s3, hI3, h3⟩ := ih s2 p1 (some q1) q1 bs1 (acc ++ [bw]) hI2 hrest
          (fun _ => Or.inr ⟨rfl, hrun.2⟩)
        have hfin : (if rd s1.typeSeg (q + 3) ≠ d.CTL_BITFIELD then
              (Except.ok (none, s1.notify Severity.error Msg.noBitfieldDescriptor) :
                Except CVError (Option (List Nat) × CVState))
            else
              match rec_ s1 (q + 3) (rdw s1.typeSeg (q + 1)) ttb with
              | Except.error e => Except.error e
              | Except.ok r2 =>
                fieldTypes d rec_ tlistBase ttb rest.length r2.st p1 (some r2.bp)
                  (acc ++ [r2.ret])) =
            fieldTypes d rec_ tlistBase ttb rest.length s2 p1 (some q1) (acc ++ [bw]) := by
          simp only [hcls, ne_eq, not_true_eq_false, if_false, hrec2]
        have hstep : ∀ X : Except CVError (Option (List Nat) × CVState),
            fieldTypes d rec_ tlistBase ttb rest.length s2 p1 (some q1) (acc ++ [bw]) = X →
            (match (match nb with
              | some p => some p
              | none => findBF d s1.typeSeg tlistBase tlistBase 0 d.CTL_STRUCTURE none) with
            | none => (Except.ok (none, s1.notify Severity.error Msg.noBitfieldDescriptor) :
                Except CVError (Option (List Nat) × CVState))
            | some p =>
              if rd s1.typeSeg (p + 3) ≠ d.CTL_BITFIELD then
                Except.ok (none, s1.notify Severity.error Msg.noBitfieldDescriptor)
              else
                match rec_ s1 (p + 3) (rdw s1.typeSeg (p + 1)) ttb with
                | Except.error e => Except.error e
                | Except.ok r2 =>
                  fieldTypes d rec_ tlistBase ttb rest.length r2.st p1 (some r2.bp)
                    (acc ++ [r2.ret])) = X := by
          intro X hX
          rw [← hX, ← hfin]
          rcases hR0 with ⟨rfl, hscan, _⟩ | ⟨rfl, _⟩
          · simp only [hscan s1 hI1]
            rfl
          · rfl
        refine ⟨s3, hI3, ?_⟩
        rcases h3 with ⟨hlt, h3⟩ | ⟨hle, ws, l, hws, hfill, h3⟩
        · exact Or.inl ⟨by simpa using hlt, hstep _ h3⟩
        · refine Or.inr ⟨by simpa using hle, w :: ws, bw :: l, by simp [hws, hp], ?_, ?_⟩
          · simp [fillPlaceholders, hp, hfill]
          · apply hstep
            rw [h3]
            simp
    · have hp2 : ¬(w = d.OTYPE_BITFIELD ||| d.OTYPE_SPECIAL ∧ w &&& d.OTYPE_BF_WIDTH = 0) :=
        fun h => hp ((isPlaceholder_iff d w).1 h)
      have hph1 : ph = false := by
        rw [← hph]
        simpa using hp
      subst hph1
      obtain ⟨s3, hI3, h3⟩ := ih s1 p1 nb q bs (acc ++ [w]) hI1 hrest
        (fun ⟨x, hx, hx1⟩ => hR ⟨x, List.mem_cons_of_mem _ hx, hx1⟩)
      rw [if_neg hp2]
      refine ⟨s3, hI3, ?_⟩
      rcases h3 with ⟨hlt, h3⟩ | ⟨hle, ws, l, hws, hfill, h3⟩
      · exact Or.inl ⟨by simpa using hlt, h3⟩
      · refine Or.inr ⟨by simpa using hle, w :: ws, w :: l, ?_, ?_, ?_⟩
        · simp only [List.map_cons, hws]
          simp [hp]
        · simp [fillPlaceholders, hp, hfill]
        · rw [h3]
          simp

theorem flags_length (p : Nat → Bool) :
    ∀ (ws : List Nat) (fs : List (Bool × Nat)), ws.map p = fs.map Prod.fst →
      ws.length = fs.length := by
  intro ws fs h
  have := congrArg List.length h
  simpa using this

theorem flags_getD (p : Nat → Bool) :
    ∀ (ws : List Nat) (fs : List (Bool × Nat)), ws.map p = fs.map Prod.fst →
      ∀ i, i < fs.length → p (ws.getD i 0) = (fs.getD i (false, 0)).1 := by
  intro ws
  induction ws with
  | nil =>
    intro fs h i hi
    cases fs with
    | nil => simp at hi
    | cons f fs => simp at h
  | cons w ws ih =>
    intro fs h i hi
    cases fs with
    | nil => simp at h
    | cons f fs =>
      simp only [List.map_cons, List.cons.injEq] at h
      cases i with
      | zero => simpa using h.1
      | succ i =>
        simp only [List.getD_cons_succ]
        exact ih fs h.2 i (by simpa using hi)

theorem flags_rank (p : Nat → Bool) :
    ∀ (ws : List Nat) (fs : List (Bool × Nat)), ws.map p = fs.map Prod.fst →
      ∀ i, ((ws.take i).filter p).length = ((fs.take i).filter (fun x => x.1)).length := by
  intro ws
  induction ws with
  | nil =>
    intro fs h i
    cases fs with
    | nil => simp
    | cons f fs => simp at h
  | cons w ws ih =>
    intro fs h i
    cases fs with
    | nil => simp at h
    | cons f fs =>
      simp only [List.map_cons, List.cons.injEq] at h
      cases i with
      | zero => simp
      | succ i =>
        simp only [List.take_succ_cons, List.filter_cons, h.1]
        have := ih fs h.2 i
        split <;> simp [this]

/-- C6: let the entries of the field-type list of a structure decode, on the states the
first loop of `CVProcessStructure` goes through (`Inv`), to words of which those flagged
in `fs` are bitfield placeholders, and, when there is a placeholder at all, let the nearest
run of consecutive `CTL_BITFIELD` records before the list start at `q` and decode record
by record to the words `bs` (no run: `bs` empty).  With `k` placeholders: when the run has
fewer than `k` records `CVProcessStructure` reports the missing bitfield descriptor and
returns the void type; otherwise it goes on to its second half with field types in which
the `j`-th placeholder entry, in declaration order, carries the word of the `j`-th record
of the run and no other entry carries a placeholder. -/
theorem bitfield_placeholders_filled (d : Defs) (rec_ : Decoder) (st : CVState)
    (bp len tb : Nat) (h : StructHdr) (s5 : CVState) (Inv : CVState → Prop)
    (fs : List (Bool × Nat)) (q : Nat) (bs : List (Nat × Nat))
    (hlab : d.CTL_STRUCTURE ≠ d.CTL_BITFIELD) (htb : tb ≠ 0)
    (hhdr : structHeader d st bp len = Except.ok (some h, s5))
    (hn : h.nfields = fs.length) (hInv : Inv h.st)
    (hfields : FieldsDecode d rec_ h.ttypeBlock Inv h.tlistBase fs)
    (hnear : (∃ x ∈ fs, x.1 = true) → ∀ s : CVState, Inv s →
      nearestRun d (recordList s.typeSeg h.tlistBase h.tlistBase 0) =
        if bs = [] then none else some q)
    (hrun : (∃ x ∈ fs, x.1 = true) → bs ≠ [] → RunDecodes d rec_ h.ttypeBlock Inv q bs) :
    ∃ s6, Inv s6 ∧
      ((bs.length < (fs.filter (fun x => x.1)).length ∧
        CVProcessStructure d rec_ st bp len tb =
          Except.ok ⟨d.voidType, bp + len,
            s6.notify Severity.error Msg.noBitfieldDescriptor⟩) ∨
       ((fs.filter (fun x => x.1)).length ≤ bs.length ∧
        ∃ types, types.length = fs.length ∧
          (∀ i, i < fs.length → (fs.getD i (false, 0)).1 = true →
            types.getD i 0 =
              (bs.map Prod.fst).getD ((fs.take i).filter (fun x => x.1)).length 0) ∧
          (∀ i, i < fs.length → (fs.getD i (false, 0)).1 = false →
            isPlaceholder d (types.getD i 0) = false) ∧
          CVProcessStructure d rec_ st bp len tb =
            structSyms d s6 bp len (bp + len) tb h.tsymBlock h.ttypeBlock h.size h.nfields
              h.ssymName h.symFlags h.nlistBase types)) := by
  obtain ⟨s6, hI6, h6⟩ := fieldTypes_fill d rec_ h.tlistBase h.ttypeBlock Inv fs h.st
    h.tlistBase none q bs [] hInv hfields
    (fun hx => Or.inl ⟨rfl, fun s hs => by
      rw [findBF_eq_nearestRun d _ _ hlab]; exact hnear hx s hs, hrun hx⟩)
  refine ⟨s6, hI6, ?_⟩
  rcases h6 with ⟨hlt, h6⟩ | ⟨hle, ws, l, hws, hfill, h6⟩
  · refine Or.inl ⟨hlt, ?_⟩
    simp only [CVProcessStructure, htb, if_false, hhdr, hn, h6]
  · obtain ⟨hlen, hget⟩ := fill_getD d ws (bs.map Prod.fst) l hfill
    have hl := flags_length (isPlaceholder d) ws fs hws
    refine Or.inr ⟨hle, l, by rw [hlen, hl], ?_, ?_, ?_⟩
    · intro i hi hph
      rw [hget i (by rw [hl]; exact hi), flags_getD _ ws fs hws i hi, hph, if_pos rfl,
        flags_rank _ ws fs hws i]
    · intro i hi hph
      have hw := flags_getD _ ws fs hws i hi
      rw [hph] at hw
      rw [hget i (by rw [hl]; exact hi), hw]
      simpa using hw
    · simp only [CVProcessStructure, htb, if_false, hhdr, hn, h6, List.nil_append]

/-- A pointer to a predefined scalar is decoded to the offset of a new descriptor, which
holds the qualifier of the pointer and the word of the scalar. -/
theorem plain_pointer_decode (d : Defs) (hd : d.classLabels.Nodup)
    (s : CVState) (ttb p len : Nat) (ents0 : List ObjType)
    (hb : s.block ttb = VMBlock.types ents0)
    (hf : plainPtrField d s.typeSeg p = true) (fuel : Nat) :
    CVProcessTypeRecord d (fuel + 5) s p len ttb =
      Except.ok ⟨w16 (d.szObjTypeHeader + ents0.length * d.szObjType), p + 1 + 2,
        s.setBlock ttb (VMBlock.types (ents0 ++
          [⟨ptrQualifier d s.typeSeg p, ptrBaseWord d s.typeSeg p⟩]))⟩ := by
  obtain ⟨h0, hlt⟩ := block_types_inv s ttb ents0 hb
  unfold plainPtrField at hf
  unfold ptrQualifier ptrBaseWord
  generalize hL : CVLocateType d s.typeSeg (rdw s.typeSeg (p + 1)) = L at hf ⊢
  rcases L with _ | (_ | ⟨pb, plen⟩)
  · simp at hf
  · simp at hf
  simp only [Bool.and_eq_true, decide_eq_true_eq, Bool.not_eq_true', Bool.and_eq_false_iff,
    decide_eq_false_iff_not] at hf
  obtain ⟨⟨hc, hi⟩, ⟨⟨⟨⟨hP, hq⟩, hpl⟩, hnv⟩, htag⟩⟩ := hf
  have inner := plain_field_decode d hd s ttb (pb + 2) (rdw s.typeSeg (pb + 2 + 1)) h0 hpl fuel
  have htag2 : ¬(pb + 2 + 1 + 2 < pb + 1 + plen ∧ rd s.typeSeg (pb + 2 + 1 + 2) = d.CTL_STRING ∧
      rd s.typeSeg (pb + 2 + 1 + 2 + 1) ≠ 0) := by
    rintro ⟨a, b, c⟩
    rcases htag with (h | h) | h
    · exact h a
    · exact h b
    · exact h c
  rw [decode_index_node d hd (fuel + 4) s p len ttb hc h0,
    fetch_record d (fuel + 3) s ttb _ pb plen hi (w16_rdw _ _) hL,
    decode_pointer_node d hd (fuel + 2) s pb plen ttb hP]
  unfold decodePointer
  rw [show pb + 1 + 1 = pb + 2 from rfl, inner]
  dsimp only
  rw [show pb + 2 + 1 = pb + 3 from rfl, if_pos hnv]
  rcases hq with hq | hq
  · rw [if_pos hq]
    dsimp only
    rw [allocTypeWith_types d _ ttb _ _ hb]
    unfold CVCreateTypedef
    dsimp only
    rw [if_neg (by simpa using htag2)]
    simp [hq]
  · by_cases hn : rd s.typeSeg (pb + 1) = d.CTL_NEAR_PTR
    · rw [if_pos hn]
      dsimp only
      rw [allocTypeWith_types d _ ttb _ _ hb]
      unfold CVCreateTypedef
      dsimp only
      rw [if_neg (by simpa using htag2)]
      simp [hn]
    · rw [if_neg hn, if_pos hq]
      dsimp only
      rw [allocTypeWith_types d _ ttb _ _ hb]
      unfold CVCreateTypedef
      dsimp only
      rw [if_neg (by simpa using htag2)]
      simp [hn]

/-- An index reference to the predefined index 1 decodes to the bare bitfield word. -/
theorem placeholder_field_decode (d : Defs) (hd : d.classLabels.Nodup) (fuel : Nat)
    (s : CVState) (p len tb : Nat) (htb : tb ≠ 0)
    (h1 : 1 ≤ d.CST_LAST_PREDEF) (h2 : 1 &&& d.CST_SPECIAL = 0)
    (hc : rd s.typeSeg p = d.CTL_INDEX) (hi : rdw s.typeSeg (p + 1) = 1) :
    CVProcessTypeRecord d (fuel + 2) s p len tb =
      Except.ok ⟨d.OTYPE_BITFIELD ||| d.OTYPE_SPECIAL, p + 1 + 2, s⟩ := by
  rw [decode_index_node d hd (fuel + 1) s p len tb hc htb, hi, fetch_index_one d fuel s tb h1 h2]

/-- A bitfield record decodes on every state with the same type buffer as on one of
them. -/
theorem bitfield_record_decode (d : Defs) (hd : d.classLabels.Nodup) (fuel : Nat)
    (s s0 : CVState) (q len tb w q1 : Nat) (hs : s.typeSeg = s0.typeSeg)
    (hc : rd s0.typeSeg (q + 3) = d.CTL_BITFIELD)
    (h0 : decodeBitfield d s0 (q + 3 + 1) len = Except.ok ⟨w, q1, s0⟩) :
    CVProcessTypeRecord d (fuel + 1) s (q + 3) len tb = Except.ok ⟨w, q1, s⟩ := by
  rw [decode_bitfield_node d hd fuel s (q + 3) len tb (by rw [hs]; exact hc)]
  exact decodeBitfield_congr d s s0 _ _ w q1 hs h0 (notify_ne _ _ _)

/-- The offset of a descriptor is not a bitfield placeholder. -/
theorem offset_not_placeholder (d : Defs) (hsp : d.OTYPE_SPECIAL ≠ 0)
    (hoff : ∀ k, w16 (d.szObjTypeHeader + k * d.szObjType) &&& d.OTYPE_SPECIAL = 0) (k : Nat) :
    isPlaceholder d (w16 (d.szObjTypeHeader + k * d.szObjType)) = false := by
  cases hp : isPlaceholder d (w16 (d.szObjTypeHeader + k * d.szObjType)) with
  | false => rfl
  | true =>
    have h := ((isPlaceholder_iff d _).2 hp).1
    have h1 := hoff k
    rw [h, lor_land_self] at h1
    exact absurd h1 hsp

/-- Witness for C6: in the structure of `ptrBitfieldBuffer` the placeholder fields `x` and
`y` are separated by a pointer field, whose decoding allocates a descriptor and gives a
word that depends on the state; the nearest run before the field-type list has two
bitfield records.  The hypotheses hold, and through the whole decoder the registered
fields `x` and `y` carry the words of the first and of the second record of the run. -/
theorem bitfield_placeholders_filled_witness :
    structHeader geos (initState ptrBitfieldBuffer) 26 11 =
        Except.ok (some ⟨3, 2, 6, 3, 41, 54, 716, 0, ptrBitfieldState⟩, ptrBitfieldState) ∧
      FieldsDecode geos (CVProcessTypeRecord geos 5) 2 ptrBitfieldInv 41
        [(true, 44), (false, 47), (true, 50)] ∧
      RunDecodes geos (CVProcessTypeRecord geos 5) 2 ptrBitfieldInv 0
        [(32775, 7), (35019, 14)] ∧
      nearestRun geos (recordList ptrBitfieldState.typeSeg 41 41 0) = some 0 ∧
      (∃ s6 types, types.length = 3 ∧ types.getD 0 0 = 32775 ∧ types.getD 2 0 = 35019 ∧
        isPlaceholder geos (types.getD 1 0) = false ∧
        CVProcessStructure geos (CVProcessTypeRecord geos 5) (initState ptrBitfieldBuffer)
          26 11 1 = structSyms geos s6 26 11 37 1 3 2 6 3 716 0 54 types) ∧
      registered (CVFetchType geos 7 (initState ptrBitfieldBuffer) 1 0x203) =
        [[(geos.OSYM_STRUCT, 0, 0), (geos.OSYM_FIELD, 0, 32775), (geos.OSYM_FIELD, 2, 2),
          (geos.OSYM_FIELD, 4, 35019)]] := by
  have hd : geos.classLabels.Nodup := by decide
  have hF : FieldsDecode geos (CVProcessTypeRecord geos 5) 2 ptrBitfieldInv 41
      [(true, 44), (false, 47), (true, 50)] := by
    refine ⟨?_, ?_, ?_, trivial⟩
    · intro s hs
      refine ⟨_, s, placeholder_field_decode geos hd 3 s 41 _ 2 (by decide) (by decide)
        (by decide) (by rw [hs.1]; decide!) (by rw [hs.1]; decide!), hs, by decide⟩
    · intro s hs
      obtain ⟨hseg, ents, hb⟩ := hs
      obtain ⟨h0, hlt⟩ := block_types_inv s 2 ents hb
      refine ⟨_, _, plain_pointer_decode geos hd s 2 44 _ ents hb (by rw [hseg]; decide!) 0,
        ⟨by rw [setBlock_typeSeg]; exact hseg, _, block_setBlock_same _ _ _ h0 hlt⟩,
        offset_not_placeholder geos (by decide) geos_offsets_plain ents.length⟩
    · intro s hs
      refine ⟨_, s, placeholder_field_decode geos hd 3 s 47 _ 2 (by decide) (by decide)
        (by decide) (by rw [hs.1]; decide!) (by rw [hs.1]; decide!), hs, by decide⟩
  have hR : RunDecodes geos (CVProcessTypeRecord geos 5) 2 ptrBitfieldInv 0
      [(32775, 7), (35019, 14)] := by
    refine ⟨?_, ?_, ?_⟩
    · intro s hs
      exact ⟨by rw [hs.1]; decide!, s, bitfield_record_decode geos hd 4 s ptrBitfieldState 0 _ 2
        32775 7 hs.1 (by decide!) (by rw [hs.1]; decide!), hs⟩
    · intro s hs
      exact ⟨by rw [hs.1]; decide!, s, bitfield_record_decode geos hd 4 s ptrBitfieldState 7 _ 2
        35019 14 hs.1 (by decide!) (by rw [hs.1]; decide!), hs⟩
    · intro s hs
      rw [hs.1]
      decide!
  have hH : structHeader geos (initState ptrBitfieldBuffer) 26 11 =
      Except.ok (some ⟨3, 2, 6, 3, 41, 54, 716, 0, ptrBitfieldState⟩, ptrBitfieldState) := by
    decide!
  have hN : nearestRun geos (recordList ptrBitfieldState.typeSeg 41 41 0) = some 0 := by decide!
  refine ⟨hH, hF, hR, hN, ?_, by decide!⟩
  obtain ⟨s6, -, h6⟩ := bitfield_placeholders_filled geos (CVProcessTypeRecord geos 5)
    (initState ptrBitfieldBuffer) 26 11 1 ⟨3, 2, 6, 3, 41, 54, 716, 0, ptrBitfieldState⟩
    ptrBitfieldState ptrBitfieldInv [(true, 44), (false, 47), (true, 50)] 0
    [(32775, 7), (35019, 14)] (by decide) (by decide) hH rfl
    ⟨rfl, [], by decide⟩ hF
    (fun _ s hs => by rw [hs.1, hN]; rfl) (fun _ _ => hR)
  rcases h6 with ⟨hlt, -⟩ | ⟨-, types, hlen, hph, hnp, hrun⟩
  · exact absurd hlt (by decide)
  · exact ⟨s6, types, hlen, hph 0 (by decide) rfl, hph 2 (by decide) rfl,
      hnp 1 (by decide) rfl, hrun⟩

theorem walk_succ (seg : List Nat) (k bp : Nat) :
    CVLocateType.walk seg (k + 1) bp =
      if bp + 3 + rdw seg (bp + 1) > seg.length then none
      else CVLocateType.walk seg k (bp + 3 + rdw seg (bp + 1)) := rfl

theorem walk_add (seg : List Nat) :
    ∀ (a b bp : Nat), CVLocateType.walk seg (a + b) bp =
      match CVLocateType.walk seg a bp with
      | none => none
      | some bp1 => CVLocateType.walk seg b bp1 := by
  intro a
  induction a with
  | zero =>
    intro b bp
    rw [Nat.zero_add]
    rfl
  | succ a ih =>
    intro b bp
    rw [show a + 1 + b = (a + b) + 1 by omega, walk_succ seg (a + b), walk_succ seg a]
    split
    · rfl
    · exact ih b _

/-- On a type buffer of exactly `n` well-formed records the loop of `CVLocateType` gives
`NULL` for more than `n` steps. -/
theorem walk_past_end (recs : List (Nat × List Nat)) (h : ∀ r ∈ recs, r.2.length < 65536)
    (j : Nat) :
    CVLocateType.walk (typeRecords recs) (recs.length + (j + 1)) 0 = none := by
  have hw := walk_typeRecords recs [] h
  simp only [List.nil_append, List.length_nil] at hw
  rw [walk_add, hw]
  dsimp only
  rw [walk_succ, if_pos (by omega)]

/-- C12: a list reference at `p` with class byte `CTL_INDEX`, in a type buffer that
consists of exactly `n` well-formed records.  For the first index past the end (the index
of record number `n`) `CVLocateList` does not give `FALSE`: `CVLocateType` returns the
pointer 3 bytes past the end of the buffer, so `CVLocateList` gives `TRUE`, moves the
cursor on by 3 and sets the base to 4 bytes past the end.  For every later index it gives
`FALSE` with the error for an illegal index.  And whenever the reference to the field-type
list, or to the name/offset list after a good field-type list, is illegal in the sense of
`badListRef` (class byte neither `CTL_LIST` nor `CTL_INDEX`, or a `CTL_INDEX` for which
`CVLocateType` returns `NULL`), `CVProcessStructure` with a real destination block returns
`OTYPE_VOID | OTYPE_SPECIAL` with the cursor advanced by the record length, the type
buffer unchanged, nothing registered and one error reported. -/
theorem list_index_first_past_end (d : Defs) (rec_ : Decoder)
    (recs : List (Nat × List Nat)) (st : CVState) (p l : Nat)
    (hrecs : ∀ r ∈ recs, r.2.length < 65536) (hseg : st.typeSeg = typeRecords recs)
    (hne : d.CTL_INDEX ≠ d.CTL_LIST) (hc : rd st.typeSeg p = d.CTL_INDEX) :
    (rdw st.typeSeg (p + 1) = d.CST_LAST_PREDEF + 1 + recs.length →
      CVLocateList d st p l =
        Except.ok (some ⟨p + 3, st.typeSeg.length + 3 + 1,
          w16 (rdw st.typeSeg (st.typeSeg.length + 1) + 65535)⟩, st)) ∧
    (d.CST_LAST_PREDEF + 1 + recs.length < rdw st.typeSeg (p + 1) →
      badListRef d st.typeSeg p ∧
      CVLocateList d st p l = Except.ok (none,
        st.notify Severity.error (Msg.illegalIndexForList (rdw st.typeSeg (p + 1))))) ∧
    (∀ bp0 len tb sz nf bp1 bp2, tb ≠ 0 →
      CVGetInteger d st.typeSeg bp0 = Except.ok (sz, bp1) →
      CVGetInteger d st.typeSeg bp1 = Except.ok (nf, bp2) →
      (badListRef d st.typeSeg bp2 ∨
        ∃ tl, CVLocateList d (CVAllocSymAndTypeBlocks st).2.2 bp2 d.uninitWord =
            Except.ok (some tl, (CVAllocSymAndTypeBlocks st).2.2) ∧
          badListRef d st.typeSeg tl.bp) →
      ∃ r m, CVProcessStructure d rec_ st bp0 len tb = Except.ok r ∧
        r.ret = d.OTYPE_VOID ||| d.OTYPE_SPECIAL ∧ r.bp = bp0 + len ∧
        r.st.typeSeg = st.typeSeg ∧ r.st.globals = st.globals ∧
        r.st.notes = st.notes ++ [⟨Severity.error, m⟩]) := by
  have hcl : rd st.typeSeg p ≠ d.CTL_LIST := by rw [hc]; exact hne
  refine ⟨?_, ?_, ?_⟩
  · intro hi
    have hw := walk_typeRecords recs [] hrecs
    simp only [List.nil_append, List.length_nil] at hw
    have hloc : CVLocateType d (typeRecords recs) (d.CST_LAST_PREDEF + 1 + recs.length) =
        Except.ok (some ((typeRecords recs).length + 3,
          rdw (typeRecords recs) ((typeRecords recs).length + 1))) := by
      unfold CVLocateType
      rw [if_pos (by omega)]
      have e : d.CST_LAST_PREDEF + 1 + recs.length - (d.CST_LAST_PREDEF + 1) = recs.length := by
        omega
      rw [e, hw]
    unfold CVLocateList
    rw [if_neg hcl, if_pos hc, hi, hseg, hloc]
  · intro hi
    obtain ⟨j, hj⟩ : ∃ j, rdw st.typeSeg (p + 1) = d.CST_LAST_PREDEF + 1 + recs.length + (j + 1) :=
      ⟨rdw st.typeSeg (p + 1) - (d.CST_LAST_PREDEF + 1 + recs.length) - 1, by omega⟩
    have hloc : CVLocateType d st.typeSeg (rdw st.typeSeg (p + 1)) = Except.ok none := by
      unfold CVLocateType
      rw [if_pos (by omega), hj, hseg]
      have e : d.CST_LAST_PREDEF + 1 + recs.length + (j + 1) - (d.CST_LAST_PREDEF + 1) =
          recs.length + (j + 1) := by omega
      rw [e, walk_past_end recs hrecs j]
    refine ⟨⟨hcl, Or.inr hloc⟩, ?_⟩
    unfold CVLocateList
    rw [if_neg hcl, if_pos hc, hloc]
  · intro bp0 len tb sz nf bp1 bp2 htb h1 h2 hbad
    exact (bad_list_gives_void d rec_ st bp0 len tb sz nf bp1 bp2 htb h1 h2 hbad).2

/-- Witness for C12: `endIndexBuffer` consists of two records and its structure names
index 514, the index of a third record, as its name/offset list.  `CVLocateType` gives the
pointer past the end, `CVLocateList` gives `TRUE` with the cursor moved from 9 to 12, and
the decoding of the record goes on: it returns the descriptor offset 2, not void, the
record is rewritten to the resolved-id form and a structure is registered.  With index
515, or a string leaf in the place of the list reference, the decoding returns void and
leaves the record alone. -/
theorem list_index_first_past_end_witness :
    endIndexBuffer =
        typeRecords [(1, [0x79, 32, 2, 0x83, 1, 2, 0x83, 2, 2, 0x82, 1, 115]),
          (1, [0x7f, 0x83, 0x81, 0, 0x83, 0x81, 0])] ∧
      rdw endIndexBuffer (9 + 1) = geos.CST_LAST_PREDEF + 1 + 2 ∧
      CVLocateList geos (initState endIndexBuffer) 9 geos.uninitWord =
        Except.ok (some ⟨12, 29, 65535⟩, initState endIndexBuffer) ∧
      (CVProcessTypeRecord geos 3 (initState endIndexBuffer) 3 12 1).toOption.map
          (fun r => (r.ret, r.bp, rd r.st.typeSeg 3, r.st.globals.length)) =
        some (2, 15, geos.CTL_ID, 1) ∧
      (2 : Nat) ≠ geos.voidType ∧ rd endIndexBuffer 3 = geos.CTL_STRUCTURE ∧
      (∃ r m, CVProcessStructure geos (CVProcessTypeRecord geos 2) (initState badListBuffer)
          4 11 1 = Except.ok r ∧
        r.ret = geos.OTYPE_VOID ||| geos.OTYPE_SPECIAL ∧ r.bp = 15 ∧
        r.st.typeSeg = badListBuffer ∧ r.st.globals = [] ∧
        r.st.notes = [⟨Severity.error, m⟩]) ∧
      CVProcessTypeRecord geos 3 (initState badIndexBuffer) 3 12 1 =
        Except.ok ⟨geos.voidType, 15,
          ⟨badIndexBuffer, [VMBlock.types [], VMBlock.types [], VMBlock.syms 2 []], [], [],
            [⟨Severity.error, Msg.illegalIndexForList 520⟩], 0⟩⟩ := by
  have hb : endIndexBuffer =
      typeRecords [(1, [0x79, 32, 2, 0x83, 1, 2, 0x83, 2, 2, 0x82, 1, 115]),
        (1, [0x7f, 0x83, 0x81, 0, 0x83, 0x81, 0])] := by decide
  have hthm := list_index_first_past_end geos (CVProcessTypeRecord geos 2)
    [(1, [0x79, 32, 2, 0x83, 1, 2, 0x83, 2, 2, 0x82, 1, 115]),
      (1, [0x7f, 0x83, 0x81, 0, 0x83, 0x81, 0])] (initState endIndexBuffer) 9 geos.uninitWord
    (by decide) hb (by decide) (by decide)
  have hthm2 := list_index_first_past_end geos (CVProcessTypeRecord geos 2)
    [(1, [0x79, 32, 2, 0x82, 1, 2, 0x83, 2, 2, 0x82, 1, 115])] (initState badListBuffer) 9 0
    (by decide) (by decide) (by decide) (by decide)
  refine ⟨hb, by decide, hthm.1 (by decide), by decide!, by decide, by decide,
    hthm2.2.2 4 11 1 32 2 5 6 (by decide) (by decide!) (by decide!) (Or.inl (by decide!)),
    by decide!⟩

end CodeView
